import Mathlib

/-!
# CTF metadata visitor (generate I/O structures)

A shallow embedding of `formats/ctf/metadata/ctf-visitor-generate-io-struct.c`:
the visitor that walks the metadata AST and builds type declarations,
registering them in declaration scopes.

Conventions of the embedding.

* A C pointer that the visitor tests against NULL, or that may be NULL when it
  is passed on, is an `Option`.
* A C function that both returns a value and writes through its arguments
  returns the value together with the new content of what it wrote. A function
  that is handed a `struct declaration_scope *` registers only into that scope
  and reads the scopes above it, so it returns the scope after the call.
* A step the C program cannot survive is a `Fault`: the visitor dereferences a
  NULL pointer, reads a local that was never assigned, fails an `assert`,
  takes the first entry of an empty list, writes outside an array, or reads
  through a pointer to something else than what it points to.
* A local that the source declares without a value is an `Option`, `none`
  until its first assignment.
* The children of an AST node that the source reads without looking at their
  node type (declarators, pointers, enumerators, the two halves of a
  typealias) have a type of their own; the lists the source dispatches on by
  node type are lists of `ctf_node`.
* `uint64_t` and `size_t` values are natural numbers, `int` and `int64_t`
  values are integers; a conversion between widths is written out.
-/

namespace Ctf

/-! ## GLib quarks and C constants -/

/-- A GLib quark, the interned form of a string. `zero` is the quark 0, which
identifies no string. -/
inductive GQuark where
  | zero
  | of (s : String)
deriving DecidableEq, Repr

/-- GLib `g_quark_from_string`: 0 for a NULL string, else the quark of the string. -/
def g_quark_from_string : Option String → GQuark
  | none => GQuark.zero
  | some s => GQuark.of s

/-- GLib `g_quark_to_string`: NULL for the quark 0, else the interned string. -/
def g_quark_to_string : GQuark → Option String
  | GQuark.zero => none
  | GQuark.of s => some s

/-- The errno value `EPERM`. -/
def EPERM : Int := 1
/-- The errno value `EEXIST`. -/
def EEXIST : Int := 17
/-- The errno value `EINVAL`. -/
def EINVAL : Int := 22
/-- The `endian.h` constant `LITTLE_ENDIAN`. -/
def LITTLE_ENDIAN : Int := 1234
/-- The `endian.h` constant `BIG_ENDIAN`. -/
def BIG_ENDIAN : Int := 4321
/-- The `limits.h` constant `CHAR_BIT`. -/
def CHAR_BIT : Nat := 8

/-- Conversion of an integer value to `uint64_t`. -/
def to_uint64 (v : Int) : Nat := (v % 2 ^ 64).toNat
/-- Conversion of an integer value to `int64_t` (two's complement wrap). -/
def to_int64 (v : Int) : Int := (v + 2 ^ 63) % 2 ^ 64 - 2 ^ 63
/-- Conversion of an integer value to `int` (32 bits, two's complement wrap). -/
def to_int (v : Int) : Int := (v + 2 ^ 31) % 2 ^ 32 - 2 ^ 31

/-- What stops the C program inside the visitor. -/
inductive Fault where
  /-- A NULL pointer is dereferenced. -/
  | null_deref
  /-- A local variable is read before any assignment to it. -/
  | uninit_read
  /-- An `assert` does not hold. -/
  | assert_failed
  /-- The first entry of an empty list is taken and used. -/
  | empty_list
  /-- A member of the node union is read on a node of another type. -/
  | union_misread
  /-- An array is written at or beyond its length, or is given a negative size. -/
  | out_of_bounds
  /-- A pointer is read as a pointer to an object of a type it does not point
  to: an integer cast to a pointer, or a node passed as a list head. -/
  | bad_pointer
  /-- An object is destroyed while a scope still holds it. -/
  | freed_while_held
deriving DecidableEq, Repr

/-! ## The AST (`ctf-ast.h`) -/

/-- The `link` of a unary expression. -/
inductive unary_link where
  | UNARY_LINK_UNKNOWN
  | UNARY_DOTLINK
  | UNARY_ARROWLINK
  | UNARY_DOTDOTDOT
deriving DecidableEq, Repr

/-- The `type` of a unary expression together with the union member it selects. -/
inductive unary_expression_type where
  | UNARY_UNKNOWN
  | UNARY_STRING (string : String)
  | UNARY_SIGNED_CONSTANT (signed_constant : Int)
  | UNARY_UNSIGNED_CONSTANT (unsigned_constant : Nat)
  | UNARY_SBRAC
  | UNARY_NESTED
deriving DecidableEq, Repr

/-- The `type` of a type specifier node. -/
inductive typespec where
  | TYPESPEC_UNKNOWN
  | TYPESPEC_VOID
  | TYPESPEC_CHAR
  | TYPESPEC_SHORT
  | TYPESPEC_INT
  | TYPESPEC_LONG
  | TYPESPEC_FLOAT
  | TYPESPEC_DOUBLE
  | TYPESPEC_SIGNED
  | TYPESPEC_UNSIGNED
  | TYPESPEC_BOOL
  | TYPESPEC_COMPLEX
  | TYPESPEC_IMAGINARY
  | TYPESPEC_CONST
  | TYPESPEC_ID_TYPE
deriving DecidableEq, Repr

/-- A pointer node of a type declarator (`u.pointer`). -/
structure ctf_pointer where
  const_qualifier : Bool
deriving DecidableEq, Repr

mutual
/-- Modelled from the spec: `struct ctf_node` of `ctf-ast.h`, which is not
under src/. The constructors are the node types the visitor dispatches on and
their fields are the union members it reads (spec section 6.1). -/
inductive ctf_node where
  | NODE_UNKNOWN
  | NODE_ROOT (declaration_list trace stream event : List ctf_node)
  | NODE_EVENT (declaration_list : List ctf_node)
  | NODE_STREAM (declaration_list : List ctf_node)
  | NODE_TRACE (declaration_list : List ctf_node)
  | NODE_CTF_EXPRESSION (left right : List ctf_node)
  | NODE_UNARY_EXPRESSION (type : unary_expression_type) (link : unary_link)
  | NODE_TYPEDEF (declaration_specifier : List ctf_node) (type_declarators : List type_declarator)
  | NODE_TYPEALIAS (target alias_node : ctf_typealias_part)
  | NODE_DECLARATION_SPECIFIER (list : List ctf_node)
  | NODE_TYPE_SPECIFIER (type : typespec) (id_type : Option String)
  | NODE_FLOATING_POINT (expressions : List ctf_node)
  | NODE_INTEGER (expressions : List ctf_node)
  | NODE_STRING (expressions : List ctf_node)
  | NODE_ENUM (enum_id : Option String) (container_type : List ctf_node)
      (enumerator_list : List ctf_enumerator) (has_body : Bool)
  | NODE_STRUCT_OR_VARIANT_DECLARATION (declaration_specifier : List ctf_node)
      (type_declarators : List type_declarator)
  | NODE_VARIANT (name choice : Option String) (declaration_list : List ctf_node)
      (has_body : Bool)
  | NODE_STRUCT (name : Option String) (declaration_list : List ctf_node) (has_body : Bool)
/-- A type declarator node (`u.type_declarator`): its pointer list, its
bitfield length, and the identifier or the nested declarator with its length
list, according to its `type`. -/
inductive type_declarator where
  | TYPEDEC_UNKNOWN (pointers : List ctf_pointer) (bitfield_len : Option ctf_node)
  | TYPEDEC_ID (pointers : List ctf_pointer) (bitfield_len : Option ctf_node)
      (id : Option String)
  | TYPEDEC_NESTED (pointers : List ctf_pointer) (bitfield_len : Option ctf_node)
      (type_declarator : Option type_declarator) (length : List ctf_node)
/-- An enumerator node (`u.enumerator`). -/
inductive ctf_enumerator where
  | mk (id : Option String) (values : List ctf_node)
/-- Modelled from the spec: the target node and the alias node of a typealias.
The union members `u.typealias_target` and `u.typealias_alias` of `ctf-ast.h`
(not under src/) each hold a specifier list and a declarator list (spec
section 6.1: target and alias are each `{ specifiers, declarators }`), so they
share one layout and reading a node through either member yields the lists
that node holds. -/
inductive ctf_typealias_part where
  | mk (declaration_specifier : List ctf_node) (type_declarators : List type_declarator)
end

/-- The pointer list of a declarator (`u.type_declarator.pointers`). -/
def type_declarator.pointers : type_declarator → List ctf_pointer
  | .TYPEDEC_UNKNOWN p _ => p
  | .TYPEDEC_ID p _ _ => p
  | .TYPEDEC_NESTED p _ _ _ => p

/-- The bitfield length of a declarator (`u.type_declarator.bitfield_len`). -/
def type_declarator.bitfield_len : type_declarator → Option ctf_node
  | .TYPEDEC_UNKNOWN _ b => b
  | .TYPEDEC_ID _ b _ => b
  | .TYPEDEC_NESTED _ b _ _ => b

/-- The specifier list of a typealias target or alias node. -/
def ctf_typealias_part.declaration_specifier : ctf_typealias_part → List ctf_node
  | .mk s _ => s

/-- The declarator list of a typealias target or alias node. -/
def ctf_typealias_part.type_declarators : ctf_typealias_part → List type_declarator
  | .mk _ d => d

/-! ## The type model (types library) -/

/-- String encodings of a string declaration. -/
inductive ctf_string_encoding where
  | CTF_STRING_UTF8
  | CTF_STRING_ASCII
  | CTF_STRING_UNKNOWN
deriving DecidableEq, Repr

/-- The discriminator `declaration->id`. -/
inductive ctf_type_id where
  | CTF_TYPE_UNKNOWN
  | CTF_TYPE_INTEGER
  | CTF_TYPE_FLOAT
  | CTF_TYPE_ENUM
  | CTF_TYPE_STRING
  | CTF_TYPE_STRUCT
  | CTF_TYPE_UNTAGGED_VARIANT
  | CTF_TYPE_VARIANT
  | CTF_TYPE_ARRAY
  | CTF_TYPE_SEQUENCE
deriving DecidableEq, Repr

/-- A range of an enumeration, signed or unsigned as its container is. -/
inductive enum_range where
  | signed (start last : Int)
  | unsigned (start last : Nat)
deriving DecidableEq, Repr

mutual
/-- Modelled from the spec: the declaration objects of the types library,
which is not under src/ (spec section 3.2). A declaration is a value; the
visitor never changes one after it has returned it. -/
inductive declaration where
  | integer (len : Nat) (byte_order : Int) (signedness : Int) (alignment : Nat)
  | float (mantissa_len exp_len : Nat) (byte_order : Int) (alignment : Nat)
  | string (encoding : ctf_string_encoding)
  | enum (integer_declaration : declaration) (table : List (enum_range × GQuark))
  | struct (fields : List (GQuark × declaration)) (scope : declaration_scope)
  | untagged_variant (fields : List (GQuark × declaration)) (scope : declaration_scope)
  | variant (untagged_variant : declaration) (choice : String)
  | array (len : Nat) (elem : declaration)
  | sequence (len_declaration : declaration) (elem : declaration)
/-- Modelled from the spec: `struct declaration_scope` of the types library,
which is not under src/ (spec section 3.3): four maps keyed by quark and the
parent scope. A scope is a value: it holds its parent as the parent was when
the scope was created. The visitor registers into a scope only while no child
of it is being visited, so a lookup never meets a stale parent. -/
inductive declaration_scope where
  | mk (typedef_declarations struct_declarations variant_declarations
        enum_declarations : List (GQuark × declaration))
      (parent_scope : Option declaration_scope)
end

/-- The discriminator of a declaration. -/
def declaration.id : declaration → ctf_type_id
  | .integer _ _ _ _ => .CTF_TYPE_INTEGER
  | .float _ _ _ _ => .CTF_TYPE_FLOAT
  | .string _ => .CTF_TYPE_STRING
  | .enum _ _ => .CTF_TYPE_ENUM
  | .struct _ _ => .CTF_TYPE_STRUCT
  | .untagged_variant _ _ => .CTF_TYPE_UNTAGGED_VARIANT
  | .variant _ _ => .CTF_TYPE_VARIANT
  | .array _ _ => .CTF_TYPE_ARRAY
  | .sequence _ _ => .CTF_TYPE_SEQUENCE

/-- The type alias map of a scope. -/
def declaration_scope.typedef_declarations : declaration_scope → List (GQuark × declaration)
  | .mk t _ _ _ _ => t
/-- The named struct map of a scope. -/
def declaration_scope.struct_declarations : declaration_scope → List (GQuark × declaration)
  | .mk _ s _ _ _ => s
/-- The named variant map of a scope. -/
def declaration_scope.variant_declarations : declaration_scope → List (GQuark × declaration)
  | .mk _ _ v _ _ => v
/-- The named enum map of a scope. -/
def declaration_scope.enum_declarations : declaration_scope → List (GQuark × declaration)
  | .mk _ _ _ e _ => e
/-- The parent of a scope. -/
def declaration_scope.parent_scope : declaration_scope → Option declaration_scope
  | .mk _ _ _ _ p => p

/-- Modelled from the spec: `new_declaration_scope` of the types library, not
under src/ (spec section 4.2: creates an empty scope linked to the parent). -/
def new_declaration_scope (parent_scope : Option declaration_scope) : declaration_scope :=
  declaration_scope.mk [] [] [] [] parent_scope

/-- The first hit of a lookup along the scope chain: the entry of the scope
itself when it has one, else what the scopes above it give. -/
def first_hit (own above : Option declaration) : Option declaration :=
  match own with
  | some d => some d
  | none => above

/-- Modelled from the spec: `lookup_declaration` of the types library, not
under src/ (spec section 4.2: walks the parent chain, returns the first hit). -/
def lookup_declaration (name : GQuark) : declaration_scope → Option declaration
  | .mk t _ _ _ none => first_hit (t.lookup name) none
  | .mk t _ _ _ (some ps) => first_hit (t.lookup name) (lookup_declaration name ps)

/-- Modelled from the spec: `lookup_struct_declaration` of the types library,
not under src/ (spec section 4.2, on the named struct map). -/
def lookup_struct_declaration (name : GQuark) : declaration_scope → Option declaration
  | .mk _ s _ _ none => first_hit (s.lookup name) none
  | .mk _ s _ _ (some ps) => first_hit (s.lookup name) (lookup_struct_declaration name ps)

/-- Modelled from the spec: `lookup_variant_declaration` of the types library,
not under src/ (spec section 4.2, on the named variant map). -/
def lookup_variant_declaration (name : GQuark) : declaration_scope → Option declaration
  | .mk _ _ v _ none => first_hit (v.lookup name) none
  | .mk _ _ v _ (some ps) => first_hit (v.lookup name) (lookup_variant_declaration name ps)

/-- Modelled from the spec: `lookup_enum_declaration` of the types library,
not under src/ (spec section 4.2, on the named enum map). -/
def lookup_enum_declaration (name : GQuark) : declaration_scope → Option declaration
  | .mk _ _ _ e none => first_hit (e.lookup name) none
  | .mk _ _ _ e (some ps) => first_hit (e.lookup name) (lookup_enum_declaration name ps)

/-- Modelled from the spec: `register_declaration` of the types library, not
under src/ (spec section 4.2: fails with AlreadyDefined if the name is present
in this scope; otherwise takes a strong reference). Taking a reference on a
declaration writes its reference count, so a NULL declaration is a fault. The
result is the return code and the scope after the call. -/
def register_declaration (name : GQuark) (declaration : Option declaration)
    (scope : declaration_scope) : Except Fault (Int × declaration_scope) :=
  match scope with
  | .mk t s v e p =>
    if (t.lookup name).isSome then .ok (-EEXIST, scope)
    else
      match declaration with
      | none => .error Fault.null_deref
      | some d => .ok (0, .mk (t ++ [(name, d)]) s v e p)

/-- Modelled from the spec: `register_struct_declaration` of the types
library, not under src/ (spec section 4.2: analogous to the alias map, on the
named struct map). -/
def register_struct_declaration (name : GQuark) (struct_declaration : declaration)
    (scope : declaration_scope) : Int × declaration_scope :=
  match scope with
  | .mk t s v e p =>
    if (s.lookup name).isSome then (-EEXIST, scope)
    else (0, .mk t (s ++ [(name, struct_declaration)]) v e p)

/-- Modelled from the spec: `register_variant_declaration` of the types
library, not under src/ (spec section 4.2, on the named variant map). -/
def register_variant_declaration (name : GQuark) (untagged_variant_declaration : declaration)
    (scope : declaration_scope) : Int × declaration_scope :=
  match scope with
  | .mk t s v e p =>
    if (v.lookup name).isSome then (-EEXIST, scope)
    else (0, .mk t s (v ++ [(name, untagged_variant_declaration)]) e p)

/-- Modelled from the spec: `register_enum_declaration` of the types library,
not under src/ (spec section 4.2, on the named enum map). -/
def register_enum_declaration (name : GQuark) (enum_declaration : declaration)
    (scope : declaration_scope) : Int × declaration_scope :=
  match scope with
  | .mk t s v e p =>
    if (e.lookup name).isSome then (-EEXIST, scope)
    else (0, .mk t s v (e ++ [(name, enum_declaration)]) p)

/-- A struct declaration while the visitor builds it (`struct
declaration_struct`): its fields so far and its own scope. -/
structure declaration_struct where
  fields : List (GQuark × declaration)
  scope : declaration_scope

/-- An untagged variant declaration while the visitor builds it. -/
structure declaration_untagged_variant where
  fields : List (GQuark × declaration)
  scope : declaration_scope

/-- An enum declaration while the visitor builds it. -/
structure declaration_enum where
  integer_declaration : declaration
  table : List (enum_range × GQuark)

/-- The finished declaration of a struct under construction (`&s->p`). -/
def declaration_struct.p (s : declaration_struct) : declaration :=
  declaration.struct s.fields s.scope

/-- The finished declaration of an untagged variant under construction. -/
def declaration_untagged_variant.p (s : declaration_untagged_variant) : declaration :=
  declaration.untagged_variant s.fields s.scope

/-- The finished declaration of an enum under construction. -/
def declaration_enum.p (s : declaration_enum) : declaration :=
  declaration.enum s.integer_declaration s.table

/-- Modelled from the spec: `struct_declaration_new` of the types library, not
under src/ (spec section 4.5: a fresh Struct with its own inner scope whose
parent is the enclosing scope). -/
def struct_declaration_new (parent_scope : declaration_scope) : declaration_struct :=
  ⟨[], new_declaration_scope (some parent_scope)⟩

/-- Modelled from the spec: `untagged_variant_declaration_new` of the types
library, not under src/ (spec section 4.5: same shape as Struct). -/
def untagged_variant_declaration_new (parent_scope : declaration_scope) :
    declaration_untagged_variant :=
  ⟨[], new_declaration_scope (some parent_scope)⟩

/-- Modelled from the spec: `struct_declaration_add_field` of the types
library, not under src/ (spec section 4.5: append `(name, decl)` to the
struct; section 3.2: the struct holds a strong reference to the child, so a
NULL declaration is a fault). -/
def struct_declaration_add_field (struct_declaration : declaration_struct)
    (field_name : Option String) (field_declaration : Option declaration) :
    Except Fault declaration_struct :=
  match field_declaration with
  | none => .error Fault.null_deref
  | some d =>
    .ok ⟨struct_declaration.fields ++ [(g_quark_from_string field_name, d)],
      struct_declaration.scope⟩

/-- Modelled from the spec: `untagged_variant_declaration_add_field` of the
types library, not under src/ (spec section 4.5: same shape as Struct). -/
def untagged_variant_declaration_add_field
    (untagged_variant_declaration : declaration_untagged_variant)
    (field_name : Option String) (field_declaration : Option declaration) :
    Except Fault declaration_untagged_variant :=
  match field_declaration with
  | none => .error Fault.null_deref
  | some d =>
    .ok ⟨untagged_variant_declaration.fields ++ [(g_quark_from_string field_name, d)],
      untagged_variant_declaration.scope⟩

/-- Modelled from the spec: `variant_declaration_new` of the types library,
not under src/ (spec section 4.5: construct a `Variant(untagged, choice)`;
the variant holds a strong reference to the untagged variant, so a NULL one is
a fault). -/
def variant_declaration_new (untagged_variant_declaration : Option declaration)
    (choice : String) : Except Fault (Option declaration) :=
  match untagged_variant_declaration with
  | none => .error Fault.null_deref
  | some u => .ok (some (declaration.variant u choice))

/-- Modelled from the spec: `array_declaration_new` of the types library, not
under src/ (spec section 4.3: `Array(length=const, element=inner)`; section 8:
the array takes its alignment from the element, so a NULL element is a
fault). -/
def array_declaration_new (len : Nat) (elem_declaration : Option declaration)
    (_parent_scope : declaration_scope) : Except Fault declaration :=
  match elem_declaration with
  | none => .error Fault.null_deref
  | some e => .ok (declaration.array len e)

/-- Modelled from the spec: `sequence_declaration_new` of the types library,
not under src/ (spec section 4.3: `Sequence(length_type, element=inner)`;
section 8: the sequence takes its alignment from the element, so a NULL
element is a fault). -/
def sequence_declaration_new (len_declaration : declaration)
    (elem_declaration : Option declaration) (_parent_scope : declaration_scope) :
    Except Fault declaration :=
  match elem_declaration with
  | none => .error Fault.null_deref
  | some e => .ok (declaration.sequence len_declaration e)

/-- Modelled from the spec: `enum_declaration_new` of the types library, not
under src/ (spec section 4.5: an Enum referring to that integer, with an empty
value map). -/
def enum_declaration_new (integer_declaration : declaration) : declaration_enum :=
  ⟨integer_declaration, []⟩

/-- Modelled from the spec: `enum_signed_insert` of the types library, not
under src/ (spec section 4.5: insert `(start, end) -> NameId` into the enum's
value map). -/
def enum_signed_insert (enum_declaration : declaration_enum) (start last : Int) (q : GQuark) :
    declaration_enum :=
  ⟨enum_declaration.integer_declaration,
    enum_declaration.table ++ [(enum_range.signed start last, q)]⟩

/-- Modelled from the spec: `enum_unsigned_insert` of the types library, not
under src/ (spec section 4.5: insert `(start, end) -> NameId` into the enum's
value map). -/
def enum_unsigned_insert (enum_declaration : declaration_enum) (start last : Nat) (q : GQuark) :
    declaration_enum :=
  ⟨enum_declaration.integer_declaration,
    enum_declaration.table ++ [(enum_range.unsigned start last, q)]⟩

/-- Modelled from the spec: `integer_declaration_new` of the types library,
not under src/ (spec section 3.2: an Integer with its size, byte order,
signedness and alignment). -/
def integer_declaration_new (len : Nat) (byte_order : Int) (signedness : Int)
    (alignment : Nat) : declaration :=
  declaration.integer len byte_order signedness alignment

/-- Modelled from the spec: `float_declaration_new` of the types library, not
under src/ (spec section 3.2: a Float with its mantissa and exponent digits,
byte order and alignment). -/
def float_declaration_new (mantissa_len exp_len : Nat) (byte_order : Int)
    (alignment : Nat) : declaration :=
  declaration.float mantissa_len exp_len byte_order alignment

/-- Modelled from the spec: `string_declaration_new` of the types library, not
under src/ (spec section 3.2: a String with its encoding). -/
def string_declaration_new (encoding : ctf_string_encoding) : declaration :=
  declaration.string encoding

/-- The part of `struct ctf_trace` the declaration visitors read: the byte
order of the trace, set by the caller of the visitor. -/
structure ctf_trace where
  byte_order : Int
deriving DecidableEq, Repr

/-! ## Alias identifiers -/

/-- The text `visit_declaration_specifier` appends for one specifier node, or
`none` where its switch reaches an error branch. -/
def declaration_specifier_text : ctf_node → Option String
  | .NODE_TYPE_SPECIFIER type id_type =>
    match type with
    | .TYPESPEC_VOID => some "void"
    | .TYPESPEC_CHAR => some "char"
    | .TYPESPEC_SHORT => some "short"
    | .TYPESPEC_INT => some "int"
    | .TYPESPEC_LONG => some "long"
    | .TYPESPEC_FLOAT => some "float"
    | .TYPESPEC_DOUBLE => some "double"
    | .TYPESPEC_SIGNED => some "signed"
    | .TYPESPEC_UNSIGNED => some "unsigned"
    | .TYPESPEC_BOOL => some "bool"
    | .TYPESPEC_COMPLEX => some "_Complex"
    | .TYPESPEC_IMAGINARY => some "_Imaginary"
    | .TYPESPEC_CONST => some "const"
    | .TYPESPEC_ID_TYPE =>
      match id_type with
      | some id => some id
      | none => some ""
    | .TYPESPEC_UNKNOWN => none
  | .NODE_ENUM enum_id _ _ _ =>
    match enum_id with
    | none => none
    | some id => some ("enum " ++ id)
  | .NODE_VARIANT name _ _ _ =>
    match name with
    | none => none
    | some n => some ("variant " ++ n)
  | .NODE_STRUCT name _ _ =>
    match name with
    | none => none
    | some n => some ("struct " ++ n)
  | _ => none

/-- The loop of `visit_declaration_specifier`, entered with the current
`alias_item_nr` and string; the result is the return code and the string. -/
def visit_declaration_specifier_loop (alias_item_nr : Int) :
    List ctf_node → String → Int × String
  | [], str => (0, str)
  | iter :: rest, str =>
    let str := if alias_item_nr ≠ 0 then str ++ " " else str
    match declaration_specifier_text iter with
    | none => (-EINVAL, str)
    | some text => visit_declaration_specifier_loop (alias_item_nr + 1) rest (str ++ text)

/-- Source `visit_declaration_specifier`: appends the specifier tokens to
`str`, separated by single spaces. -/
def visit_declaration_specifier (declaration_specifier : List ctf_node) (str : String) :
    Int × String :=
  visit_declaration_specifier_loop 0 declaration_specifier str

/-- The loop of `create_typealias_identifier` over the pointers of the declarator. -/
def append_pointers (str : String) : List ctf_pointer → String
  | [] => str
  | iter :: rest =>
    let str := str ++ " *"
    let str := if iter.const_qualifier then str ++ " const" else str
    append_pointers str rest

/-- Source `create_typealias_identifier`: the quark of the specifier tokens
followed by the pointers of the declarator, or 0 when the specifier list
cannot be written. -/
def create_typealias_identifier (declaration_specifier : List ctf_node)
    (node_type_declarator : type_declarator) : GQuark :=
  let r := visit_declaration_specifier declaration_specifier ""
  if r.1 ≠ 0 then GQuark.zero
  else g_quark_from_string (some (append_pointers r.2 node_type_declarator.pointers))

/-- Source `ctf_declaration_type_specifier_visit`: looks the specifier tokens
up as a type alias in the scope chain. -/
def ctf_declaration_type_specifier_visit (declaration_specifier : List ctf_node)
    (declaration_scope : declaration_scope) : Option declaration :=
  let r := visit_declaration_specifier declaration_specifier ""
  if r.1 ≠ 0 then none
  else lookup_declaration (g_quark_from_string (some r.2)) declaration_scope

/-! ## Attribute values -/

/-- Source `get_boolean`: 0 or 1, or a negative error code. The argument is
the pointer to the node, NULL excluded by its callers. -/
def get_boolean (unary_expression : ctf_node) : Int :=
  match unary_expression with
  | .NODE_UNARY_EXPRESSION type _ =>
    match type with
    | .UNARY_UNSIGNED_CONSTANT v => if v = 0 then 0 else 1
    | .UNARY_SIGNED_CONSTANT v => if v = 0 then 0 else 1
    | .UNARY_STRING s =>
      if s = "true" then 1
      else if s = "TRUE" then 1
      else if s = "false" then 0
      else if s = "FALSE" then 0
      else -EINVAL
    | _ => -EINVAL
  | _ => -EINVAL

/-- Source `get_byte_order`: the byte order named by the string, or a negative
error code. The node type is not tested before the union is read. -/
def get_byte_order (unary_expression : ctf_node) (trace : ctf_trace) : Except Fault Int :=
  match unary_expression with
  | .NODE_UNARY_EXPRESSION type _ =>
    match type with
    | .UNARY_STRING s =>
      if s = "native" then .ok trace.byte_order
      else if s = "network" then .ok BIG_ENDIAN
      else if s = "be" then .ok BIG_ENDIAN
      else if s = "le" then .ok LITTLE_ENDIAN
      else .ok (-EINVAL)
    | _ => .ok (-EINVAL)
  | _ => .error Fault.union_misread

/-- The first entries of the two sides of an attribute expression, as the
attribute loops take them: the left one is read at once (its string is
asserted), the right one is held until a branch reads it. -/
def attribute_sides (expression : ctf_node) : Except Fault (String × Option ctf_node) :=
  match expression with
  | .NODE_CTF_EXPRESSION left right =>
    match left with
    | [] => .error Fault.empty_list
    | l :: _ =>
      match l with
      | .NODE_UNARY_EXPRESSION type _ =>
        match type with
        | .UNARY_STRING s => .ok (s, right.head?)
        | _ => .error Fault.assert_failed
      | _ => .error Fault.union_misread
  | _ => .error Fault.union_misread

/-- The unsigned constant of the right side of an attribute: `some (some v)`,
`some none` when the node is a unary expression of another type (the builder
then returns NULL). -/
def attribute_unsigned (right : Option ctf_node) : Except Fault (Option Nat) :=
  match right with
  | none => .error Fault.empty_list
  | some r =>
    match r with
    | .NODE_UNARY_EXPRESSION type _ =>
      match type with
      | .UNARY_UNSIGNED_CONSTANT v => .ok (some v)
      | _ => .ok none
    | _ => .error Fault.union_misread

/-- The locals of `ctf_declaration_integer_visit`. `alignment` and `size` are
`none` until assigned; `has_alignment` and `has_size` are set exactly where
they are assigned. -/
structure integer_attributes where
  alignment : Option Nat
  size : Option Nat
  byte_order : Int
  signedness : Int

/-- The attribute loop of `ctf_declaration_integer_visit`: `none` where the
loop returns NULL, else the locals after the loop. -/
def ctf_declaration_integer_visit_loop (trace : ctf_trace) :
    List ctf_node → integer_attributes → Except Fault (Option integer_attributes)
  | [], st => .ok (some st)
  | expression :: rest, st =>
    match attribute_sides expression with
    | .error e => .error e
    | .ok (left, right) =>
      if left = "signed" then
        match right with
        | none => .error Fault.empty_list
        | some r =>
          let signedness := get_boolean r
          if signedness < 0 then .ok none
          else ctf_declaration_integer_visit_loop trace rest
            ⟨st.alignment, st.size, st.byte_order, signedness⟩
      else if left = "byte_order" then
        match right with
        | none => .error Fault.empty_list
        | some r =>
          match get_byte_order r trace with
          | .error e => .error e
          | .ok byte_order =>
            if byte_order < 0 then .ok none
            else ctf_declaration_integer_visit_loop trace rest
              ⟨st.alignment, st.size, byte_order, st.signedness⟩
      else if left = "size" then
        match attribute_unsigned right with
        | .error e => .error e
        | .ok none => .ok none
        | .ok (some v) =>
          ctf_declaration_integer_visit_loop trace rest
            ⟨st.alignment, some v, st.byte_order, st.signedness⟩
      else if left = "align" then
        match attribute_unsigned right with
        | .error e => .error e
        | .ok none => .ok none
        | .ok (some v) =>
          ctf_declaration_integer_visit_loop trace rest
            ⟨some v, st.size, st.byte_order, st.signedness⟩
      else .ok none

/-- Source `ctf_declaration_integer_visit`. -/
def ctf_declaration_integer_visit (expressions : List ctf_node) (trace : ctf_trace) :
    Except Fault (Option declaration) :=
  match ctf_declaration_integer_visit_loop trace expressions ⟨none, none, trace.byte_order, 0⟩ with
  | .error e => .error e
  | .ok none => .ok none
  | .ok (some st) =>
    match st.size with
    | none => .ok none
    | some size =>
      let alignment :=
        match st.alignment with
        | some a => a
        | none => if size % CHAR_BIT ≠ 0 then 1 else CHAR_BIT
      .ok (some (integer_declaration_new size st.byte_order st.signedness alignment))

/-- The locals of `ctf_declaration_floating_point_visit`; `byte_order` is a
`uint64_t` there. -/
structure float_attributes where
  alignment : Option Nat
  exp_dig : Option Nat
  mant_dig : Option Nat
  byte_order : Nat

/-- The attribute loop of `ctf_declaration_floating_point_visit`: `none` where
the loop returns NULL, else the locals after the loop. The test
`byte_order < 0` is made on a `uint64_t`. -/
def ctf_declaration_floating_point_visit_loop (trace : ctf_trace) :
    List ctf_node → float_attributes → Except Fault (Option float_attributes)
  | [], st => .ok (some st)
  | expression :: rest, st =>
    match attribute_sides expression with
    | .error e => .error e
    | .ok (left, right) =>
      if left = "byte_order" then
        match right with
        | none => .error Fault.empty_list
        | some r =>
          match get_byte_order r trace with
          | .error e => .error e
          | .ok bo =>
            let byte_order : Nat := to_uint64 bo
            if (byte_order : Int) < 0 then .ok none
            else ctf_declaration_floating_point_visit_loop trace rest
              ⟨st.alignment, st.exp_dig, st.mant_dig, byte_order⟩
      else if left = "exp_dig" then
        match attribute_unsigned right with
        | .error e => .error e
        | .ok none => .ok none
        | .ok (some v) =>
          ctf_declaration_floating_point_visit_loop trace rest
            ⟨st.alignment, some v, st.mant_dig, st.byte_order⟩
      else if left = "mant_dig" then
        match attribute_unsigned right with
        | .error e => .error e
        | .ok none => .ok none
        | .ok (some v) =>
          ctf_declaration_floating_point_visit_loop trace rest
            ⟨st.alignment, st.exp_dig, some v, st.byte_order⟩
      else if left = "align" then
        match attribute_unsigned right with
        | .error e => .error e
        | .ok none => .ok none
        | .ok (some v) =>
          ctf_declaration_floating_point_visit_loop trace rest
            ⟨some v, st.exp_dig, st.mant_dig, st.byte_order⟩
      else .ok none

/-- Source `ctf_declaration_floating_point_visit`. -/
def ctf_declaration_floating_point_visit (expressions : List ctf_node) (trace : ctf_trace) :
    Except Fault (Option declaration) :=
  match ctf_declaration_floating_point_visit_loop trace expressions
      ⟨none, none, none, to_uint64 trace.byte_order⟩ with
  | .error e => .error e
  | .ok none => .ok none
  | .ok (some st) =>
    match st.mant_dig with
    | none => .ok none
    | some mant_dig =>
      match st.exp_dig with
      | none => .ok none
      | some exp_dig =>
        let alignment :=
          match st.alignment with
          | some a => a
          | none => if ((mant_dig + exp_dig) % 2 ^ 64) % CHAR_BIT ≠ 0 then 1 else CHAR_BIT
        .ok (some (float_declaration_new mant_dig exp_dig (to_int st.byte_order) alignment))

/-- The attribute loop of `ctf_declaration_string_visit`: `none` where the loop
returns NULL, else `encoding_c` after the loop. -/
def ctf_declaration_string_visit_loop :
    List ctf_node → Option String → Except Fault (Option (Option String))
  | [], encoding_c => .ok (some encoding_c)
  | expression :: rest, _encoding_c =>
    match attribute_sides expression with
    | .error e => .error e
    | .ok (left, right) =>
      if left = "encoding" then
        match right with
        | none => .error Fault.empty_list
        | some r =>
          match r with
          | .NODE_UNARY_EXPRESSION type _ =>
            match type with
            | .UNARY_STRING s => ctf_declaration_string_visit_loop rest (some s)
            | _ => .ok none
          | _ => .error Fault.union_misread
      else .ok none

/-- Source `ctf_declaration_string_visit`. -/
def ctf_declaration_string_visit (expressions : List ctf_node) (_trace : ctf_trace) :
    Except Fault (Option declaration) :=
  match ctf_declaration_string_visit_loop expressions none with
  | .error e => .error e
  | .ok none => .ok none
  | .ok (some encoding_c) =>
    let encoding :=
      if encoding_c = some "ASCII" then ctf_string_encoding.CTF_STRING_ASCII
      else ctf_string_encoding.CTF_STRING_UTF8
    .ok (some (string_declaration_new encoding))

/-! ## Enumerators -/

/-- The value loop of `ctf_enumerator_list_visit` for a signed container, on
the locals `start`, `end` (`none` until assigned) and `nr_vals`: `none` where
the loop returns `-EINVAL`. An unsigned constant is converted to `int64_t`. -/
def ctf_enumerator_list_visit_signed_loop :
    List ctf_node → Option Int → Option Int → Int →
      Except Fault (Option (Option Int × Option Int × Int))
  | [], start, last, nr_vals => .ok (some (start, last, nr_vals))
  | iter :: rest, start, last, nr_vals =>
    match iter with
    | .NODE_UNARY_EXPRESSION type _ =>
      let target : Option Int :=
        match type with
        | .UNARY_SIGNED_CONSTANT v => some v
        | .UNARY_UNSIGNED_CONSTANT v => some (to_int64 v)
        | _ => none
      match target with
      | none => .ok none
      | some v =>
        let start := if nr_vals = 0 then some v else start
        let last := if nr_vals = 0 then last else some v
        if nr_vals > 1 then .ok none
        else ctf_enumerator_list_visit_signed_loop rest start last (nr_vals + 1)
    | _ => .error Fault.assert_failed

/-- The value loop of `ctf_enumerator_list_visit` for an unsigned container:
`none` where the loop returns `-EINVAL`. -/
def ctf_enumerator_list_visit_unsigned_loop :
    List ctf_node → Option Nat → Option Nat → Int →
      Except Fault (Option (Option Nat × Option Nat × Int))
  | [], start, last, nr_vals => .ok (some (start, last, nr_vals))
  | iter :: rest, start, last, nr_vals =>
    match iter with
    | .NODE_UNARY_EXPRESSION type _ =>
      match type with
      | .UNARY_UNSIGNED_CONSTANT v =>
        let start := if nr_vals = 0 then some v else start
        let last := if nr_vals = 0 then last else some v
        if nr_vals > 1 then .ok none
        else ctf_enumerator_list_visit_unsigned_loop rest start last (nr_vals + 1)
      | _ => .ok none
    | _ => .error Fault.assert_failed

/-- Source `ctf_enumerator_list_visit`: the return code and the enum after the
call. The container of the enum is read as an integer declaration. -/
def ctf_enumerator_list_visit (enumerator : ctf_enumerator)
    (enum_declaration : declaration_enum) : Except Fault (Int × declaration_enum) :=
  match enumerator with
  | .mk id values =>
    let q := g_quark_from_string id
    match enum_declaration.integer_declaration with
    | .integer _ _ signedness _ =>
      if signedness ≠ 0 then
        match ctf_enumerator_list_visit_signed_loop values none none 0 with
        | .error e => .error e
        | .ok none => .ok (-EINVAL, enum_declaration)
        | .ok (some (start, last, nr_vals)) =>
          let last := if nr_vals = 1 then start else last
          match start, last with
          | some s, some e => .ok (0, enum_signed_insert enum_declaration s e q)
          | _, _ => .error Fault.uninit_read
      else
        match ctf_enumerator_list_visit_unsigned_loop values none none 0 with
        | .error e => .error e
        | .ok none => .ok (-EINVAL, enum_declaration)
        | .ok (some (start, last, nr_vals)) =>
          let last := if nr_vals = 1 then start else last
          match start, last with
          | some s, some e => .ok (0, enum_unsigned_insert enum_declaration s e q)
          | _, _ => .error Fault.uninit_read
    | _ => .error Fault.union_misread

/-- The enumerator loop of `ctf_declaration_enum_visit`: the return code of the
first failing enumerator, or 0, and the enum after the loop. -/
def ctf_declaration_enum_visit_loop :
    List ctf_enumerator → declaration_enum → Except Fault (Int × declaration_enum)
  | [], enum_declaration => .ok (0, enum_declaration)
  | iter :: rest, enum_declaration =>
    match ctf_enumerator_list_visit iter enum_declaration with
    | .error e => .error e
    | .ok (ret, enum_declaration) =>
      if ret ≠ 0 then .ok (ret, enum_declaration)
      else ctf_declaration_enum_visit_loop rest enum_declaration

/-! ## The declaration visitors

The functions below are mutually recursive in the source. A function that
takes a `struct declaration_scope *` and registers into it returns the scope
after the call; the scopes above it are only read. A local that the source
leaves unassigned on entry (`field_name`, `identifier`, `dummy_id`) is an
`Option GQuark`, `none` until the first assignment. -/

/-- The first entry of a list as a pointer: NULL for the empty list. -/
def first_or_null {α : Type} : List α → Option α
  | [] => none
  | a :: _ => some a

/-- Whether the declaration that `ctf_declaration_specifier_visit` returns for
this specifier list is an object that a scope holds, by the path of the source
it comes from. A type specifier (line 896), and a struct, variant or enum
without a body (lines 618, 672, 824), are found by a lookup in the scope chain,
which takes no reference; a struct, untagged variant or enum with a body and a
name is registered under that name by the builder that returns it (lines 640,
693, 866). An integer, a float, a string, a struct, variant or enum with a body
and no name, and a variant with a choice (`variant_declaration_new`, line 706)
are new objects that only the caller holds. -/
def specifier_result_is_held : List ctf_node → Bool
  | [] => false
  | first :: _ =>
    match first with
    | .NODE_STRUCT name _ has_body => !has_body || name.isSome
    | .NODE_VARIANT name choice _ has_body =>
      match choice with
      | none => !has_body || name.isSome
      | some _ => false
    | .NODE_ENUM enum_id _ _ has_body => !has_body || enum_id.isSome
    | .NODE_TYPE_SPECIFIER _ _ => true
    | _ => false

/-- Whether the declaration that `ctf_type_declarator_visit` returns, when it
is entered without an inner declaration, is an object that a scope holds. A
nested declarator returns the array or the sequence it has built (lines 340,
359): a new object. Without a declarator, and for an identifier declarator, it
returns the inner declaration: what the alias lookup of a pointer declarator
found (line 295), or what the specifier visitor returned (line 301). -/
def declarator_result_is_held (declaration_specifier : List ctf_node)
    (node_type_declarator : Option type_declarator) : Bool :=
  match node_type_declarator with
  | none => specifier_result_is_held declaration_specifier
  | some (.TYPEDEC_ID pointers _ _) =>
    if pointers ≠ [] then true else specifier_result_is_held declaration_specifier
  | some (.TYPEDEC_NESTED _ _ _ _) => false
  | some (.TYPEDEC_UNKNOWN _ _) => false

/-- Modelled from the spec: the `declaration_free` hook of a declaration, set
by the types library, which is not under src/: it destroys the object,
whatever its reference count. `held` says whether a scope holds the object
(spec section 4.2: a registration takes a strong reference; section 5: a
lookup returns a borrowed reference): destroying it then leaves that scope
with an entry for a destroyed object, which this model of scopes as values
cannot go on from. -/
def declaration_free (held : Bool) : Except Fault Unit :=
  if held then .error Fault.freed_while_held else .ok ()

mutual

/-- Lines 285-304 of `ctf_type_declarator_visit`: the inner declaration when
none was passed. The result is `none` where the source returns NULL at once
(the alias of a pointer declarator is not found), else the inner declaration,
which the specifier visitor may have left NULL, and the scope after the call. -/
def ctf_type_declarator_visit_inner (declaration_specifier : List ctf_node)
    (node_type_declarator : Option type_declarator)
    (declaration_scope : declaration_scope) (nested_declaration : Option declaration)
    (trace : ctf_trace) :
    Except Fault (Option (Option declaration × Ctf.declaration_scope)) :=
  match nested_declaration with
  | some d => .ok (some (some d, declaration_scope))
  | none =>
    match node_type_declarator with
    | some n =>
      if n.pointers ≠ [] then
        match lookup_declaration (create_typealias_identifier declaration_specifier n)
            declaration_scope with
        | none => .ok none
        | some d => .ok (some (some d, declaration_scope))
      else
        match ctf_declaration_specifier_visit declaration_specifier declaration_scope trace with
        | .error e => .error e
        | .ok r => .ok (some r)
    | none =>
      match ctf_declaration_specifier_visit declaration_specifier declaration_scope trace with
      | .error e => .error e
      | .ok r => .ok (some r)
termination_by 2 * sizeOf declaration_specifier + 1
decreasing_by
  all_goals simp_wf

/-- Source `ctf_type_declarator_visit`. The result is the declaration (NULL on
failure), the content of `*field_name` and the scope after the call. The
declarator is split by its `type` once, at the top; each case runs the checks
of lines 275-283, then lines 285-304, then its part of lines 306-374. -/
def ctf_type_declarator_visit (declaration_specifier : List ctf_node)
    (field_name : Option GQuark) (node_type_declarator : Option type_declarator)
    (declaration_scope : declaration_scope) (nested_declaration : Option declaration)
    (trace : ctf_trace) :
    Except Fault (Option declaration × Option GQuark × Ctf.declaration_scope) :=
  match node_type_declarator with
  | none =>
    match ctf_type_declarator_visit_inner declaration_specifier none declaration_scope
        nested_declaration trace with
    | .error e => .error e
    | .ok none => .ok (none, field_name, declaration_scope)
    | .ok (some (nested_declaration, declaration_scope)) =>
      .ok (nested_declaration, field_name, declaration_scope)
  | some (.TYPEDEC_UNKNOWN _ _) => .error Fault.assert_failed
  | some (.TYPEDEC_ID pointers bitfield_len id) =>
    if bitfield_len.isSome then .ok (none, field_name, declaration_scope)
    else
      match ctf_type_declarator_visit_inner declaration_specifier
          (some (.TYPEDEC_ID pointers bitfield_len id)) declaration_scope
          nested_declaration trace with
      | .error e => .error e
      | .ok none => .ok (none, field_name, declaration_scope)
      | .ok (some (nested_declaration, declaration_scope)) =>
        .ok (nested_declaration, some (g_quark_from_string id), declaration_scope)
  | some (.TYPEDEC_NESTED pointers bitfield_len type_declarator length) =>
    if bitfield_len.isSome then .ok (none, field_name, declaration_scope)
    else
      match ctf_type_declarator_visit_inner declaration_specifier
          (some (.TYPEDEC_NESTED pointers bitfield_len type_declarator length))
          declaration_scope nested_declaration trace with
      | .error e => .error e
      | .ok none => .ok (none, field_name, declaration_scope)
      | .ok (some (nested_declaration, declaration_scope)) =>
        match first_or_null length with
        | none => .ok (none, field_name, declaration_scope)
        | some first =>
          match first with
          | .NODE_UNARY_EXPRESSION type _ =>
            match type with
            | .UNARY_UNSIGNED_CONSTANT len =>
              match array_declaration_new len nested_declaration declaration_scope with
              | .error e => .error e
              | .ok declaration =>
                ctf_type_declarator_visit declaration_specifier field_name
                  type_declarator declaration_scope (some declaration) trace
            | _ => .ok (none, field_name, declaration_scope)
          | .NODE_INTEGER _ | .NODE_TYPE_SPECIFIER _ _ =>
            match ctf_type_declarator_visit length none none declaration_scope none trace with
            | .error e => .error e
            | .ok (declaration, _dummy_id, declaration_scope) =>
              match declaration with
              | none => .error Fault.null_deref
              | some integer_declaration =>
                if integer_declaration.id ≠ ctf_type_id.CTF_TYPE_INTEGER then
                  .error Fault.assert_failed
                else
                  match sequence_declaration_new integer_declaration nested_declaration
                      declaration_scope with
                  | .error e => .error e
                  | .ok declaration =>
                    ctf_type_declarator_visit declaration_specifier field_name
                      type_declarator declaration_scope (some declaration) trace
          | _ => .error Fault.assert_failed
termination_by 2 * (sizeOf declaration_specifier + sizeOf node_type_declarator)
decreasing_by
  all_goals simp_wf
  all_goals omega

/-- Source `ctf_struct_type_declarators_visit`. `field_name` is the content of
its local of that name, `none` when the function is entered. The result is the
return code and the struct after the call. -/
def ctf_struct_type_declarators_visit (struct_declaration : declaration_struct)
    (declaration_specifier : List ctf_node) (type_declarators : List type_declarator)
    (declaration_scope : declaration_scope) (trace : ctf_trace)
    (field_name : Option GQuark) : Except Fault (Int × declaration_struct) :=
  match type_declarators with
  | [] => .ok (0, struct_declaration)
  | iter :: rest =>
    match ctf_type_declarator_visit declaration_specifier field_name (some iter)
        struct_declaration.scope none trace with
    | .error e => .error e
    | .ok (field_declaration, field_name, scope) =>
      match field_name with
      | none => .error Fault.uninit_read
      | some q =>
        match struct_declaration_add_field ⟨struct_declaration.fields, scope⟩
            (g_quark_to_string q) field_declaration with
        | .error e => .error e
        | .ok struct_declaration =>
          ctf_struct_type_declarators_visit struct_declaration declaration_specifier rest
            declaration_scope trace field_name
termination_by 2 * (sizeOf declaration_specifier + sizeOf type_declarators)
decreasing_by
  all_goals simp_wf
  all_goals first | omega | (cases rest <;> simp)

/-- Source `ctf_variant_type_declarators_visit`. `field_name` is the content
of its local of that name, `none` when the function is entered. -/
def ctf_variant_type_declarators_visit
    (untagged_variant_declaration : declaration_untagged_variant)
    (declaration_specifier : List ctf_node) (type_declarators : List type_declarator)
    (declaration_scope : declaration_scope) (trace : ctf_trace)
    (field_name : Option GQuark) : Except Fault (Int × declaration_untagged_variant) :=
  match type_declarators with
  | [] => .ok (0, untagged_variant_declaration)
  | iter :: rest =>
    match ctf_type_declarator_visit declaration_specifier field_name (some iter)
        untagged_variant_declaration.scope none trace with
    | .error e => .error e
    | .ok (field_declaration, field_name, scope) =>
      match field_name with
      | none => .error Fault.uninit_read
      | some q =>
        match untagged_variant_declaration_add_field
            ⟨untagged_variant_declaration.fields, scope⟩
            (g_quark_to_string q) field_declaration with
        | .error e => .error e
        | .ok untagged_variant_declaration =>
          ctf_variant_type_declarators_visit untagged_variant_declaration
            declaration_specifier rest declaration_scope trace field_name
termination_by 2 * (sizeOf declaration_specifier + sizeOf type_declarators)
decreasing_by
  all_goals simp_wf
  all_goals first | omega | (cases rest <;> simp)

/-- Source `ctf_typedef_visit`. `identifier` is the content of its local of
that name, `none` when the function is entered. The result is the return code
and the scope after the call. When a registration fails, line 448 destroys the
declaration through its `declaration_free` hook, whether the resolver has built
it or found it in a scope. -/
def ctf_typedef_visit (scope : declaration_scope) (declaration_specifier : List ctf_node)
    (type_declarators : List type_declarator) (trace : ctf_trace)
    (identifier : Option GQuark) : Except Fault (Int × declaration_scope) :=
  match type_declarators with
  | [] => .ok (0, scope)
  | iter :: rest =>
    match ctf_type_declarator_visit declaration_specifier identifier (some iter)
        scope none trace with
    | .error e => .error e
    | .ok (type_declaration, identifier, scope) =>
      match identifier with
      | none => .error Fault.uninit_read
      | some q =>
        match register_declaration q type_declaration scope with
        | .error e => .error e
        | .ok (ret, scope) =>
          if ret ≠ 0 then
            -- `type_declaration->declaration_free(type_declaration)`
            match type_declaration with
            | none => .error Fault.null_deref
            | some _ =>
              match declaration_free
                  (declarator_result_is_held declaration_specifier (some iter)) with
              | .error e => .error e
              | .ok _ => .ok (ret, scope)
          else ctf_typedef_visit scope declaration_specifier rest trace identifier
termination_by 2 * (sizeOf declaration_specifier + sizeOf type_declarators)
decreasing_by
  all_goals simp_wf
  all_goals first | omega | (cases rest <;> simp)

/-- Source `ctf_typealias_visit`. The declarator of the target is taken from
the node `alias` (line 472 reads `alias->u.typealias_target.type_declarators`).
The result is the return code and the scope after the call. The label `error`
(line 509) destroys the target declaration through its `declaration_free`
hook, whether the resolver has built it or found it in a scope. -/
def ctf_typealias_visit (scope : declaration_scope) (target alias_node : ctf_typealias_part)
    (trace : ctf_trace) : Except Fault (Int × declaration_scope) :=
  match target, alias_node with
  | .mk target_declaration_specifier _, .mk alias_declaration_specifier alias_type_declarators =>
    match ctf_type_declarator_visit target_declaration_specifier none
        (first_or_null alias_type_declarators) scope none trace with
    | .error e => .error e
    | .ok (type_declaration, dummy_id, scope) =>
      match type_declaration with
      | none =>
        -- `err = -EINVAL; goto error;` then `type_declaration->declaration_free(...)`
        .error Fault.null_deref
      | some d =>
        match dummy_id with
        | none => .error Fault.uninit_read
        | some dummy_id =>
          if dummy_id ≠ GQuark.zero then
            -- `err = -EINVAL; goto error;`
            match declaration_free
                (declarator_result_is_held target_declaration_specifier
                  (first_or_null alias_type_declarators)) with
            | .error e => .error e
            | .ok _ => .ok (-EINVAL, scope)
          else
            match alias_type_declarators with
            | [] => .error Fault.empty_list
            | node :: _ =>
              match register_declaration
                  (create_typealias_identifier alias_declaration_specifier node)
                  (some d) scope with
              | .error e => .error e
              | .ok (err, scope) =>
                if err ≠ 0 then
                  -- `goto error;`
                  match declaration_free
                      (declarator_result_is_held target_declaration_specifier
                        (first_or_null alias_type_declarators)) with
                  | .error e => .error e
                  | .ok _ => .ok (err, scope)
                else .ok (0, scope)
termination_by 2 * (sizeOf target + sizeOf alias_node)
decreasing_by
  all_goals simp_wf
  all_goals cases alias_type_declarators <;> simp [first_or_null] <;> omega

/-- Source `ctf_struct_declaration_list_visit`: the return code and the struct
after the call. -/
def ctf_struct_declaration_list_visit (iter : ctf_node)
    (struct_declaration : declaration_struct) (trace : ctf_trace) :
    Except Fault (Int × declaration_struct) :=
  match iter with
  | .NODE_TYPEDEF declaration_specifier type_declarators =>
    match ctf_typedef_visit struct_declaration.scope declaration_specifier
        type_declarators trace none with
    | .error e => .error e
    | .ok (ret, scope) =>
      if ret ≠ 0 then .ok (ret, ⟨struct_declaration.fields, scope⟩)
      else .ok (0, ⟨struct_declaration.fields, scope⟩)
  | .NODE_TYPEALIAS target alias_node =>
    match ctf_typealias_visit struct_declaration.scope target alias_node trace with
    | .error e => .error e
    | .ok (ret, scope) =>
      if ret ≠ 0 then .ok (ret, ⟨struct_declaration.fields, scope⟩)
      else .ok (0, ⟨struct_declaration.fields, scope⟩)
  | .NODE_STRUCT_OR_VARIANT_DECLARATION declaration_specifier type_declarators =>
    match ctf_struct_type_declarators_visit struct_declaration declaration_specifier
        type_declarators struct_declaration.scope trace none with
    | .error e => .error e
    | .ok (ret, struct_declaration) =>
      if ret ≠ 0 then .ok (ret, struct_declaration) else .ok (0, struct_declaration)
  | _ => .error Fault.assert_failed
termination_by 2 * sizeOf iter
decreasing_by
  all_goals simp_wf

/-- Source `ctf_variant_declaration_list_visit`: the return code and the
untagged variant after the call. -/
def ctf_variant_declaration_list_visit (iter : ctf_node)
    (untagged_variant_declaration : declaration_untagged_variant) (trace : ctf_trace) :
    Except Fault (Int × declaration_untagged_variant) :=
  match iter with
  | .NODE_TYPEDEF declaration_specifier type_declarators =>
    match ctf_typedef_visit untagged_variant_declaration.scope declaration_specifier
        type_declarators trace none with
    | .error e => .error e
    | .ok (ret, scope) =>
      if ret ≠ 0 then .ok (ret, ⟨untagged_variant_declaration.fields, scope⟩)
      else .ok (0, ⟨untagged_variant_declaration.fields, scope⟩)
  | .NODE_TYPEALIAS target alias_node =>
    match ctf_typealias_visit untagged_variant_declaration.scope target alias_node trace with
    | .error e => .error e
    | .ok (ret, scope) =>
      if ret ≠ 0 then .ok (ret, ⟨untagged_variant_declaration.fields, scope⟩)
      else .ok (0, ⟨untagged_variant_declaration.fields, scope⟩)
  | .NODE_STRUCT_OR_VARIANT_DECLARATION declaration_specifier type_declarators =>
    match ctf_variant_type_declarators_visit untagged_variant_declaration
        declaration_specifier type_declarators untagged_variant_declaration.scope
        trace none with
    | .error e => .error e
    | .ok (ret, untagged_variant_declaration) =>
      if ret ≠ 0 then .ok (ret, untagged_variant_declaration)
      else .ok (0, untagged_variant_declaration)
  | _ => .error Fault.assert_failed
termination_by 2 * sizeOf iter
decreasing_by
  all_goals simp_wf

/-- The body loop of `ctf_declaration_struct_visit`: the return code of the
first failing item, or 0, and the struct after the loop. -/
def ctf_declaration_struct_visit_loop (declaration_list : List ctf_node)
    (struct_declaration : declaration_struct) (trace : ctf_trace) :
    Except Fault (Int × declaration_struct) :=
  match declaration_list with
  | [] => .ok (0, struct_declaration)
  | iter :: rest =>
    match ctf_struct_declaration_list_visit iter struct_declaration trace with
    | .error e => .error e
    | .ok (ret, struct_declaration) =>
      if ret ≠ 0 then .ok (ret, struct_declaration)
      else ctf_declaration_struct_visit_loop rest struct_declaration trace
termination_by 2 * sizeOf declaration_list
decreasing_by
  all_goals simp_wf
  all_goals omega

/-- Source `ctf_declaration_struct_visit`: the declaration (NULL on failure)
and the scope `declaration_scope` after the call. -/
def ctf_declaration_struct_visit (name : Option String) (declaration_list : List ctf_node)
    (has_body : Bool) (declaration_scope : declaration_scope) (trace : ctf_trace) :
    Except Fault (Option declaration × Ctf.declaration_scope) :=
  if !has_body then
    match name with
    | none => .error Fault.assert_failed
    | some _ =>
      .ok (lookup_struct_declaration (g_quark_from_string name) declaration_scope,
        declaration_scope)
  else
    if (match name with
        | some _ =>
          (lookup_struct_declaration (g_quark_from_string name) declaration_scope).isSome
        | none => false) then
      .ok (none, declaration_scope)
    else
      match ctf_declaration_struct_visit_loop declaration_list
          (struct_declaration_new declaration_scope) trace with
      | .error e => .error e
      | .ok (ret, struct_declaration) =>
        if ret ≠ 0 then .ok (none, declaration_scope)
        else
          match name with
          | some _ =>
            match register_struct_declaration (g_quark_from_string name)
                struct_declaration.p declaration_scope with
            | (ret, declaration_scope) =>
              if ret ≠ 0 then .error Fault.assert_failed
              else .ok (some struct_declaration.p, declaration_scope)
          | none => .ok (some struct_declaration.p, declaration_scope)
termination_by 2 * sizeOf declaration_list + 1
decreasing_by
  all_goals simp_wf

/-- The body loop of `ctf_declaration_variant_visit`. -/
def ctf_declaration_variant_visit_loop (declaration_list : List ctf_node)
    (untagged_variant_declaration : declaration_untagged_variant) (trace : ctf_trace) :
    Except Fault (Int × declaration_untagged_variant) :=
  match declaration_list with
  | [] => .ok (0, untagged_variant_declaration)
  | iter :: rest =>
    match ctf_variant_declaration_list_visit iter untagged_variant_declaration trace with
    | .error e => .error e
    | .ok (ret, untagged_variant_declaration) =>
      if ret ≠ 0 then .ok (ret, untagged_variant_declaration)
      else ctf_declaration_variant_visit_loop rest untagged_variant_declaration trace
termination_by 2 * sizeOf declaration_list
decreasing_by
  all_goals simp_wf
  all_goals omega

/-- Lines 669-698 of `ctf_declaration_variant_visit`: the untagged variant,
found by name or built from the body. The result is `none` where the source
returns NULL at once (line 682), else the untagged variant (NULL when the
lookup found none) and the scope after the call. When the body fails the error
label passes `&variant_declaration->p`, a local never assigned on that path. -/
def ctf_declaration_variant_visit_untagged (name : Option String)
    (declaration_list : List ctf_node) (has_body : Bool)
    (declaration_scope : declaration_scope) (trace : ctf_trace) :
    Except Fault (Option (Option declaration × Ctf.declaration_scope)) :=
  if !has_body then
    match name with
    | none => .error Fault.assert_failed
    | some _ =>
      .ok (some (lookup_variant_declaration (g_quark_from_string name) declaration_scope,
        declaration_scope))
  else
    if (match name with
        | some _ =>
          (lookup_variant_declaration (g_quark_from_string name) declaration_scope).isSome
        | none => false) then
      .ok none
    else
      match ctf_declaration_variant_visit_loop declaration_list
          (untagged_variant_declaration_new declaration_scope) trace with
      | .error e => .error e
      | .ok (ret, untagged_variant_declaration) =>
        if ret ≠ 0 then .error Fault.uninit_read
        else
          match name with
          | some _ =>
            match register_variant_declaration (g_quark_from_string name)
                untagged_variant_declaration.p declaration_scope with
            | (ret, declaration_scope) =>
              if ret ≠ 0 then .error Fault.assert_failed
              else .ok (some (some untagged_variant_declaration.p, declaration_scope))
          | none => .ok (some (some untagged_variant_declaration.p, declaration_scope))
termination_by 2 * sizeOf declaration_list + 1
decreasing_by
  all_goals simp_wf

/-- Source `ctf_declaration_variant_visit`: the declaration (NULL on failure)
and the scope `declaration_scope` after the call. -/
def ctf_declaration_variant_visit (name choice : Option String)
    (declaration_list : List ctf_node) (has_body : Bool)
    (declaration_scope : declaration_scope) (trace : ctf_trace) :
    Except Fault (Option declaration × Ctf.declaration_scope) :=
  match ctf_declaration_variant_visit_untagged name declaration_list has_body
      declaration_scope trace with
  | .error e => .error e
  | .ok none => .ok (none, declaration_scope)
  | .ok (some (untagged_variant_declaration, declaration_scope)) =>
    match choice with
    | none => .ok (untagged_variant_declaration, declaration_scope)
    | some choice =>
      match variant_declaration_new untagged_variant_declaration choice with
      | .error e => .error e
      | .ok none => .error Fault.null_deref
      | .ok (some variant_declaration) => .ok (some variant_declaration, declaration_scope)
termination_by 2 * sizeOf declaration_list + 2
decreasing_by
  all_goals simp_wf

/-- Source `ctf_declaration_enum_visit`: the declaration (NULL on failure) and
the scope `declaration_scope` after the call. -/
def ctf_declaration_enum_visit (name : Option String) (container_type : List ctf_node)
    (enumerator_list : List ctf_enumerator) (has_body : Bool)
    (declaration_scope : declaration_scope) (trace : ctf_trace) :
    Except Fault (Option declaration × Ctf.declaration_scope) :=
  if !has_body then
    match name with
    | none => .error Fault.assert_failed
    | some _ =>
      .ok (lookup_enum_declaration (g_quark_from_string name) declaration_scope,
        declaration_scope)
  else
    if (match name with
        | some _ =>
          (lookup_enum_declaration (g_quark_from_string name) declaration_scope).isSome
        | none => false) then
      .ok (none, declaration_scope)
    else
      match first_or_null container_type with
      | none => .ok (none, declaration_scope)
      | some first =>
        match first with
        | .NODE_INTEGER _ | .NODE_TYPE_SPECIFIER _ _ =>
          match ctf_type_declarator_visit container_type none none declaration_scope
              none trace with
          | .error e => .error e
          | .ok (declaration, _dummy_id, declaration_scope) =>
            match declaration with
            | none => .error Fault.null_deref
            | some integer_declaration =>
              if integer_declaration.id ≠ ctf_type_id.CTF_TYPE_INTEGER then
                .error Fault.assert_failed
              else
                match ctf_declaration_enum_visit_loop enumerator_list
                    (enum_declaration_new integer_declaration) with
                | .error e => .error e
                | .ok (ret, enum_declaration) =>
                  if ret ≠ 0 then .ok (none, declaration_scope)
                  else
                    match name with
                    | some _ =>
                      match register_enum_declaration (g_quark_from_string name)
                          enum_declaration.p declaration_scope with
                      | (ret, declaration_scope) =>
                        if ret ≠ 0 then .error Fault.assert_failed
                        else .ok (some enum_declaration.p, declaration_scope)
                    | none => .ok (some enum_declaration.p, declaration_scope)
        | _ => .error Fault.assert_failed
termination_by 2 * sizeOf container_type + 3
decreasing_by
  all_goals simp_wf
  all_goals omega

/-- Source `ctf_declaration_specifier_visit`: dispatches on the first node of
the specifier list. The result is the declaration (NULL on failure) and the
scope `declaration_scope` after the call. -/
def ctf_declaration_specifier_visit (head : List ctf_node)
    (declaration_scope : declaration_scope) (trace : ctf_trace) :
    Except Fault (Option declaration × Ctf.declaration_scope) :=
  match head with
  | [] => .error Fault.empty_list
  | first :: _ =>
    match first with
    | .NODE_STRUCT name declaration_list has_body =>
      ctf_declaration_struct_visit name declaration_list has_body declaration_scope trace
    | .NODE_VARIANT name choice declaration_list has_body =>
      ctf_declaration_variant_visit name choice declaration_list has_body
        declaration_scope trace
    | .NODE_ENUM enum_id container_type enumerator_list has_body =>
      ctf_declaration_enum_visit enum_id container_type enumerator_list has_body
        declaration_scope trace
    | .NODE_INTEGER expressions =>
      match ctf_declaration_integer_visit expressions trace with
      | .error e => .error e
      | .ok d => .ok (d, declaration_scope)
    | .NODE_FLOATING_POINT expressions =>
      match ctf_declaration_floating_point_visit expressions trace with
      | .error e => .error e
      | .ok d => .ok (d, declaration_scope)
    | .NODE_STRING expressions =>
      match ctf_declaration_string_visit expressions trace with
      | .error e => .error e
      | .ok d => .ok (d, declaration_scope)
    | .NODE_TYPE_SPECIFIER _ _ =>
      .ok (ctf_declaration_type_specifier_visit head declaration_scope, declaration_scope)
    | _ => .ok (none, declaration_scope)
termination_by 2 * sizeOf head
decreasing_by
  all_goals simp_wf
  all_goals omega

end

/-! ## Definitions used to state the properties -/

/-- The declarator `n[c_k]...[c_1]` as the AST nests it: the top node holds the
first length of the list, its sub-declarator is the chain of the other
lengths, and the identifier `n` is at the bottom. No node has pointers or a
bitfield length. -/
def array_declarator_chain (n : String) : List Nat → type_declarator
  | [] => .TYPEDEC_ID [] none (some n)
  | c :: cs =>
    .TYPEDEC_NESTED [] none (some (array_declarator_chain n cs))
      [.NODE_UNARY_EXPRESSION (.UNARY_UNSIGNED_CONSTANT c) .UNARY_LINK_UNKNOWN]

/-- The first node of a length list that names an integer type: an integer
node or a type specifier. -/
def is_length_type (first : ctf_node) : Prop :=
  (∃ e, first = ctf_node.NODE_INTEGER e) ∨ (∃ t i, first = ctf_node.NODE_TYPE_SPECIFIER t i)

/-- The token of a supported specifier node, in the words of the spec: the C
keyword of a built-in type specifier, the identifier of an ID type, and
`struct N`, `variant N`, `enum N` for a named aggregate. -/
def alias_token : ctf_node → Option String
  | .NODE_TYPE_SPECIFIER .TYPESPEC_VOID _ => some "void"
  | .NODE_TYPE_SPECIFIER .TYPESPEC_CHAR _ => some "char"
  | .NODE_TYPE_SPECIFIER .TYPESPEC_SHORT _ => some "short"
  | .NODE_TYPE_SPECIFIER .TYPESPEC_INT _ => some "int"
  | .NODE_TYPE_SPECIFIER .TYPESPEC_LONG _ => some "long"
  | .NODE_TYPE_SPECIFIER .TYPESPEC_FLOAT _ => some "float"
  | .NODE_TYPE_SPECIFIER .TYPESPEC_DOUBLE _ => some "double"
  | .NODE_TYPE_SPECIFIER .TYPESPEC_SIGNED _ => some "signed"
  | .NODE_TYPE_SPECIFIER .TYPESPEC_UNSIGNED _ => some "unsigned"
  | .NODE_TYPE_SPECIFIER .TYPESPEC_BOOL _ => some "bool"
  | .NODE_TYPE_SPECIFIER .TYPESPEC_COMPLEX _ => some "_Complex"
  | .NODE_TYPE_SPECIFIER .TYPESPEC_IMAGINARY _ => some "_Imaginary"
  | .NODE_TYPE_SPECIFIER .TYPESPEC_CONST _ => some "const"
  | .NODE_TYPE_SPECIFIER .TYPESPEC_ID_TYPE (some id) => some id
  | .NODE_ENUM (some id) _ _ _ => some ("enum " ++ id)
  | .NODE_VARIANT (some n) _ _ _ => some ("variant " ++ n)
  | .NODE_STRUCT (some n) _ _ => some ("struct " ++ n)
  | _ => none

/-- The tokens joined with single spaces, in the words of the spec. -/
def join_with_spaces : List String → String
  | [] => ""
  | [t] => t
  | t :: t2 :: ts => t ++ " " ++ join_with_spaces (t2 :: ts)

/-- The suffix of the pointers, in the words of the spec: `" *"` per pointer,
followed by `" const"` when the pointer is const-qualified. -/
def pointer_suffix : List Bool → String
  | [] => ""
  | c :: cs => " *" ++ (if c then " const" else "") ++ pointer_suffix cs

/-- The alias identifier in the words of the spec: the specifier tokens joined
with single spaces, then the suffix of the pointers. -/
def alias_identifier_string (tokens : List String) (pointers : List Bool) : String :=
  join_with_spaces tokens ++ pointer_suffix pointers

/-- Every token preceded by a space. -/
def spaced_tokens : List String → String
  | [] => ""
  | t :: ts => " " ++ t ++ spaced_tokens ts

/-- The resolver run over the declarators of one field declaration, in list
order: each call returns a declaration and leaves a name in `field_name`; the
names and declarations are collected in that order, and each call starts in
the scope the call before it left. -/
inductive declarators_resolve (trace : ctf_trace) (declaration_specifier : List ctf_node) :
    List type_declarator → Option GQuark → declaration_scope →
      List (GQuark × declaration) → declaration_scope → Prop
  | nil (field_name : Option GQuark) (scope : declaration_scope) :
      declarators_resolve trace declaration_specifier [] field_name scope [] scope
  | cons (iter : type_declarator) (rest : List type_declarator) (field_name : Option GQuark)
      (scope scope1 scope2 : declaration_scope) (n : GQuark) (D : declaration)
      (results : List (GQuark × declaration)) :
      ctf_type_declarator_visit declaration_specifier field_name (some iter) scope none trace
        = .ok (some D, some n, scope1) →
      declarators_resolve trace declaration_specifier rest (some n) scope1 results scope2 →
      declarators_resolve trace declaration_specifier (iter :: rest) field_name scope
        ((n, D) :: results) scope2

/-- A struct body whose items all elaborate, read in AST order from the inner
scope of the struct: a typedef or a typealias returns 0, and the declarators of
a field declaration all resolve; the names and declarations of the field
declarators are collected in that order. -/
inductive body_resolves (trace : ctf_trace) :
    List ctf_node → declaration_scope → List (GQuark × declaration) →
      declaration_scope → Prop
  | nil (scope : declaration_scope) : body_resolves trace [] scope [] scope
  | typedef (declaration_specifier : List ctf_node) (type_declarators : List type_declarator)
      (rest : List ctf_node) (scope scope1 scope2 : declaration_scope)
      (results : List (GQuark × declaration)) :
      ctf_typedef_visit scope declaration_specifier type_declarators trace none
        = .ok (0, scope1) →
      body_resolves trace rest scope1 results scope2 →
      body_resolves trace (.NODE_TYPEDEF declaration_specifier type_declarators :: rest)
        scope results scope2
  | typealias (target alias_node : ctf_typealias_part)
      (rest : List ctf_node) (scope scope1 scope2 : declaration_scope)
      (results : List (GQuark × declaration)) :
      ctf_typealias_visit scope target alias_node trace = .ok (0, scope1) →
      body_resolves trace rest scope1 results scope2 →
      body_resolves trace (.NODE_TYPEALIAS target alias_node :: rest) scope results scope2
  | field (declaration_specifier : List ctf_node) (type_declarators : List type_declarator)
      (rest : List ctf_node) (scope scope1 scope2 : declaration_scope)
      (fields results : List (GQuark × declaration)) :
      declarators_resolve trace declaration_specifier type_declarators none scope
        fields scope1 →
      body_resolves trace rest scope1 results scope2 →
      body_resolves trace
        (.NODE_STRUCT_OR_VARIANT_DECLARATION declaration_specifier type_declarators :: rest)
        scope (fields ++ results) scope2

/-- A specifier list made of type-specifier tokens: not empty, and every node
a type specifier of a known type. -/
def type_specifier_tokens (A : List ctf_node) : Prop :=
  A ≠ [] ∧ ∀ a ∈ A, ∃ ty id, a = ctf_node.NODE_TYPE_SPECIFIER ty id ∧
    ty ≠ typespec.TYPESPEC_UNKNOWN

/-- The scope `s` and its descendants down to a scope in which the name `q`
has not been registered as a type alias again on the way. -/
inductive descends_without (q : GQuark) (s : declaration_scope) : declaration_scope → Prop
  | self : descends_without q s s
  | child (t sd v e : List (GQuark × declaration)) (p : declaration_scope) :
      t.lookup q = none → descends_without q s p →
      descends_without q s (declaration_scope.mk t sd v e (some p))

/-! ### Inputs of the scenarios -/

/-- A trace whose byte order is little-endian. -/
def le_trace : ctf_trace := ⟨LITTLE_ENDIAN⟩

/-- A root scope with nothing registered. -/
def empty_root : declaration_scope := new_declaration_scope none

/-- An attribute `name = value` of an integer, float or string specifier. -/
def attribute_node (name : String) (value : unary_expression_type) : ctf_node :=
  .NODE_CTF_EXPRESSION [.NODE_UNARY_EXPRESSION (.UNARY_STRING name) .UNARY_LINK_UNKNOWN]
    [.NODE_UNARY_EXPRESSION value .UNARY_LINK_UNKNOWN]

/-- The specifier `integer { size = 32; signed = false; align = 32; }`. -/
def integer_32 : List ctf_node :=
  [.NODE_INTEGER [attribute_node "size" (.UNARY_UNSIGNED_CONSTANT 32),
    attribute_node "signed" (.UNARY_STRING "false"),
    attribute_node "align" (.UNARY_UNSIGNED_CONSTANT 32)]]

/-- The declaration of `integer { size = 32; signed = false; align = 32; }` in
a little-endian trace. -/
def uint32_declaration : declaration := declaration.integer 32 1234 0 32

/-- A root scope in which `uint32_t` is an alias of `uint32_declaration`. -/
def root_with_uint32 : declaration_scope :=
  declaration_scope.mk [(GQuark.of "uint32_t", uint32_declaration)] [] [] [] none

/-- The specifier `uint32_t`. -/
def uint32_t : List ctf_node := [.NODE_TYPE_SPECIFIER .TYPESPEC_ID_TYPE (some "uint32_t")]

/-- The specifier `int`. -/
def int_specifier : List ctf_node := [.NODE_TYPE_SPECIFIER .TYPESPEC_INT none]

/-- The field declaration `uint32_t n;`. -/
def uint32_field (n : String) : ctf_node :=
  .NODE_STRUCT_OR_VARIANT_DECLARATION uint32_t [.TYPEDEC_ID [] none (some n)]

/-- The body of `struct hdr { uint32_t magic; uint32_t version; }`. -/
def hdr_body : List ctf_node := [uint32_field "magic", uint32_field "version"]

/-- The body of `struct s { uint32_t x; uint32_t x; }`. -/
def duplicate_body : List ctf_node := [uint32_field "x", uint32_field "x"]

/-- The body of `struct s { int *p; }`. -/
def int_pointer_body : List ctf_node :=
  [.NODE_STRUCT_OR_VARIANT_DECLARATION int_specifier [.TYPEDEC_ID [⟨false⟩] none (some "p")]]

/-- An anonymous declarator without pointers. -/
def abstract_declarator : type_declarator := .TYPEDEC_ID [] none none

/-- An anonymous declarator with one pointer, not const-qualified. -/
def pointer_declarator : type_declarator := .TYPEDEC_ID [⟨false⟩] none none


/-! ### Attribute lists -/

/-- The name of an attribute `name = value`: the string of the first node of
the left side of the expression. -/
def attribute_name : ctf_node → Option String
  | .NODE_CTF_EXPRESSION (.NODE_UNARY_EXPRESSION (.UNARY_STRING s) _ :: _) _ => some s
  | _ => none

/-- The value of an attribute `name = value`: the unary expression at the head
of the right side of the expression. -/
def attribute_value : ctf_node → Option unary_expression_type
  | .NODE_CTF_EXPRESSION _ (.NODE_UNARY_EXPRESSION v _ :: _) => some v
  | _ => none

/-- An attribute as the AST holds it (spec section 6.1): an expression whose
left side starts with a string and whose right side starts with a unary
expression. -/
def is_attribute (e : ctf_node) : Prop :=
  (attribute_name e).isSome ∧ (attribute_value e).isSome

/-- The list has an attribute of that name. -/
def has_attribute (name : String) (expressions : List ctf_node) : Prop :=
  ∃ e ∈ expressions, attribute_name e = some name

/-- The alignment of an integer or float of `size` bits that has no `align`
attribute, in the words of the spec: 1 if the size is not a multiple of 8,
else 8. -/
def default_alignment (size : Nat) : Nat :=
  if size % 8 ≠ 0 then 1 else 8

/-- The byte-order strings of the spec. -/
def is_byte_order_string (s : String) : Prop :=
  s = "native" ∨ s = "network" ∨ s = "be" ∨ s = "le"

/-- A value that names a byte order: one of the four strings. -/
def is_byte_order_value : unary_expression_type → Prop
  | .UNARY_STRING s => is_byte_order_string s
  | _ => False

/-- A value that `signed` takes: a constant, or one of the strings `true`,
`TRUE`, `false`, `FALSE`. -/
def is_boolean_value : unary_expression_type → Prop
  | .UNARY_UNSIGNED_CONSTANT _ => True
  | .UNARY_SIGNED_CONSTANT _ => True
  | .UNARY_STRING s => s = "true" ∨ s = "TRUE" ∨ s = "false" ∨ s = "FALSE"
  | _ => False

/-- A value that is an unsigned constant. -/
def is_unsigned_value : unary_expression_type → Prop
  | .UNARY_UNSIGNED_CONSTANT _ => True
  | _ => False

/-- A well-formed attribute of an integer: `signed` with a boolean value,
`byte_order` with a byte-order string, `size` or `align` with an unsigned
constant. -/
def is_integer_attribute (e : ctf_node) : Prop :=
  ∃ name value, attribute_name e = some name ∧ attribute_value e = some value ∧
    ((name = "signed" ∧ is_boolean_value value) ∨
     (name = "byte_order" ∧ is_byte_order_value value) ∨
     (name = "size" ∧ is_unsigned_value value) ∨
     (name = "align" ∧ is_unsigned_value value))

/-- A well-formed attribute of a float: `byte_order` with a byte-order string,
`exp_dig`, `mant_dig` or `align` with an unsigned constant. -/
def is_float_attribute (e : ctf_node) : Prop :=
  ∃ name value, attribute_name e = some name ∧ attribute_value e = some value ∧
    ((name = "byte_order" ∧ is_byte_order_value value) ∨
     (name = "exp_dig" ∧ is_unsigned_value value) ∨
     (name = "mant_dig" ∧ is_unsigned_value value) ∨
     (name = "align" ∧ is_unsigned_value value))

/-- The byte order of a trace is one of the two byte orders. -/
def trace_byte_order_set (trace : ctf_trace) : Prop :=
  trace.byte_order = LITTLE_ENDIAN ∨ trace.byte_order = BIG_ENDIAN

/-- The attribute names of an integer. -/
def integer_attribute_names : List String := ["signed", "byte_order", "size", "align"]

/-- The attribute names of a float. -/
def float_attribute_names : List String := ["byte_order", "exp_dig", "mant_dig", "align"]

/-- The attribute names of a string. -/
def string_attribute_names : List String := ["encoding"]

/-! ### Enumerators -/

/-- A unary expression node. -/
def is_unary : ctf_node → Prop
  | .NODE_UNARY_EXPRESSION _ _ => True
  | _ => False

/-- A unary expression that is a signed or an unsigned constant. -/
def is_constant : ctf_node → Prop
  | .NODE_UNARY_EXPRESSION (.UNARY_SIGNED_CONSTANT _) _ => True
  | .NODE_UNARY_EXPRESSION (.UNARY_UNSIGNED_CONSTANT _) _ => True
  | _ => False

/-- A unary expression that is a signed constant. -/
def is_signed_constant : ctf_node → Prop
  | .NODE_UNARY_EXPRESSION (.UNARY_SIGNED_CONSTANT _) _ => True
  | _ => False

/-- The value of a constant that an unsigned container admits: an unsigned
constant. -/
def unsigned_container_value : ctf_node → Option Nat
  | .NODE_UNARY_EXPRESSION (.UNARY_UNSIGNED_CONSTANT v) _ => some v
  | _ => none

/-- The value of a constant that a signed container admits as written: a
signed constant, or an unsigned constant that `int64_t` holds. -/
def signed_container_value : ctf_node → Option Int
  | .NODE_UNARY_EXPRESSION (.UNARY_SIGNED_CONSTANT v) _ => some v
  | .NODE_UNARY_EXPRESSION (.UNARY_UNSIGNED_CONSTANT v) _ =>
    if v < 2 ^ 63 then some (v : Int) else none
  | _ => none

/-- The value an enumerator of a signed container stores for a constant: a
signed constant as it is, an unsigned constant converted to `int64_t`. -/
def signed_stored_value : ctf_node → Option Int
  | .NODE_UNARY_EXPRESSION (.UNARY_SIGNED_CONSTANT v) _ => some v
  | .NODE_UNARY_EXPRESSION (.UNARY_UNSIGNED_CONSTANT v) _ => some (to_int64 v)
  | _ => none

/-- The range of an enumerator in the words of the spec: `[v, v]` for a value
list of one constant, `[start, end]` for a list of two, for a signed container
(`signed = true`) or an unsigned one; `none` for any other value list. -/
def enumerator_range (signed : Bool) : ctf_enumerator → Option (enum_range × GQuark)
  | .mk id [n1] =>
    if signed then
      match signed_stored_value n1 with
      | some v => some (enum_range.signed v v, g_quark_from_string id)
      | none => none
    else
      match unsigned_container_value n1 with
      | some v => some (enum_range.unsigned v v, g_quark_from_string id)
      | none => none
  | .mk id [n1, n2] =>
    if signed then
      match signed_stored_value n1, signed_stored_value n2 with
      | some a, some b => some (enum_range.signed a b, g_quark_from_string id)
      | _, _ => none
    else
      match unsigned_container_value n1, unsigned_container_value n2 with
      | some a, some b => some (enum_range.unsigned a b, g_quark_from_string id)
      | _, _ => none
  | _ => none

/-- A unary expression of that type, with no link. -/
def unary_node (type : unary_expression_type) : ctf_node :=
  .NODE_UNARY_EXPRESSION type .UNARY_LINK_UNKNOWN

/-- The enumerators `IDLE = 0, RUN = 1 ... 3, ERR = 255`. -/
def state_enumerators : List ctf_enumerator :=
  [.mk (some "IDLE") [unary_node (.UNARY_UNSIGNED_CONSTANT 0)],
   .mk (some "RUN") [unary_node (.UNARY_UNSIGNED_CONSTANT 1),
     unary_node (.UNARY_UNSIGNED_CONSTANT 3)],
   .mk (some "ERR") [unary_node (.UNARY_UNSIGNED_CONSTANT 255)]]

/-- The declaration of `integer { size = 8; signed = false; }` in a
little-endian trace. -/
def uint8_declaration : declaration := declaration.integer 8 1234 0 8

/-- A root scope in which `uint8_t` is an alias of `uint8_declaration` and
`str_t` an alias of a string declaration. -/
def root_with_uint8 : declaration_scope :=
  declaration_scope.mk
    [(GQuark.of "uint8_t", uint8_declaration),
     (GQuark.of "str_t", declaration.string .CTF_STRING_UTF8)] [] [] [] none

/-- The specifier `uint8_t`. -/
def uint8_t : List ctf_node := [.NODE_TYPE_SPECIFIER .TYPESPEC_ID_TYPE (some "uint8_t")]

/-- The specifier `str_t`. -/
def str_t : List ctf_node := [.NODE_TYPE_SPECIFIER .TYPESPEC_ID_TYPE (some "str_t")]

/-- The specifier `undefined_t`, an alias of nothing in `root_with_uint8`. -/
def undefined_t : List ctf_node :=
  [.NODE_TYPE_SPECIFIER .TYPESPEC_ID_TYPE (some "undefined_t")]

/-! ## Traces, streams and events

The trace, stream and event visitors of the source. `struct ctf_trace`,
`struct ctf_stream`, `struct ctf_event` and the field-mask macros are declared
in `babeltrace/ctf/metadata.h`, which is not under src/; their fields are the
ones the visitors read and write. The arrays and the hash table are GLib's.

* A `GPtrArray` is the list of its pointers, NULL pointers included.
* A pointer to a stream of the trace is the index of its slot in
  `trace->streams`; the visitors only obtain such a pointer from
  `trace_stream_lookup`.
* An array holds a pointer to the stream or event stored in it, so it shows
  the object as the visitor leaves it. -/

/-- GLib `g_ptr_array_set_size`: the array cut, or filled up with NULL
pointers, to `length` entries. The parameter is a `gint`; a negative length
is no size. -/
def g_ptr_array_set_size {α : Type} (array : List (Option α)) (length : Int) :
    Except Fault (List (Option α)) :=
  if length < 0 then .error Fault.out_of_bounds
  else .ok (array.take length.toNat ++ List.replicate (length.toNat - array.length) none)

/-- The assignment `g_ptr_array_index(array, index) = pointer`: a write into
the pointer data of the array, which has `array->len` entries. -/
def g_ptr_array_index_assign {α : Type} (array : List (Option α)) (index : Nat)
    (pointer : Option α) : Except Fault (List (Option α)) :=
  if index < array.length then .ok (array.set index pointer)
  else .error Fault.out_of_bounds

/-- The value `g_ptr_array_index(array, index)` of an index below the length. -/
def g_ptr_array_index {α : Type} (array : List (Option α)) (index : Nat) : Option α :=
  (array.get? index).join

/-- The hash and equality functions a GLib hash table is created with. -/
inductive GHashFunc where
  /-- `g_int_hash`, `g_int_equal`: a key is a pointer to a `gint`, which the
  functions read. -/
  | g_int_hash
  /-- `g_direct_hash`, `g_direct_equal`: a key is the pointer value itself. -/
  | g_direct_hash
deriving DecidableEq, Repr

/-- A GLib hash table whose keys are quarks cast to pointers and whose values
point to event ids: the functions it was created with and its entries. -/
structure GHashTable where
  hash_func : GHashFunc
  entries : List (GQuark × Nat)

/-- GLib `g_hash_table_new`. -/
def g_hash_table_new (hash_func : GHashFunc) : GHashTable :=
  ⟨hash_func, []⟩

/-- GLib `g_hash_table_insert` with a key that is a quark cast to a pointer,
`(gpointer)(unsigned long) quark`. A table created with `g_int_hash` hashes
the key by reading the `gint` it points to, and a quark cast to a pointer
points to no object. -/
def g_hash_table_insert (hash_table : GHashTable) (key : GQuark) (value : Nat) :
    Except Fault GHashTable :=
  match hash_table.hash_func with
  | .g_int_hash => .error Fault.bad_pointer
  | .g_direct_hash =>
    .ok ⟨hash_table.hash_func,
      (key, value) :: hash_table.entries.filter (fun entry => entry.1 ≠ key)⟩

/-- GLib `g_hash_table_lookup` with a key that is a quark cast to a pointer. -/
def g_hash_table_lookup (hash_table : GHashTable) (key : GQuark) : Except Fault (Option Nat) :=
  match hash_table.hash_func with
  | .g_int_hash => .error Fault.bad_pointer
  | .g_direct_hash => .ok (hash_table.entries.lookup key)

/-- Modelled from the spec: a definition scope of the types library, not under
src/ (spec section 4.7): the definition it belongs to, by its declaration and
its name, and the scope it is chained to. -/
inductive definition_scope where
  | mk (declaration : declaration) (name : Option String) (parent_scope : Option definition_scope)

/-- Modelled from the spec: a struct definition of the types library, not
under src/: the materialised instance of a struct declaration, with its
definition scope. -/
structure definition_struct where
  declaration : declaration
  scope : definition_scope

/-- Modelled from the spec: the `definition_new` hook of a declaration, of the
types library, not under src/ (spec section 4.7: `instantiate(parent_def_scope,
0, 0)`). -/
def definition_new (declaration : declaration) (parent_scope : Option definition_scope) :
    definition_struct :=
  ⟨declaration, .mk declaration none parent_scope⟩

/-- Modelled from the spec: `set_dynamic_definition_scope` of the types library,
not under src/ (spec section 4.7: the definition is named). -/
def set_dynamic_definition_scope (definition : definition_struct) (name : String) :
    definition_struct :=
  match definition.scope with
  | .mk declaration _ parent_scope => ⟨definition.declaration, .mk declaration (some name) parent_scope⟩

/-- The mandatory fields of an event (`CTF_EVENT_name`, ...). -/
inductive ctf_event_field where
  | name
  | id
  | stream_id
deriving DecidableEq, Repr

/-- The mandatory field of a stream (`CTF_STREAM_stream_id`). -/
inductive ctf_stream_field where
  | stream_id
deriving DecidableEq, Repr

/-- The mandatory fields of a trace (`CTF_TRACE_major`, ...). -/
inductive ctf_trace_field where
  | major
  | minor
  | uuid
  | word_size
deriving DecidableEq, Repr

/-- Modelled from the spec: `struct ctf_event` of `babeltrace/ctf/metadata.h`,
not under src/ (spec section 3.4). `stream` points to a stream of the trace.
`field_mask` holds the fields that are set. -/
structure ctf_event where
  declaration_scope : declaration_scope
  context_decl : Option declaration
  fields_decl : Option declaration
  context : Option definition_struct
  fields : Option definition_struct
  name : GQuark
  id : Nat
  stream_id : Nat
  stream : Option Nat
  field_mask : List ctf_event_field

/-- Modelled from the spec: `struct ctf_stream` of `babeltrace/ctf/metadata.h`,
not under src/ (spec section 3.4). -/
structure ctf_stream where
  declaration_scope : declaration_scope
  events_by_id : List (Option ctf_event)
  event_quark_to_id : GHashTable
  packet_context_decl : Option declaration
  event_header_decl : Option declaration
  event_context_decl : Option declaration
  packet_context : Option definition_struct
  event_header : Option definition_struct
  event_context : Option definition_struct
  definition_scope : Option definition_scope
  stream_id : Nat
  field_mask : List ctf_stream_field

/-- Modelled from the spec: `struct ctf_trace` of `babeltrace/ctf/metadata.h`
in full, not under src/ (spec section 3.4): `ctf_trace`, the part the
declaration visitors read, and the fields the trace, stream and event visitors
read and write. The root scope exists when the visitor is entered (spec section
6.2); the scope of the trace block and the streams array are NULL until a
trace block is visited. -/
structure struct_ctf_trace extends ctf_trace where
  major : Nat
  minor : Nat
  uuid : List Nat
  word_size : Nat
  field_mask : List ctf_trace_field
  root_declaration_scope : declaration_scope
  declaration_scope : Option declaration_scope
  streams : Option (List (Option ctf_stream))

/-- Modelled from the spec: the macro `CTF_EVENT_FIELD_IS_SET` of
`babeltrace/ctf/metadata.h`, not under src/ (spec section 3.4: presence is
tracked with a bitset). -/
def CTF_EVENT_FIELD_IS_SET (event : ctf_event) (field : ctf_event_field) : Bool :=
  decide (field ∈ event.field_mask)

/-- Modelled from the spec: the macro `CTF_EVENT_SET_FIELD`. -/
def CTF_EVENT_SET_FIELD (event : ctf_event) (field : ctf_event_field) : ctf_event :=
  { event with field_mask := field :: event.field_mask }

/-- Modelled from the spec: the macro `CTF_STREAM_FIELD_IS_SET`. -/
def CTF_STREAM_FIELD_IS_SET (stream : ctf_stream) (field : ctf_stream_field) : Bool :=
  decide (field ∈ stream.field_mask)

/-- Modelled from the spec: the macro `CTF_STREAM_SET_FIELD`. -/
def CTF_STREAM_SET_FIELD (stream : ctf_stream) (field : ctf_stream_field) : ctf_stream :=
  { stream with field_mask := field :: stream.field_mask }

/-- Modelled from the spec: the macro `CTF_TRACE_FIELD_IS_SET`. -/
def CTF_TRACE_FIELD_IS_SET (trace : struct_ctf_trace) (field : ctf_trace_field) : Bool :=
  decide (field ∈ trace.field_mask)

/-- Modelled from the spec: the macro `CTF_TRACE_SET_FIELD`. -/
def CTF_TRACE_SET_FIELD (trace : struct_ctf_trace) (field : ctf_trace_field) :
    struct_ctf_trace :=
  { trace with field_mask := field :: trace.field_mask }

/-- The loop of `concatenate_unary_strings`, entered with the string so far and
the count `i`. -/
def concatenate_unary_strings_loop : List ctf_node → String → Int → Except Fault String
  | [], str, _ => .ok str
  | node :: rest, str, i =>
    match node with
    | .NODE_UNARY_EXPRESSION type link =>
      match type with
      | .UNARY_STRING src_string =>
        if xor (decide (link = unary_link.UNARY_LINK_UNKNOWN)) (decide (i ≠ 0)) then
          let str :=
            match link with
            | .UNARY_DOTLINK => str ++ "."
            | .UNARY_ARROWLINK => str ++ "->"
            | .UNARY_DOTDOTDOT => str ++ "..."
            | _ => str
          concatenate_unary_strings_loop rest (str ++ src_string) (i + 1)
        else .error Fault.assert_failed
      | _ => .error Fault.assert_failed
    | _ => .error Fault.assert_failed

/-- Source `concatenate_unary_strings`: the strings of the list, each after
the text of its link. -/
def concatenate_unary_strings (head : List ctf_node) : Except Fault String :=
  concatenate_unary_strings_loop head "" 0

/-- The loop of `get_unary_unsigned`, on `*value` and the count `i`. -/
def get_unary_unsigned_loop : List ctf_node → Nat → Int → Except Fault Nat
  | [], value, _ => .ok value
  | node :: rest, _value, i =>
    match node with
    | .NODE_UNARY_EXPRESSION type link =>
      match type with
      | .UNARY_UNSIGNED_CONSTANT unsigned_constant =>
        if link ≠ unary_link.UNARY_LINK_UNKNOWN then .error Fault.assert_failed
        else if i ≠ 0 then .error Fault.assert_failed
        else get_unary_unsigned_loop rest unsigned_constant (i + 1)
      | _ => .error Fault.assert_failed
    | _ => .error Fault.assert_failed

/-- Source `get_unary_unsigned`: the return code, which is 0, and `*value`
after the call. -/
def get_unary_unsigned (head : List ctf_node) (value : Nat) : Except Fault (Int × Nat) :=
  match get_unary_unsigned_loop head value 0 with
  | .error e => .error e
  | .ok value => .ok (0, value)

/-- The value of a hexadecimal digit. -/
def hex_digit_value (c : Char) : Option Nat :=
  if '0' ≤ c ∧ c ≤ '9' then some (c.toNat - '0'.toNat)
  else if 'a' ≤ c ∧ c ≤ 'f' then some (c.toNat - 'a'.toNat + 10)
  else if 'A' ≤ c ∧ c ≤ 'F' then some (c.toNat - 'A'.toNat + 10)
  else none

/-- The hexadecimal digits of a UUID text read from position `i`: hyphens at
positions 8, 13, 18 and 23, hexadecimal digits elsewhere. -/
def uuid_parse_digits : List Char → Nat → Option (List Nat)
  | [], _ => some []
  | c :: cs, i =>
    if i = 8 ∨ i = 13 ∨ i = 18 ∨ i = 23 then
      if c = '-' then uuid_parse_digits cs (i + 1) else none
    else
      match hex_digit_value c, uuid_parse_digits cs (i + 1) with
      | some d, some ds => some (d :: ds)
      | _, _ => none

/-- Pairs of hexadecimal digits as bytes. -/
def uuid_pack : List Nat → List Nat
  | hi :: lo :: rest => (16 * hi + lo) :: uuid_pack rest
  | _ => []

/-- The function `uuid_parse` of libuuid: the 16 bytes of a UUID in its
standard text form of 36 characters, or `none` where it returns -1. -/
def uuid_parse (s : String) : Option (List Nat) :=
  if s.length ≠ 36 then none
  else
    match uuid_parse_digits s.toList 0 with
    | none => none
    | some digits => some (uuid_pack digits)

/-- The loop of `get_unary_uuid`, on `ret`, `*uuid` and the count `i`. -/
def get_unary_uuid_loop : List ctf_node → Int → List Nat → Int → Except Fault (Int × List Nat)
  | [], ret, uuid, _ => .ok (ret, uuid)
  | node :: rest, _ret, uuid, i =>
    match node with
    | .NODE_UNARY_EXPRESSION type link =>
      match type with
      | .UNARY_STRING src_string =>
        if link ≠ unary_link.UNARY_LINK_UNKNOWN then .error Fault.assert_failed
        else if i ≠ 0 then .error Fault.assert_failed
        else
          match uuid_parse src_string with
          | none => get_unary_uuid_loop rest (-1) uuid i
          | some parsed => get_unary_uuid_loop rest 0 parsed i
      | _ => .error Fault.assert_failed
    | _ => .error Fault.assert_failed

/-- Source `get_unary_uuid`: the return code and `*uuid` after the call. The
loop does not count its turns. -/
def get_unary_uuid (head : List ctf_node) (uuid : List Nat) :
    Except Fault (Int × List Nat) :=
  get_unary_uuid_loop head (-1) uuid 0

/-- Source `trace_stream_lookup`: the stream the slot `stream_id` of
`trace->streams` points to, NULL when the array is too short. -/
def trace_stream_lookup (trace : struct_ctf_trace) (stream_id : Nat) :
    Except Fault (Option ctf_stream) :=
  match trace.streams with
  | none => .error Fault.null_deref
  | some streams =>
    if streams.length ≤ stream_id then .ok none
    else .ok (g_ptr_array_index streams stream_id)

/-! ### The visitors of the blocks

`declaration_unref` and the functions that free a scope, an array or a hash
table belong to libraries that are not under src/. The release of storage is
not part of the embedding: an object that was freed is simply not part of the
result. `declaration_unref` on a declaration returns; on the NULL declaration
of a slot that was never assigned it is a fault, as it is for every library
call that reads or writes the reference count of a declaration. The paths that
return 0 test each slot before they release it (lines 1335, 1347, 1479, 1491,
1503); the labels `error` do not. -/

/-- The loop `cds_list_for_each_entry(iter, head, siblings)` of a block
visitor, whose body calls `visit` on the child and leaves the loop when the
return code is not 0: the return code of the first failing child, or 0, and
the state after the loop. -/
def visit_each {σ : Type} (visit : ctf_node → σ → Except Fault (Int × σ)) :
    List ctf_node → σ → Except Fault (Int × σ)
  | [], state => .ok (0, state)
  | iter :: rest, state =>
    match visit iter state with
    | .error e => .error e
    | .ok (ret, state) => if ret ≠ 0 then .ok (ret, state) else visit_each visit rest state

/-- Source `ctf_event_declaration_visit`: the return code and the event after
the call. -/
def ctf_event_declaration_visit (node : ctf_node) (event : ctf_event)
    (trace : struct_ctf_trace) : Except Fault (Int × ctf_event) :=
  match node with
  | .NODE_TYPEDEF declaration_specifier type_declarators =>
    match ctf_typedef_visit event.declaration_scope declaration_specifier
        type_declarators trace.toctf_trace none with
    | .error e => .error e
    | .ok (ret, scope) =>
      if ret ≠ 0 then .ok (ret, { event with declaration_scope := scope })
      else .ok (0, { event with declaration_scope := scope })
  | .NODE_TYPEALIAS target alias_node =>
    match ctf_typealias_visit event.declaration_scope target alias_node
        trace.toctf_trace with
    | .error e => .error e
    | .ok (ret, scope) =>
      if ret ≠ 0 then .ok (ret, { event with declaration_scope := scope })
      else .ok (0, { event with declaration_scope := scope })
  | .NODE_CTF_EXPRESSION left right =>
    match concatenate_unary_strings left with
    | .error e => .error e
    | .ok left =>
      if left = "name" then
        if CTF_EVENT_FIELD_IS_SET event .name then .ok (-EPERM, event)
        else
          match concatenate_unary_strings right with
          | .error e => .error e
          | .ok right =>
            .ok (0, CTF_EVENT_SET_FIELD
              { event with name := g_quark_from_string (some right) } .name)
      else if left = "id" then
        if CTF_EVENT_FIELD_IS_SET event .id then .ok (-EPERM, event)
        else
          match get_unary_unsigned right event.id with
          | .error e => .error e
          | .ok (ret, id) =>
            if ret ≠ 0 then .ok (-EINVAL, { event with id := id })
            else .ok (0, CTF_EVENT_SET_FIELD { event with id := id } .id)
      else if left = "stream_id" then
        if CTF_EVENT_FIELD_IS_SET event .stream_id then .ok (-EPERM, event)
        else
          match get_unary_unsigned right event.stream_id with
          | .error e => .error e
          | .ok (ret, stream_id) =>
            if ret ≠ 0 then .ok (-EINVAL, { event with stream_id := stream_id })
            else
              match trace_stream_lookup trace stream_id with
              | .error e => .error e
              | .ok none =>
                .ok (-EINVAL, { event with stream_id := stream_id, stream := none })
              | .ok (some _) =>
                .ok (0, CTF_EVENT_SET_FIELD
                  { event with stream_id := stream_id, stream := some stream_id }
                  .stream_id)
      else if left = "context" then
        match ctf_declaration_specifier_visit right event.declaration_scope
            trace.toctf_trace with
        | .error e => .error e
        | .ok (none, scope) => .ok (-EPERM, { event with declaration_scope := scope })
        | .ok (some declaration, scope) =>
          if declaration.id ≠ ctf_type_id.CTF_TYPE_STRUCT then
            .ok (-EPERM, { event with declaration_scope := scope })
          else
            .ok (0, { event with declaration_scope := scope,
                                 context_decl := some declaration })
      else if left = "fields" then
        match ctf_declaration_specifier_visit right event.declaration_scope
            trace.toctf_trace with
        | .error e => .error e
        | .ok (none, scope) => .ok (-EPERM, { event with declaration_scope := scope })
        | .ok (some declaration, scope) =>
          if declaration.id ≠ ctf_type_id.CTF_TYPE_STRUCT then
            .ok (-EPERM, { event with declaration_scope := scope })
          else
            .ok (0, { event with declaration_scope := scope,
                                 fields_decl := some declaration })
      else .ok (0, event)
  | _ => .ok (-EPERM, event)

/-- The loop of `ctf_event_visit` over the children of the block: the return
code of the first failing child, or 0, and the event after the loop. -/
def ctf_event_visit_loop (declaration_list : List ctf_node) (event : ctf_event)
    (trace : struct_ctf_trace) : Except Fault (Int × ctf_event) :=
  visit_each (fun iter event => ctf_event_declaration_visit iter event trace)
    declaration_list event

/-- The event `g_new0` allocates, with the scope `ctf_event_visit` gives it. -/
def ctf_event_new (parent_declaration_scope : Option declaration_scope) : ctf_event :=
  { declaration_scope := new_declaration_scope parent_declaration_scope,
    context_decl := none, fields_decl := none, context := none, fields := none,
    name := GQuark.zero, id := 0, stream_id := 0, stream := none, field_mask := [] }

/-- Lines 1334-1358 of `ctf_event_visit`: the definitions of the context and
of the fields, chained from the definition scope of the stream. -/
def ctf_event_definitions (event : ctf_event) (parent_def_scope : Option definition_scope) :
    ctf_event :=
  let context :=
    match event.context_decl with
    | some context_decl =>
      some (set_dynamic_definition_scope (definition_new context_decl parent_def_scope)
        "event.context")
    | none => event.context
  let parent_def_scope :=
    match context, event.context_decl with
    | some context, some _ => some context.scope
    | _, _ => parent_def_scope
  let fields :=
    match event.fields_decl with
    | some fields_decl =>
      some (set_dynamic_definition_scope (definition_new fields_decl parent_def_scope)
        "event.fields")
    | none => event.fields
  { event with context := context, fields := fields }

/-- Lines 1328-1333 of `ctf_event_visit`: the event is stored in the array and
in the hash table of its stream. `event` is the event as the visit leaves it.
The size handed to `g_ptr_array_set_size` is `event->id + 1`, an `uint64_t`,
converted to the `gint` of the parameter. -/
def ctf_event_insert (stream : ctf_stream) (event : ctf_event) : Except Fault ctf_stream :=
  match (if stream.events_by_id.length ≤ event.id then
      g_ptr_array_set_size stream.events_by_id (to_int (((event.id + 1) % 2 ^ 64 : Nat) : Int))
    else .ok stream.events_by_id) with
  | .error e => .error e
  | .ok events_by_id =>
    match g_ptr_array_index_assign events_by_id event.id (some event) with
    | .error e => .error e
    | .ok events_by_id =>
      match g_hash_table_insert stream.event_quark_to_id event.name event.id with
      | .error e => .error e
      | .ok event_quark_to_id =>
        .ok { stream with events_by_id := events_by_id,
                          event_quark_to_id := event_quark_to_id }

/-- Modelled from the spec: `declaration_unref` of the types library, not under
src/ (spec section 3.2: every declaration is reference-counted). It releases
one reference, which writes the reference count of the declaration, so a NULL
declaration is a fault, as for the library calls that take a reference. The
declarations of this model carry no count: on a declaration the call returns. -/
def declaration_unref (declaration : Option declaration) : Except Fault Unit :=
  match declaration with
  | none => .error Fault.null_deref
  | some _ => .ok ()

/-- The label `error` of `ctf_event_visit` (lines 1361-1366): `declaration_unref`
on the slot `fields_decl`, then on the slot `context_decl`, neither tested
against NULL, then the event is freed and `ret` returned; the trace is as it
was. -/
def ctf_event_visit_error (event : ctf_event) (ret : Int) (trace : struct_ctf_trace) :
    Except Fault (Int × struct_ctf_trace) :=
  match declaration_unref event.fields_decl with
  | .error e => .error e
  | .ok _ =>
    match declaration_unref event.context_decl with
    | .error e => .error e
    | .ok _ => .ok (ret, trace)

/-- Source `ctf_event_visit`: the return code and the trace after the call.
Every error goes through the label `error`. -/
def ctf_event_visit (node : ctf_node) (parent_declaration_scope : Option declaration_scope)
    (trace : struct_ctf_trace) : Except Fault (Int × struct_ctf_trace) :=
  match node with
  | .NODE_EVENT declaration_list =>
    match ctf_event_visit_loop declaration_list (ctf_event_new parent_declaration_scope)
        trace with
    | .error e => .error e
    | .ok (ret, event) =>
      if ret ≠ 0 then ctf_event_visit_error event ret trace
      else if !CTF_EVENT_FIELD_IS_SET event .name then
        ctf_event_visit_error event (-EPERM) trace
      else if !CTF_EVENT_FIELD_IS_SET event .id then
        ctf_event_visit_error event (-EPERM) trace
      else if !CTF_EVENT_FIELD_IS_SET event .stream_id then
        ctf_event_visit_error event (-EPERM) trace
      else
        match event.stream, trace.streams with
        | some index, some streams =>
          match g_ptr_array_index streams index with
          | none => .error Fault.null_deref
          | some stream =>
            match ctf_event_insert stream
                (ctf_event_definitions event stream.definition_scope) with
            | .error e => .error e
            | .ok stream =>
              .ok (0, { trace with streams := some (streams.set index (some stream)) })
        | _, _ => .error Fault.null_deref
  | _ => .error Fault.union_misread

/-- Source `ctf_stream_declaration_visit`: the return code and the stream after
the call. -/
def ctf_stream_declaration_visit (node : ctf_node) (stream : ctf_stream)
    (trace : struct_ctf_trace) : Except Fault (Int × ctf_stream) :=
  match node with
  | .NODE_TYPEDEF declaration_specifier type_declarators =>
    match ctf_typedef_visit stream.declaration_scope declaration_specifier
        type_declarators trace.toctf_trace none with
    | .error e => .error e
    | .ok (ret, scope) =>
      if ret ≠ 0 then .ok (ret, { stream with declaration_scope := scope })
      else .ok (0, { stream with declaration_scope := scope })
  | .NODE_TYPEALIAS target alias_node =>
    match ctf_typealias_visit stream.declaration_scope target alias_node
        trace.toctf_trace with
    | .error e => .error e
    | .ok (ret, scope) =>
      if ret ≠ 0 then .ok (ret, { stream with declaration_scope := scope })
      else .ok (0, { stream with declaration_scope := scope })
  | .NODE_CTF_EXPRESSION left right =>
    match concatenate_unary_strings left with
    | .error e => .error e
    | .ok left =>
      if left = "stream_id" then
        if CTF_STREAM_FIELD_IS_SET stream .stream_id then .ok (-EPERM, stream)
        else
          match get_unary_unsigned right stream.stream_id with
          | .error e => .error e
          | .ok (ret, stream_id) =>
            if ret ≠ 0 then .ok (-EINVAL, { stream with stream_id := stream_id })
            else .ok (0, CTF_STREAM_SET_FIELD { stream with stream_id := stream_id }
              .stream_id)
      else if left = "event.header" then
        match ctf_declaration_specifier_visit right stream.declaration_scope
            trace.toctf_trace with
        | .error e => .error e
        | .ok (none, scope) => .ok (-EPERM, { stream with declaration_scope := scope })
        | .ok (some declaration, scope) =>
          if declaration.id ≠ ctf_type_id.CTF_TYPE_STRUCT then
            .ok (-EPERM, { stream with declaration_scope := scope })
          else
            .ok (0, { stream with declaration_scope := scope,
                                  event_header_decl := some declaration })
      else if left = "event.context" then
        match ctf_declaration_specifier_visit right stream.declaration_scope
            trace.toctf_trace with
        | .error e => .error e
        | .ok (none, scope) => .ok (-EPERM, { stream with declaration_scope := scope })
        | .ok (some declaration, scope) =>
          if declaration.id ≠ ctf_type_id.CTF_TYPE_STRUCT then
            .ok (-EPERM, { stream with declaration_scope := scope })
          else
            .ok (0, { stream with declaration_scope := scope,
                                  event_context_decl := some declaration })
      else if left = "packet.context" then
        match ctf_declaration_specifier_visit right stream.declaration_scope
            trace.toctf_trace with
        | .error e => .error e
        | .ok (none, scope) => .ok (-EPERM, { stream with declaration_scope := scope })
        | .ok (some declaration, scope) =>
          if declaration.id ≠ ctf_type_id.CTF_TYPE_STRUCT then
            .ok (-EPERM, { stream with declaration_scope := scope })
          else
            .ok (0, { stream with declaration_scope := scope,
                                  packet_context_decl := some declaration })
      else .ok (0, stream)
  | _ => .ok (-EPERM, stream)

/-- The loop of `ctf_stream_visit` over the children of the block. -/
def ctf_stream_visit_loop (declaration_list : List ctf_node) (stream : ctf_stream)
    (trace : struct_ctf_trace) : Except Fault (Int × ctf_stream) :=
  visit_each (fun iter stream => ctf_stream_declaration_visit iter stream trace)
    declaration_list stream

/-- The stream `g_new0` allocates, with the scope, the array and the hash
table `ctf_stream_visit` gives it (lines 1461-1464). -/
def ctf_stream_new (parent_declaration_scope : Option declaration_scope) : ctf_stream :=
  { declaration_scope := new_declaration_scope parent_declaration_scope,
    events_by_id := [],
    event_quark_to_id := g_hash_table_new GHashFunc.g_int_hash,
    packet_context_decl := none, event_header_decl := none, event_context_decl := none,
    packet_context := none, event_header := none, event_context := none,
    definition_scope := none, stream_id := 0, field_mask := [] }

/-- One step of lines 1479-1514 of `ctf_stream_visit`: the definition of a
declaration slot, when the slot is assigned, and `parent_def_scope` after it. -/
def ctf_stream_definition (decl : Option declaration) (definition : Option definition_struct)
    (name : String) (parent_def_scope : Option definition_scope) :
    Option definition_struct × Option definition_scope :=
  match decl with
  | some decl =>
    let definition := set_dynamic_definition_scope (definition_new decl parent_def_scope) name
    (some definition, some definition.scope)
  | none => (definition, parent_def_scope)

/-- Lines 1478-1515 of `ctf_stream_visit`: the definitions of the packet
context, the event header and the event context, in that order, each chained
to the one before it. -/
def ctf_stream_definitions (stream : ctf_stream) : ctf_stream :=
  let packet_context := ctf_stream_definition stream.packet_context_decl
    stream.packet_context "stream.packet.context" none
  let event_header := ctf_stream_definition stream.event_header_decl
    stream.event_header "stream.event.header" packet_context.2
  let event_context := ctf_stream_definition stream.event_context_decl
    stream.event_context "stream.event.context" event_header.2
  { stream with packet_context := packet_context.1, event_header := event_header.1,
                event_context := event_context.1, definition_scope := event_context.2 }

/-- Lines 1474-1476 of `ctf_stream_visit`: the stream is stored in the array
of the trace. `stream` is the stream as the visit leaves it. The size handed
to `g_ptr_array_set_size` is `stream->stream_id + 1`, an `uint64_t`, converted
to the `gint` of the parameter. -/
def ctf_stream_insert (streams : List (Option ctf_stream)) (stream : ctf_stream) :
    Except Fault (List (Option ctf_stream)) :=
  match (if streams.length ≤ stream.stream_id then
      g_ptr_array_set_size streams (to_int (((stream.stream_id + 1) % 2 ^ 64 : Nat) : Int))
    else .ok streams) with
  | .error e => .error e
  | .ok streams => g_ptr_array_index_assign streams stream.stream_id (some stream)

/-- The label `error` of `ctf_stream_visit` (lines 1519-1527):
`declaration_unref` on the slots `event_header_decl`, `event_context_decl` and
`packet_context_decl`, in that order, none tested against NULL, then the stream
is freed and `ret` returned; the trace is as it was. -/
def ctf_stream_visit_error (stream : ctf_stream) (ret : Int) (trace : struct_ctf_trace) :
    Except Fault (Int × struct_ctf_trace) :=
  match declaration_unref stream.event_header_decl with
  | .error e => .error e
  | .ok _ =>
    match declaration_unref stream.event_context_decl with
    | .error e => .error e
    | .ok _ =>
      match declaration_unref stream.packet_context_decl with
      | .error e => .error e
      | .ok _ => .ok (ret, trace)

/-- Source `ctf_stream_visit`: the return code and the trace after the call.
Every error goes through the label `error`. -/
def ctf_stream_visit (node : ctf_node) (parent_declaration_scope : Option declaration_scope)
    (trace : struct_ctf_trace) : Except Fault (Int × struct_ctf_trace) :=
  match node with
  | .NODE_STREAM declaration_list =>
    match ctf_stream_visit_loop declaration_list (ctf_stream_new parent_declaration_scope)
        trace with
    | .error e => .error e
    | .ok (ret, stream) =>
      if ret ≠ 0 then ctf_stream_visit_error stream ret trace
      else if !CTF_STREAM_FIELD_IS_SET stream .stream_id then
        ctf_stream_visit_error stream (-EPERM) trace
      else
        match trace.streams with
        | none => .error Fault.null_deref
        | some streams =>
          match ctf_stream_insert streams (ctf_stream_definitions stream) with
          | .error e => .error e
          | .ok streams => .ok (0, { trace with streams := some streams })
  | _ => .error Fault.union_misread

/-- Source `ctf_trace_declaration_visit`: the return code and the trace after
the call. The scope of the trace block exists when `ctf_trace_visit`, the only
caller, calls the function. -/
def ctf_trace_declaration_visit (node : ctf_node) (trace : struct_ctf_trace) :
    Except Fault (Int × struct_ctf_trace) :=
  match node with
  | .NODE_TYPEDEF declaration_specifier type_declarators =>
    match trace.declaration_scope with
    | none => .error Fault.null_deref
    | some scope =>
      match ctf_typedef_visit scope declaration_specifier type_declarators
          trace.toctf_trace none with
      | .error e => .error e
      | .ok (ret, scope) =>
        if ret ≠ 0 then .ok (ret, { trace with declaration_scope := some scope })
        else .ok (0, { trace with declaration_scope := some scope })
  | .NODE_TYPEALIAS target alias_node =>
    match trace.declaration_scope with
    | none => .error Fault.null_deref
    | some scope =>
      match ctf_typealias_visit scope target alias_node trace.toctf_trace with
      | .error e => .error e
      | .ok (ret, scope) =>
        if ret ≠ 0 then .ok (ret, { trace with declaration_scope := some scope })
        else .ok (0, { trace with declaration_scope := some scope })
  | .NODE_CTF_EXPRESSION left right =>
    match concatenate_unary_strings left with
    | .error e => .error e
    | .ok left =>
      if left = "major" then
        if CTF_TRACE_FIELD_IS_SET trace .major then .ok (-EPERM, trace)
        else
          match get_unary_unsigned right trace.major with
          | .error e => .error e
          | .ok (ret, major) =>
            if ret ≠ 0 then .ok (-EINVAL, { trace with major := major })
            else .ok (0, CTF_TRACE_SET_FIELD { trace with major := major } .major)
      else if left = "minor" then
        if CTF_TRACE_FIELD_IS_SET trace .minor then .ok (-EPERM, trace)
        else
          match get_unary_unsigned right trace.minor with
          | .error e => .error e
          | .ok (ret, minor) =>
            if ret ≠ 0 then .ok (-EINVAL, { trace with minor := minor })
            else .ok (0, CTF_TRACE_SET_FIELD { trace with minor := minor } .minor)
      else if left = "word_size" then
        if CTF_TRACE_FIELD_IS_SET trace .word_size then .ok (-EPERM, trace)
        else
          match get_unary_unsigned right trace.word_size with
          | .error e => .error e
          | .ok (ret, word_size) =>
            if ret ≠ 0 then .ok (-EINVAL, { trace with word_size := word_size })
            else .ok (0, CTF_TRACE_SET_FIELD { trace with word_size := word_size }
              .word_size)
      else if left = "uuid" then
        if CTF_TRACE_FIELD_IS_SET trace .uuid then .ok (-EPERM, trace)
        else
          match get_unary_uuid right trace.uuid with
          | .error e => .error e
          | .ok (ret, uuid) =>
            if ret ≠ 0 then .ok (-EINVAL, { trace with uuid := uuid })
            else .ok (0, CTF_TRACE_SET_FIELD { trace with uuid := uuid } .uuid)
      else .ok (0, trace)
  | _ => .ok (-EPERM, trace)

/-- The loop of `ctf_trace_visit` over the children of the block. -/
def ctf_trace_visit_loop (declaration_list : List ctf_node) (trace : struct_ctf_trace) :
    Except Fault (Int × struct_ctf_trace) :=
  visit_each ctf_trace_declaration_visit declaration_list trace

/-- Lines 1614-1615 of `ctf_trace_visit`: the trace with the scope of the trace
block, a child of the root scope, and with an empty streams array. -/
def ctf_trace_enter (trace : struct_ctf_trace) : struct_ctf_trace :=
  { trace with
    declaration_scope := some (new_declaration_scope (some trace.root_declaration_scope)),
    streams := some [] }

/-- Source `ctf_trace_visit`: the return code and the trace after the call.
The fields are written into the trace itself, so after an error they are as
the children left them; the error label frees the array and the scope without
resetting the two pointers, which the result keeps as they are. -/
def ctf_trace_visit (node : ctf_node) (trace : struct_ctf_trace) :
    Except Fault (Int × struct_ctf_trace) :=
  match node with
  | .NODE_TRACE declaration_list =>
    if trace.declaration_scope.isSome then .ok (-EEXIST, trace)
    else
      match ctf_trace_visit_loop declaration_list (ctf_trace_enter trace) with
      | .error e => .error e
      | .ok (ret, trace) =>
        if ret ≠ 0 then .ok (ret, trace)
        else if !CTF_TRACE_FIELD_IS_SET trace .major then .ok (-EPERM, trace)
        else if !CTF_TRACE_FIELD_IS_SET trace .minor then .ok (-EPERM, trace)
        else if !CTF_TRACE_FIELD_IS_SET trace .uuid then .ok (-EPERM, trace)
        else if !CTF_TRACE_FIELD_IS_SET trace .word_size then .ok (-EPERM, trace)
        else .ok (0, trace)
  | _ => .error Fault.union_misread

/-- The body of the loop of `ctf_visitor_construct_metadata` over the
declaration list of the root (lines 1657-1685): the return code and the trace
after one child. For a declaration specifier, line 1676 hands the node `iter`
itself to `ctf_declaration_specifier_visit`, whose parameter is the head of a
list of nodes, so the callee takes the first words of the node for a list;
the declaration it returns is stored in the `int ret`, and line 1678 returns
`ret` when it is not 0. -/
def ctf_root_declaration_visit (iter : ctf_node) (trace : struct_ctf_trace) :
    Except Fault (Int × struct_ctf_trace) :=
  match iter with
  | .NODE_TYPEDEF declaration_specifier type_declarators =>
    match ctf_typedef_visit trace.root_declaration_scope declaration_specifier
        type_declarators trace.toctf_trace none with
    | .error e => .error e
    | .ok (ret, scope) =>
      if ret ≠ 0 then .ok (ret, { trace with root_declaration_scope := scope })
      else .ok (0, { trace with root_declaration_scope := scope })
  | .NODE_TYPEALIAS target alias_node =>
    match ctf_typealias_visit trace.root_declaration_scope target alias_node
        trace.toctf_trace with
    | .error e => .error e
    | .ok (ret, scope) =>
      if ret ≠ 0 then .ok (ret, { trace with root_declaration_scope := scope })
      else .ok (0, { trace with root_declaration_scope := scope })
  | .NODE_DECLARATION_SPECIFIER _ => .error Fault.bad_pointer
  | _ => .ok (-EINVAL, trace)

/-- Source `ctf_visitor_construct_metadata`: the return code and the trace
after the call. The source lacks the brace that closes the loop over the
declaration list (line 1685 closes the inner `switch`); the four loops are
taken one after the other, as they are indented. -/
def ctf_visitor_construct_metadata (node : ctf_node) (trace : struct_ctf_trace)
    (byte_order : Int) : Except Fault (Int × struct_ctf_trace) :=
  let trace : struct_ctf_trace := { trace with byte_order := byte_order }
  match node with
  | .NODE_ROOT declaration_list trace_list stream event =>
    match visit_each ctf_root_declaration_visit declaration_list trace with
    | .error e => .error e
    | .ok (ret, trace) =>
      if ret ≠ 0 then .ok (ret, trace)
      else
        match visit_each ctf_trace_visit trace_list trace with
        | .error e => .error e
        | .ok (ret, trace) =>
          if ret ≠ 0 then .ok (ret, trace)
          else
            match visit_each
                (fun iter trace => ctf_stream_visit iter (some trace.root_declaration_scope) trace)
                stream trace with
            | .error e => .error e
            | .ok (ret, trace) =>
              if ret ≠ 0 then .ok (ret, trace)
              else
                match visit_each
                    (fun iter trace =>
                      ctf_event_visit iter (some trace.root_declaration_scope) trace)
                    event trace with
                | .error e => .error e
                | .ok (ret, trace) => .ok (ret, trace)
  | _ => .ok (-EINVAL, trace)

/-! ## Definitions used to state the properties of the blocks -/

/-- The field declaration `string n;`. -/
def string_field (n : String) : ctf_node :=
  .NODE_STRUCT_OR_VARIANT_DECLARATION [.NODE_STRING []] [.TYPEDEC_ID [] none (some n)]

/-- The body of `variant v <tag> { uint32_t a; string b; }`. -/
def payload_body : List ctf_node := [uint32_field "a", string_field "b"]

/-- A root scope in which `uint32_t` is an alias of `uint32_declaration` and
`s` a named struct without fields. -/
def root_with_struct_s : declaration_scope :=
  declaration_scope.mk [(GQuark.of "uint32_t", uint32_declaration)]
    [(GQuark.of "s", declaration.struct [] (new_declaration_scope none))] [] [] none

/-- A scope below `root_with_struct_s` with nothing registered, as that of a
stream or an event block. -/
def scope_below_root : declaration_scope := new_declaration_scope (some root_with_struct_s)

/-- A child of a block that assigns the name `f`: an expression whose left
side reads `f`. -/
def assigns (f : String) (node : ctf_node) : Prop :=
  ∃ left right, node = ctf_node.NODE_CTF_EXPRESSION left right ∧
    concatenate_unary_strings left = .ok f

/-- The expression `name = value;` of a block. -/
def assignment (name : String) (value : unary_expression_type) : ctf_node :=
  .NODE_CTF_EXPRESSION [.NODE_UNARY_EXPRESSION (.UNARY_STRING name) .UNARY_LINK_UNKNOWN]
    [.NODE_UNARY_EXPRESSION value .UNARY_LINK_UNKNOWN]

/-- The name under which a child of a trace block assigns a mandatory field. -/
def ctf_trace_field.text : ctf_trace_field → String
  | .major => "major"
  | .minor => "minor"
  | .uuid => "uuid"
  | .word_size => "word_size"

/-- The name under which a child of a stream block assigns the mandatory field. -/
def ctf_stream_field.text : ctf_stream_field → String
  | .stream_id => "stream_id"

/-- The name under which a child of an event block assigns a mandatory field. -/
def ctf_event_field.text : ctf_event_field → String
  | .name => "name"
  | .id => "id"
  | .stream_id => "stream_id"

/-- A trace as the caller of `ctf_visitor_construct_metadata` hands it over:
zeroed, with an empty root scope. -/
def fresh_trace : struct_ctf_trace :=
  { byte_order := 0, major := 0, minor := 0, uuid := [], word_size := 0, field_mask := [],
    root_declaration_scope := empty_root, declaration_scope := none, streams := none }

/-- The children of `trace { major = 1; minor = 8; uuid =
"11111111-2222-3333-4444-555555555555"; word_size = 64; }`. -/
def s1_trace_children : List ctf_node :=
  [assignment "major" (.UNARY_UNSIGNED_CONSTANT 1),
   assignment "minor" (.UNARY_UNSIGNED_CONSTANT 8),
   assignment "uuid" (.UNARY_STRING "11111111-2222-3333-4444-555555555555"),
   assignment "word_size" (.UNARY_UNSIGNED_CONSTANT 64)]

/-- The children of `trace { major = 1; minor = 8; word_size = 64; }`. -/
def s4_trace_children : List ctf_node :=
  [assignment "major" (.UNARY_UNSIGNED_CONSTANT 1),
   assignment "minor" (.UNARY_UNSIGNED_CONSTANT 8),
   assignment "word_size" (.UNARY_UNSIGNED_CONSTANT 64)]

/-- The bytes of the UUID `11111111-2222-3333-4444-555555555555`. -/
def s1_uuid : List Nat :=
  [17, 17, 17, 17, 34, 34, 51, 51, 68, 68, 85, 85, 85, 85, 85, 85]

/-- The three declaration slots of a stream are assigned. -/
def stream_slots_set (stream : ctf_stream) : Prop :=
  stream.event_header_decl.isSome ∧ stream.event_context_decl.isSome ∧
    stream.packet_context_decl.isSome

/-- The two declaration slots of an event are assigned. -/
def event_slots_set (event : ctf_event) : Prop :=
  event.fields_decl.isSome ∧ event.context_decl.isSome

/-- The hash table of every stream stored in the trace was created as
`ctf_stream_visit` creates it, with `g_int_hash`. -/
def streams_hash_int (trace : struct_ctf_trace) : Prop :=
  ∀ streams, trace.streams = some streams → ∀ stream, some stream ∈ streams →
    stream.event_quark_to_id.hash_func = GHashFunc.g_int_hash

/-- A trace after its trace block, with `uint32_t` in its root scope and no
stream. -/
def trace_without_stream : struct_ctf_trace :=
  { byte_order := LITTLE_ENDIAN, major := 1, minor := 8, uuid := s1_uuid, word_size := 64,
    field_mask := [.word_size, .uuid, .minor, .major],
    root_declaration_scope := root_with_uint32,
    declaration_scope := some (new_declaration_scope (some root_with_uint32)),
    streams := some [] }

/-- The stream that `stream { stream_id = 2; }` leaves in a trace whose root
scope is `root_with_uint32`. -/
def stream_2 : ctf_stream :=
  { ctf_stream_new (some root_with_uint32) with
    stream_id := 2, field_mask := [.stream_id] }

/-- The trace `trace_without_stream` after `stream { stream_id = 2; }`. -/
def trace_with_stream_2 : struct_ctf_trace :=
  { trace_without_stream with streams := some [none, none, some stream_2] }

/-- The stream of an event whose `stream_id` is set: the id it was assigned
names a slot of the streams array that holds a stream. -/
def event_stream_found (trace : struct_ctf_trace) (event : ctf_event) : Prop :=
  ctf_event_field.stream_id ∈ event.field_mask →
    ∃ streams stream, trace.streams = some streams ∧ event.stream = some event.stream_id ∧
      event.stream_id < streams.length ∧
      g_ptr_array_index streams event.stream_id = some stream

/-- The root scope after `typealias integer { size = 32; signed = false;
align = 32; } := uint32_t;`, in a trace handed over little-endian. -/
def s1_trace_after_typealias : struct_ctf_trace :=
  { fresh_trace with byte_order := LITTLE_ENDIAN, root_declaration_scope := root_with_uint32 }

/-- The node of `typealias integer { size = 32; signed = false; align = 32; }
:= uint32_t;`. -/
def s1_typealias : ctf_node :=
  .NODE_TYPEALIAS (.mk integer_32 []) (.mk uint32_t [abstract_declarator])

/-- The event `event { name = ev; id = 0; stream_id = 2; }` as the loop of
`ctf_event_visit` leaves it in `trace_with_stream_2`. -/
def event_ev : ctf_event :=
  { ctf_event_new (some root_with_uint32) with
    name := GQuark.of "ev", id := 0, stream_id := 2, stream := some 2,
    field_mask := [.stream_id, .id, .name] }

/-! ### Inputs of the scenarios: declarators, enumerators and struct fields -/

/-- The declarator `n[length]` whose length list is `length`. -/
def length_declarator (n : String) (length : List ctf_node) : type_declarator :=
  .TYPEDEC_NESTED [] none (some (.TYPEDEC_ID [] none (some n))) length

/-- The first length node of a declarator is an unsigned constant: an array
declarator. -/
def is_array_length : ctf_node → Prop
  | .NODE_UNARY_EXPRESSION (.UNARY_UNSIGNED_CONSTANT _) _ => True
  | _ => False

/-- A unary expression that is not an unsigned constant. -/
def is_other_unary : ctf_node → Prop
  | .NODE_UNARY_EXPRESSION (.UNARY_UNSIGNED_CONSTANT _) _ => False
  | .NODE_UNARY_EXPRESSION _ _ => True
  | _ => False

/-- The declaration of `integer { size = 64; signed = true; }` in a
little-endian trace. -/
def int64_declaration : declaration := declaration.integer 64 1234 1 64

/-- The unsigned constant `u` as a value of an enumerator. -/
def unsigned_value (u : Nat) : ctf_node := unary_node (.UNARY_UNSIGNED_CONSTANT u)

/-- The first constant of a value list, as an enum of that signedness stores
it. -/
def first_constant (signed : Bool) (values : List ctf_node) : Option Int :=
  match values.head? with
  | some n =>
    if signed then signed_stored_value n
    else (unsigned_container_value n).map (fun v => (v : Int))
  | none => none

/-- The last constant of a value list, as an enum of that signedness stores
it. -/
def last_constant (signed : Bool) (values : List ctf_node) : Option Int :=
  match values.getLast? with
  | some n =>
    if signed then signed_stored_value n
    else (unsigned_container_value n).map (fun v => (v : Int))
  | none => none

/-- The start of a range, read as an integer. -/
def enum_range.start : enum_range → Int
  | .signed a _ => a
  | .unsigned a _ => (a : Int)

/-- The end of a range, read as an integer. -/
def enum_range.last : enum_range → Int
  | .signed _ b => b
  | .unsigned _ b => (b : Int)

/-- The specifier `struct foo { uint32_t x; }`. -/
def struct_foo : List ctf_node := [.NODE_STRUCT (some "foo") [uint32_field "x"] true]

/-- The inner scope of a struct declared in `root_with_uint32`. -/
def scope_in_root : declaration_scope := new_declaration_scope (some root_with_uint32)

/-- The declaration of `struct foo { uint32_t x; }` built in `scope_in_root`. -/
def foo_declaration : declaration :=
  declaration.struct [(GQuark.of "x", uint32_declaration)]
    (new_declaration_scope (some scope_in_root))

/-- The specifier `u32b`. -/
def u32b : List ctf_node := [.NODE_TYPE_SPECIFIER .TYPESPEC_ID_TYPE (some "u32b")]

/-- The body of `struct s { typedef uint32_t u32; typealias uint32_t := u32b;
struct foo { uint32_t x; } f; }`. -/
def mixed_body : List ctf_node :=
  [.NODE_TYPEDEF uint32_t [.TYPEDEC_ID [] none (some "u32")],
   .NODE_TYPEALIAS (.mk uint32_t []) (.mk u32b [.TYPEDEC_ID [] none none]),
   .NODE_STRUCT_OR_VARIANT_DECLARATION struct_foo [.TYPEDEC_ID [] none (some "f")]]

/-- The inner scope of the struct with the body `mixed_body`, declared in
`root_with_uint32`, after the typedef and the typealias: `u32` and `u32b` are
aliases of `uint32_declaration`. -/
def mixed_body_aliases : declaration_scope :=
  declaration_scope.mk
    [(GQuark.of "u32", uint32_declaration), (GQuark.of "u32b", uint32_declaration)] [] [] []
    (some root_with_uint32)

/-- The declaration of `struct foo { uint32_t x; }` built in
`mixed_body_aliases`. -/
def mixed_foo_declaration : declaration :=
  declaration.struct [(GQuark.of "x", uint32_declaration)]
    (new_declaration_scope (some mixed_body_aliases))

/-- The inner scope of the struct with the body `mixed_body`, declared in
`root_with_uint32`, after the body: the two aliases and the named struct
`foo`. -/
def mixed_body_scope : declaration_scope :=
  declaration_scope.mk
    [(GQuark.of "u32", uint32_declaration), (GQuark.of "u32b", uint32_declaration)]
    [(GQuark.of "foo", mixed_foo_declaration)] [] [] (some root_with_uint32)

/-! ### Registrations of a struct body -/

/-- Every entry of the four maps of `scope` is an entry of `scope1`, under the
same name, and the two scopes have the same parent: `scope1` is `scope` after
registrations. -/
def declaration_scope.holds_all (scope scope1 : declaration_scope) : Prop :=
  scope1.parent_scope = scope.parent_scope ∧
  (∀ q d, scope.typedef_declarations.lookup q = some d →
    scope1.typedef_declarations.lookup q = some d) ∧
  (∀ q d, scope.struct_declarations.lookup q = some d →
    scope1.struct_declarations.lookup q = some d) ∧
  (∀ q d, scope.variant_declarations.lookup q = some d →
    scope1.variant_declarations.lookup q = some d) ∧
  (∀ q d, scope.enum_declarations.lookup q = some d →
    scope1.enum_declarations.lookup q = some d)

/-- The identifier that `ctf_type_declarator_visit` writes to `*field_name`
for a declarator (line 311): the identifier of the innermost declarator, when
the nesting ends in an identifier declarator. -/
def type_declarator.identifier : type_declarator → Option GQuark
  | .TYPEDEC_ID _ _ id => some (g_quark_from_string id)
  | .TYPEDEC_NESTED _ _ (some sub) _ => sub.identifier
  | .TYPEDEC_NESTED _ _ none _ => none
  | .TYPEDEC_UNKNOWN _ _ => none

/-- The first declarator of the list has no pointers: entered with that
declarator, `ctf_type_declarator_visit` hands the specifier list to
`ctf_declaration_specifier_visit` (line 301) and not to the alias lookup of
line 295. -/
def visits_specifier (type_declarators : List type_declarator) : Prop :=
  ∃ first rest, type_declarators = first :: rest ∧ first.pointers = []

/-- When the specifier list is a struct, a variant or an enum with a name and
a body, `inner` has an entry under that name in its own map of named structs,
variants or enums. -/
def named_aggregate_registered (declaration_specifier : List ctf_node)
    (inner : declaration_scope) : Prop :=
  match declaration_specifier with
  | .NODE_STRUCT (some name) _ true :: _ =>
    (inner.struct_declarations.lookup (GQuark.of name)).isSome
  | .NODE_VARIANT (some name) _ _ true :: _ =>
    (inner.variant_declarations.lookup (GQuark.of name)).isSome
  | .NODE_ENUM (some name) _ _ true :: _ =>
    (inner.enum_declarations.lookup (GQuark.of name)).isSome
  | _ => True

/-- What an item of a struct body declares is registered in `inner` itself, not
in a scope above it. A typedef: every declarator that has an identifier has an
entry under it in the type alias map. A typealias: the identifier made of the
alias has an entry in the type alias map. A typedef, a typealias or a field
whose specifier list is handed to `ctf_declaration_specifier_visit`: a struct,
a variant or an enum with a name and a body has an entry in the map of its
kind. -/
def body_item_registered (item : ctf_node) (inner : declaration_scope) : Prop :=
  match item with
  | .NODE_TYPEDEF declaration_specifier type_declarators =>
    (∀ iter ∈ type_declarators, ∀ q, iter.identifier = some q →
      (inner.typedef_declarations.lookup q).isSome) ∧
    (visits_specifier type_declarators →
      named_aggregate_registered declaration_specifier inner)
  | .NODE_TYPEALIAS target alias_node =>
    (∀ node, first_or_null alias_node.type_declarators = some node →
      (inner.typedef_declarations.lookup
        (create_typealias_identifier alias_node.declaration_specifier node)).isSome) ∧
    (visits_specifier alias_node.type_declarators →
      named_aggregate_registered target.declaration_specifier inner)
  | .NODE_STRUCT_OR_VARIANT_DECLARATION declaration_specifier type_declarators =>
    visits_specifier type_declarators →
      named_aggregate_registered declaration_specifier inner
  | _ => True

/-- A scope on the chain of `scope` holds the declaration: a lookup from
`scope` finds it under some name in one of the four maps. -/
def is_held_by (scope : declaration_scope) (d : declaration) : Prop :=
  ∃ q, lookup_declaration q scope = some d ∨ lookup_struct_declaration q scope = some d ∨
    lookup_variant_declaration q scope = some d ∨ lookup_enum_declaration q scope = some d

/-- The body of `struct s { typedef uint32_t a; typedef uint32_t a; }`. -/
def twice_typedef_body : List ctf_node :=
  [.NODE_TYPEDEF uint32_t [.TYPEDEC_ID [] none (some "a")],
   .NODE_TYPEDEF uint32_t [.TYPEDEC_ID [] none (some "a")]]

/-- The body of `struct s { typealias uint32_t := u32b; typealias uint32_t :=
u32b; }`. -/
def twice_typealias_body : List ctf_node :=
  [.NODE_TYPEALIAS (.mk uint32_t []) (.mk u32b [.TYPEDEC_ID [] none none]),
   .NODE_TYPEALIAS (.mk uint32_t []) (.mk u32b [.TYPEDEC_ID [] none none])]

/-! ### Reference counts of the container of an enum

`ctf_declaration_enum_visit` once more, with the reference counts that the
types library keeps in its declaration objects. The visitor of the model above
works on declarations as values; here the alias entries of a scope are objects
with a count, and the calls of the library on the container act on that
count. `ctf_declaration_enum_visit_counted` follows the source line by line
like `ctf_declaration_enum_visit`, and without the counts it is that
function. -/

/-- Modelled from the spec: a declaration object of the types library, which
is not under src/, with its reference count (spec section 3.2: every
declaration is reference-counted). -/
structure counted_declaration where
  p : declaration
  ref : Nat

/-- Modelled from the spec: a `struct declaration_scope` of the types library
in which every entry of the type alias map is an object with its reference
count (spec section 3.2: scope entries hold strong references). The maps of
named structs, variants and enums, which the container of an enum never comes
from, are as in `declaration_scope`. -/
inductive counted_scope where
  | mk (typedef_declarations : List (GQuark × counted_declaration))
      (struct_declarations variant_declarations enum_declarations :
        List (GQuark × declaration))
      (parent_scope : Option counted_scope)

/-- The alias entries without their counts. -/
def erase_entries (entries : List (GQuark × counted_declaration)) :
    List (GQuark × declaration) :=
  entries.map (fun entry => (entry.1, entry.2.p))

/-- The scope without the counts. -/
def counted_scope.erase : counted_scope → declaration_scope
  | .mk t s v e none => .mk (erase_entries t) s v e none
  | .mk t s v e (some ps) => .mk (erase_entries t) s v e (some ps.erase)

/-- Modelled from the spec: `lookup_declaration` of the types library, not
under src/ (spec section 4.2: walks the parent chain, returns the first hit;
section 5: lookups return a borrowed reference). The result is the object
found; its count is as it was. -/
def lookup_declaration_counted (name : GQuark) : counted_scope → Option counted_declaration
  | .mk t _ _ _ none => t.lookup name
  | .mk t _ _ _ (some ps) =>
    match t.lookup name with
    | some object => some object
    | none => lookup_declaration_counted name ps

/-- The alias entries after the count of the first entry under `name` has
gone through `f`. -/
def adjust_entries (name : GQuark) (f : Nat → Nat) :
    List (GQuark × counted_declaration) → List (GQuark × counted_declaration)
  | [] => []
  | (k, object) :: rest =>
    if name == k then (k, ⟨object.p, f object.ref⟩) :: rest
    else (k, object) :: adjust_entries name f rest

/-- The scope after the count of the object that `lookup_declaration_counted`
finds under `name` has gone through `f`. -/
def counted_scope.adjust (name : GQuark) (f : Nat → Nat) : counted_scope → counted_scope
  | .mk t s v e none => .mk (adjust_entries name f t) s v e none
  | .mk t s v e (some ps) =>
    if (t.lookup name).isSome then .mk (adjust_entries name f t) s v e (some ps)
    else .mk t s v e (some (ps.adjust name f))

/-- A pointer to a declaration object, as a local of the visitor holds it: to
a new object that no scope has an entry for, or to the object that the scope
chain has under a name. -/
inductive declaration_pointer where
  | fresh (object : counted_declaration)
  | entry (name : GQuark)

/-- The object a pointer points to. -/
def declaration_pointer.object (pointer : declaration_pointer) (scope : counted_scope) :
    Option counted_declaration :=
  match pointer with
  | .fresh object => some object
  | .entry name => lookup_declaration_counted name scope

/-- Modelled from the spec: `declaration_ref` of the types library, not under
src/: one more reference on the object. -/
def declaration_ref_counted (pointer : declaration_pointer) (scope : counted_scope) :
    declaration_pointer × counted_scope :=
  match pointer with
  | .fresh object => (.fresh ⟨object.p, object.ref + 1⟩, scope)
  | .entry name => (.entry name, scope.adjust name (fun ref => ref + 1))

/-- Modelled from the spec: `declaration_unref` of the types library, not
under src/: one reference less on the object. -/
def declaration_unref_counted (pointer : declaration_pointer) (scope : counted_scope) :
    declaration_pointer × counted_scope :=
  match pointer with
  | .fresh object => (.fresh ⟨object.p, object.ref - 1⟩, scope)
  | .entry name => (.entry name, scope.adjust name (fun ref => ref - 1))

/-- Modelled from the spec: `register_enum_declaration` of the types library,
not under src/ (spec section 4.2), on a scope with counts: the named enum map
has no counts in this model. -/
def register_enum_declaration_counted (name : GQuark) (enum_declaration : declaration)
    (scope : counted_scope) : Int × counted_scope :=
  match scope with
  | .mk t s v e p =>
    if (e.lookup name).isSome then (-EEXIST, scope)
    else (0, .mk t s v (e ++ [(name, enum_declaration)]) p)

/-- Source `ctf_declaration_type_specifier_visit` (lines 878-898) with the
object it returns: what `lookup_declaration` finds under the identifier made
of the specifier tokens. It takes no reference on it. -/
def ctf_declaration_type_specifier_visit_counted (declaration_specifier : List ctf_node)
    (scope : counted_scope) : Option declaration_pointer :=
  let r := visit_declaration_specifier declaration_specifier ""
  if r.1 ≠ 0 then none
  else
    match lookup_declaration_counted (g_quark_from_string (some r.2)) scope with
    | none => none
    | some _ => some (.entry (g_quark_from_string (some r.2)))

/-- The call of `ctf_type_declarator_visit` at line 847 of
`ctf_declaration_enum_visit`, without a declarator and without an inner
declaration, on a container list whose first node is `first`: line 301 hands
the list to `ctf_declaration_specifier_visit`. For an integer node that is
`ctf_declaration_integer_visit`, whose `integer_declaration_new` returns a new
object with the one reference of its caller (spec section 5: callers who obtain
a declaration from a builder hold one strong reference); for a type specifier
it is `ctf_declaration_type_specifier_visit`. The switch of line 844 lets no
other first node through. -/
def ctf_type_declarator_visit_container_counted (container_type : List ctf_node)
    (first : ctf_node) (scope : counted_scope) (trace : ctf_trace) :
    Except Fault (Option declaration_pointer) :=
  match first with
  | .NODE_INTEGER expressions =>
    match ctf_declaration_integer_visit expressions trace with
    | .error e => .error e
    | .ok none => .ok none
    | .ok (some d) => .ok (some (.fresh ⟨d, 1⟩))
  | .NODE_TYPE_SPECIFIER _ _ =>
    .ok (ctf_declaration_type_specifier_visit_counted container_type scope)
  | _ => .error Fault.assert_failed

/-- Source `ctf_declaration_enum_visit` with the reference count of the
container. The result is the enum declaration (NULL on failure) with the
pointer to its container, when this call has built the enum, and the scope
after the call. Line 858, `enum_declaration_new`, takes the reference of the
enum on the container (spec section 3.2: containers hold strong references to
their children); line 859 is `declaration_unref` on the container. At the
label `error` the destructor of the enum releases the reference of the enum
on the container. -/
def ctf_declaration_enum_visit_counted (name : Option String) (container_type : List ctf_node)
    (enumerator_list : List ctf_enumerator) (has_body : Bool)
    (scope : counted_scope) (trace : ctf_trace) :
    Except Fault (Option (declaration × Option declaration_pointer) × counted_scope) :=
  if !has_body then
    match name with
    | none => .error Fault.assert_failed
    | some _ =>
      .ok ((lookup_enum_declaration (g_quark_from_string name) scope.erase).map
        (fun d => (d, none)), scope)
  else
    if (match name with
        | some _ =>
          (lookup_enum_declaration (g_quark_from_string name) scope.erase).isSome
        | none => false) then
      .ok (none, scope)
    else
      match first_or_null container_type with
      | none => .ok (none, scope)
      | some first =>
        match first with
        | .NODE_INTEGER _ | .NODE_TYPE_SPECIFIER _ _ =>
          match ctf_type_declarator_visit_container_counted container_type first scope
              trace with
          | .error e => .error e
          | .ok none => .error Fault.null_deref
          | .ok (some pointer) =>
            match pointer.object scope with
            | none => .error Fault.null_deref
            | some integer_declaration =>
              if integer_declaration.p.id ≠ ctf_type_id.CTF_TYPE_INTEGER then
                .error Fault.assert_failed
              else
                -- `enum_declaration_new(integer_declaration)`
                let taken := declaration_ref_counted pointer scope
                -- `declaration_unref(&integer_declaration->p)`
                let left := declaration_unref_counted taken.1 taken.2
                match ctf_declaration_enum_visit_loop enumerator_list
                    (enum_declaration_new integer_declaration.p) with
                | .error e => .error e
                | .ok (ret, enum_declaration) =>
                  if ret ≠ 0 then
                    -- `enum_declaration->p.declaration_free(&enum_declaration->p)`
                    .ok (none, (declaration_unref_counted left.1 left.2).2)
                  else
                    match name with
                    | some _ =>
                      if (register_enum_declaration_counted (g_quark_from_string name)
                          enum_declaration.p left.2).1 ≠ 0 then .error Fault.assert_failed
                      else
                        .ok (some (enum_declaration.p, some left.1),
                          (register_enum_declaration_counted (g_quark_from_string name)
                            enum_declaration.p left.2).2)
                    | none => .ok (some (enum_declaration.p, some left.1), left.2)
        | _ => .error Fault.assert_failed

/-- The result of the visitor without the counts and without the pointer. -/
def erase_enum_result
    (r : Option (declaration × Option declaration_pointer) × counted_scope) :
    Option declaration × declaration_scope :=
  (r.1.map (fun d => d.1), r.2.erase)

/-- A root scope in which `uint32_t` is an alias of `uint32_declaration`, an
object with two references. -/
def counted_root_with_uint32 : counted_scope :=
  counted_scope.mk [(GQuark.of "uint32_t", ⟨uint32_declaration, 2⟩)] [] [] [] none

/-- The value map of `enum { IDLE = 0, RUN = 1 ... 3, ERR = 255 }` over an
unsigned container. -/
def state_table : List (enum_range × GQuark) :=
  [(enum_range.unsigned 0 0, GQuark.of "IDLE"),
   (enum_range.unsigned 1 3, GQuark.of "RUN"),
   (enum_range.unsigned 255 255, GQuark.of "ERR")]

/-- The scope `counted_root_with_uint32` after `enum state : uint32_t { IDLE =
0, RUN = 1 ... 3, ERR = 255 }`: the enum is registered, and the object under
`uint32_t` still has two references. -/
def counted_root_with_state : counted_scope :=
  counted_scope.mk [(GQuark.of "uint32_t", ⟨uint32_declaration, 2⟩)] [] []
    [(GQuark.of "state", declaration.enum uint32_declaration state_table)] none
/-! ## Lemmas on the resolver -/

theorem g_quark_from_to_string (q : GQuark) :
    g_quark_from_string (g_quark_to_string q) = q := by
  cases q <;> rfl

/-- A nested declarator whose first length is an unsigned constant wraps the
inner declaration in an array and goes on with its sub-declarator. -/
theorem type_declarator_visit_nested_array (declaration_specifier : List ctf_node)
    (field_name : Option GQuark) (pointers : List ctf_pointer)
    (sub : Option type_declarator) (c : Nat) (link : unary_link) (more : List ctf_node)
    (scope : declaration_scope) (D : declaration) (trace : ctf_trace) :
    ctf_type_declarator_visit declaration_specifier field_name
      (some (.TYPEDEC_NESTED pointers none sub
        (.NODE_UNARY_EXPRESSION (.UNARY_UNSIGNED_CONSTANT c) link :: more)))
      scope (some D) trace
    = ctf_type_declarator_visit declaration_specifier field_name sub scope
        (some (declaration.array c D)) trace := by
  rw [ctf_type_declarator_visit]
  simp [ctf_type_declarator_visit_inner, first_or_null, array_declaration_new]

/-- An identifier declarator returns the inner declaration it is given. -/
theorem type_declarator_visit_id (declaration_specifier : List ctf_node)
    (field_name : Option GQuark) (pointers : List ctf_pointer) (id : Option String)
    (scope : declaration_scope) (D : declaration) (trace : ctf_trace) :
    ctf_type_declarator_visit declaration_specifier field_name
      (some (.TYPEDEC_ID pointers none id)) scope (some D) trace
    = .ok (some D, some (g_quark_from_string id), scope) := by
  rw [ctf_type_declarator_visit]
  simp [ctf_type_declarator_visit_inner]

theorem type_declarator_visit_chain (declaration_specifier : List ctf_node)
    (n : String) (scope : declaration_scope) (trace : ctf_trace) (cs : List Nat) :
    ∀ (field_name : Option GQuark) (D : declaration),
    ctf_type_declarator_visit declaration_specifier field_name
      (some (array_declarator_chain n cs)) scope (some D) trace
    = .ok (some (cs.foldl (fun acc c => declaration.array c acc) D),
        some (GQuark.of n), scope) := by
  induction cs with
  | nil =>
    intro field_name D
    simp [array_declarator_chain, type_declarator_visit_id, g_quark_from_string]
  | cons c cs ih =>
    intro field_name D
    simp [array_declarator_chain, type_declarator_visit_nested_array, ih]

/-- Without pointers the inner declaration is what the specifier visitor gives. -/
theorem type_declarator_visit_inner_base (declaration_specifier : List ctf_node)
    (node : type_declarator) (scope scope1 : declaration_scope) (trace : ctf_trace)
    (T : Option declaration)
    (hptr : node.pointers = [])
    (hT : ctf_declaration_specifier_visit declaration_specifier scope trace = .ok (T, scope1)) :
    ctf_type_declarator_visit_inner declaration_specifier (some node) scope none trace
      = .ok (some (T, scope1)) := by
  rw [ctf_type_declarator_visit_inner]
  simp [hptr, hT]

/-- An identifier declarator without pointers returns what the specifier
visitor gives, NULL included, and the name of the declarator. -/
theorem type_declarator_visit_plain_id (declaration_specifier : List ctf_node)
    (field_name : Option GQuark) (id : Option String)
    (scope scope1 : declaration_scope) (trace : ctf_trace) (T : Option declaration)
    (hT : ctf_declaration_specifier_visit declaration_specifier scope trace = .ok (T, scope1)) :
    ctf_type_declarator_visit declaration_specifier field_name
      (some (.TYPEDEC_ID [] none id)) scope none trace
    = .ok (T, some (g_quark_from_string id), scope1) := by
  rw [ctf_type_declarator_visit]
  simp [type_declarator_visit_inner_base _ (.TYPEDEC_ID [] none id) _ _ _ _ rfl hT]

/-- Without a declarator the resolver returns what the specifier visitor gives. -/
theorem type_declarator_visit_null_node (declaration_specifier : List ctf_node)
    (field_name : Option GQuark) (scope : declaration_scope) (trace : ctf_trace) :
    ctf_type_declarator_visit declaration_specifier field_name none scope none trace
      = match ctf_declaration_specifier_visit declaration_specifier scope trace with
        | .error e => .error e
        | .ok (d, scope1) => .ok (d, field_name, scope1) := by
  rw [ctf_type_declarator_visit, ctf_type_declarator_visit_inner]
  cases h : ctf_declaration_specifier_visit declaration_specifier scope trace with
  | error e => simp
  | ok r => cases r; simp

/-- A specifier list that starts with a type specifier is looked up as an alias. -/
theorem specifier_visit_type_specifier (ty : typespec) (id : Option String)
    (rest : List ctf_node) (scope : declaration_scope) (trace : ctf_trace) :
    ctf_declaration_specifier_visit (.NODE_TYPE_SPECIFIER ty id :: rest) scope trace
      = .ok (ctf_declaration_type_specifier_visit (.NODE_TYPE_SPECIFIER ty id :: rest) scope,
          scope) := by
  rw [ctf_declaration_specifier_visit]

/-- The specifier `integer { size = 32; signed = false; align = 32; }` builds
`uint32_declaration` in a little-endian trace, in any scope. -/
theorem integer_32_visit (scope : declaration_scope) :
    ctf_declaration_specifier_visit integer_32 scope le_trace
      = .ok (some uint32_declaration, scope) := by
  rw [integer_32, ctf_declaration_specifier_visit]
  simp [ctf_declaration_integer_visit, ctf_declaration_integer_visit_loop, attribute_sides,
    attribute_unsigned, attribute_node, get_boolean, integer_declaration_new, le_trace,
    LITTLE_ENDIAN, uint32_declaration, EINVAL]

/-- The specifier `uint32_t` is looked up under the quark of `uint32_t`. -/
theorem uint32_t_visit (scope : declaration_scope) (trace : ctf_trace) :
    ctf_declaration_specifier_visit uint32_t scope trace
      = .ok (lookup_declaration (GQuark.of "uint32_t") scope, scope) := by
  rw [uint32_t, specifier_visit_type_specifier]
  simp [ctf_declaration_type_specifier_visit, visit_declaration_specifier,
    visit_declaration_specifier_loop, declaration_specifier_text, g_quark_from_string]

/-- A chain of nested array declarators over the base declaration the
specifier list produces. -/
theorem type_declarator_visit_chain_top (declaration_specifier : List ctf_node)
    (field_name : Option GQuark) (n : String) (cs : List Nat)
    (scope scope1 : declaration_scope) (trace : ctf_trace) (T : declaration)
    (hT : ctf_declaration_specifier_visit declaration_specifier scope trace
      = .ok (some T, scope1)) :
    ctf_type_declarator_visit declaration_specifier field_name
      (some (array_declarator_chain n cs)) scope none trace
    = .ok (some (cs.foldl (fun acc c => declaration.array c acc) T),
        some (GQuark.of n), scope1) := by
  cases cs with
  | nil =>
    rw [array_declarator_chain, ctf_type_declarator_visit]
    simp [type_declarator_visit_inner_base _ (.TYPEDEC_ID [] none (some n)) _ _ _ _ rfl hT,
      g_quark_from_string]
  | cons c cs =>
    rw [array_declarator_chain, ctf_type_declarator_visit]
    simp [type_declarator_visit_inner_base _ (.TYPEDEC_NESTED [] none _ _) _ _ _ _ rfl hT,
      first_or_null, array_declaration_new, type_declarator_visit_chain]

/-- The top node of a declarator, when its first length is an unsigned
constant, builds an array of the base declaration and visits its
sub-declarator with that array as the inner declaration. -/
theorem type_declarator_visit_top_array (declaration_specifier : List ctf_node)
    (field_name : Option GQuark) (sub : Option type_declarator) (c : Nat) (link : unary_link)
    (more : List ctf_node) (scope scope1 : declaration_scope) (trace : ctf_trace)
    (T : declaration)
    (hT : ctf_declaration_specifier_visit declaration_specifier scope trace
      = .ok (some T, scope1)) :
    ctf_type_declarator_visit declaration_specifier field_name
      (some (.TYPEDEC_NESTED [] none sub
        (.NODE_UNARY_EXPRESSION (.UNARY_UNSIGNED_CONSTANT c) link :: more)))
      scope none trace
    = ctf_type_declarator_visit declaration_specifier field_name sub scope1
        (some (declaration.array c T)) trace := by
  rw [ctf_type_declarator_visit]
  simp [type_declarator_visit_inner_base _ (.TYPEDEC_NESTED [] none _ _) _ _ _ _ rfl hT,
    first_or_null, array_declaration_new]

/-- The top node of a declarator, when its length names an integer type that
resolves to an integer declaration, builds a sequence of the base declaration
and visits its sub-declarator with that sequence as the inner declaration. -/
theorem type_declarator_visit_top_sequence (declaration_specifier : List ctf_node)
    (field_name dummy_id : Option GQuark) (sub : Option type_declarator)
    (first : ctf_node) (more : List ctf_node)
    (scope scope1 scope2 : declaration_scope) (trace : ctf_trace)
    (T I : declaration)
    (hT : ctf_declaration_specifier_visit declaration_specifier scope trace
      = .ok (some T, scope1))
    (hfirst : is_length_type first)
    (hI : ctf_type_declarator_visit (first :: more) none none scope1 none trace
      = .ok (some I, dummy_id, scope2))
    (hid : I.id = ctf_type_id.CTF_TYPE_INTEGER) :
    ctf_type_declarator_visit declaration_specifier field_name
      (some (.TYPEDEC_NESTED [] none sub (first :: more))) scope none trace
    = ctf_type_declarator_visit declaration_specifier field_name sub scope2
        (some (declaration.sequence I T)) trace := by
  rcases hfirst with ⟨e, rfl⟩ | ⟨t, i, rfl⟩
  · rw [ctf_type_declarator_visit]
    simp [type_declarator_visit_inner_base _ (.TYPEDEC_NESTED [] none _ _) _ _ _ _ rfl hT,
      first_or_null, hI, hid, sequence_declaration_new]
  · rw [ctf_type_declarator_visit]
    simp [type_declarator_visit_inner_base _ (.TYPEDEC_NESTED [] none _ _) _ _ _ _ rfl hT,
      first_or_null, hI, hid, sequence_declaration_new]

/-! ## C4 and C5: array declarator chains -/

/-- C4. For a base declaration `T` produced by the specifier list and a chain
of nested declarators with unsigned constant lengths `c_1` (top node) to `c_k`
above the identifier `n`, `ctf_type_declarator_visit` returns the name `n` and
`Array(c_k, ... Array(c_1, T))`: each node wraps the declaration built so far
and the visit goes on into the sub-declarator with that result. -/
theorem array_chain_wraps_top_node_first (declaration_specifier : List ctf_node)
    (field_name : Option GQuark) (n : String) (cs : List Nat)
    (scope scope1 : declaration_scope) (trace : ctf_trace) (T : declaration)
    (hT : ctf_declaration_specifier_visit declaration_specifier scope trace
      = .ok (some T, scope1)) :
    ctf_type_declarator_visit declaration_specifier field_name
      (some (array_declarator_chain n cs)) scope none trace
    = .ok (some (cs.foldl (fun acc c => declaration.array c acc) T),
        some (GQuark.of n), scope1) :=
  type_declarator_visit_chain_top declaration_specifier field_name n cs scope scope1 trace T hT

theorem array_chain_wraps_top_node_first_witness :
    ctf_declaration_specifier_visit integer_32 empty_root le_trace
      = .ok (some uint32_declaration, empty_root) ∧
    ctf_type_declarator_visit integer_32 none (some (array_declarator_chain "a" [3, 2, 5]))
      empty_root none le_trace
    = .ok (some (declaration.array 5 (declaration.array 2
          (declaration.array 3 uint32_declaration))),
        some (GQuark.of "a"), empty_root) :=
  ⟨integer_32_visit empty_root,
    array_chain_wraps_top_node_first integer_32 none "a" [3, 2, 5] empty_root empty_root
      le_trace uint32_declaration (integer_32_visit empty_root)⟩

/-- C5, as stated, fails: for the chain whose top node has length 2 and whose
sub-declarator has length 3, over the base `uint32_declaration`, the result
is `Array(3, Array(2, T))`; the array of the top node is the innermost one,
not the outermost. -/
theorem top_node_array_is_not_outermost :
    ctf_type_declarator_visit integer_32 none
      (some (.TYPEDEC_NESTED [] none
        (some (.TYPEDEC_NESTED [] none (some (.TYPEDEC_ID [] none (some "a")))
          [.NODE_UNARY_EXPRESSION (.UNARY_UNSIGNED_CONSTANT 3) .UNARY_LINK_UNKNOWN]))
        [.NODE_UNARY_EXPRESSION (.UNARY_UNSIGNED_CONSTANT 2) .UNARY_LINK_UNKNOWN]))
      empty_root none le_trace
    = .ok (some (declaration.array 3 (declaration.array 2 uint32_declaration)),
        some (GQuark.of "a"), empty_root) ∧
    declaration.array 3 (declaration.array 2 uint32_declaration)
      ≠ declaration.array 2 (declaration.array 3 uint32_declaration) :=
  ⟨type_declarator_visit_chain_top integer_32 none "a" [2, 3] empty_root empty_root le_trace
      uint32_declaration (integer_32_visit empty_root),
    by simp⟩

/-- C5, amended. In an array/sequence declarator chain the array or sequence
built from the top declarator node is applied first: the visit of the
sub-declarator receives it as its inner declaration, so it is the innermost
constructor of the declaration returned. For `Nested{len=c_1, Nested{len=c_2,
Id(n)}}` over base `T` the result is `Array(c_2, Array(c_1, T))`. -/
theorem top_node_is_applied_first (declaration_specifier : List ctf_node)
    (field_name : Option GQuark) (scope scope1 : declaration_scope) (trace : ctf_trace)
    (T : declaration)
    (hT : ctf_declaration_specifier_visit declaration_specifier scope trace
      = .ok (some T, scope1)) :
    (∀ (sub : Option type_declarator) (c : Nat) (link : unary_link) (more : List ctf_node),
      ctf_type_declarator_visit declaration_specifier field_name
        (some (.TYPEDEC_NESTED [] none sub
          (.NODE_UNARY_EXPRESSION (.UNARY_UNSIGNED_CONSTANT c) link :: more)))
        scope none trace
      = ctf_type_declarator_visit declaration_specifier field_name sub scope1
          (some (declaration.array c T)) trace) ∧
    (∀ (sub : Option type_declarator) (first : ctf_node) (more : List ctf_node)
        (I : declaration) (dummy_id : Option GQuark) (scope2 : declaration_scope),
      is_length_type first →
      ctf_type_declarator_visit (first :: more) none none scope1 none trace
        = .ok (some I, dummy_id, scope2) →
      I.id = ctf_type_id.CTF_TYPE_INTEGER →
      ctf_type_declarator_visit declaration_specifier field_name
        (some (.TYPEDEC_NESTED [] none sub (first :: more))) scope none trace
      = ctf_type_declarator_visit declaration_specifier field_name sub scope2
          (some (declaration.sequence I T)) trace) ∧
    (∀ (n : String) (c1 c2 : Nat),
      ctf_type_declarator_visit declaration_specifier field_name
        (some (.TYPEDEC_NESTED [] none
          (some (.TYPEDEC_NESTED [] none (some (.TYPEDEC_ID [] none (some n)))
            [.NODE_UNARY_EXPRESSION (.UNARY_UNSIGNED_CONSTANT c2) .UNARY_LINK_UNKNOWN]))
          [.NODE_UNARY_EXPRESSION (.UNARY_UNSIGNED_CONSTANT c1) .UNARY_LINK_UNKNOWN]))
        scope none trace
      = .ok (some (declaration.array c2 (declaration.array c1 T)), some (GQuark.of n),
          scope1)) :=
  ⟨fun sub c link more =>
      type_declarator_visit_top_array declaration_specifier field_name sub c link more
        scope scope1 trace T hT,
    fun sub first more I dummy_id scope2 hfirst hI hid =>
      type_declarator_visit_top_sequence declaration_specifier field_name dummy_id sub first
        more scope scope1 scope2 trace T I hT hfirst hI hid,
    fun n c1 c2 =>
      type_declarator_visit_chain_top declaration_specifier field_name n [c1, c2] scope scope1
        trace T hT⟩

/-- The length type `uint32_t`, an alias of an integer in `root_with_uint32`,
resolves to that integer. -/
theorem uint32_length_resolves (trace : ctf_trace) :
    ctf_type_declarator_visit uint32_t none none root_with_uint32 none trace
      = .ok (some uint32_declaration, none, root_with_uint32) := by
  rw [type_declarator_visit_null_node, uint32_t_visit]
  simp [root_with_uint32, lookup_declaration, first_hit, List.lookup]

theorem top_node_is_applied_first_witness :
    ctf_declaration_specifier_visit integer_32 root_with_uint32 le_trace
      = .ok (some uint32_declaration, root_with_uint32) ∧
    ctf_type_declarator_visit integer_32 none
      (some (.TYPEDEC_NESTED [] none
        (some (.TYPEDEC_NESTED [] none (some (.TYPEDEC_ID [] none (some "a")))
          [.NODE_UNARY_EXPRESSION (.UNARY_UNSIGNED_CONSTANT 7) .UNARY_LINK_UNKNOWN]))
        [.NODE_UNARY_EXPRESSION (.UNARY_UNSIGNED_CONSTANT 4) .UNARY_LINK_UNKNOWN]))
      root_with_uint32 none le_trace
    = .ok (some (declaration.array 7 (declaration.array 4 uint32_declaration)),
        some (GQuark.of "a"), root_with_uint32) ∧
    ctf_type_declarator_visit integer_32 none
      (some (.TYPEDEC_NESTED [] none (some (.TYPEDEC_ID [] none (some "a")))
        (.NODE_TYPE_SPECIFIER .TYPESPEC_ID_TYPE (some "uint32_t") :: [])))
      root_with_uint32 none le_trace
    = .ok (some (declaration.sequence uint32_declaration uint32_declaration),
        some (GQuark.of "a"), root_with_uint32) :=
  ⟨integer_32_visit root_with_uint32,
    (top_node_is_applied_first integer_32 none root_with_uint32 root_with_uint32 le_trace
      uint32_declaration (integer_32_visit root_with_uint32)).2.2 "a" 4 7,
    ((top_node_is_applied_first integer_32 none root_with_uint32 root_with_uint32 le_trace
      uint32_declaration (integer_32_visit root_with_uint32)).2.1
        (some (.TYPEDEC_ID [] none (some "a")))
        (.NODE_TYPE_SPECIFIER .TYPESPEC_ID_TYPE (some "uint32_t")) []
        uint32_declaration none root_with_uint32 (Or.inr ⟨_, _, rfl⟩)
        (uint32_length_resolves le_trace) rfl).trans
      (type_declarator_visit_id integer_32 none [] (some "a") root_with_uint32
        (declaration.sequence uint32_declaration uint32_declaration) le_trace)⟩

/-! ## C6: the alias identifier -/

theorem alias_token_text (node : ctf_node) (t : String) (h : alias_token node = some t) :
    declaration_specifier_text node = some t := by
  unfold alias_token at h
  split at h <;> simp_all [declaration_specifier_text]

theorem join_with_spaces_cons (t : String) (ts : List String) :
    join_with_spaces (t :: ts) = t ++ spaced_tokens ts := by
  induction ts generalizing t with
  | nil => simp [join_with_spaces, spaced_tokens]
  | cons t2 ts ih => simp [join_with_spaces, spaced_tokens, ih, String.append_assoc]

theorem visit_declaration_specifier_loop_spaced (spec : List ctf_node) :
    ∀ (tokens : List String) (k : Int) (str : String), 0 < k →
      spec.map alias_token = tokens.map some →
      visit_declaration_specifier_loop k spec str = (0, str ++ spaced_tokens tokens) := by
  induction spec with
  | nil =>
    intro tokens k str _ h
    cases tokens with
    | nil => simp [visit_declaration_specifier_loop, spaced_tokens]
    | cons t ts => simp at h
  | cons node spec ih =>
    intro tokens k str hk h
    cases tokens with
    | nil => simp at h
    | cons t ts =>
      simp only [List.map_cons, List.cons.injEq] at h
      have hk0 : k ≠ 0 := by omega
      simp [visit_declaration_specifier_loop, alias_token_text node t h.1, hk0,
        ih ts (k + 1) _ (by omega) h.2, spaced_tokens, String.append_assoc]

theorem visit_declaration_specifier_joined (spec : List ctf_node) (tokens : List String)
    (h : spec.map alias_token = tokens.map some) :
    visit_declaration_specifier spec "" = (0, join_with_spaces tokens) := by
  cases spec with
  | nil =>
    cases tokens with
    | nil => simp [visit_declaration_specifier, visit_declaration_specifier_loop, join_with_spaces]
    | cons t ts => simp at h
  | cons node spec =>
    cases tokens with
    | nil => simp at h
    | cons t ts =>
      simp only [List.map_cons, List.cons.injEq] at h
      simp [visit_declaration_specifier, visit_declaration_specifier_loop,
        alias_token_text node t h.1,
        visit_declaration_specifier_loop_spaced spec ts 1 _ (by omega) h.2,
        join_with_spaces_cons]

theorem append_pointers_suffix (pointers : List ctf_pointer) :
    ∀ str : String, append_pointers str pointers
      = str ++ pointer_suffix (pointers.map (fun p => p.const_qualifier)) := by
  induction pointers with
  | nil => intro str; simp [append_pointers, pointer_suffix]
  | cons p ps ih =>
    intro str
    cases hp : p.const_qualifier <;>
      simp [append_pointers, pointer_suffix, ih, hp, String.append_assoc]

/-- C6. For a specifier list of supported nodes with tokens `tokens` and any
declarator, `create_typealias_identifier` returns the quark of the tokens
joined with single spaces followed, for each pointer of the declarator in
order, by `" *"` and by `" const"` when that pointer is const-qualified; so a
declarator with the same pointer/const sequence gives the same quark. -/
theorem create_typealias_identifier_is_joined_tokens (spec : List ctf_node)
    (tokens : List String) (node : type_declarator)
    (h : spec.map alias_token = tokens.map some) :
    create_typealias_identifier spec node
      = GQuark.of (alias_identifier_string tokens
          (node.pointers.map (fun p => p.const_qualifier))) ∧
    ∀ node2 : type_declarator,
      node2.pointers.map (fun p => p.const_qualifier)
        = node.pointers.map (fun p => p.const_qualifier) →
      create_typealias_identifier spec node2 = create_typealias_identifier spec node := by
  have key : ∀ nd : type_declarator, create_typealias_identifier spec nd
      = GQuark.of (alias_identifier_string tokens
          (nd.pointers.map (fun p => p.const_qualifier))) := by
    intro nd
    simp [create_typealias_identifier, visit_declaration_specifier_joined spec tokens h,
      append_pointers_suffix, alias_identifier_string, g_quark_from_string]
  refine ⟨key node, ?_⟩
  intro node2 h2
  rw [key node2, key node, h2]

theorem create_typealias_identifier_is_joined_tokens_witness :
    [ctf_node.NODE_TYPE_SPECIFIER typespec.TYPESPEC_UNSIGNED none,
      ctf_node.NODE_STRUCT (some "s") [] false].map alias_token
      = ["unsigned", "struct s"].map some ∧
    create_typealias_identifier
      [ctf_node.NODE_TYPE_SPECIFIER typespec.TYPESPEC_UNSIGNED none,
        ctf_node.NODE_STRUCT (some "s") [] false]
      (type_declarator.TYPEDEC_ID [⟨false⟩, ⟨true⟩] none none)
      = GQuark.of "unsigned struct s * * const" :=
  ⟨by simp [alias_token],
    ((create_typealias_identifier_is_joined_tokens
      [ctf_node.NODE_TYPE_SPECIFIER typespec.TYPESPEC_UNSIGNED none,
        ctf_node.NODE_STRUCT (some "s") [] false]
      ["unsigned", "struct s"] (type_declarator.TYPEDEC_ID [⟨false⟩, ⟨true⟩] none none)
      (by simp [alias_token])).1).trans (by decide)⟩

/-! ## C1, C2 and C3: struct fields -/

theorem struct_type_declarators_visit_of_resolve (trace : ctf_trace)
    (declaration_specifier : List ctf_node) (type_declarators : List type_declarator)
    (field_name : Option GQuark) (scope scope1 : declaration_scope)
    (results : List (GQuark × declaration))
    (h : declarators_resolve trace declaration_specifier type_declarators field_name scope
      results scope1) :
    ∀ (fields : List (GQuark × declaration)) (declaration_scope : declaration_scope),
      ctf_struct_type_declarators_visit ⟨fields, scope⟩ declaration_specifier type_declarators
        declaration_scope trace field_name = .ok (0, ⟨fields ++ results, scope1⟩) := by
  induction h with
  | nil field_name scope =>
    intro fields ds
    rw [ctf_struct_type_declarators_visit]
    simp
  | cons iter rest field_name scope scope1 scope2 n D results hv _ ih =>
    intro fields ds
    rw [ctf_struct_type_declarators_visit]
    simp [hv, struct_declaration_add_field, g_quark_from_to_string, ih]

theorem struct_visit_loop_of_resolves (trace : ctf_trace) (body : List ctf_node)
    (scope scope1 : declaration_scope) (results : List (GQuark × declaration))
    (h : body_resolves trace body scope results scope1) :
    ∀ fields : List (GQuark × declaration),
      ctf_declaration_struct_visit_loop body ⟨fields, scope⟩ trace
        = .ok (0, ⟨fields ++ results, scope1⟩) := by
  induction h with
  | nil scope =>
    intro fields
    rw [ctf_declaration_struct_visit_loop]
    simp
  | typedef spec decls rest scope scope1 scope2 results hv _ ih =>
    intro fields
    rw [ctf_declaration_struct_visit_loop, ctf_struct_declaration_list_visit]
    simp [hv, ih]
  | typealias target alias_node rest scope scope1 scope2 results hv _ ih =>
    intro fields
    rw [ctf_declaration_struct_visit_loop, ctf_struct_declaration_list_visit]
    simp [hv, ih]
  | field spec decls rest scope scope1 scope2 flds results hd _ ih =>
    intro fields
    rw [ctf_declaration_struct_visit_loop, ctf_struct_declaration_list_visit]
    simp [struct_type_declarators_visit_of_resolve trace spec decls none scope scope1 flds hd,
      ih]

theorem lookup_struct_declaration_none_local (q : GQuark) (scope : declaration_scope)
    (h : lookup_struct_declaration q scope = none) :
    scope.struct_declarations.lookup q = none := by
  cases scope with
  | mk t s v e p =>
    simp only [declaration_scope.struct_declarations]
    cases hs : List.lookup q s with
    | none => rfl
    | some d => cases p <;> simp [lookup_struct_declaration, hs, first_hit] at h

/-- A named struct with a body that elaborates is returned and registered. -/
theorem struct_visit_named_of_resolves (n : String) (body : List ctf_node)
    (t s v e : List (GQuark × declaration)) (p : Option declaration_scope)
    (inner : declaration_scope) (trace : ctf_trace)
    (results : List (GQuark × declaration))
    (hname : lookup_struct_declaration (GQuark.of n) (.mk t s v e p) = none)
    (hres : body_resolves trace body (new_declaration_scope (some (.mk t s v e p)))
      results inner) :
    ctf_declaration_struct_visit (some n) body true (.mk t s v e p) trace
      = .ok (some (declaration.struct results inner),
          .mk t (s ++ [(GQuark.of n, declaration.struct results inner)]) v e p) := by
  rw [ctf_declaration_struct_visit.eq_def]
  have hloop := struct_visit_loop_of_resolves trace body _ inner results hres []
  have hl := lookup_struct_declaration_none_local _ _ hname
  simp only [declaration_scope.struct_declarations] at hl
  simp [struct_declaration_new, hloop, declaration_struct.p, g_quark_from_string, hname,
    register_struct_declaration, hl]

/-- An anonymous struct with a body that elaborates is returned. -/
theorem struct_visit_anonymous_of_resolves (body : List ctf_node)
    (scope inner : declaration_scope) (trace : ctf_trace)
    (results : List (GQuark × declaration))
    (hres : body_resolves trace body (new_declaration_scope (some scope)) results inner) :
    ctf_declaration_struct_visit none body true scope trace
      = .ok (some (declaration.struct results inner), scope) := by
  rw [ctf_declaration_struct_visit.eq_def]
  have hloop := struct_visit_loop_of_resolves trace body _ inner results hres []
  simp [struct_declaration_new, hloop, declaration_struct.p]

theorem struct_visit_of_resolves (name : Option String) (body : List ctf_node)
    (scope inner : declaration_scope) (trace : ctf_trace)
    (results : List (GQuark × declaration))
    (hname : ∀ n, name = some n → lookup_struct_declaration (GQuark.of n) scope = none)
    (hres : body_resolves trace body (new_declaration_scope (some scope)) results inner) :
    ∃ scope1, ctf_declaration_struct_visit name body true scope trace
      = .ok (some (declaration.struct results inner), scope1) := by
  cases name with
  | none => exact ⟨_, struct_visit_anonymous_of_resolves body scope inner trace results hres⟩
  | some n =>
    cases scope with
    | mk t s v e p =>
      exact ⟨_, struct_visit_named_of_resolves n body t s v e p inner trace results
        (hname n rfl) hres⟩

theorem uint32_field_resolves (n : String) (field_name : Option GQuark)
    (scope : declaration_scope) (trace : ctf_trace)
    (h : lookup_declaration (GQuark.of "uint32_t") scope = some uint32_declaration) :
    ctf_type_declarator_visit uint32_t field_name (some (.TYPEDEC_ID [] none (some n)))
      scope none trace = .ok (some uint32_declaration, some (GQuark.of n), scope) := by
  rw [type_declarator_visit_plain_id uint32_t field_name (some n) scope scope trace
    (some uint32_declaration) (by rw [uint32_t_visit, h])]
  rfl

theorem uint32_fields_resolve (names : List String) (scope : declaration_scope)
    (trace : ctf_trace)
    (h : lookup_declaration (GQuark.of "uint32_t") scope = some uint32_declaration) :
    body_resolves trace (names.map uint32_field) scope
      (names.map (fun n => (GQuark.of n, uint32_declaration))) scope := by
  induction names with
  | nil => exact body_resolves.nil scope
  | cons n ns ih =>
    exact body_resolves.field uint32_t _ _ scope scope scope [(GQuark.of n, uint32_declaration)] _
      (declarators_resolve.cons _ _ none scope scope scope _ _ []
        (uint32_field_resolves n none scope trace h) (declarators_resolve.nil _ scope))
      ih

theorem lookup_uint32_inner :
    lookup_declaration (GQuark.of "uint32_t") (new_declaration_scope (some root_with_uint32))
      = some uint32_declaration := by
  simp [new_declaration_scope, root_with_uint32, lookup_declaration, first_hit, List.lookup]

/-- C1. For a struct with a body whose items all elaborate and whose field
declarators, read in AST order across the field declarations and their
declarator lists, resolve to pairwise distinct names `n_1..n_k`, where the
struct is anonymous or its name is not yet declared, the struct returned by
`ctf_declaration_struct_visit` has exactly the fields `(n_1, ..., n_k)` in that
order, each with the declaration the resolver returned for it. -/
theorem struct_fields_follow_ast_order (name : Option String) (body : List ctf_node)
    (scope inner : declaration_scope) (trace : ctf_trace)
    (results : List (GQuark × declaration))
    (hname : ∀ n, name = some n → lookup_struct_declaration (GQuark.of n) scope = none)
    (hres : body_resolves trace body (new_declaration_scope (some scope)) results inner)
    (_hdistinct : (results.map Prod.fst).Nodup) :
    ∃ scope1, ctf_declaration_struct_visit name body true scope trace
      = .ok (some (declaration.struct results inner), scope1) :=
  struct_visit_of_resolves name body scope inner trace results hname hres

theorem struct_fields_follow_ast_order_witness :
    ([(GQuark.of "magic", uint32_declaration),
      (GQuark.of "version", uint32_declaration)].map Prod.fst).Nodup ∧
    ∃ scope1, ctf_declaration_struct_visit (some "hdr") hdr_body true root_with_uint32 le_trace
      = .ok (some (declaration.struct
          [(GQuark.of "magic", uint32_declaration), (GQuark.of "version", uint32_declaration)]
          (new_declaration_scope (some root_with_uint32))), scope1) :=
  ⟨by decide,
    struct_fields_follow_ast_order (some "hdr") hdr_body root_with_uint32
      (new_declaration_scope (some root_with_uint32)) le_trace
      [(GQuark.of "magic", uint32_declaration), (GQuark.of "version", uint32_declaration)]
      (by intro n _; simp [root_with_uint32, lookup_struct_declaration, first_hit])
      (uint32_fields_resolve ["magic", "version"] _ le_trace lookup_uint32_inner)
      (by decide)⟩

/-- C2, as stated, fails: for `struct s { uint32_t x; uint32_t x; }`, with
`uint32_t` an alias in the root scope, `ctf_declaration_struct_visit` returns
a struct that holds the field `x` twice and registers it under `s`. -/
theorem duplicate_field_is_accepted :
    ctf_declaration_struct_visit (some "s") duplicate_body true root_with_uint32 le_trace
      = .ok (some (declaration.struct
            [(GQuark.of "x", uint32_declaration), (GQuark.of "x", uint32_declaration)]
            (new_declaration_scope (some root_with_uint32))),
          declaration_scope.mk [(GQuark.of "uint32_t", uint32_declaration)]
            [(GQuark.of "s", declaration.struct
              [(GQuark.of "x", uint32_declaration), (GQuark.of "x", uint32_declaration)]
              (new_declaration_scope (some root_with_uint32)))] [] [] none) :=
  struct_visit_named_of_resolves "s" duplicate_body
    [(GQuark.of "uint32_t", uint32_declaration)] [] [] [] none
    (new_declaration_scope (some root_with_uint32)) le_trace
    [(GQuark.of "x", uint32_declaration), (GQuark.of "x", uint32_declaration)]
    (by simp [lookup_struct_declaration, first_hit])
    (uint32_fields_resolve ["x", "x"] _ le_trace lookup_uint32_inner)

/-- C2, amended. For a struct with a body whose items all elaborate and in
which two field declarators carry the same name, where the struct is anonymous
or its name is not yet declared, `ctf_declaration_struct_visit` makes no
uniqueness check: it returns the struct with every field, the repeated name
included each time, in AST order. -/
theorem struct_keeps_duplicate_fields (name : Option String) (body : List ctf_node)
    (scope inner : declaration_scope) (trace : ctf_trace)
    (results : List (GQuark × declaration))
    (hname : ∀ n, name = some n → lookup_struct_declaration (GQuark.of n) scope = none)
    (hres : body_resolves trace body (new_declaration_scope (some scope)) results inner)
    (_hdup : ¬ (results.map Prod.fst).Nodup) :
    ∃ scope1, ctf_declaration_struct_visit name body true scope trace
      = .ok (some (declaration.struct results inner), scope1) :=
  struct_visit_of_resolves name body scope inner trace results hname hres

theorem struct_keeps_duplicate_fields_witness :
    ¬ ([(GQuark.of "x", uint32_declaration), (GQuark.of "x", uint32_declaration)].map
        Prod.fst).Nodup ∧
    ∃ scope1, ctf_declaration_struct_visit none duplicate_body true root_with_uint32 le_trace
      = .ok (some (declaration.struct
          [(GQuark.of "x", uint32_declaration), (GQuark.of "x", uint32_declaration)]
          (new_declaration_scope (some root_with_uint32))), scope1) :=
  ⟨by decide,
    struct_keeps_duplicate_fields none duplicate_body root_with_uint32
      (new_declaration_scope (some root_with_uint32)) le_trace
      [(GQuark.of "x", uint32_declaration), (GQuark.of "x", uint32_declaration)]
      (by intro n h; cases h)
      (uint32_fields_resolve ["x", "x"] _ le_trace lookup_uint32_inner)
      (by decide)⟩

/-- C3: what the code does. For `struct s { int *p; }` in a scope chain where
`int *` is no alias, the resolver returns NULL without assigning the field
name, and `ctf_struct_type_declarators_visit` goes on to add the field: the
visit does not return NULL, it reads the unassigned `field_name`. -/
theorem pointer_field_without_alias_is_not_rejected (name : Option String)
    (scope : declaration_scope) (trace : ctf_trace)
    (hname : ∀ n, name = some n → lookup_struct_declaration (GQuark.of n) scope = none)
    (halias : lookup_declaration (GQuark.of "int *") scope = none) :
    ctf_declaration_struct_visit name int_pointer_body true scope trace
      = .error Fault.uninit_read := by
  rw [ctf_declaration_struct_visit.eq_def]
  have hin : lookup_declaration (GQuark.of "int *") (new_declaration_scope (some scope))
      = none := by
    simp [new_declaration_scope, lookup_declaration, first_hit, halias]
  have hq : create_typealias_identifier int_specifier
      (type_declarator.TYPEDEC_ID [⟨false⟩] none (some "p")) = GQuark.of "int *" := by
    decide
  have hloop : ctf_declaration_struct_visit_loop int_pointer_body
      (struct_declaration_new scope) trace = .error Fault.uninit_read := by
    rw [int_pointer_body, ctf_declaration_struct_visit_loop, ctf_struct_declaration_list_visit,
      ctf_struct_type_declarators_visit, ctf_type_declarator_visit]
    simp [ctf_type_declarator_visit_inner, type_declarator.pointers, hq, struct_declaration_new,
      hin]
  cases name with
  | none => simp [hloop]
  | some n => simp [hloop, hname n rfl, g_quark_from_string]

theorem pointer_field_without_alias_is_not_rejected_witness :
    lookup_declaration (GQuark.of "int *") empty_root = none ∧
    ctf_declaration_struct_visit (some "s") int_pointer_body true empty_root le_trace
      = .error Fault.uninit_read :=
  ⟨by simp [empty_root, new_declaration_scope, lookup_declaration, first_hit],
    pointer_field_without_alias_is_not_rejected (some "s") empty_root le_trace
      (by intro n _; simp [empty_root, new_declaration_scope, lookup_struct_declaration, first_hit])
      (by simp [empty_root, new_declaration_scope, lookup_declaration, first_hit])⟩

/-! ## The specifier visitor and the type alias map -/

theorem register_struct_declaration_aliases (q : GQuark) (d : declaration)
    (scope scope1 : declaration_scope) (ret : Int)
    (h : register_struct_declaration q d scope = (ret, scope1)) :
    scope1.typedef_declarations = scope.typedef_declarations := by
  cases scope with
  | mk t s v e p =>
    simp only [register_struct_declaration] at h
    split at h <;> simp only [Prod.mk.injEq] at h <;> obtain ⟨_, rfl⟩ := h <;> rfl

theorem register_variant_declaration_aliases (q : GQuark) (d : declaration)
    (scope scope1 : declaration_scope) (ret : Int)
    (h : register_variant_declaration q d scope = (ret, scope1)) :
    scope1.typedef_declarations = scope.typedef_declarations := by
  cases scope with
  | mk t s v e p =>
    simp only [register_variant_declaration] at h
    split at h <;> simp only [Prod.mk.injEq] at h <;> obtain ⟨_, rfl⟩ := h <;> rfl

theorem register_enum_declaration_aliases (q : GQuark) (d : declaration)
    (scope scope1 : declaration_scope) (ret : Int)
    (h : register_enum_declaration q d scope = (ret, scope1)) :
    scope1.typedef_declarations = scope.typedef_declarations := by
  cases scope with
  | mk t s v e p =>
    simp only [register_enum_declaration] at h
    split at h <;> simp only [Prod.mk.injEq] at h <;> obtain ⟨_, rfl⟩ := h <;> rfl

theorem register_enum_declaration_snd_aliases (q : GQuark) (d : declaration)
    (scope : declaration_scope) :
    (register_enum_declaration q d scope).2.typedef_declarations
      = scope.typedef_declarations :=
  register_enum_declaration_aliases q d scope _ _ rfl

/-- The struct builder leaves the type alias map of its scope as it is. -/
theorem struct_visit_aliases (name : Option String) (declaration_list : List ctf_node)
    (has_body : Bool) (scope scope1 : declaration_scope) (trace : ctf_trace)
    (d : Option declaration)
    (h : ctf_declaration_struct_visit name declaration_list has_body scope trace
      = .ok (d, scope1)) :
    scope1.typedef_declarations = scope.typedef_declarations := by
  rw [ctf_declaration_struct_visit.eq_def] at h
  repeat' split at h
  all_goals simp only [Except.ok.injEq, Prod.mk.injEq, reduceCtorEq] at h
  all_goals obtain ⟨_, rfl⟩ := h
  all_goals first
    | rfl
    | exact register_struct_declaration_aliases _ _ _ _ _ (by assumption)

theorem variant_visit_untagged_aliases (name : Option String) (declaration_list : List ctf_node)
    (has_body : Bool) (scope scope1 : declaration_scope) (trace : ctf_trace)
    (d : Option declaration)
    (h : ctf_declaration_variant_visit_untagged name declaration_list has_body scope trace
      = .ok (some (d, scope1))) :
    scope1.typedef_declarations = scope.typedef_declarations := by
  rw [ctf_declaration_variant_visit_untagged.eq_def] at h
  repeat' split at h
  all_goals simp only [Except.ok.injEq, Option.some.injEq, Prod.mk.injEq, reduceCtorEq] at h
  all_goals obtain ⟨_, rfl⟩ := h
  all_goals first
    | rfl
    | exact register_variant_declaration_aliases _ _ _ _ _ (by assumption)

/-- The variant builder leaves the type alias map of its scope as it is. -/
theorem variant_visit_aliases (name choice : Option String) (declaration_list : List ctf_node)
    (has_body : Bool) (scope scope1 : declaration_scope) (trace : ctf_trace)
    (d : Option declaration)
    (h : ctf_declaration_variant_visit name choice declaration_list has_body scope trace
      = .ok (d, scope1)) :
    scope1.typedef_declarations = scope.typedef_declarations := by
  rw [ctf_declaration_variant_visit.eq_def] at h
  repeat' split at h
  all_goals simp only [Except.ok.injEq, Prod.mk.injEq, reduceCtorEq] at h
  all_goals obtain ⟨_, rfl⟩ := h
  all_goals first
    | rfl
    | exact variant_visit_untagged_aliases _ _ _ _ _ _ _ (by assumption)

/-- The specifier visitor leaves the scope as it is when the first node of the
list is an integer or a type specifier. -/
theorem specifier_visit_basic_scope (head : List ctf_node) (first : ctf_node)
    (scope scope1 : declaration_scope) (trace : ctf_trace) (d : Option declaration)
    (hfirst : first_or_null head = some first)
    (hkind : (∃ e, first = .NODE_INTEGER e) ∨ (∃ t i, first = .NODE_TYPE_SPECIFIER t i))
    (h : ctf_declaration_specifier_visit head scope trace = .ok (d, scope1)) :
    scope1 = scope := by
  cases head with
  | nil => simp [first_or_null] at hfirst
  | cons f rest =>
    simp only [first_or_null, Option.some.injEq] at hfirst
    subst hfirst
    rcases hkind with ⟨e, rfl⟩ | ⟨t, i, rfl⟩
    · rw [ctf_declaration_specifier_visit] at h
      split at h
      · simp at h
      · simp only [Except.ok.injEq, Prod.mk.injEq] at h
        exact h.2.symm
    · rw [ctf_declaration_specifier_visit] at h
      simp only [Except.ok.injEq, Prod.mk.injEq] at h
      exact h.2.symm

theorem type_declarator_visit_null_basic_scope (declaration_specifier : List ctf_node)
    (first : ctf_node) (field_name field_name1 : Option GQuark)
    (scope scope1 : declaration_scope) (trace : ctf_trace) (d : Option declaration)
    (hfirst : first_or_null declaration_specifier = some first)
    (hkind : (∃ e, first = .NODE_INTEGER e) ∨ (∃ t i, first = .NODE_TYPE_SPECIFIER t i))
    (h : ctf_type_declarator_visit declaration_specifier field_name none scope none trace
      = .ok (d, field_name1, scope1)) :
    scope1 = scope := by
  rw [type_declarator_visit_null_node] at h
  split at h
  · simp at h
  · simp only [Except.ok.injEq, Prod.mk.injEq] at h
    obtain ⟨rfl, _, rfl⟩ := h
    exact specifier_visit_basic_scope _ _ _ _ _ _ hfirst hkind (by assumption)

/-- The enum builder leaves the type alias map of its scope as it is. -/
theorem enum_visit_aliases (name : Option String) (container_type : List ctf_node)
    (enumerator_list : List ctf_enumerator)
    (has_body : Bool) (scope scope1 : declaration_scope) (trace : ctf_trace)
    (d : Option declaration)
    (h : ctf_declaration_enum_visit name container_type enumerator_list has_body scope trace
      = .ok (d, scope1)) :
    scope1.typedef_declarations = scope.typedef_declarations := by
  rw [ctf_declaration_enum_visit.eq_def] at h
  repeat' split at h
  all_goals simp only [Except.ok.injEq, Prod.mk.injEq, reduceCtorEq] at h
  all_goals try obtain ⟨_, rfl⟩ := h
  all_goals try rfl
  all_goals
    have hs := type_declarator_visit_null_basic_scope _ _ _ _ _ _ _ _ (by assumption)
      (by first | exact Or.inl ⟨_, rfl⟩ | exact Or.inr ⟨_, _, rfl⟩) (by assumption)
    subst hs
    first
      | rfl
      | exact register_enum_declaration_snd_aliases _ _ _
      | exact register_enum_declaration_aliases _ _ _ _ _ (by assumption)

/-- The specifier visitor leaves the type alias map of its scope as it is:
what a specifier registers in that scope is a named struct, variant or enum. -/
theorem specifier_visit_aliases (head : List ctf_node)
    (scope scope1 : declaration_scope) (trace : ctf_trace) (d : Option declaration)
    (h : ctf_declaration_specifier_visit head scope trace = .ok (d, scope1)) :
    scope1.typedef_declarations = scope.typedef_declarations := by
  rw [ctf_declaration_specifier_visit.eq_def] at h
  repeat' split at h
  all_goals try simp only [Except.ok.injEq, Prod.mk.injEq, reduceCtorEq] at h
  all_goals first
    | exact struct_visit_aliases _ _ _ _ _ _ _ h
    | exact variant_visit_aliases _ _ _ _ _ _ _ _ h
    | exact enum_visit_aliases _ _ _ _ _ _ _ _ h
    | (obtain ⟨_, rfl⟩ := h; rfl)

/-! ## C7: typealias, then lookup -/

theorem lookup_append_fresh (q : GQuark) (D : declaration)
    (t : List (GQuark × declaration)) (h : t.lookup q = none) :
    (t ++ [(q, D)]).lookup q = some D := by
  induction t with
  | nil => simp [List.lookup]
  | cons a t ih =>
    obtain ⟨k, v⟩ := a
    cases hk : (q == k) with
    | true => simp [List.lookup, hk] at h
    | false =>
      simp only [List.cons_append, List.lookup, hk] at h ⊢
      exact ih h

theorem lookup_declaration_registered (q : GQuark) (D : declaration)
    (t s v e : List (GQuark × declaration)) (p : Option declaration_scope)
    (h : t.lookup q = none) :
    lookup_declaration q (.mk (t ++ [(q, D)]) s v e p) = some D := by
  cases p <;> simp [lookup_declaration, lookup_append_fresh q D t h, first_hit]

theorem lookup_declaration_descends (q : GQuark) (D : declaration)
    (s c : declaration_scope) (hs : lookup_declaration q s = some D)
    (h : descends_without q s c) :
    lookup_declaration q c = some D := by
  induction h with
  | self => exact hs
  | child t sd v e p ht _ ih => simp [lookup_declaration, ht, first_hit, ih]

theorem visit_declaration_specifier_loop_ok (A : List ctf_node) :
    ∀ (k : Int) (str : String),
      (∀ a ∈ A, (declaration_specifier_text a).isSome) →
      (visit_declaration_specifier_loop k A str).1 = 0 := by
  induction A with
  | nil => intro k str _; simp [visit_declaration_specifier_loop]
  | cons a A ih =>
    intro k str h
    have ha := h a (List.mem_cons_self a A)
    cases hd : declaration_specifier_text a with
    | none => simp [hd] at ha
    | some text =>
      simp only [visit_declaration_specifier_loop, hd]
      exact ih _ _ (fun b hb => h b (List.mem_cons_of_mem a hb))

theorem type_specifier_tokens_text (A : List ctf_node) (h : type_specifier_tokens A) :
    ∀ a ∈ A, (declaration_specifier_text a).isSome := by
  intro a ha
  obtain ⟨ty, id, rfl, hty⟩ := h.2 a ha
  cases ty <;> cases id <;> simp_all [declaration_specifier_text]

/-- For type-specifier tokens and a declarator without pointers, the alias
identifier is the quark under which the specifier visitor looks the tokens up. -/
theorem type_specifier_visit_is_alias_lookup (A : List ctf_node)
    (h : type_specifier_tokens A) (id : Option String) (c : declaration_scope)
    (trace : ctf_trace) :
    ctf_declaration_specifier_visit A c trace
      = .ok (lookup_declaration (create_typealias_identifier A (.TYPEDEC_ID [] none id)) c,
          c) := by
  have htext := type_specifier_tokens_text A h
  have h0 : (visit_declaration_specifier A "").1 = 0 :=
    visit_declaration_specifier_loop_ok A 0 "" htext
  cases A with
  | nil => exact absurd rfl h.1
  | cons a rest =>
    obtain ⟨ty, i, rfl, _⟩ := h.2 a (List.mem_cons_self a rest)
    rw [specifier_visit_type_specifier]
    simp [ctf_declaration_type_specifier_visit, create_typealias_identifier, h0,
      type_declarator.pointers, append_pointers]

/-- C7. Round trip typealias, then lookup. For every scope `s`, every target
specifier list that elaborates in `s` to a declaration `D`, and every alias
made of type-specifier tokens `A` with an anonymous declarator without
pointers, whose identifier is not yet registered in `s`: `ctf_typealias_visit`
returns 0, and afterwards `ctf_declaration_specifier_visit` on `A`, in `s` or
in any descendant scope that has not registered that identifier again,
returns `D`. -/
theorem typealias_then_lookup_returns_target (scope scope1 : declaration_scope)
    (trace : ctf_trace) (T : List ctf_node) (target_declarators : List type_declarator)
    (A : List ctf_node) (more : List type_declarator) (D : declaration)
    (hT : ctf_declaration_specifier_visit T scope trace = .ok (some D, scope1))
    (hA : type_specifier_tokens A)
    (hfree : scope.typedef_declarations.lookup
      (create_typealias_identifier A (.TYPEDEC_ID [] none none)) = none) :
    ∃ scope2, ctf_typealias_visit scope (.mk T target_declarators)
        (.mk A (.TYPEDEC_ID [] none none :: more)) trace = .ok (0, scope2) ∧
      ∀ c, descends_without (create_typealias_identifier A (.TYPEDEC_ID [] none none))
          scope2 c →
        ctf_declaration_specifier_visit A c trace = .ok (some D, c) := by
  have hframe := specifier_visit_aliases T scope scope1 trace (some D) hT
  have hvisit := type_declarator_visit_plain_id T none none scope scope1 trace (some D) hT
  cases scope1 with
  | mk t s v e p =>
    rw [← hframe] at hfree
    simp only [declaration_scope.typedef_declarations] at hfree
    refine ⟨.mk (t ++ [(create_typealias_identifier A (.TYPEDEC_ID [] none none), D)]) s v e p,
      ?_, ?_⟩
    · rw [ctf_typealias_visit]
      simp [first_or_null, hvisit, g_quark_from_string, register_declaration, hfree]
    · intro c hc
      rw [type_specifier_visit_is_alias_lookup A hA none c trace]
      rw [lookup_declaration_descends _ D _ c
        (lookup_declaration_registered _ D t s v e p hfree) hc]

theorem typealias_then_lookup_returns_target_witness :
    ∃ scope2, ctf_typealias_visit empty_root (.mk integer_32 [abstract_declarator])
        (.mk uint32_t [.TYPEDEC_ID [] none none]) le_trace = .ok (0, scope2) ∧
      ∀ c, descends_without (create_typealias_identifier uint32_t (.TYPEDEC_ID [] none none))
          scope2 c →
        ctf_declaration_specifier_visit uint32_t c le_trace
          = .ok (some uint32_declaration, c) :=
  typealias_then_lookup_returns_target empty_root empty_root le_trace integer_32
    [abstract_declarator] uint32_t [] uint32_declaration (integer_32_visit empty_root)
    ⟨by simp [uint32_t], by
      intro a ha
      simp only [uint32_t, List.mem_singleton] at ha
      exact ⟨_, _, ha, by simp⟩⟩
    (by simp [empty_root, new_declaration_scope, declaration_scope.typedef_declarations])

/-! ## C8, C9 and C10: failures of the resolver in typealias and typedef -/

theorem lookup_declaration_empty_root (q : GQuark) : lookup_declaration q empty_root = none := by
  simp [empty_root, new_declaration_scope, lookup_declaration, first_hit]

/-- The specifier `uint32_t` does not resolve in the empty root scope: an
identifier declarator gets its name and a NULL declaration. -/
theorem uint32_t_unresolved (field_name : Option GQuark) (id : Option String)
    (trace : ctf_trace) :
    ctf_type_declarator_visit uint32_t field_name (some (.TYPEDEC_ID [] none id))
      empty_root none trace = .ok (none, some (g_quark_from_string id), empty_root) :=
  type_declarator_visit_plain_id uint32_t field_name id empty_root empty_root trace none
    (by rw [uint32_t_visit, lookup_declaration_empty_root])

/-- C8: what the code does. `ctf_typealias_visit` resolves the target
specifier with the first declarator of the alias node, not of the target
node. When the alias declarator carries pointers, the target is therefore
looked up as the alias named by the target specifier followed by those
pointers; when that alias is not registered the target is NULL, and the error
path then calls `declaration_free` through that NULL pointer: no alias is
registered and the visit does not return. -/
theorem typealias_pointer_alias_reads_alias_declarator (scope : declaration_scope)
    (T A : List ctf_node) (target_declarators more : List type_declarator)
    (pointers : List ctf_pointer) (id : Option String) (trace : ctf_trace)
    (hp : pointers ≠ [])
    (hl : lookup_declaration (create_typealias_identifier T (.TYPEDEC_ID pointers none id))
      scope = none) :
    ctf_typealias_visit scope (.mk T target_declarators)
      (.mk A (.TYPEDEC_ID pointers none id :: more)) trace = .error Fault.null_deref := by
  rw [ctf_typealias_visit]
  simp only [first_or_null]
  rw [ctf_type_declarator_visit, ctf_type_declarator_visit_inner]
  simp [type_declarator.pointers, hp, hl]

theorem typealias_pointer_alias_reads_alias_declarator_witness :
    create_typealias_identifier integer_32 (.TYPEDEC_ID [⟨false⟩] none none) = GQuark.zero ∧
    ctf_typealias_visit empty_root (.mk integer_32 [abstract_declarator])
      (.mk int_specifier [.TYPEDEC_ID [⟨false⟩] none none]) le_trace
      = .error Fault.null_deref :=
  ⟨by decide,
    typealias_pointer_alias_reads_alias_declarator empty_root integer_32 int_specifier
      [abstract_declarator] [] [⟨false⟩] none le_trace (by simp)
      (lookup_declaration_empty_root _)⟩

/-- C9: what the code does. When the target declaration cannot be built, the
resolver returning NULL, `ctf_typealias_visit` sets `err` and jumps to its
error label, which calls `declaration_free` through the NULL pointer: the
visit does not return an error code. -/
theorem typealias_unbuilt_target_dereferences_null (scope scope1 : declaration_scope)
    (T A : List ctf_node) (target_declarators alias_declarators : List type_declarator)
    (dummy_id : Option GQuark) (trace : ctf_trace)
    (h : ctf_type_declarator_visit T none (first_or_null alias_declarators) scope none trace
      = .ok (none, dummy_id, scope1)) :
    ctf_typealias_visit scope (.mk T target_declarators) (.mk A alias_declarators) trace
      = .error Fault.null_deref := by
  rw [ctf_typealias_visit]
  simp [h]

theorem typealias_unbuilt_target_dereferences_null_witness :
    ctf_type_declarator_visit uint32_t none (first_or_null [type_declarator.TYPEDEC_ID [] none none])
      empty_root none le_trace = .ok (none, some GQuark.zero, empty_root) ∧
    ctf_typealias_visit empty_root (.mk uint32_t [abstract_declarator])
      (.mk int_specifier [.TYPEDEC_ID [] none none]) le_trace = .error Fault.null_deref :=
  ⟨uint32_t_unresolved none none le_trace,
    typealias_unbuilt_target_dereferences_null empty_root empty_root uint32_t int_specifier
      [abstract_declarator] [.TYPEDEC_ID [] none none] (some GQuark.zero) le_trace
      (uint32_t_unresolved none none le_trace)⟩

/-- C10: what the code does. When a declarator of a typedef does not resolve,
the resolver returning NULL with the name assigned, `ctf_typedef_visit` passes
the NULL declaration on: `register_declaration` takes a reference on it, or,
when the name is already registered, `ctf_typedef_visit` calls
`declaration_free` through it. The visit does not return an error code. -/
theorem typedef_unresolved_declarator_dereferences_null (scope scope1 : declaration_scope)
    (declaration_specifier : List ctf_node) (iter : type_declarator)
    (rest : List type_declarator) (identifier : Option GQuark) (q : GQuark)
    (trace : ctf_trace)
    (h : ctf_type_declarator_visit declaration_specifier identifier (some iter) scope none trace
      = .ok (none, some q, scope1)) :
    ctf_typedef_visit scope declaration_specifier (iter :: rest) trace identifier
      = .error Fault.null_deref := by
  rw [ctf_typedef_visit]
  cases scope1 with
  | mk t s v e p =>
    simp only [h, register_declaration]
    cases hq : (List.lookup q t).isSome <;> simp [EEXIST]

theorem typedef_unresolved_declarator_dereferences_null_witness :
    ctf_type_declarator_visit uint32_t none (some (.TYPEDEC_ID [] none (some "foo")))
      empty_root none le_trace = .ok (none, some (GQuark.of "foo"), empty_root) ∧
    ctf_typedef_visit empty_root uint32_t [.TYPEDEC_ID [] none (some "foo")] le_trace none
      = .error Fault.null_deref :=
  ⟨uint32_t_unresolved none (some "foo") le_trace,
    typedef_unresolved_declarator_dereferences_null empty_root empty_root uint32_t
      (.TYPEDEC_ID [] none (some "foo")) [] none (GQuark.of "foo") le_trace
      (uint32_t_unresolved none (some "foo") le_trace)⟩


/-! ## Attribute lists of integers, floats and strings -/

theorem attribute_sides_inv (e : ctf_node) (name : String) (right : Option ctf_node)
    (h : attribute_sides e = .ok (name, right)) :
    ∃ l ls rs, e = .NODE_CTF_EXPRESSION (.NODE_UNARY_EXPRESSION (.UNARY_STRING name) l :: ls) rs ∧
      right = rs.head? := by
  unfold attribute_sides at h
  split at h
  · split at h
    · cases h
    · split at h
      · split at h
        · simp only [Except.ok.injEq, Prod.mk.injEq] at h
          obtain ⟨h1, h2⟩ := h
          subst h1
          exact ⟨_, _, _, rfl, h2.symm⟩
        · cases h
      · cases h
  · cases h

theorem attribute_sides_of_attribute (e : ctf_node) (h : is_attribute e) :
    ∃ name value k, attribute_sides e = .ok (name, some (.NODE_UNARY_EXPRESSION value k)) ∧
      attribute_name e = some name ∧ attribute_value e = some value := by
  obtain ⟨h1, h2⟩ := h
  unfold attribute_name at h1
  split at h1
  · rename_i s l ls rs
    unfold attribute_value at h2
    split at h2
    · rename_i heq
      cases heq
      exact ⟨s, _, _, rfl, rfl, rfl⟩
    · simp at h2
  · simp at h1

theorem attribute_unsigned_inv (r : ctf_node) (v : Nat)
    (h : attribute_unsigned (some r) = .ok (some v)) :
    ∃ k, r = .NODE_UNARY_EXPRESSION (.UNARY_UNSIGNED_CONSTANT v) k := by
  unfold attribute_unsigned at h
  split at h
  · cases h
  · rename_i r1 heq
    cases heq
    split at h
    · split at h
      · simp only [Except.ok.injEq, Option.some.injEq] at h
        subst h
        exact ⟨_, rfl⟩
      · cases h
    · cases h

/-- One turn of the attribute loop of the integer visitor that goes on: the
attribute read and the locals it leaves. -/
theorem integer_loop_cons_inv (trace : ctf_trace) (e : ctf_node) (rest : List ctf_node)
    (st st' : integer_attributes)
    (h : ctf_declaration_integer_visit_loop trace (e :: rest) st = .ok (some st')) :
    ∃ name r st1, attribute_sides e = .ok (name, some r) ∧
      (∀ rest1, ctf_declaration_integer_visit_loop trace (e :: rest1) st
        = ctf_declaration_integer_visit_loop trace rest1 st1) ∧
      ctf_declaration_integer_visit_loop trace rest st1 = .ok (some st') ∧
      ((name = "signed" ∧ 0 ≤ get_boolean r ∧
          st1 = ⟨st.alignment, st.size, st.byte_order, get_boolean r⟩) ∨
       (name = "byte_order" ∧ ∃ bo, get_byte_order r trace = .ok bo ∧ 0 ≤ bo ∧
          st1 = ⟨st.alignment, st.size, bo, st.signedness⟩) ∨
       (name = "size" ∧ ∃ v, attribute_unsigned (some r) = .ok (some v) ∧
          st1 = ⟨st.alignment, some v, st.byte_order, st.signedness⟩) ∨
       (name = "align" ∧ ∃ v, attribute_unsigned (some r) = .ok (some v) ∧
          st1 = ⟨some v, st.size, st.byte_order, st.signedness⟩)) := by
  rw [ctf_declaration_integer_visit_loop] at h
  split at h
  · cases h
  · rename_i left right hs
    by_cases h1 : left = "signed"
    · simp only [h1, if_true] at h
      split at h
      · cases h
      · rename_i r
        by_cases hb : get_boolean r < 0
        · simp [hb] at h
        · simp only [hb, if_false] at h
          refine ⟨_, r, _, by rw [hs, h1], ?_, h, Or.inl ⟨rfl, by omega, rfl⟩⟩
          intro rest1
          rw [ctf_declaration_integer_visit_loop]
          simp [hs, h1, hb]
    · by_cases h2 : left = "byte_order"
      · simp only [h2, if_true, if_false] at h
        simp only [show ¬ ("byte_order" = "signed") by decide, if_false] at h
        split at h
        · cases h
        · rename_i r
          split at h
          · cases h
          · rename_i bo hbo
            by_cases hb : bo < 0
            · simp [hb] at h
            · simp only [hb, if_false] at h
              refine ⟨_, r, _, by rw [hs, h2], ?_, h,
                Or.inr (Or.inl ⟨rfl, bo, hbo, by omega, rfl⟩)⟩
              intro rest1
              rw [ctf_declaration_integer_visit_loop]
              simp [hs, h2, hbo, hb]
      · by_cases h3 : left = "size"
        · simp only [h3] at h hs
          simp only [show ¬ ("size" = "signed") by decide,
            show ¬ ("size" = "byte_order") by decide, if_false, if_true] at h
          split at h
          · cases h
          · cases h
          · rename_i v hv
            cases right with
            | none => simp [attribute_unsigned] at hv
            | some r =>
              refine ⟨_, r, _, hs, ?_, h, Or.inr (Or.inr (Or.inl ⟨rfl, v, hv, rfl⟩))⟩
              intro rest1
              rw [ctf_declaration_integer_visit_loop]
              simp [hs, hv]
        · by_cases h4 : left = "align"
          · simp only [h4] at h hs
            simp only [show ¬ ("align" = "signed") by decide,
              show ¬ ("align" = "byte_order") by decide,
              show ¬ ("align" = "size") by decide, if_false, if_true] at h
            split at h
            · cases h
            · cases h
            · rename_i v hv
              cases right with
              | none => simp [attribute_unsigned] at hv
              | some r =>
                refine ⟨_, r, _, hs, ?_, h, Or.inr (Or.inr (Or.inr ⟨rfl, v, hv, rfl⟩))⟩
                intro rest1
                rw [ctf_declaration_integer_visit_loop]
                simp [hs, hv]
          · simp [h1, h2, h3, h4] at h

theorem get_byte_order_unary (value : unary_expression_type) (k : unary_link)
    (trace : ctf_trace) :
    ∃ bo, get_byte_order (.NODE_UNARY_EXPRESSION value k) trace = .ok bo := by
  unfold get_byte_order
  cases value <;> simp
  split_ifs <;> simp

theorem attribute_unsigned_unary (value : unary_expression_type) (k : unary_link) :
    ∃ r, attribute_unsigned (some (.NODE_UNARY_EXPRESSION value k)) = .ok r := by
  unfold attribute_unsigned
  cases value <;> simp

/-- On a list of attributes the attribute loop of the integer visitor runs to
its end or returns NULL. -/
theorem integer_loop_runs (trace : ctf_trace) (xs : List ctf_node) :
    ∀ st, (∀ e ∈ xs, is_attribute e) →
      ∃ r, ctf_declaration_integer_visit_loop trace xs st = .ok r := by
  induction xs with
  | nil => intro st _; exact ⟨_, rfl⟩
  | cons e rest ih =>
    intro st hall
    obtain ⟨name, value, k, hs, -, -⟩ := attribute_sides_of_attribute e (hall e (by simp))
    have hrest : ∀ e ∈ rest, is_attribute e := fun x hx => hall x (by simp [hx])
    rw [ctf_declaration_integer_visit_loop]
    simp only [hs]
    split_ifs
    · exact ⟨_, rfl⟩
    · exact ih _ hrest
    · obtain ⟨bo, hbo⟩ := get_byte_order_unary value k trace
      simp only [hbo]
      split_ifs
      · exact ⟨_, rfl⟩
      · exact ih _ hrest
    · obtain ⟨r, hr⟩ := attribute_unsigned_unary value k
      simp only [hr]
      cases r with
      | none => exact ⟨_, rfl⟩
      | some v => exact ih _ hrest
    · obtain ⟨r, hr⟩ := attribute_unsigned_unary value k
      simp only [hr]
      cases r with
      | none => exact ⟨_, rfl⟩
      | some v => exact ih _ hrest
    · exact ⟨_, rfl⟩

theorem attribute_sides_link (e : ctf_node) (name : String) (r : ctf_node)
    (h : attribute_sides e = .ok (name, some r)) :
    attribute_name e = some name ∧
      ∀ value k, r = .NODE_UNARY_EXPRESSION value k → attribute_value e = some value := by
  obtain ⟨l, ls, rs, he, hr⟩ := attribute_sides_inv e name (some r) h
  subst he
  cases rs with
  | nil => simp at hr
  | cons r1 rs1 =>
    simp only [List.head?_cons, Option.some.injEq] at hr
    subst hr
    refine ⟨rfl, ?_⟩
    intro value k hrk
    subst hrk
    rfl

theorem get_boolean_nonneg_inv (r : ctf_node) (h : 0 ≤ get_boolean r) :
    ∃ value k, r = .NODE_UNARY_EXPRESSION value k ∧ is_boolean_value value := by
  unfold get_boolean at h
  split at h
  · rename_i type k
    refine ⟨type, k, rfl, ?_⟩
    split at h
    · trivial
    · trivial
    · rename_i s
      simp only [is_boolean_value]
      by_cases h1 : s = "true"
      · exact Or.inl h1
      · by_cases h2 : s = "TRUE"
        · exact Or.inr (Or.inl h2)
        · by_cases h3 : s = "false"
          · exact Or.inr (Or.inr (Or.inl h3))
          · by_cases h4 : s = "FALSE"
            · exact Or.inr (Or.inr (Or.inr h4))
            · simp [h1, h2, h3, h4, EINVAL] at h
    · simp [EINVAL] at h
  · simp [EINVAL] at h

theorem get_boolean_range (r : ctf_node) :
    get_boolean r = 0 ∨ get_boolean r = 1 ∨ get_boolean r = -EINVAL := by
  unfold get_boolean
  split
  · split
    · split_ifs <;> simp
    · split_ifs <;> simp
    · split_ifs <;> simp
    · simp
  · simp

theorem get_boolean_of_boolean_value (value : unary_expression_type) (k : unary_link)
    (h : is_boolean_value value) : 0 ≤ get_boolean (.NODE_UNARY_EXPRESSION value k) := by
  unfold get_boolean
  cases value with
  | UNARY_UNSIGNED_CONSTANT v => simp only []; split_ifs <;> simp
  | UNARY_SIGNED_CONSTANT v => simp only []; split_ifs <;> simp
  | UNARY_STRING s =>
    simp only [is_boolean_value] at h
    simp only []
    rcases h with h | h | h | h <;> subst h <;> decide
  | UNARY_UNKNOWN => simp [is_boolean_value] at h
  | UNARY_SBRAC => simp [is_boolean_value] at h
  | UNARY_NESTED => simp [is_boolean_value] at h

/-- What `get_byte_order` returns on a string: the byte order it names, or
`-EINVAL`. -/
theorem get_byte_order_string (s : String) (k : unary_link) (trace : ctf_trace) :
    get_byte_order (.NODE_UNARY_EXPRESSION (.UNARY_STRING s) k) trace
      = .ok (if s = "native" then trace.byte_order
          else if s = "network" then BIG_ENDIAN
          else if s = "be" then BIG_ENDIAN
          else if s = "le" then LITTLE_ENDIAN
          else -EINVAL) := by
  unfold get_byte_order
  simp only []
  split_ifs <;> rfl

theorem get_byte_order_of_bad_value (value : unary_expression_type) (k : unary_link)
    (trace : ctf_trace) (h : ¬ is_byte_order_value value) :
    get_byte_order (.NODE_UNARY_EXPRESSION value k) trace = .ok (-EINVAL) := by
  cases value with
  | UNARY_STRING s =>
    rw [get_byte_order_string]
    simp only [is_byte_order_value, is_byte_order_string, not_or] at h
    simp [h.1, h.2.1, h.2.2.1, h.2.2.2]
  | _ => rfl

theorem get_byte_order_nonneg_inv (r : ctf_node) (trace : ctf_trace) (bo : Int)
    (h : get_byte_order r trace = .ok bo) (hbo : 0 ≤ bo) :
    ∃ value k, r = .NODE_UNARY_EXPRESSION value k ∧ is_byte_order_value value := by
  cases r with
  | NODE_UNARY_EXPRESSION value k =>
    refine ⟨value, k, rfl, ?_⟩
    by_contra hbad
    rw [get_byte_order_of_bad_value value k trace hbad] at h
    simp only [Except.ok.injEq] at h
    subst h
    simp [EINVAL] at hbo
  | _ => simp [get_byte_order] at h

theorem has_attribute_cons (name : String) (e : ctf_node) (rest : List ctf_node) :
    has_attribute name (e :: rest) ↔ attribute_name e = some name ∨ has_attribute name rest := by
  simp [has_attribute]

/-- The attribute loop of the integer visitor over a list in two parts. -/
theorem integer_loop_append (trace : ctf_trace) (pre post : List ctf_node) :
    ∀ (st st' : integer_attributes),
      ctf_declaration_integer_visit_loop trace (pre ++ post) st = .ok (some st') →
      ∃ st1, ctf_declaration_integer_visit_loop trace pre st = .ok (some st1) ∧
        ctf_declaration_integer_visit_loop trace post st1 = .ok (some st') := by
  induction pre with
  | nil => intro st st' h; exact ⟨st, rfl, h⟩
  | cons e rest ih =>
    intro st st' h
    obtain ⟨name, r, st1, -, hstep, hgo, -⟩ :=
      integer_loop_cons_inv trace e (rest ++ post) st st' h
    obtain ⟨st2, h1, h2⟩ := ih st1 st' hgo
    exact ⟨st2, by rw [hstep]; exact h1, h2⟩

/-- A list the integer visitor runs through holds well-formed integer
attributes only. -/
theorem integer_loop_accepts_only (trace : ctf_trace) (xs : List ctf_node) :
    ∀ (st st' : integer_attributes),
      ctf_declaration_integer_visit_loop trace xs st = .ok (some st') →
      ∀ e ∈ xs, is_integer_attribute e := by
  induction xs with
  | nil => intro st st' _ e he; simp at he
  | cons x rest ih =>
    intro st st' h e he
    obtain ⟨name, r, st1, hs, -, hgo, hcase⟩ := integer_loop_cons_inv trace x rest st st' h
    rcases List.mem_cons.mp he with hx | hx
    · subst hx
      obtain ⟨hname, hvalue⟩ := attribute_sides_link e name r hs
      rcases hcase with ⟨hn, hb, -⟩ | ⟨hn, bo, hbo, hpos, -⟩ | ⟨hn, v, hv, -⟩ | ⟨hn, v, hv, -⟩
      · obtain ⟨value, k, hr, hval⟩ := get_boolean_nonneg_inv r hb
        exact ⟨name, value, hname, hvalue value k hr, Or.inl ⟨hn, hval⟩⟩
      · obtain ⟨value, k, hr, hval⟩ := get_byte_order_nonneg_inv r trace bo hbo hpos
        exact ⟨name, value, hname, hvalue value k hr, Or.inr (Or.inl ⟨hn, hval⟩)⟩
      · obtain ⟨k, hr⟩ := attribute_unsigned_inv r v hv
        exact ⟨name, _, hname, hvalue _ k hr, Or.inr (Or.inr (Or.inl ⟨hn, trivial⟩))⟩
      · obtain ⟨k, hr⟩ := attribute_unsigned_inv r v hv
        exact ⟨name, _, hname, hvalue _ k hr, Or.inr (Or.inr (Or.inr ⟨hn, trivial⟩))⟩
    · exact ih st1 st' hgo e hx

/-- Without an `align` attribute the loop leaves `alignment` as it was. -/
theorem integer_loop_alignment_frame (trace : ctf_trace) (xs : List ctf_node) :
    ∀ (st st' : integer_attributes),
      ctf_declaration_integer_visit_loop trace xs st = .ok (some st') →
      ¬ has_attribute "align" xs → st'.alignment = st.alignment := by
  induction xs with
  | nil =>
    intro st st' h _
    simp only [ctf_declaration_integer_visit_loop, Except.ok.injEq, Option.some.injEq] at h
    rw [h]
  | cons x rest ih =>
    intro st st' h hno
    rw [has_attribute_cons, not_or] at hno
    obtain ⟨name, r, st1, hs, -, hgo, hcase⟩ := integer_loop_cons_inv trace x rest st st' h
    have hname := (attribute_sides_link x name r hs).1
    rw [ih st1 st' hgo hno.2]
    rcases hcase with ⟨-, -, h1⟩ | ⟨-, bo, -, -, h1⟩ | ⟨-, v, -, h1⟩ | ⟨hn, v, -, h1⟩
    · rw [h1]
    · rw [h1]
    · rw [h1]
    · subst hn; exact absurd hname hno.1

/-- Without a `size` attribute the loop leaves `size` as it was. -/
theorem integer_loop_size_frame (trace : ctf_trace) (xs : List ctf_node) :
    ∀ (st st' : integer_attributes),
      ctf_declaration_integer_visit_loop trace xs st = .ok (some st') →
      ¬ has_attribute "size" xs → st'.size = st.size := by
  induction xs with
  | nil =>
    intro st st' h _
    simp only [ctf_declaration_integer_visit_loop, Except.ok.injEq, Option.some.injEq] at h
    rw [h]
  | cons x rest ih =>
    intro st st' h hno
    rw [has_attribute_cons, not_or] at hno
    obtain ⟨name, r, st1, hs, -, hgo, hcase⟩ := integer_loop_cons_inv trace x rest st st' h
    have hname := (attribute_sides_link x name r hs).1
    rw [ih st1 st' hgo hno.2]
    rcases hcase with ⟨-, -, h1⟩ | ⟨-, bo, -, -, h1⟩ | ⟨hn, v, -, h1⟩ | ⟨-, v, -, h1⟩
    · rw [h1]
    · rw [h1]
    · subst hn; exact absurd hname hno.1
    · rw [h1]

/-- Without a `byte_order` attribute the loop leaves `byte_order` as it was. -/
theorem integer_loop_byte_order_frame (trace : ctf_trace) (xs : List ctf_node) :
    ∀ (st st' : integer_attributes),
      ctf_declaration_integer_visit_loop trace xs st = .ok (some st') →
      ¬ has_attribute "byte_order" xs → st'.byte_order = st.byte_order := by
  induction xs with
  | nil =>
    intro st st' h _
    simp only [ctf_declaration_integer_visit_loop, Except.ok.injEq, Option.some.injEq] at h
    rw [h]
  | cons x rest ih =>
    intro st st' h hno
    rw [has_attribute_cons, not_or] at hno
    obtain ⟨name, r, st1, hs, -, hgo, hcase⟩ := integer_loop_cons_inv trace x rest st st' h
    have hname := (attribute_sides_link x name r hs).1
    rw [ih st1 st' hgo hno.2]
    rcases hcase with ⟨-, -, h1⟩ | ⟨hn, bo, -, -, h1⟩ | ⟨-, v, -, h1⟩ | ⟨-, v, -, h1⟩
    · rw [h1]
    · subst hn; exact absurd hname hno.1
    · rw [h1]
    · rw [h1]

/-- The last `align` attribute of the list gives `alignment`. -/
theorem integer_loop_last_align (trace : ctf_trace) (pre post : List ctf_node) (e : ctf_node)
    (a : Nat) (st st' : integer_attributes)
    (h : ctf_declaration_integer_visit_loop trace (pre ++ e :: post) st = .ok (some st'))
    (hname : attribute_name e = some "align")
    (hvalue : attribute_value e = some (.UNARY_UNSIGNED_CONSTANT a))
    (hpost : ¬ has_attribute "align" post) : st'.alignment = some a := by
  obtain ⟨st1, -, h2⟩ := integer_loop_append trace pre (e :: post) st st' h
  obtain ⟨name, r, st2, hs, -, hgo, hcase⟩ := integer_loop_cons_inv trace e post st1 st' h2
  obtain ⟨hn, hv⟩ := attribute_sides_link e name r hs
  rw [hname] at hn
  simp only [Option.some.injEq] at hn
  subst hn
  rw [integer_loop_alignment_frame trace post st2 st' hgo hpost]
  rcases hcase with ⟨hn, -⟩ | ⟨hn, -⟩ | ⟨hn, -⟩ | ⟨-, v, hu, h1⟩
  · exact absurd hn (by decide)
  · exact absurd hn (by decide)
  · exact absurd hn (by decide)
  · obtain ⟨k, hr⟩ := attribute_unsigned_inv r v hu
    have := hv _ k hr
    rw [hvalue] at this
    simp only [Option.some.injEq, unary_expression_type.UNARY_UNSIGNED_CONSTANT.injEq] at this
    rw [h1, this]

/-- The last `size` attribute of the list gives `size`. -/
theorem integer_loop_last_size (trace : ctf_trace) (pre post : List ctf_node) (e : ctf_node)
    (a : Nat) (st st' : integer_attributes)
    (h : ctf_declaration_integer_visit_loop trace (pre ++ e :: post) st = .ok (some st'))
    (hname : attribute_name e = some "size")
    (hvalue : attribute_value e = some (.UNARY_UNSIGNED_CONSTANT a))
    (hpost : ¬ has_attribute "size" post) : st'.size = some a := by
  obtain ⟨st1, -, h2⟩ := integer_loop_append trace pre (e :: post) st st' h
  obtain ⟨name, r, st2, hs, -, hgo, hcase⟩ := integer_loop_cons_inv trace e post st1 st' h2
  obtain ⟨hn, hv⟩ := attribute_sides_link e name r hs
  rw [hname] at hn
  simp only [Option.some.injEq] at hn
  subst hn
  rw [integer_loop_size_frame trace post st2 st' hgo hpost]
  rcases hcase with ⟨hn, -⟩ | ⟨hn, -⟩ | ⟨-, v, hu, h1⟩ | ⟨hn, -⟩
  · exact absurd hn (by decide)
  · exact absurd hn (by decide)
  · obtain ⟨k, hr⟩ := attribute_unsigned_inv r v hu
    have := hv _ k hr
    rw [hvalue] at this
    simp only [Option.some.injEq, unary_expression_type.UNARY_UNSIGNED_CONSTANT.injEq] at this
    rw [h1, this]
  · exact absurd hn (by decide)

/-- The result of the integer visitor in terms of the locals its loop leaves. -/
theorem integer_visit_inv (xs : List ctf_node) (trace : ctf_trace) (d : declaration)
    (h : ctf_declaration_integer_visit xs trace = .ok (some d)) :
    ∃ st size, ctf_declaration_integer_visit_loop trace xs ⟨none, none, trace.byte_order, 0⟩
        = .ok (some st) ∧ st.size = some size ∧
      d = declaration.integer size st.byte_order st.signedness
        (match st.alignment with
          | some a => a
          | none => if size % CHAR_BIT ≠ 0 then 1 else CHAR_BIT) := by
  unfold ctf_declaration_integer_visit at h
  split at h
  · cases h
  · cases h
  · rename_i st hst
    split at h
    · cases h
    · rename_i size hsize
      simp only [Except.ok.injEq, Option.some.injEq, integer_declaration_new] at h
      exact ⟨st, size, hst, hsize, h.symm⟩

/-- One turn of the attribute loop of the float visitor that goes on: the
attribute read and the locals it leaves. -/
theorem float_loop_cons_inv (trace : ctf_trace) (e : ctf_node) (rest : List ctf_node)
    (st st' : float_attributes)
    (h : ctf_declaration_floating_point_visit_loop trace (e :: rest) st = .ok (some st')) :
    ∃ name r st1, attribute_sides e = .ok (name, some r) ∧
      (∀ rest1, ctf_declaration_floating_point_visit_loop trace (e :: rest1) st
        = ctf_declaration_floating_point_visit_loop trace rest1 st1) ∧
      ctf_declaration_floating_point_visit_loop trace rest st1 = .ok (some st') ∧
      ((name = "byte_order" ∧ ∃ bo, get_byte_order r trace = .ok bo ∧
          st1 = ⟨st.alignment, st.exp_dig, st.mant_dig, to_uint64 bo⟩) ∨
       (name = "exp_dig" ∧ ∃ v, attribute_unsigned (some r) = .ok (some v) ∧
          st1 = ⟨st.alignment, some v, st.mant_dig, st.byte_order⟩) ∨
       (name = "mant_dig" ∧ ∃ v, attribute_unsigned (some r) = .ok (some v) ∧
          st1 = ⟨st.alignment, st.exp_dig, some v, st.byte_order⟩) ∨
       (name = "align" ∧ ∃ v, attribute_unsigned (some r) = .ok (some v) ∧
          st1 = ⟨some v, st.exp_dig, st.mant_dig, st.byte_order⟩)) := by
  rw [ctf_declaration_floating_point_visit_loop] at h
  split at h
  · cases h
  · rename_i left right hs
    by_cases h1 : left = "byte_order"
    · simp only [h1, if_true] at h
      split at h
      · cases h
      · rename_i r
        split at h
        · cases h
        · rename_i bo hbo
          have hb : ¬ ((to_uint64 bo : Nat) : Int) < 0 := by omega
          simp only [hb, if_false] at h
          refine ⟨_, r, _, by rw [hs, h1], ?_, h, Or.inl ⟨rfl, bo, hbo, rfl⟩⟩
          intro rest1
          rw [ctf_declaration_floating_point_visit_loop]
          simp [hs, h1, hbo]
    · by_cases h2 : left = "exp_dig"
      · simp only [h2] at h hs
        simp only [show ¬ ("exp_dig" = "byte_order") by decide, if_false, if_true] at h
        split at h
        · cases h
        · cases h
        · rename_i v hv
          cases right with
          | none => simp [attribute_unsigned] at hv
          | some r =>
            refine ⟨_, r, _, hs, ?_, h, Or.inr (Or.inl ⟨rfl, v, hv, rfl⟩)⟩
            intro rest1
            rw [ctf_declaration_floating_point_visit_loop]
            simp [hs, hv]
      · by_cases h3 : left = "mant_dig"
        · simp only [h3] at h hs
          simp only [show ¬ ("mant_dig" = "byte_order") by decide,
            show ¬ ("mant_dig" = "exp_dig") by decide, if_false, if_true] at h
          split at h
          · cases h
          · cases h
          · rename_i v hv
            cases right with
            | none => simp [attribute_unsigned] at hv
            | some r =>
              refine ⟨_, r, _, hs, ?_, h, Or.inr (Or.inr (Or.inl ⟨rfl, v, hv, rfl⟩))⟩
              intro rest1
              rw [ctf_declaration_floating_point_visit_loop]
              simp [hs, hv]
        · by_cases h4 : left = "align"
          · simp only [h4] at h hs
            simp only [show ¬ ("align" = "byte_order") by decide,
              show ¬ ("align" = "exp_dig") by decide,
              show ¬ ("align" = "mant_dig") by decide, if_false, if_true] at h
            split at h
            · cases h
            · cases h
            · rename_i v hv
              cases right with
              | none => simp [attribute_unsigned] at hv
              | some r =>
                refine ⟨_, r, _, hs, ?_, h, Or.inr (Or.inr (Or.inr ⟨rfl, v, hv, rfl⟩))⟩
                intro rest1
                rw [ctf_declaration_floating_point_visit_loop]
                simp [hs, hv]
          · simp [h1, h2, h3, h4] at h

/-- On a list of attributes the attribute loop of the float visitor runs to its
end or returns NULL. -/
theorem float_loop_runs (trace : ctf_trace) (xs : List ctf_node) :
    ∀ st, (∀ e ∈ xs, is_attribute e) →
      ∃ r, ctf_declaration_floating_point_visit_loop trace xs st = .ok r := by
  induction xs with
  | nil => intro st _; exact ⟨_, rfl⟩
  | cons e rest ih =>
    intro st hall
    obtain ⟨name, value, k, hs, -, -⟩ := attribute_sides_of_attribute e (hall e (by simp))
    have hrest : ∀ e ∈ rest, is_attribute e := fun x hx => hall x (by simp [hx])
    rw [ctf_declaration_floating_point_visit_loop]
    simp only [hs]
    split_ifs
    · obtain ⟨bo, hbo⟩ := get_byte_order_unary value k trace
      simp only [hbo]
      split_ifs
      · exact ⟨_, rfl⟩
      · exact ih _ hrest
    · obtain ⟨r, hr⟩ := attribute_unsigned_unary value k
      simp only [hr]
      cases r with
      | none => exact ⟨_, rfl⟩
      | some v => exact ih _ hrest
    · obtain ⟨r, hr⟩ := attribute_unsigned_unary value k
      simp only [hr]
      cases r with
      | none => exact ⟨_, rfl⟩
      | some v => exact ih _ hrest
    · obtain ⟨r, hr⟩ := attribute_unsigned_unary value k
      simp only [hr]
      cases r with
      | none => exact ⟨_, rfl⟩
      | some v => exact ih _ hrest
    · exact ⟨_, rfl⟩

/-- The attribute loop of the float visitor over a list in two parts. -/
theorem float_loop_append (trace : ctf_trace) (pre post : List ctf_node) :
    ∀ (st st' : float_attributes),
      ctf_declaration_floating_point_visit_loop trace (pre ++ post) st = .ok (some st') →
      ∃ st1, ctf_declaration_floating_point_visit_loop trace pre st = .ok (some st1) ∧
        ctf_declaration_floating_point_visit_loop trace post st1 = .ok (some st') := by
  induction pre with
  | nil => intro st st' h; exact ⟨st, rfl, h⟩
  | cons e rest ih =>
    intro st st' h
    obtain ⟨name, r, st1, -, hstep, hgo, -⟩ :=
      float_loop_cons_inv trace e (rest ++ post) st st' h
    obtain ⟨st2, h1, h2⟩ := ih st1 st' hgo
    exact ⟨st2, by rw [hstep]; exact h1, h2⟩

/-- Without an attribute `align` the loop of the float visitor leaves
`alignment` as it was. -/
theorem float_loop_alignment_frame (trace : ctf_trace) (xs : List ctf_node) :
    ∀ (st st' : float_attributes),
      ctf_declaration_floating_point_visit_loop trace xs st = .ok (some st') →
      ¬ has_attribute "align" xs → st'.alignment = st.alignment := by
  induction xs with
  | nil =>
    intro st st' h _
    simp only [ctf_declaration_floating_point_visit_loop, Except.ok.injEq,
      Option.some.injEq] at h
    rw [h]
  | cons x rest ih =>
    intro st st' h hno
    rw [has_attribute_cons, not_or] at hno
    obtain ⟨name, r, st1, hs, -, hgo, hcase⟩ := float_loop_cons_inv trace x rest st st' h
    have hname := (attribute_sides_link x name r hs).1
    rw [ih st1 st' hgo hno.2]
    rcases hcase with ⟨-, bo, -, h1⟩ | ⟨-, v, -, h1⟩ | ⟨-, v, -, h1⟩ | ⟨hn, v, -, h1⟩
    · rw [h1]
    · rw [h1]
    · rw [h1]
    · subst hn; exact absurd hname hno.1

/-- The last attribute `align` of the list gives `alignment` in the float
visitor. -/
theorem float_loop_last_alignment (trace : ctf_trace) (pre post : List ctf_node) (e : ctf_node)
    (a : Nat) (st st' : float_attributes)
    (h : ctf_declaration_floating_point_visit_loop trace (pre ++ e :: post) st
      = .ok (some st'))
    (hname : attribute_name e = some "align")
    (hvalue : attribute_value e = some (.UNARY_UNSIGNED_CONSTANT a))
    (hpost : ¬ has_attribute "align" post) : st'.alignment = some a := by
  obtain ⟨st1, -, h2⟩ := float_loop_append trace pre (e :: post) st st' h
  obtain ⟨name, r, st2, hs, -, hgo, hcase⟩ := float_loop_cons_inv trace e post st1 st' h2
  obtain ⟨hn, hv⟩ := attribute_sides_link e name r hs
  rw [hname] at hn
  simp only [Option.some.injEq] at hn
  subst hn
  rw [float_loop_alignment_frame trace post st2 st' hgo hpost]
  rcases hcase with ⟨hn, -⟩ | ⟨hn, -⟩ | ⟨hn, -⟩ | ⟨-, v, hu, h1⟩
  · exact absurd hn (by decide)
  · exact absurd hn (by decide)
  · exact absurd hn (by decide)
  · obtain ⟨k, hr⟩ := attribute_unsigned_inv r v hu
    have := hv _ k hr
    rw [hvalue] at this
    simp only [Option.some.injEq, unary_expression_type.UNARY_UNSIGNED_CONSTANT.injEq] at this
    rw [h1, this]

/-- Without an attribute `exp_dig` the loop of the float visitor leaves
`exp_dig` as it was. -/
theorem float_loop_exp_dig_frame (trace : ctf_trace) (xs : List ctf_node) :
    ∀ (st st' : float_attributes),
      ctf_declaration_floating_point_visit_loop trace xs st = .ok (some st') →
      ¬ has_attribute "exp_dig" xs → st'.exp_dig = st.exp_dig := by
  induction xs with
  | nil =>
    intro st st' h _
    simp only [ctf_declaration_floating_point_visit_loop, Except.ok.injEq,
      Option.some.injEq] at h
    rw [h]
  | cons x rest ih =>
    intro st st' h hno
    rw [has_attribute_cons, not_or] at hno
    obtain ⟨name, r, st1, hs, -, hgo, hcase⟩ := float_loop_cons_inv trace x rest st st' h
    have hname := (attribute_sides_link x name r hs).1
    rw [ih st1 st' hgo hno.2]
    rcases hcase with ⟨-, bo, -, h1⟩ | ⟨hn, v, -, h1⟩ | ⟨-, v, -, h1⟩ | ⟨-, v, -, h1⟩
    · rw [h1]
    · subst hn; exact absurd hname hno.1
    · rw [h1]
    · rw [h1]

/-- The last attribute `exp_dig` of the list gives `exp_dig` in the float
visitor. -/
theorem float_loop_last_exp_dig (trace : ctf_trace) (pre post : List ctf_node) (e : ctf_node)
    (a : Nat) (st st' : float_attributes)
    (h : ctf_declaration_floating_point_visit_loop trace (pre ++ e :: post) st
      = .ok (some st'))
    (hname : attribute_name e = some "exp_dig")
    (hvalue : attribute_value e = some (.UNARY_UNSIGNED_CONSTANT a))
    (hpost : ¬ has_attribute "exp_dig" post) : st'.exp_dig = some a := by
  obtain ⟨st1, -, h2⟩ := float_loop_append trace pre (e :: post) st st' h
  obtain ⟨name, r, st2, hs, -, hgo, hcase⟩ := float_loop_cons_inv trace e post st1 st' h2
  obtain ⟨hn, hv⟩ := attribute_sides_link e name r hs
  rw [hname] at hn
  simp only [Option.some.injEq] at hn
  subst hn
  rw [float_loop_exp_dig_frame trace post st2 st' hgo hpost]
  rcases hcase with ⟨hn, -⟩ | ⟨-, v, hu, h1⟩ | ⟨hn, -⟩ | ⟨hn, -⟩
  · exact absurd hn (by decide)
  · obtain ⟨k, hr⟩ := attribute_unsigned_inv r v hu
    have := hv _ k hr
    rw [hvalue] at this
    simp only [Option.some.injEq, unary_expression_type.UNARY_UNSIGNED_CONSTANT.injEq] at this
    rw [h1, this]
  · exact absurd hn (by decide)
  · exact absurd hn (by decide)

/-- Without an attribute `mant_dig` the loop of the float visitor leaves
`mant_dig` as it was. -/
theorem float_loop_mant_dig_frame (trace : ctf_trace) (xs : List ctf_node) :
    ∀ (st st' : float_attributes),
      ctf_declaration_floating_point_visit_loop trace xs st = .ok (some st') →
      ¬ has_attribute "mant_dig" xs → st'.mant_dig = st.mant_dig := by
  induction xs with
  | nil =>
    intro st st' h _
    simp only [ctf_declaration_floating_point_visit_loop, Except.ok.injEq,
      Option.some.injEq] at h
    rw [h]
  | cons x rest ih =>
    intro st st' h hno
    rw [has_attribute_cons, not_or] at hno
    obtain ⟨name, r, st1, hs, -, hgo, hcase⟩ := float_loop_cons_inv trace x rest st st' h
    have hname := (attribute_sides_link x name r hs).1
    rw [ih st1 st' hgo hno.2]
    rcases hcase with ⟨-, bo, -, h1⟩ | ⟨-, v, -, h1⟩ | ⟨hn, v, -, h1⟩ | ⟨-, v, -, h1⟩
    · rw [h1]
    · rw [h1]
    · subst hn; exact absurd hname hno.1
    · rw [h1]

/-- The last attribute `mant_dig` of the list gives `mant_dig` in the float
visitor. -/
theorem float_loop_last_mant_dig (trace : ctf_trace) (pre post : List ctf_node) (e : ctf_node)
    (a : Nat) (st st' : float_attributes)
    (h : ctf_declaration_floating_point_visit_loop trace (pre ++ e :: post) st
      = .ok (some st'))
    (hname : attribute_name e = some "mant_dig")
    (hvalue : attribute_value e = some (.UNARY_UNSIGNED_CONSTANT a))
    (hpost : ¬ has_attribute "mant_dig" post) : st'.mant_dig = some a := by
  obtain ⟨st1, -, h2⟩ := float_loop_append trace pre (e :: post) st st' h
  obtain ⟨name, r, st2, hs, -, hgo, hcase⟩ := float_loop_cons_inv trace e post st1 st' h2
  obtain ⟨hn, hv⟩ := attribute_sides_link e name r hs
  rw [hname] at hn
  simp only [Option.some.injEq] at hn
  subst hn
  rw [float_loop_mant_dig_frame trace post st2 st' hgo hpost]
  rcases hcase with ⟨hn, -⟩ | ⟨hn, -⟩ | ⟨-, v, hu, h1⟩ | ⟨hn, -⟩
  · exact absurd hn (by decide)
  · exact absurd hn (by decide)
  · obtain ⟨k, hr⟩ := attribute_unsigned_inv r v hu
    have := hv _ k hr
    rw [hvalue] at this
    simp only [Option.some.injEq, unary_expression_type.UNARY_UNSIGNED_CONSTANT.injEq] at this
    rw [h1, this]
  · exact absurd hn (by decide)

/-- The result of the float visitor in terms of the locals its loop leaves. -/
theorem float_visit_inv (xs : List ctf_node) (trace : ctf_trace) (d : declaration)
    (h : ctf_declaration_floating_point_visit xs trace = .ok (some d)) :
    ∃ st mant_dig exp_dig,
      ctf_declaration_floating_point_visit_loop trace xs
        ⟨none, none, none, to_uint64 trace.byte_order⟩ = .ok (some st) ∧
      st.mant_dig = some mant_dig ∧ st.exp_dig = some exp_dig ∧
      d = declaration.float mant_dig exp_dig (to_int st.byte_order)
        (match st.alignment with
          | some a => a
          | none => if ((mant_dig + exp_dig) % 2 ^ 64) % CHAR_BIT ≠ 0 then 1 else CHAR_BIT) := by
  unfold ctf_declaration_floating_point_visit at h
  split at h
  · cases h
  · cases h
  · rename_i st hst
    split at h
    · cases h
    · rename_i mant_dig hm
      split at h
      · cases h
      · rename_i exp_dig he
        simp only [Except.ok.injEq, Option.some.injEq, float_declaration_new] at h
        exact ⟨st, mant_dig, exp_dig, hst, hm, he, h.symm⟩

/-! ## C11: the alignment of integers and floats -/

/-- C11. For an attribute list that `ctf_declaration_integer_visit` accepts,
the size of the integer is the value of the last `size` attribute; with no
`align` attribute the alignment is 1 if the size is not a multiple of 8 and 8
otherwise; with an `align` attribute the alignment is its value, wherever in
the list it stands (the last one if there are several). The same holds for
`ctf_declaration_floating_point_visit` with `mant_dig + exp_dig` as the
size. -/
theorem alignment_defaults_unless_given (trace : ctf_trace) (xs : List ctf_node)
    (size : Nat) (byte_order signedness : Int) (alignment : Nat)
    (mant_dig exp_dig : Nat) (float_byte_order : Int) (float_alignment : Nat) :
    (ctf_declaration_integer_visit xs trace
        = .ok (some (declaration.integer size byte_order signedness alignment)) →
      (∀ pre e post s, xs = pre ++ e :: post → attribute_name e = some "size" →
        attribute_value e = some (.UNARY_UNSIGNED_CONSTANT s) →
        ¬ has_attribute "size" post → size = s) ∧
      (¬ has_attribute "align" xs → alignment = default_alignment size) ∧
      (∀ pre e post a, xs = pre ++ e :: post → attribute_name e = some "align" →
        attribute_value e = some (.UNARY_UNSIGNED_CONSTANT a) →
        ¬ has_attribute "align" post → alignment = a)) ∧
    (ctf_declaration_floating_point_visit xs trace
        = .ok (some (declaration.float mant_dig exp_dig float_byte_order float_alignment)) →
      (∀ pre e post m, xs = pre ++ e :: post → attribute_name e = some "mant_dig" →
        attribute_value e = some (.UNARY_UNSIGNED_CONSTANT m) →
        ¬ has_attribute "mant_dig" post → mant_dig = m) ∧
      (∀ pre e post x, xs = pre ++ e :: post → attribute_name e = some "exp_dig" →
        attribute_value e = some (.UNARY_UNSIGNED_CONSTANT x) →
        ¬ has_attribute "exp_dig" post → exp_dig = x) ∧
      (¬ has_attribute "align" xs →
        float_alignment = default_alignment (mant_dig + exp_dig)) ∧
      (∀ pre e post a, xs = pre ++ e :: post → attribute_name e = some "align" →
        attribute_value e = some (.UNARY_UNSIGNED_CONSTANT a) →
        ¬ has_attribute "align" post → float_alignment = a)) := by
  constructor
  · intro h
    obtain ⟨st, sz, hloop, hsize, hd⟩ := integer_visit_inv xs trace _ h
    simp only [declaration.integer.injEq] at hd
    obtain ⟨hsz, -, -, hal⟩ := hd
    subst hsz
    refine ⟨?_, ?_, ?_⟩
    · intro pre e post s hxs hname hvalue hpost
      subst hxs
      have := integer_loop_last_size trace pre post e s _ st hloop hname hvalue hpost
      rw [hsize] at this
      exact Option.some.inj this
    · intro hno
      have := integer_loop_alignment_frame trace xs _ st hloop hno
      rw [hal, this]
      simp [default_alignment, CHAR_BIT]
    · intro pre e post a hxs hname hvalue hpost
      subst hxs
      have := integer_loop_last_align trace pre post e a _ st hloop hname hvalue hpost
      rw [hal, this]
  · intro h
    obtain ⟨st, m, x, hloop, hm, hx, hd⟩ := float_visit_inv xs trace _ h
    simp only [declaration.float.injEq] at hd
    obtain ⟨hm1, hx1, -, hal⟩ := hd
    subst hm1 hx1
    refine ⟨?_, ?_, ?_, ?_⟩
    · intro pre e post s hxs hname hvalue hpost
      subst hxs
      have := float_loop_last_mant_dig trace pre post e s _ st hloop hname hvalue hpost
      rw [hm] at this
      exact Option.some.inj this
    · intro pre e post s hxs hname hvalue hpost
      subst hxs
      have := float_loop_last_exp_dig trace pre post e s _ st hloop hname hvalue hpost
      rw [hx] at this
      exact Option.some.inj this
    · intro hno
      have := float_loop_alignment_frame trace xs _ st hloop hno
      rw [hal, this]
      have h8 : (mant_dig + exp_dig) % 18446744073709551616 % 8
          = (mant_dig + exp_dig) % 8 := by omega
      simp [default_alignment, CHAR_BIT, h8]
    · intro pre e post a hxs hname hvalue hpost
      subst hxs
      have := float_loop_last_alignment trace pre post e a _ st hloop hname hvalue hpost
      rw [hal, this]

theorem alignment_defaults_unless_given_witness :
    (ctf_declaration_integer_visit
        [attribute_node "size" (.UNARY_UNSIGNED_CONSTANT 12)] le_trace
        = .ok (some (declaration.integer 12 1234 0 1)) ∧
      ¬ has_attribute "align" [attribute_node "size" (.UNARY_UNSIGNED_CONSTANT 12)] ∧
      1 = default_alignment 12) ∧
    (ctf_declaration_floating_point_visit
        [attribute_node "align" (.UNARY_UNSIGNED_CONSTANT 32),
          attribute_node "exp_dig" (.UNARY_UNSIGNED_CONSTANT 8),
          attribute_node "mant_dig" (.UNARY_UNSIGNED_CONSTANT 24)] le_trace
        = .ok (some (declaration.float 24 8 1234 32)) ∧
      (32 : Nat) = 32) :=
  ⟨⟨rfl, by simp [has_attribute, attribute_name, attribute_node],
      ((alignment_defaults_unless_given le_trace
        [attribute_node "size" (.UNARY_UNSIGNED_CONSTANT 12)] 12 1234 0 1 0 0 0 0).1 rfl).2.1
        (by simp [has_attribute, attribute_name, attribute_node])⟩,
    ⟨rfl,
      ((alignment_defaults_unless_given le_trace
        [attribute_node "align" (.UNARY_UNSIGNED_CONSTANT 32),
          attribute_node "exp_dig" (.UNARY_UNSIGNED_CONSTANT 8),
          attribute_node "mant_dig" (.UNARY_UNSIGNED_CONSTANT 24)] 0 0 0 0 24 8 1234 32).2
            rfl).2.2.2 []
          (attribute_node "align" (.UNARY_UNSIGNED_CONSTANT 32))
          [attribute_node "exp_dig" (.UNARY_UNSIGNED_CONSTANT 8),
            attribute_node "mant_dig" (.UNARY_UNSIGNED_CONSTANT 24)] 32 rfl rfl rfl
          (by simp [has_attribute, attribute_name, attribute_node])⟩⟩

/-! ## C12: mandatory attributes -/

theorem is_attribute_of_name_value (e : ctf_node) (name : String)
    (value : unary_expression_type) (h1 : attribute_name e = some name)
    (h2 : attribute_value e = some value) :
    ∃ k, attribute_sides e = .ok (name, some (.NODE_UNARY_EXPRESSION value k)) := by
  obtain ⟨n, v, k, hs, hn, hv⟩ := attribute_sides_of_attribute e ⟨by simp [h1], by simp [h2]⟩
  rw [h1] at hn
  rw [h2] at hv
  simp only [Option.some.injEq] at hn hv
  subst hn hv
  exact ⟨k, hs⟩

theorem get_byte_order_of_byte_order_value (value : unary_expression_type) (k : unary_link)
    (trace : ctf_trace) (h : is_byte_order_value value) (htrace : trace_byte_order_set trace) :
    ∃ bo, get_byte_order (.NODE_UNARY_EXPRESSION value k) trace = .ok bo ∧ 0 ≤ bo := by
  cases value with
  | UNARY_STRING s =>
    refine ⟨_, get_byte_order_string s k trace, ?_⟩
    simp only [is_byte_order_value, is_byte_order_string] at h
    have ht : 0 ≤ trace.byte_order := by
      rcases htrace with ht | ht <;> rw [ht] <;> decide
    rcases h with h | h | h | h <;> subst h
    · simpa using ht
    · simp [BIG_ENDIAN]
    · simp [BIG_ENDIAN]
    · simp [LITTLE_ENDIAN]
  | UNARY_UNKNOWN => simp [is_byte_order_value] at h
  | UNARY_SIGNED_CONSTANT _ => simp [is_byte_order_value] at h
  | UNARY_UNSIGNED_CONSTANT _ => simp [is_byte_order_value] at h
  | UNARY_SBRAC => simp [is_byte_order_value] at h
  | UNARY_NESTED => simp [is_byte_order_value] at h

theorem attribute_unsigned_of_unsigned_value (value : unary_expression_type) (k : unary_link)
    (h : is_unsigned_value value) :
    ∃ v, attribute_unsigned (some (.NODE_UNARY_EXPRESSION value k)) = .ok (some v) := by
  cases value with
  | UNARY_UNSIGNED_CONSTANT v => exact ⟨v, rfl⟩
  | UNARY_UNKNOWN => simp [is_unsigned_value] at h
  | UNARY_SIGNED_CONSTANT _ => simp [is_unsigned_value] at h
  | UNARY_STRING _ => simp [is_unsigned_value] at h
  | UNARY_SBRAC => simp [is_unsigned_value] at h
  | UNARY_NESTED => simp [is_unsigned_value] at h

/-- On well-formed integer attributes the loop of the integer visitor runs to
its end. -/
theorem integer_loop_succeeds (trace : ctf_trace) (htrace : trace_byte_order_set trace)
    (xs : List ctf_node) :
    ∀ st, (∀ e ∈ xs, is_integer_attribute e) →
      ∃ st', ctf_declaration_integer_visit_loop trace xs st = .ok (some st') := by
  induction xs with
  | nil => intro st _; exact ⟨_, rfl⟩
  | cons e rest ih =>
    intro st hall
    have hrest : ∀ e ∈ rest, is_integer_attribute e := fun x hx => hall x (by simp [hx])
    obtain ⟨name, value, h1, h2, hcase⟩ := hall e (by simp)
    obtain ⟨k, hs⟩ := is_attribute_of_name_value e name value h1 h2
    rw [ctf_declaration_integer_visit_loop]
    simp only [hs]
    rcases hcase with ⟨hn, hv⟩ | ⟨hn, hv⟩ | ⟨hn, hv⟩ | ⟨hn, hv⟩
    · subst hn
      have := get_boolean_of_boolean_value value k hv
      simp only [if_true, show ¬ get_boolean (.NODE_UNARY_EXPRESSION value k) < 0 by omega,
        if_false]
      exact ih _ hrest
    · subst hn
      obtain ⟨bo, hbo, hpos⟩ := get_byte_order_of_byte_order_value value k trace hv htrace
      simp only [show ¬ ("byte_order" = "signed") by decide, if_false, if_true, hbo,
        show ¬ bo < 0 by omega]
      exact ih _ hrest
    · subst hn
      obtain ⟨v, hu⟩ := attribute_unsigned_of_unsigned_value value k hv
      simp only [show ¬ ("size" = "signed") by decide,
        show ¬ ("size" = "byte_order") by decide, if_false, if_true, hu]
      exact ih _ hrest
    · subst hn
      obtain ⟨v, hu⟩ := attribute_unsigned_of_unsigned_value value k hv
      simp only [show ¬ ("align" = "signed") by decide,
        show ¬ ("align" = "byte_order") by decide,
        show ¬ ("align" = "size") by decide, if_false, if_true, hu]
      exact ih _ hrest

/-- Once `size` is assigned it stays assigned, and a `size` attribute assigns it. -/
theorem integer_loop_size_assigned (trace : ctf_trace) (xs : List ctf_node) :
    ∀ (st st' : integer_attributes),
      ctf_declaration_integer_visit_loop trace xs st = .ok (some st') →
      (has_attribute "size" xs ∨ st.size.isSome) → st'.size.isSome := by
  induction xs with
  | nil =>
    intro st st' h hs
    simp only [ctf_declaration_integer_visit_loop, Except.ok.injEq, Option.some.injEq] at h
    subst h
    rcases hs with hs | hs
    · simp [has_attribute] at hs
    · exact hs
  | cons x rest ih =>
    intro st st' h hsz
    obtain ⟨name, r, st1, hs, -, hgo, hcase⟩ := integer_loop_cons_inv trace x rest st st' h
    have hname := (attribute_sides_link x name r hs).1
    apply ih st1 st' hgo
    rw [has_attribute_cons, hname] at hsz
    rcases hcase with ⟨hn, -, h1⟩ | ⟨hn, bo, -, -, h1⟩ | ⟨hn, v, -, h1⟩ | ⟨hn, v, -, h1⟩
    · subst hn h1
      rcases hsz with (hsz | hsz) | hsz
      · simp at hsz
      · exact Or.inl hsz
      · exact Or.inr hsz
    · subst hn h1
      rcases hsz with (hsz | hsz) | hsz
      · simp at hsz
      · exact Or.inl hsz
      · exact Or.inr hsz
    · subst h1
      exact Or.inr rfl
    · subst hn h1
      rcases hsz with (hsz | hsz) | hsz
      · simp at hsz
      · exact Or.inl hsz
      · exact Or.inr hsz

/-- On well-formed float attributes the loop of the float visitor runs to its
end. -/
theorem float_loop_succeeds (trace : ctf_trace) (xs : List ctf_node) :
    ∀ st, (∀ e ∈ xs, is_float_attribute e) →
      ∃ st', ctf_declaration_floating_point_visit_loop trace xs st = .ok (some st') := by
  induction xs with
  | nil => intro st _; exact ⟨_, rfl⟩
  | cons e rest ih =>
    intro st hall
    have hrest : ∀ e ∈ rest, is_float_attribute e := fun x hx => hall x (by simp [hx])
    obtain ⟨name, value, h1, h2, hcase⟩ := hall e (by simp)
    obtain ⟨k, hs⟩ := is_attribute_of_name_value e name value h1 h2
    rw [ctf_declaration_floating_point_visit_loop]
    simp only [hs]
    rcases hcase with ⟨hn, -⟩ | ⟨hn, hv⟩ | ⟨hn, hv⟩ | ⟨hn, hv⟩
    · subst hn
      obtain ⟨bo, hbo⟩ := get_byte_order_unary value k trace
      simp only [if_true, hbo, show ¬ ((to_uint64 bo : Nat) : Int) < 0 by omega, if_false]
      exact ih _ hrest
    · subst hn
      obtain ⟨v, hu⟩ := attribute_unsigned_of_unsigned_value value k hv
      simp only [show ¬ ("exp_dig" = "byte_order") by decide, if_false, if_true, hu]
      exact ih _ hrest
    · subst hn
      obtain ⟨v, hu⟩ := attribute_unsigned_of_unsigned_value value k hv
      simp only [show ¬ ("mant_dig" = "byte_order") by decide,
        show ¬ ("mant_dig" = "exp_dig") by decide, if_false, if_true, hu]
      exact ih _ hrest
    · subst hn
      obtain ⟨v, hu⟩ := attribute_unsigned_of_unsigned_value value k hv
      simp only [show ¬ ("align" = "byte_order") by decide,
        show ¬ ("align" = "exp_dig") by decide,
        show ¬ ("align" = "mant_dig") by decide, if_false, if_true, hu]
      exact ih _ hrest

/-- Once `exp_dig` is assigned it stays assigned, and an attribute `exp_dig`
assigns it. -/
theorem float_loop_exp_dig_assigned (trace : ctf_trace) (xs : List ctf_node) :
    ∀ (st st' : float_attributes),
      ctf_declaration_floating_point_visit_loop trace xs st = .ok (some st') →
      (has_attribute "exp_dig" xs ∨ st.exp_dig.isSome) → st'.exp_dig.isSome := by
  induction xs with
  | nil =>
    intro st st' h hs
    simp only [ctf_declaration_floating_point_visit_loop, Except.ok.injEq,
      Option.some.injEq] at h
    subst h
    rcases hs with hs | hs
    · simp [has_attribute] at hs
    · exact hs
  | cons x rest ih =>
    intro st st' h hsz
    obtain ⟨name, r, st1, hs, -, hgo, hcase⟩ := float_loop_cons_inv trace x rest st st' h
    have hname := (attribute_sides_link x name r hs).1
    apply ih st1 st' hgo
    rw [has_attribute_cons, hname] at hsz
    rcases hcase with ⟨hn, bo, -, h1⟩ | ⟨hn, v, -, h1⟩ | ⟨hn, v, -, h1⟩ | ⟨hn, v, -, h1⟩
    · subst hn h1
      rcases hsz with (hsz | hsz) | hsz
      · simp at hsz
      · exact Or.inl hsz
      · exact Or.inr hsz
    · subst h1
      exact Or.inr rfl
    · subst hn h1
      rcases hsz with (hsz | hsz) | hsz
      · simp at hsz
      · exact Or.inl hsz
      · exact Or.inr hsz
    · subst hn h1
      rcases hsz with (hsz | hsz) | hsz
      · simp at hsz
      · exact Or.inl hsz
      · exact Or.inr hsz

/-- Once `mant_dig` is assigned it stays assigned, and an attribute `mant_dig`
assigns it. -/
theorem float_loop_mant_dig_assigned (trace : ctf_trace) (xs : List ctf_node) :
    ∀ (st st' : float_attributes),
      ctf_declaration_floating_point_visit_loop trace xs st = .ok (some st') →
      (has_attribute "mant_dig" xs ∨ st.mant_dig.isSome) → st'.mant_dig.isSome := by
  induction xs with
  | nil =>
    intro st st' h hs
    simp only [ctf_declaration_floating_point_visit_loop, Except.ok.injEq,
      Option.some.injEq] at h
    subst h
    rcases hs with hs | hs
    · simp [has_attribute] at hs
    · exact hs
  | cons x rest ih =>
    intro st st' h hsz
    obtain ⟨name, r, st1, hs, -, hgo, hcase⟩ := float_loop_cons_inv trace x rest st st' h
    have hname := (attribute_sides_link x name r hs).1
    apply ih st1 st' hgo
    rw [has_attribute_cons, hname] at hsz
    rcases hcase with ⟨hn, bo, -, h1⟩ | ⟨hn, v, -, h1⟩ | ⟨hn, v, -, h1⟩ | ⟨hn, v, -, h1⟩
    · subst hn h1
      rcases hsz with (hsz | hsz) | hsz
      · simp at hsz
      · exact Or.inl hsz
      · exact Or.inr hsz
    · subst hn h1
      rcases hsz with (hsz | hsz) | hsz
      · simp at hsz
      · exact Or.inl hsz
      · exact Or.inr hsz
    · subst h1
      exact Or.inr rfl
    · subst hn h1
      rcases hsz with (hsz | hsz) | hsz
      · simp at hsz
      · exact Or.inl hsz
      · exact Or.inr hsz

theorem is_attribute_attribute_node (name : String) (value : unary_expression_type) :
    is_attribute (attribute_node name value) :=
  ⟨rfl, rfl⟩

theorem is_integer_attribute_node (name : String) (value : unary_expression_type)
    (h : (name = "signed" ∧ is_boolean_value value) ∨
      (name = "byte_order" ∧ is_byte_order_value value) ∨
      (name = "size" ∧ is_unsigned_value value) ∨
      (name = "align" ∧ is_unsigned_value value)) :
    is_integer_attribute (attribute_node name value) :=
  ⟨name, value, rfl, rfl, h⟩

theorem is_float_attribute_node (name : String) (value : unary_expression_type)
    (h : (name = "byte_order" ∧ is_byte_order_value value) ∨
      (name = "exp_dig" ∧ is_unsigned_value value) ∨
      (name = "mant_dig" ∧ is_unsigned_value value) ∨
      (name = "align" ∧ is_unsigned_value value)) :
    is_float_attribute (attribute_node name value) :=
  ⟨name, value, rfl, rfl, h⟩

/-- C12. On a list of attributes, `ctf_declaration_integer_visit` returns NULL
when the list has no `size` attribute, and
`ctf_declaration_floating_point_visit` returns NULL when the list lacks
`exp_dig` or lacks `mant_dig`, whatever the attributes present are. When the
mandatory attributes are present and every attribute is well-formed, both
return a declaration. -/
theorem mandatory_attributes_are_required (trace : ctf_trace) (xs : List ctf_node) :
    ((∀ e ∈ xs, is_attribute e) → ¬ has_attribute "size" xs →
      ctf_declaration_integer_visit xs trace = .ok none) ∧
    ((∀ e ∈ xs, is_attribute e) →
      (¬ has_attribute "exp_dig" xs ∨ ¬ has_attribute "mant_dig" xs) →
      ctf_declaration_floating_point_visit xs trace = .ok none) ∧
    ((∀ e ∈ xs, is_integer_attribute e) → has_attribute "size" xs →
      trace_byte_order_set trace →
      ∃ size byte_order signedness alignment,
        ctf_declaration_integer_visit xs trace
          = .ok (some (declaration.integer size byte_order signedness alignment))) ∧
    ((∀ e ∈ xs, is_float_attribute e) → has_attribute "exp_dig" xs →
      has_attribute "mant_dig" xs →
      ∃ mant_dig exp_dig byte_order alignment,
        ctf_declaration_floating_point_visit xs trace
          = .ok (some (declaration.float mant_dig exp_dig byte_order alignment))) := by
  refine ⟨?_, ?_, ?_, ?_⟩
  · intro hall hno
    obtain ⟨r, hr⟩ := integer_loop_runs trace xs ⟨none, none, trace.byte_order, 0⟩ hall
    unfold ctf_declaration_integer_visit
    rw [hr]
    cases r with
    | none => rfl
    | some st =>
      have := integer_loop_size_frame trace xs _ st hr hno
      simp only [this]
  · intro hall hno
    obtain ⟨r, hr⟩ := float_loop_runs trace xs ⟨none, none, none, to_uint64 trace.byte_order⟩ hall
    unfold ctf_declaration_floating_point_visit
    rw [hr]
    cases r with
    | none => rfl
    | some st =>
      rcases hno with hno | hno
      · have := float_loop_exp_dig_frame trace xs _ st hr hno
        simp only [this]
        split <;> rfl
      · have := float_loop_mant_dig_frame trace xs _ st hr hno
        simp only [this]
  · intro hall hsize htrace
    obtain ⟨st, hst⟩ := integer_loop_succeeds trace htrace xs
      ⟨none, none, trace.byte_order, 0⟩ hall
    have hsome := integer_loop_size_assigned trace xs _ st hst (Or.inl hsize)
    obtain ⟨size, hsz⟩ := Option.isSome_iff_exists.mp hsome
    unfold ctf_declaration_integer_visit
    rw [hst]
    simp only [hsz, integer_declaration_new]
    exact ⟨_, _, _, _, rfl⟩
  · intro hall hexp hmant
    obtain ⟨st, hst⟩ := float_loop_succeeds trace xs
      ⟨none, none, none, to_uint64 trace.byte_order⟩ hall
    have hsome1 := float_loop_exp_dig_assigned trace xs _ st hst (Or.inl hexp)
    have hsome2 := float_loop_mant_dig_assigned trace xs _ st hst (Or.inl hmant)
    obtain ⟨x, hx⟩ := Option.isSome_iff_exists.mp hsome1
    obtain ⟨m, hm⟩ := Option.isSome_iff_exists.mp hsome2
    unfold ctf_declaration_floating_point_visit
    rw [hst]
    simp only [hx, hm, float_declaration_new]
    exact ⟨_, _, _, _, rfl⟩

theorem mandatory_attributes_are_required_witness :
    (¬ has_attribute "size" [attribute_node "signed" (.UNARY_STRING "true")] ∧
      ctf_declaration_integer_visit [attribute_node "signed" (.UNARY_STRING "true")] le_trace
        = .ok none) ∧
    (¬ has_attribute "mant_dig" [attribute_node "exp_dig" (.UNARY_UNSIGNED_CONSTANT 8)] ∧
      ctf_declaration_floating_point_visit
        [attribute_node "exp_dig" (.UNARY_UNSIGNED_CONSTANT 8)] le_trace = .ok none) ∧
    (has_attribute "size"
        [attribute_node "size" (.UNARY_UNSIGNED_CONSTANT 32),
          attribute_node "signed" (.UNARY_STRING "false"),
          attribute_node "byte_order" (.UNARY_STRING "native")] ∧
      ∃ size byte_order signedness alignment,
        ctf_declaration_integer_visit
          [attribute_node "size" (.UNARY_UNSIGNED_CONSTANT 32),
            attribute_node "signed" (.UNARY_STRING "false"),
            attribute_node "byte_order" (.UNARY_STRING "native")] le_trace
          = .ok (some (declaration.integer size byte_order signedness alignment))) ∧
    (∃ mant_dig exp_dig byte_order alignment,
      ctf_declaration_floating_point_visit
        [attribute_node "exp_dig" (.UNARY_UNSIGNED_CONSTANT 8),
          attribute_node "mant_dig" (.UNARY_UNSIGNED_CONSTANT 24)] le_trace
        = .ok (some (declaration.float mant_dig exp_dig byte_order alignment))) :=
  ⟨⟨by simp [has_attribute, attribute_name, attribute_node],
      (mandatory_attributes_are_required le_trace
        [attribute_node "signed" (.UNARY_STRING "true")]).1
        (by intro e he; simp only [List.mem_singleton] at he; subst he
            exact is_attribute_attribute_node _ _)
        (by simp [has_attribute, attribute_name, attribute_node])⟩,
    ⟨by simp [has_attribute, attribute_name, attribute_node],
      (mandatory_attributes_are_required le_trace
        [attribute_node "exp_dig" (.UNARY_UNSIGNED_CONSTANT 8)]).2.1
        (by intro e he; simp only [List.mem_singleton] at he; subst he
            exact is_attribute_attribute_node _ _)
        (Or.inr (by simp [has_attribute, attribute_name, attribute_node]))⟩,
    ⟨by simp [has_attribute, attribute_name, attribute_node],
      (mandatory_attributes_are_required le_trace
        [attribute_node "size" (.UNARY_UNSIGNED_CONSTANT 32),
          attribute_node "signed" (.UNARY_STRING "false"),
          attribute_node "byte_order" (.UNARY_STRING "native")]).2.2.1
        (by
          intro e he
          simp only [List.mem_cons, List.mem_singleton, List.not_mem_nil, or_false] at he
          rcases he with he | he | he <;> subst he
          · exact is_integer_attribute_node _ _ (Or.inr (Or.inr (Or.inl ⟨rfl, trivial⟩)))
          · exact is_integer_attribute_node _ _
              (Or.inl ⟨rfl, Or.inr (Or.inr (Or.inl rfl))⟩)
          · exact is_integer_attribute_node _ _ (Or.inr (Or.inl ⟨rfl, Or.inl rfl⟩)))
        (by simp [has_attribute, attribute_name, attribute_node])
        (Or.inl rfl)⟩,
    (mandatory_attributes_are_required le_trace
      [attribute_node "exp_dig" (.UNARY_UNSIGNED_CONSTANT 8),
        attribute_node "mant_dig" (.UNARY_UNSIGNED_CONSTANT 24)]).2.2.2
      (by
        intro e he
        simp only [List.mem_cons, List.mem_singleton, List.not_mem_nil, or_false] at he
        rcases he with he | he <;> subst he
        · exact is_float_attribute_node _ _ (Or.inr (Or.inl ⟨rfl, trivial⟩))
        · exact is_float_attribute_node _ _ (Or.inr (Or.inr (Or.inl ⟨rfl, trivial⟩))))
      (by simp [has_attribute, attribute_name, attribute_node])
      (by simp [has_attribute, attribute_name, attribute_node])⟩

/-! ## C13: the fields of an integer -/

/-- The loop of the integer visitor keeps `signedness` in `{0, 1}`. -/
theorem integer_loop_signedness (trace : ctf_trace) (xs : List ctf_node) :
    ∀ (st st' : integer_attributes),
      ctf_declaration_integer_visit_loop trace xs st = .ok (some st') →
      (st.signedness = 0 ∨ st.signedness = 1) →
      (st'.signedness = 0 ∨ st'.signedness = 1) := by
  induction xs with
  | nil =>
    intro st st' h hs
    simp only [ctf_declaration_integer_visit_loop, Except.ok.injEq, Option.some.injEq] at h
    subst h
    exact hs
  | cons x rest ih =>
    intro st st' h hsg
    obtain ⟨name, r, st1, -, -, hgo, hcase⟩ := integer_loop_cons_inv trace x rest st st' h
    apply ih st1 st' hgo
    rcases hcase with ⟨-, hb, h1⟩ | ⟨-, bo, -, -, h1⟩ | ⟨-, v, -, h1⟩ | ⟨-, v, -, h1⟩
    · subst h1
      rcases get_boolean_range r with h0 | h0 | h0
      · exact Or.inl h0
      · exact Or.inr h0
      · rw [h0] at hb
        simp [EINVAL] at hb
    · subst h1; exact hsg
    · subst h1; exact hsg
    · subst h1; exact hsg

/-- C13, as stated, fails: `integer { size = 0; }` yields an integer of size 0,
and `integer { size = 12; align = 0; }` yields an integer of alignment 0. -/
theorem integer_of_size_zero_is_built :
    ctf_declaration_integer_visit
        [attribute_node "size" (.UNARY_UNSIGNED_CONSTANT 0)] le_trace
      = .ok (some (declaration.integer 0 1234 0 8)) ∧
    ctf_declaration_integer_visit
        [attribute_node "size" (.UNARY_UNSIGNED_CONSTANT 12),
          attribute_node "align" (.UNARY_UNSIGNED_CONSTANT 0)] le_trace
      = .ok (some (declaration.integer 12 1234 0 0)) :=
  ⟨rfl, rfl⟩

/-- C13, amended. Every declaration `ctf_declaration_integer_visit` returns is
an integer whose signedness is 0 or 1 and whose alignment is at least 1 when
the list has no `align` attribute; its size and an alignment given by `align`
are the attribute values as written, 0 included. -/
theorem integer_fields_are_as_written (trace : ctf_trace) (xs : List ctf_node)
    (d : declaration)
    (h : ctf_declaration_integer_visit xs trace = .ok (some d)) :
    ∃ size byte_order signedness alignment,
      d = declaration.integer size byte_order signedness alignment ∧
      (signedness = 0 ∨ signedness = 1) ∧
      (¬ has_attribute "align" xs → 1 ≤ alignment) ∧
      (∀ pre e post s, xs = pre ++ e :: post → attribute_name e = some "size" →
        attribute_value e = some (.UNARY_UNSIGNED_CONSTANT s) →
        ¬ has_attribute "size" post → size = s) ∧
      (∀ pre e post a, xs = pre ++ e :: post → attribute_name e = some "align" →
        attribute_value e = some (.UNARY_UNSIGNED_CONSTANT a) →
        ¬ has_attribute "align" post → alignment = a) := by
  obtain ⟨st, size, hloop, hsize, hd⟩ := integer_visit_inv xs trace d h
  refine ⟨size, st.byte_order, st.signedness, _, hd, ?_, ?_, ?_, ?_⟩
  · exact integer_loop_signedness trace xs _ st hloop (Or.inl rfl)
  · intro hno
    rw [integer_loop_alignment_frame trace xs _ st hloop hno]
    simp only [CHAR_BIT]
    split_ifs <;> omega
  · intro pre e post s hxs hname hvalue hpost
    subst hxs
    have := integer_loop_last_size trace pre post e s _ st hloop hname hvalue hpost
    rw [hsize] at this
    exact Option.some.inj this
  · intro pre e post a hxs hname hvalue hpost
    subst hxs
    rw [integer_loop_last_align trace pre post e a _ st hloop hname hvalue hpost]

theorem integer_fields_are_as_written_witness :
    ctf_declaration_integer_visit
        [attribute_node "signed" (.UNARY_SIGNED_CONSTANT (-5)),
          attribute_node "size" (.UNARY_UNSIGNED_CONSTANT 0)] le_trace
      = .ok (some (declaration.integer 0 1234 1 8)) ∧
    ∃ size byte_order signedness alignment,
      declaration.integer 0 1234 1 8
        = declaration.integer size byte_order signedness alignment ∧
      (signedness = 0 ∨ signedness = 1) ∧
      (¬ has_attribute "align"
          [attribute_node "signed" (.UNARY_SIGNED_CONSTANT (-5)),
            attribute_node "size" (.UNARY_UNSIGNED_CONSTANT 0)] → 1 ≤ alignment) ∧
      (∀ pre e post s,
        [attribute_node "signed" (.UNARY_SIGNED_CONSTANT (-5)),
          attribute_node "size" (.UNARY_UNSIGNED_CONSTANT 0)] = pre ++ e :: post →
        attribute_name e = some "size" →
        attribute_value e = some (.UNARY_UNSIGNED_CONSTANT s) →
        ¬ has_attribute "size" post → size = s) ∧
      (∀ pre e post a,
        [attribute_node "signed" (.UNARY_SIGNED_CONSTANT (-5)),
          attribute_node "size" (.UNARY_UNSIGNED_CONSTANT 0)] = pre ++ e :: post →
        attribute_name e = some "align" →
        attribute_value e = some (.UNARY_UNSIGNED_CONSTANT a) →
        ¬ has_attribute "align" post → alignment = a) :=
  ⟨rfl,
    integer_fields_are_as_written le_trace
      [attribute_node "signed" (.UNARY_SIGNED_CONSTANT (-5)),
        attribute_node "size" (.UNARY_UNSIGNED_CONSTANT 0)]
      (declaration.integer 0 1234 1 8) rfl⟩

/-! ## C14: the byte order of an integer -/

/-- On a list of attributes one of which is not a well-formed integer
attribute, the integer visitor returns NULL. -/
theorem integer_visit_null_of_bad_attribute (trace : ctf_trace) (xs : List ctf_node)
    (hall : ∀ e ∈ xs, is_attribute e) (hbad : ∃ e ∈ xs, ¬ is_integer_attribute e) :
    ctf_declaration_integer_visit xs trace = .ok none := by
  obtain ⟨r, hr⟩ := integer_loop_runs trace xs ⟨none, none, trace.byte_order, 0⟩ hall
  unfold ctf_declaration_integer_visit
  rw [hr]
  cases r with
  | none => rfl
  | some st =>
    obtain ⟨e, he, hne⟩ := hbad
    exact absurd (integer_loop_accepts_only trace xs _ st hr e he) hne

/-- The last `byte_order` attribute of the list gives `byte_order`. -/
theorem integer_loop_last_byte_order (trace : ctf_trace) (pre post : List ctf_node)
    (e : ctf_node) (s : String) (st st' : integer_attributes)
    (h : ctf_declaration_integer_visit_loop trace (pre ++ e :: post) st = .ok (some st'))
    (hname : attribute_name e = some "byte_order")
    (hvalue : attribute_value e = some (.UNARY_STRING s))
    (hpost : ¬ has_attribute "byte_order" post) :
    st'.byte_order = (if s = "native" then trace.byte_order
      else if s = "network" then BIG_ENDIAN
      else if s = "be" then BIG_ENDIAN
      else if s = "le" then LITTLE_ENDIAN
      else -EINVAL) := by
  obtain ⟨st1, -, h2⟩ := integer_loop_append trace pre (e :: post) st st' h
  obtain ⟨name, r, st2, hs, -, hgo, hcase⟩ := integer_loop_cons_inv trace e post st1 st' h2
  obtain ⟨hn, hv⟩ := attribute_sides_link e name r hs
  rw [hname] at hn
  simp only [Option.some.injEq] at hn
  subst hn
  rw [integer_loop_byte_order_frame trace post st2 st' hgo hpost]
  rcases hcase with ⟨hn, -⟩ | ⟨-, bo, hbo, hpos, h1⟩ | ⟨hn, -⟩ | ⟨hn, -⟩
  · exact absurd hn (by decide)
  · obtain ⟨value, k, hr, -⟩ := get_byte_order_nonneg_inv r trace bo hbo hpos
    have := hv value k hr
    rw [hvalue] at this
    simp only [Option.some.injEq] at this
    subst this
    subst hr
    rw [get_byte_order_string] at hbo
    simp only [Except.ok.injEq] at hbo
    rw [h1, ← hbo]
  · exact absurd hn (by decide)
  · exact absurd hn (by decide)

/-- C14. In `ctf_declaration_integer_visit` the last `byte_order` attribute
gives the byte order of the integer: `be` and `network` big-endian, `le`
little-endian, `native` the byte order of the trace; with no `byte_order`
attribute it is the byte order of the trace. On a list of attributes with a
`byte_order` whose value is another string or no string, the visitor returns
NULL. On well-formed attributes with a `size` it returns an integer. -/
theorem integer_byte_order_is_resolved (trace : ctf_trace) (xs : List ctf_node) :
    (∀ size byte_order signedness alignment,
      ctf_declaration_integer_visit xs trace
        = .ok (some (declaration.integer size byte_order signedness alignment)) →
      (¬ has_attribute "byte_order" xs → byte_order = trace.byte_order) ∧
      (∀ pre e post s, xs = pre ++ e :: post → attribute_name e = some "byte_order" →
        attribute_value e = some (.UNARY_STRING s) → ¬ has_attribute "byte_order" post →
        (s = "be" ∨ s = "network" → byte_order = BIG_ENDIAN) ∧
        (s = "le" → byte_order = LITTLE_ENDIAN) ∧
        (s = "native" → byte_order = trace.byte_order))) ∧
    ((∀ e ∈ xs, is_attribute e) →
      (∃ e ∈ xs, attribute_name e = some "byte_order" ∧
        ∃ value, attribute_value e = some value ∧ ¬ is_byte_order_value value) →
      ctf_declaration_integer_visit xs trace = .ok none) ∧
    ((∀ e ∈ xs, is_integer_attribute e) → has_attribute "size" xs →
      trace_byte_order_set trace →
      ∃ size byte_order signedness alignment,
        ctf_declaration_integer_visit xs trace
          = .ok (some (declaration.integer size byte_order signedness alignment))) := by
  refine ⟨?_, ?_, ?_⟩
  · intro size byte_order signedness alignment h
    obtain ⟨st, sz, hloop, hsize, hd⟩ := integer_visit_inv xs trace _ h
    simp only [declaration.integer.injEq] at hd
    obtain ⟨-, hbo, -, -⟩ := hd
    refine ⟨?_, ?_⟩
    · intro hno
      rw [hbo, integer_loop_byte_order_frame trace xs _ st hloop hno]
    · intro pre e post s hxs hname hvalue hpost
      subst hxs
      have := integer_loop_last_byte_order trace pre post e s _ st hloop hname hvalue hpost
      rw [← hbo] at this
      refine ⟨?_, ?_, ?_⟩
      · intro hs
        rcases hs with hs | hs <;> subst hs <;> simpa using this
      · intro hs
        subst hs
        simpa using this
      · intro hs
        subst hs
        simpa using this
  · intro hall hbad
    obtain ⟨e, he, hname, value, hvalue, hnot⟩ := hbad
    apply integer_visit_null_of_bad_attribute trace xs hall
    refine ⟨e, he, ?_⟩
    rintro ⟨name, v, h1, h2, hcase⟩
    rw [hname] at h1
    rw [hvalue] at h2
    simp only [Option.some.injEq] at h1 h2
    subst h1 h2
    rcases hcase with ⟨hn, -⟩ | ⟨-, hv⟩ | ⟨hn, -⟩ | ⟨hn, -⟩
    · exact absurd hn (by decide)
    · exact hnot hv
    · exact absurd hn (by decide)
    · exact absurd hn (by decide)
  · intro hall hsize htrace
    obtain ⟨st, hst⟩ := integer_loop_succeeds trace htrace xs
      ⟨none, none, trace.byte_order, 0⟩ hall
    have hsome := integer_loop_size_assigned trace xs _ st hst (Or.inl hsize)
    obtain ⟨size, hsz⟩ := Option.isSome_iff_exists.mp hsome
    unfold ctf_declaration_integer_visit
    rw [hst]
    simp only [hsz, integer_declaration_new]
    exact ⟨_, _, _, _, rfl⟩

theorem integer_byte_order_is_resolved_witness :
    (ctf_declaration_integer_visit
        [attribute_node "size" (.UNARY_UNSIGNED_CONSTANT 16),
          attribute_node "byte_order" (.UNARY_STRING "network")] le_trace
        = .ok (some (declaration.integer 16 4321 0 8)) ∧
      (4321 : Int) = BIG_ENDIAN) ∧
    (ctf_declaration_integer_visit
        [attribute_node "size" (.UNARY_UNSIGNED_CONSTANT 16)] le_trace
        = .ok (some (declaration.integer 16 1234 0 8)) ∧
      (1234 : Int) = le_trace.byte_order) ∧
    ctf_declaration_integer_visit
        [attribute_node "size" (.UNARY_UNSIGNED_CONSTANT 16),
          attribute_node "byte_order" (.UNARY_STRING "XYZ")] le_trace = .ok none ∧
    ∃ size byte_order signedness alignment,
      ctf_declaration_integer_visit
        [attribute_node "size" (.UNARY_UNSIGNED_CONSTANT 16),
          attribute_node "byte_order" (.UNARY_STRING "le")] le_trace
        = .ok (some (declaration.integer size byte_order signedness alignment)) :=
  ⟨⟨rfl,
      ((((integer_byte_order_is_resolved le_trace
        [attribute_node "size" (.UNARY_UNSIGNED_CONSTANT 16),
          attribute_node "byte_order" (.UNARY_STRING "network")]).1 16 4321 0 8 rfl).2
        [attribute_node "size" (.UNARY_UNSIGNED_CONSTANT 16)]
        (attribute_node "byte_order" (.UNARY_STRING "network")) [] "network" rfl rfl rfl
        (by simp [has_attribute])).1 (Or.inr rfl))⟩,
    ⟨rfl,
      ((integer_byte_order_is_resolved le_trace
        [attribute_node "size" (.UNARY_UNSIGNED_CONSTANT 16)]).1 16 1234 0 8 rfl).1
        (by simp [has_attribute, attribute_name, attribute_node])⟩,
    (integer_byte_order_is_resolved le_trace
      [attribute_node "size" (.UNARY_UNSIGNED_CONSTANT 16),
        attribute_node "byte_order" (.UNARY_STRING "XYZ")]).2.1
      (by
        intro e he
        simp only [List.mem_cons, List.mem_singleton, List.not_mem_nil, or_false] at he
        rcases he with he | he <;> subst he <;> exact is_attribute_attribute_node _ _)
      ⟨attribute_node "byte_order" (.UNARY_STRING "XYZ"), by simp, rfl,
        .UNARY_STRING "XYZ", rfl, by simp [is_byte_order_value, is_byte_order_string]⟩,
    (integer_byte_order_is_resolved le_trace
      [attribute_node "size" (.UNARY_UNSIGNED_CONSTANT 16),
        attribute_node "byte_order" (.UNARY_STRING "le")]).2.2
      (by
        intro e he
        simp only [List.mem_cons, List.mem_singleton, List.not_mem_nil, or_false] at he
        rcases he with he | he <;> subst he
        · exact is_integer_attribute_node _ _ (Or.inr (Or.inr (Or.inl ⟨rfl, trivial⟩)))
        · exact is_integer_attribute_node _ _
            (Or.inr (Or.inl ⟨rfl, Or.inr (Or.inr (Or.inr rfl))⟩)))
      (by simp [has_attribute, attribute_name, attribute_node])
      (Or.inl rfl)⟩

/-! ## C15: the byte order of a float -/

/-- The loop of the float visitor runs to its end on attributes that are
well-formed apart from the value of `byte_order`, which may be any value. -/
theorem float_loop_succeeds_any_byte_order (trace : ctf_trace) (xs : List ctf_node) :
    ∀ st, (∀ e ∈ xs, is_float_attribute e ∨
        (is_attribute e ∧ attribute_name e = some "byte_order")) →
      ∃ st', ctf_declaration_floating_point_visit_loop trace xs st = .ok (some st') := by
  induction xs with
  | nil => intro st _; exact ⟨_, rfl⟩
  | cons e rest ih =>
    intro st hall
    have hrest : ∀ e ∈ rest, is_float_attribute e ∨
        (is_attribute e ∧ attribute_name e = some "byte_order") :=
      fun x hx => hall x (by simp [hx])
    rcases hall e (by simp) with he | ⟨he, hbo⟩
    · obtain ⟨st1, h1⟩ := float_loop_succeeds trace [e] st (by simpa using he)
      obtain ⟨name, r, st2, -, hstep, hgo, -⟩ := float_loop_cons_inv trace e [] st st1 h1
      rw [hstep]
      exact ih _ hrest
    · obtain ⟨name, value, k, hs, hn, -⟩ := attribute_sides_of_attribute e he
      rw [hbo] at hn
      simp only [Option.some.injEq] at hn
      subst hn
      obtain ⟨bo, hb⟩ := get_byte_order_unary value k trace
      rw [ctf_declaration_floating_point_visit_loop]
      simp only [hs, if_true, hb, show ¬ ((to_uint64 bo : Nat) : Int) < 0 by omega, if_false]
      exact ih _ hrest

/-- Without a `byte_order` attribute the loop of the float visitor leaves
`byte_order` as it was. -/
theorem float_loop_byte_order_frame (trace : ctf_trace) (xs : List ctf_node) :
    ∀ (st st' : float_attributes),
      ctf_declaration_floating_point_visit_loop trace xs st = .ok (some st') →
      ¬ has_attribute "byte_order" xs → st'.byte_order = st.byte_order := by
  induction xs with
  | nil =>
    intro st st' h _
    simp only [ctf_declaration_floating_point_visit_loop, Except.ok.injEq,
      Option.some.injEq] at h
    rw [h]
  | cons x rest ih =>
    intro st st' h hno
    rw [has_attribute_cons, not_or] at hno
    obtain ⟨name, r, st1, hs, -, hgo, hcase⟩ := float_loop_cons_inv trace x rest st st' h
    have hname := (attribute_sides_link x name r hs).1
    rw [ih st1 st' hgo hno.2]
    rcases hcase with ⟨hn, bo, -, h1⟩ | ⟨-, v, -, h1⟩ | ⟨-, v, -, h1⟩ | ⟨-, v, -, h1⟩
    · subst hn; exact absurd hname hno.1
    · rw [h1]
    · rw [h1]
    · rw [h1]

/-- A last `byte_order` attribute that names no byte order leaves `-EINVAL`,
converted to `uint64_t`, in `byte_order`. -/
theorem float_loop_last_bad_byte_order (trace : ctf_trace) (pre post : List ctf_node)
    (e : ctf_node) (value : unary_expression_type) (st st' : float_attributes)
    (h : ctf_declaration_floating_point_visit_loop trace (pre ++ e :: post) st
      = .ok (some st'))
    (hname : attribute_name e = some "byte_order")
    (hvalue : attribute_value e = some value) (hbad : ¬ is_byte_order_value value)
    (hpost : ¬ has_attribute "byte_order" post) :
    st'.byte_order = to_uint64 (-EINVAL) := by
  obtain ⟨st1, -, h2⟩ := float_loop_append trace pre (e :: post) st st' h
  obtain ⟨name, r, st2, hs, -, hgo, hcase⟩ := float_loop_cons_inv trace e post st1 st' h2
  obtain ⟨hn, hv⟩ := attribute_sides_link e name r hs
  rw [hname] at hn
  simp only [Option.some.injEq] at hn
  subst hn
  rw [float_loop_byte_order_frame trace post st2 st' hgo hpost]
  rcases hcase with ⟨-, bo, hbo, h1⟩ | ⟨hn, -⟩ | ⟨hn, -⟩ | ⟨hn, -⟩
  · cases r with
    | NODE_UNARY_EXPRESSION v k =>
      have := hv v k rfl
      rw [hvalue] at this
      simp only [Option.some.injEq] at this
      subst this
      rw [get_byte_order_of_bad_value value k trace hbad] at hbo
      simp only [Except.ok.injEq] at hbo
      rw [h1, ← hbo]
    | _ => simp [get_byte_order] at hbo
  · exact absurd hn (by decide)
  · exact absurd hn (by decide)
  · exact absurd hn (by decide)

/-- C15: what the code does. `ctf_declaration_floating_point_visit` keeps the
result of `get_byte_order` in a `uint64_t`, so its test `byte_order < 0` never
holds: a `byte_order` attribute of any value is accepted, and when the last one
names no byte order the float is built with the byte order `-EINVAL`. -/
theorem float_byte_order_is_not_checked (trace : ctf_trace) (xs : List ctf_node)
    (hall : ∀ e ∈ xs, is_float_attribute e ∨
      (is_attribute e ∧ attribute_name e = some "byte_order"))
    (hexp : has_attribute "exp_dig" xs) (hmant : has_attribute "mant_dig" xs) :
    ∃ mant_dig exp_dig byte_order alignment,
      ctf_declaration_floating_point_visit xs trace
        = .ok (some (declaration.float mant_dig exp_dig byte_order alignment)) ∧
      ∀ pre e post value, xs = pre ++ e :: post →
        attribute_name e = some "byte_order" → attribute_value e = some value →
        ¬ is_byte_order_value value → ¬ has_attribute "byte_order" post →
        byte_order = -EINVAL := by
  obtain ⟨st, hst⟩ := float_loop_succeeds_any_byte_order trace xs
    ⟨none, none, none, to_uint64 trace.byte_order⟩ hall
  have hsome1 := float_loop_exp_dig_assigned trace xs _ st hst (Or.inl hexp)
  have hsome2 := float_loop_mant_dig_assigned trace xs _ st hst (Or.inl hmant)
  obtain ⟨x, hx⟩ := Option.isSome_iff_exists.mp hsome1
  obtain ⟨m, hm⟩ := Option.isSome_iff_exists.mp hsome2
  have hvisit : ∃ alignment, ctf_declaration_floating_point_visit xs trace
      = .ok (some (declaration.float m x (to_int st.byte_order) alignment)) := by
    unfold ctf_declaration_floating_point_visit
    rw [hst]
    simp only [hx, hm, float_declaration_new]
    exact ⟨_, rfl⟩
  obtain ⟨alignment, hal⟩ := hvisit
  refine ⟨m, x, to_int st.byte_order, alignment, hal, ?_⟩
  intro pre e post value hxs hname hvalue hbad hpost
  subst hxs
  rw [float_loop_last_bad_byte_order trace pre post e value _ st hst hname hvalue hbad hpost]
  decide

theorem float_byte_order_is_not_checked_witness :
    ctf_declaration_floating_point_visit
        [attribute_node "exp_dig" (.UNARY_UNSIGNED_CONSTANT 8),
          attribute_node "mant_dig" (.UNARY_UNSIGNED_CONSTANT 24),
          attribute_node "byte_order" (.UNARY_STRING "XYZ")] le_trace
      = .ok (some (declaration.float 24 8 (-22) 8)) ∧
    ∃ mant_dig exp_dig byte_order alignment,
      ctf_declaration_floating_point_visit
        [attribute_node "exp_dig" (.UNARY_UNSIGNED_CONSTANT 8),
          attribute_node "mant_dig" (.UNARY_UNSIGNED_CONSTANT 24),
          attribute_node "byte_order" (.UNARY_STRING "XYZ")] le_trace
        = .ok (some (declaration.float mant_dig exp_dig byte_order alignment)) ∧
      ∀ pre e post value,
        [attribute_node "exp_dig" (.UNARY_UNSIGNED_CONSTANT 8),
          attribute_node "mant_dig" (.UNARY_UNSIGNED_CONSTANT 24),
          attribute_node "byte_order" (.UNARY_STRING "XYZ")] = pre ++ e :: post →
        attribute_name e = some "byte_order" → attribute_value e = some value →
        ¬ is_byte_order_value value → ¬ has_attribute "byte_order" post →
        byte_order = -EINVAL :=
  ⟨rfl,
    float_byte_order_is_not_checked le_trace
      [attribute_node "exp_dig" (.UNARY_UNSIGNED_CONSTANT 8),
        attribute_node "mant_dig" (.UNARY_UNSIGNED_CONSTANT 24),
        attribute_node "byte_order" (.UNARY_STRING "XYZ")]
      (by
        intro e he
        simp only [List.mem_cons, List.mem_singleton, List.not_mem_nil, or_false] at he
        rcases he with he | he | he <;> subst he
        · exact Or.inl (is_float_attribute_node _ _ (Or.inr (Or.inl ⟨rfl, trivial⟩)))
        · exact Or.inl (is_float_attribute_node _ _ (Or.inr (Or.inr (Or.inl ⟨rfl, trivial⟩))))
        · exact Or.inr ⟨is_attribute_attribute_node _ _, rfl⟩)
      (by simp [has_attribute, attribute_name, attribute_node])
      (by simp [has_attribute, attribute_name, attribute_node])⟩

/-! ## C16: unknown attribute names -/

/-- A list the float visitor runs through holds attributes of its four names
only. -/
theorem float_loop_accepts_names (trace : ctf_trace) (xs : List ctf_node) :
    ∀ (st st' : float_attributes),
      ctf_declaration_floating_point_visit_loop trace xs st = .ok (some st') →
      ∀ e ∈ xs, ∃ n ∈ float_attribute_names, attribute_name e = some n := by
  induction xs with
  | nil => intro st st' _ e he; simp at he
  | cons x rest ih =>
    intro st st' h e he
    obtain ⟨name, r, st1, hs, -, hgo, hcase⟩ := float_loop_cons_inv trace x rest st st' h
    rcases List.mem_cons.mp he with hx | hx
    · subst hx
      refine ⟨name, ?_, (attribute_sides_link e name r hs).1⟩
      rcases hcase with ⟨hn, -⟩ | ⟨hn, -⟩ | ⟨hn, -⟩ | ⟨hn, -⟩ <;> subst hn <;>
        simp [float_attribute_names]
    · exact ih st1 st' hgo e hx

/-- One turn of the attribute loop of the string visitor that goes on reads an
attribute `encoding`. -/
theorem string_loop_cons_inv (e : ctf_node) (rest : List ctf_node)
    (encoding_c : Option String) (r : Option String)
    (h : ctf_declaration_string_visit_loop (e :: rest) encoding_c = .ok (some r)) :
    attribute_name e = some "encoding" ∧
      ∃ s, ctf_declaration_string_visit_loop rest (some s) = .ok (some r) := by
  rw [ctf_declaration_string_visit_loop] at h
  split at h
  · cases h
  · rename_i left right hs
    by_cases h1 : left = "encoding"
    · subst h1
      simp only [if_true] at h
      split at h
      · cases h
      · rename_i r1
        split at h
        · split at h
          · rename_i s
            exact ⟨(attribute_sides_link e _ _ hs).1, s, h⟩
          · cases h
        · cases h
    · simp [h1] at h

/-- A list the string visitor runs through holds `encoding` attributes only. -/
theorem string_loop_accepts_names (xs : List ctf_node) :
    ∀ (encoding_c : Option String) (r : Option String),
      ctf_declaration_string_visit_loop xs encoding_c = .ok (some r) →
      ∀ e ∈ xs, attribute_name e = some "encoding" := by
  induction xs with
  | nil => intro _ _ _ e he; simp at he
  | cons x rest ih =>
    intro encoding_c r h e he
    obtain ⟨hname, s, hgo⟩ := string_loop_cons_inv x rest encoding_c r h
    rcases List.mem_cons.mp he with hx | hx
    · subst hx; exact hname
    · exact ih (some s) r hgo e hx

/-- On a list of attributes the attribute loop of the string visitor runs to
its end or returns NULL. -/
theorem string_loop_runs (xs : List ctf_node) :
    ∀ encoding_c, (∀ e ∈ xs, is_attribute e) →
      ∃ r, ctf_declaration_string_visit_loop xs encoding_c = .ok r := by
  induction xs with
  | nil => intro _ _; exact ⟨_, rfl⟩
  | cons e rest ih =>
    intro encoding_c hall
    obtain ⟨name, value, k, hs, -, -⟩ := attribute_sides_of_attribute e (hall e (by simp))
    have hrest : ∀ e ∈ rest, is_attribute e := fun x hx => hall x (by simp [hx])
    rw [ctf_declaration_string_visit_loop]
    simp only [hs]
    split_ifs
    · cases value with
      | UNARY_STRING s => exact ih _ hrest
      | _ => exact ⟨_, rfl⟩
    · exact ⟨_, rfl⟩

/-- C16. On a list of attributes that holds an attribute whose name is not one
of `signed`, `byte_order`, `size`, `align`, `ctf_declaration_integer_visit`
returns NULL, whatever the other attributes are and wherever the unknown one
stands; so do `ctf_declaration_floating_point_visit` for a name outside
`byte_order`, `exp_dig`, `mant_dig`, `align` and `ctf_declaration_string_visit`
for a name other than `encoding`. -/
theorem unknown_attribute_is_rejected (trace : ctf_trace) (xs : List ctf_node)
    (hall : ∀ e ∈ xs, is_attribute e) :
    ((∃ e ∈ xs, ∀ n ∈ integer_attribute_names, attribute_name e ≠ some n) →
      ctf_declaration_integer_visit xs trace = .ok none) ∧
    ((∃ e ∈ xs, ∀ n ∈ float_attribute_names, attribute_name e ≠ some n) →
      ctf_declaration_floating_point_visit xs trace = .ok none) ∧
    ((∃ e ∈ xs, ∀ n ∈ string_attribute_names, attribute_name e ≠ some n) →
      ctf_declaration_string_visit xs trace = .ok none) := by
  refine ⟨?_, ?_, ?_⟩
  · rintro ⟨e, he, hname⟩
    apply integer_visit_null_of_bad_attribute trace xs hall
    refine ⟨e, he, ?_⟩
    rintro ⟨name, value, h1, -, hcase⟩
    apply hname name _ h1
    rcases hcase with ⟨hn, -⟩ | ⟨hn, -⟩ | ⟨hn, -⟩ | ⟨hn, -⟩ <;> subst hn <;>
      simp [integer_attribute_names]
  · rintro ⟨e, he, hname⟩
    obtain ⟨r, hr⟩ := float_loop_runs trace xs ⟨none, none, none, to_uint64 trace.byte_order⟩ hall
    unfold ctf_declaration_floating_point_visit
    rw [hr]
    cases r with
    | none => rfl
    | some st =>
      obtain ⟨n, hn, h1⟩ := float_loop_accepts_names trace xs _ st hr e he
      exact absurd h1 (hname n hn)
  · rintro ⟨e, he, hname⟩
    obtain ⟨r, hr⟩ := string_loop_runs xs none hall
    unfold ctf_declaration_string_visit
    rw [hr]
    cases r with
    | none => rfl
    | some enc =>
      have h1 := string_loop_accepts_names xs none enc hr e he
      exact absurd h1 (hname "encoding" (by simp [string_attribute_names]))

theorem unknown_attribute_is_rejected_witness :
    ctf_declaration_integer_visit
        [attribute_node "size" (.UNARY_UNSIGNED_CONSTANT 16),
          attribute_node "base" (.UNARY_UNSIGNED_CONSTANT 10)] le_trace = .ok none ∧
    ctf_declaration_floating_point_visit
        [attribute_node "size" (.UNARY_UNSIGNED_CONSTANT 16),
          attribute_node "base" (.UNARY_UNSIGNED_CONSTANT 10)] le_trace = .ok none ∧
    ctf_declaration_string_visit
        [attribute_node "size" (.UNARY_UNSIGNED_CONSTANT 16),
          attribute_node "base" (.UNARY_UNSIGNED_CONSTANT 10)] le_trace = .ok none :=
  have hall : ∀ e ∈ [attribute_node "size" (.UNARY_UNSIGNED_CONSTANT 16),
      attribute_node "base" (.UNARY_UNSIGNED_CONSTANT 10)], is_attribute e := by
    intro e he
    simp only [List.mem_cons, List.mem_singleton, List.not_mem_nil, or_false] at he
    rcases he with he | he <;> subst he <;> exact is_attribute_attribute_node _ _
  ⟨(unknown_attribute_is_rejected le_trace _ hall).1
      ⟨attribute_node "base" (.UNARY_UNSIGNED_CONSTANT 10), by simp,
        by simp [integer_attribute_names, attribute_name, attribute_node]⟩,
    (unknown_attribute_is_rejected le_trace _ hall).2.1
      ⟨attribute_node "base" (.UNARY_UNSIGNED_CONSTANT 10), by simp,
        by simp [float_attribute_names, attribute_name, attribute_node]⟩,
    (unknown_attribute_is_rejected le_trace _ hall).2.2
      ⟨attribute_node "base" (.UNARY_UNSIGNED_CONSTANT 10), by simp,
        by simp [string_attribute_names, attribute_name, attribute_node]⟩⟩

/-! ## Enumerators -/

theorem signed_loop_cons_value (iter : ctf_node) (rest : List ctf_node)
    (start last : Option Int) (nr_vals : Int) (v : Int)
    (h : signed_stored_value iter = some v) :
    ctf_enumerator_list_visit_signed_loop (iter :: rest) start last nr_vals
      = if nr_vals > 1 then .ok none
        else ctf_enumerator_list_visit_signed_loop rest
          (if nr_vals = 0 then some v else start) (if nr_vals = 0 then last else some v)
          (nr_vals + 1) := by
  unfold signed_stored_value at h
  split at h
  · simp only [Option.some.injEq] at h; subst h
    simp [ctf_enumerator_list_visit_signed_loop]
  · simp only [Option.some.injEq] at h; subst h
    simp [ctf_enumerator_list_visit_signed_loop]
  · cases h

theorem signed_loop_cons_reject (iter : ctf_node) (rest : List ctf_node)
    (start last : Option Int) (nr_vals : Int)
    (h1 : is_unary iter) (h2 : signed_stored_value iter = none) :
    ctf_enumerator_list_visit_signed_loop (iter :: rest) start last nr_vals = .ok none := by
  cases iter with
  | NODE_UNARY_EXPRESSION type k =>
    cases type <;> simp_all [signed_stored_value, ctf_enumerator_list_visit_signed_loop]
  | _ => simp [is_unary] at h1

theorem unsigned_loop_cons_value (iter : ctf_node) (rest : List ctf_node)
    (start last : Option Nat) (nr_vals : Int) (v : Nat)
    (h : unsigned_container_value iter = some v) :
    ctf_enumerator_list_visit_unsigned_loop (iter :: rest) start last nr_vals
      = if nr_vals > 1 then .ok none
        else ctf_enumerator_list_visit_unsigned_loop rest
          (if nr_vals = 0 then some v else start) (if nr_vals = 0 then last else some v)
          (nr_vals + 1) := by
  unfold unsigned_container_value at h
  split at h
  · simp only [Option.some.injEq] at h; subst h
    simp [ctf_enumerator_list_visit_unsigned_loop]
  · cases h

theorem unsigned_loop_cons_reject (iter : ctf_node) (rest : List ctf_node)
    (start last : Option Nat) (nr_vals : Int)
    (h1 : is_unary iter) (h2 : unsigned_container_value iter = none) :
    ctf_enumerator_list_visit_unsigned_loop (iter :: rest) start last nr_vals = .ok none := by
  cases iter with
  | NODE_UNARY_EXPRESSION type k =>
    cases type <;> simp_all [unsigned_container_value, ctf_enumerator_list_visit_unsigned_loop]
  | _ => simp [is_unary] at h1

/-- What `ctf_enumerator_list_visit` does with a non-empty list of unary
expressions in an enum with a signed container: it inserts the range of the
enumerator, or returns `-EINVAL` and leaves the enum as it was. -/
theorem enumerator_visit_signed (id : Option String) (values : List ctf_node)
    (E : declaration_enum) (len : Nat) (bo sg : Int) (al : Nat)
    (hE : E.integer_declaration = declaration.integer len bo sg al) (hsg : sg ≠ 0)
    (hu : ∀ n ∈ values, is_unary n) (hne : values ≠ []) :
    ctf_enumerator_list_visit (.mk id values) E
      = match enumerator_range true (.mk id values) with
        | some entry => .ok (0, ⟨E.integer_declaration, E.table ++ [entry]⟩)
        | none => .ok (-EINVAL, E) := by
  unfold ctf_enumerator_list_visit
  simp only [hE, hsg, ne_eq, not_false_eq_true, if_true]
  match values, hu, hne with
  | [n1], hu, _ =>
    cases h1 : signed_stored_value n1 with
    | none =>
      simp [enumerator_range, h1, signed_loop_cons_reject n1 _ _ _ _ (hu n1 (by simp)) h1]
    | some v =>
      simp only [signed_loop_cons_value n1 _ _ _ _ v h1]
      simp [enumerator_range, h1, ctf_enumerator_list_visit_signed_loop, enum_signed_insert, hE]
  | [n1, n2], hu, _ =>
    cases h1 : signed_stored_value n1 with
    | none =>
      simp [enumerator_range, h1, signed_loop_cons_reject n1 _ _ _ _ (hu n1 (by simp)) h1]
    | some a =>
      cases h2 : signed_stored_value n2 with
      | none =>
        simp [enumerator_range, h1, h2, signed_loop_cons_value n1 _ _ _ _ a h1,
          signed_loop_cons_reject n2 _ _ _ _ (hu n2 (by simp)) h2]
      | some b =>
        simp only [signed_loop_cons_value n1 _ _ _ _ a h1, signed_loop_cons_value n2 _ _ _ _ b h2]
        simp [enumerator_range, h1, h2, ctf_enumerator_list_visit_signed_loop, enum_signed_insert, hE]
  | n1 :: n2 :: n3 :: rest, hu, _ =>
    cases h1 : signed_stored_value n1 with
    | none =>
      simp [enumerator_range, signed_loop_cons_reject n1 _ _ _ _ (hu n1 (by simp)) h1]
    | some a =>
      cases h2 : signed_stored_value n2 with
      | none =>
        simp [enumerator_range, signed_loop_cons_value n1 _ _ _ _ a h1,
          signed_loop_cons_reject n2 _ _ _ _ (hu n2 (by simp)) h2]
      | some b =>
        cases h3 : signed_stored_value n3 with
        | none =>
          simp [enumerator_range, signed_loop_cons_value n1 _ _ _ _ a h1,
            signed_loop_cons_value n2 _ _ _ _ b h2,
            signed_loop_cons_reject n3 _ _ _ _ (hu n3 (by simp)) h3]
        | some c =>
          simp [enumerator_range, signed_loop_cons_value n1 _ _ _ _ a h1,
            signed_loop_cons_value n2 _ _ _ _ b h2,
            signed_loop_cons_value n3 _ _ _ _ c h3]

/-- What `ctf_enumerator_list_visit` does with a non-empty list of unary
expressions in an enum with an unsigned container. -/
theorem enumerator_visit_unsigned (id : Option String) (values : List ctf_node)
    (E : declaration_enum) (len : Nat) (bo : Int) (al : Nat)
    (hE : E.integer_declaration = declaration.integer len bo 0 al)
    (hu : ∀ n ∈ values, is_unary n) (hne : values ≠ []) :
    ctf_enumerator_list_visit (.mk id values) E
      = match enumerator_range false (.mk id values) with
        | some entry => .ok (0, ⟨E.integer_declaration, E.table ++ [entry]⟩)
        | none => .ok (-EINVAL, E) := by
  unfold ctf_enumerator_list_visit
  simp only [hE, ne_eq, not_true_eq_false, if_false]
  match values, hu, hne with
  | [n1], hu, _ =>
    cases h1 : unsigned_container_value n1 with
    | none =>
      simp [enumerator_range, h1, unsigned_loop_cons_reject n1 _ _ _ _ (hu n1 (by simp)) h1]
    | some v =>
      simp only [unsigned_loop_cons_value n1 _ _ _ _ v h1]
      simp [enumerator_range, h1, ctf_enumerator_list_visit_unsigned_loop, enum_unsigned_insert, hE]
  | [n1, n2], hu, _ =>
    cases h1 : unsigned_container_value n1 with
    | none =>
      simp [enumerator_range, h1, unsigned_loop_cons_reject n1 _ _ _ _ (hu n1 (by simp)) h1]
    | some a =>
      cases h2 : unsigned_container_value n2 with
      | none =>
        simp [enumerator_range, h1, h2, unsigned_loop_cons_value n1 _ _ _ _ a h1,
          unsigned_loop_cons_reject n2 _ _ _ _ (hu n2 (by simp)) h2]
      | some b =>
        simp only [unsigned_loop_cons_value n1 _ _ _ _ a h1, unsigned_loop_cons_value n2 _ _ _ _ b h2]
        simp [enumerator_range, h1, h2, ctf_enumerator_list_visit_unsigned_loop, enum_unsigned_insert, hE]
  | n1 :: n2 :: n3 :: rest, hu, _ =>
    cases h1 : unsigned_container_value n1 with
    | none =>
      simp [enumerator_range, unsigned_loop_cons_reject n1 _ _ _ _ (hu n1 (by simp)) h1]
    | some a =>
      cases h2 : unsigned_container_value n2 with
      | none =>
        simp [enumerator_range, unsigned_loop_cons_value n1 _ _ _ _ a h1,
          unsigned_loop_cons_reject n2 _ _ _ _ (hu n2 (by simp)) h2]
      | some b =>
        cases h3 : unsigned_container_value n3 with
        | none =>
          simp [enumerator_range, unsigned_loop_cons_value n1 _ _ _ _ a h1,
            unsigned_loop_cons_value n2 _ _ _ _ b h2,
            unsigned_loop_cons_reject n3 _ _ _ _ (hu n3 (by simp)) h3]
        | some c =>
          simp [enumerator_range, unsigned_loop_cons_value n1 _ _ _ _ a h1,
            unsigned_loop_cons_value n2 _ _ _ _ b h2,
            unsigned_loop_cons_value n3 _ _ _ _ c h3]

theorem signed_container_value_stored (n : ctf_node) (v : Int)
    (h : signed_container_value n = some v) :
    signed_stored_value n = some v ∧ is_unary n := by
  unfold signed_container_value at h
  split at h
  · exact ⟨h, trivial⟩
  · rename_i u k
    split at h
    · rename_i hu
      simp only [Option.some.injEq] at h
      subst h
      refine ⟨?_, trivial⟩
      simp only [signed_stored_value, to_int64, Option.some.injEq]
      have : (u : Int) < 2 ^ 63 := by exact_mod_cast hu
      omega
    · cases h
  · cases h

theorem unsigned_container_value_unary (n : ctf_node) (v : Nat)
    (h : unsigned_container_value n = some v) : is_unary n := by
  unfold unsigned_container_value at h
  split at h
  · trivial
  · cases h

theorem enumerator_range_none_of_three (signed : Bool) (id : Option String)
    (values : List ctf_node) (h : 3 ≤ values.length) :
    enumerator_range signed (.mk id values) = none := by
  match values, h with
  | _ :: _ :: _ :: _, _ => simp [enumerator_range]

/-! ## C17: the range of an enumerator -/

/-- C17. In an enum whose container is an integer, for an enumerator named `q`:
a value list of one admissible constant `v` inserts the range `[v, v] -> q`, a
list of two admissible constants `a`, `b` inserts `[a, b] -> q`, and a list of
three or more values returns `-EINVAL` and leaves the enum as it was. The
enumerators `IDLE = 0, RUN = 1 ... 3, ERR = 255` of an enum over an unsigned
8-bit integer give `[0, 0]`, `[1, 3]`, `[255, 255]` in that order. -/
theorem enumerator_range_follows_value_list (id : Option String) (E : declaration_enum)
    (len : Nat) (bo sg : Int) (al : Nat)
    (hE : E.integer_declaration = declaration.integer len bo sg al) :
    (sg ≠ 0 →
      (∀ n1 v, signed_container_value n1 = some v →
        ctf_enumerator_list_visit (.mk id [n1]) E
          = .ok (0, ⟨E.integer_declaration,
              E.table ++ [(enum_range.signed v v, g_quark_from_string id)]⟩)) ∧
      (∀ n1 n2 a b, signed_container_value n1 = some a → signed_container_value n2 = some b →
        ctf_enumerator_list_visit (.mk id [n1, n2]) E
          = .ok (0, ⟨E.integer_declaration,
              E.table ++ [(enum_range.signed a b, g_quark_from_string id)]⟩))) ∧
    (sg = 0 →
      (∀ n1 v, unsigned_container_value n1 = some v →
        ctf_enumerator_list_visit (.mk id [n1]) E
          = .ok (0, ⟨E.integer_declaration,
              E.table ++ [(enum_range.unsigned v v, g_quark_from_string id)]⟩)) ∧
      (∀ n1 n2 a b, unsigned_container_value n1 = some a →
        unsigned_container_value n2 = some b →
        ctf_enumerator_list_visit (.mk id [n1, n2]) E
          = .ok (0, ⟨E.integer_declaration,
              E.table ++ [(enum_range.unsigned a b, g_quark_from_string id)]⟩))) ∧
    (∀ values, (∀ n ∈ values, is_unary n) → 3 ≤ values.length →
      ctf_enumerator_list_visit (.mk id values) E = .ok (-EINVAL, E)) ∧
    ctf_declaration_enum_visit_loop state_enumerators (enum_declaration_new uint8_declaration)
      = .ok (0, ⟨uint8_declaration,
          [(enum_range.unsigned 0 0, GQuark.of "IDLE"),
           (enum_range.unsigned 1 3, GQuark.of "RUN"),
           (enum_range.unsigned 255 255, GQuark.of "ERR")]⟩) := by
  refine ⟨?_, ?_, ?_, rfl⟩
  · intro hsg
    refine ⟨?_, ?_⟩
    · intro n1 v h1
      obtain ⟨hs, hu⟩ := signed_container_value_stored n1 v h1
      rw [enumerator_visit_signed id [n1] E len bo sg al hE hsg (by simpa using hu) (by simp)]
      simp [enumerator_range, hs]
    · intro n1 n2 a b h1 h2
      obtain ⟨hs1, hu1⟩ := signed_container_value_stored n1 a h1
      obtain ⟨hs2, hu2⟩ := signed_container_value_stored n2 b h2
      rw [enumerator_visit_signed id [n1, n2] E len bo sg al hE hsg
        (by simp [hu1, hu2]) (by simp)]
      simp [enumerator_range, hs1, hs2]
  · intro hsg
    subst hsg
    refine ⟨?_, ?_⟩
    · intro n1 v h1
      have hu := unsigned_container_value_unary n1 v h1
      rw [enumerator_visit_unsigned id [n1] E len bo al hE (by simpa using hu) (by simp)]
      simp [enumerator_range, h1]
    · intro n1 n2 a b h1 h2
      have hu1 := unsigned_container_value_unary n1 a h1
      have hu2 := unsigned_container_value_unary n2 b h2
      rw [enumerator_visit_unsigned id [n1, n2] E len bo al hE (by simp [hu1, hu2]) (by simp)]
      simp [enumerator_range, h1, h2]
  · intro values hu hlen
    have hne : values ≠ [] := by
      intro h; subst h; simp at hlen
    by_cases hsg : sg = 0
    · subst hsg
      rw [enumerator_visit_unsigned id values E len bo al hE hu hne,
        enumerator_range_none_of_three false id values hlen]
    · rw [enumerator_visit_signed id values E len bo sg al hE hsg hu hne,
        enumerator_range_none_of_three true id values hlen]

theorem enumerator_range_follows_value_list_witness :
    (enum_declaration_new uint8_declaration).integer_declaration
        = declaration.integer 8 1234 0 8 ∧
    ctf_enumerator_list_visit
        (.mk (some "RUN") [unary_node (.UNARY_UNSIGNED_CONSTANT 1),
          unary_node (.UNARY_UNSIGNED_CONSTANT 3)])
        (enum_declaration_new uint8_declaration)
      = .ok (0, ⟨uint8_declaration, [(enum_range.unsigned 1 3, GQuark.of "RUN")]⟩) ∧
    ctf_enumerator_list_visit
        (.mk (some "RUN") [unary_node (.UNARY_UNSIGNED_CONSTANT 1),
          unary_node (.UNARY_UNSIGNED_CONSTANT 2), unary_node (.UNARY_UNSIGNED_CONSTANT 3)])
        (enum_declaration_new uint8_declaration)
      = .ok (-EINVAL, enum_declaration_new uint8_declaration) :=
  ⟨rfl,
    ((enumerator_range_follows_value_list (some "RUN") (enum_declaration_new uint8_declaration)
      8 1234 0 8 rfl).2.1 rfl).2 _ _ 1 3 rfl rfl,
    (enumerator_range_follows_value_list (some "RUN") (enum_declaration_new uint8_declaration)
      8 1234 0 8 rfl).2.2.1 _ (by simp [unary_node, is_unary]) (by simp)⟩

/-! ## C18: signed constants and the container -/

theorem enumerator_range_unsigned_none (id : Option String) (values : List ctf_node)
    (h : ∃ n ∈ values, unsigned_container_value n = none) :
    enumerator_range false (.mk id values) = none := by
  obtain ⟨n, hn, hv⟩ := h
  match values, hn with
  | [n1], hn =>
    simp only [List.mem_singleton] at hn
    subst hn
    simp [enumerator_range, hv]
  | [n1, n2], hn =>
    simp only [List.mem_cons, List.mem_singleton, List.not_mem_nil, or_false] at hn
    rcases hn with hn | hn <;> subst hn
    · simp [enumerator_range, hv]
    · cases h1 : unsigned_container_value n1 <;> simp [enumerator_range, hv, h1]
  | _ :: _ :: _ :: _, _ => simp [enumerator_range]

theorem enumerator_range_signed_none (id : Option String) (values : List ctf_node)
    (h : ∃ n ∈ values, signed_stored_value n = none) :
    enumerator_range true (.mk id values) = none := by
  obtain ⟨n, hn, hv⟩ := h
  match values, hn with
  | [n1], hn =>
    simp only [List.mem_singleton] at hn
    subst hn
    simp [enumerator_range, hv]
  | [n1, n2], hn =>
    simp only [List.mem_cons, List.mem_singleton, List.not_mem_nil, or_false] at hn
    rcases hn with hn | hn <;> subst hn
    · simp [enumerator_range, hv]
    · cases h1 : signed_stored_value n1 <;> simp [enumerator_range, hv, h1]
  | _ :: _ :: _ :: _, _ => simp [enumerator_range]

theorem signed_stored_value_of_constant (n : ctf_node) (h : is_constant n) :
    ∃ v, signed_stored_value n = some v := by
  unfold is_constant at h
  split at h
  · exact ⟨_, rfl⟩
  · exact ⟨_, rfl⟩
  · exact h.elim

theorem is_unary_of_constant (n : ctf_node) (h : is_constant n) : is_unary n := by
  unfold is_constant at h
  split at h
  · trivial
  · trivial
  · exact h.elim

theorem signed_stored_value_none_of_not_constant (n : ctf_node) (h : ¬ is_constant n) :
    signed_stored_value n = none := by
  cases hv : signed_stored_value n with
  | none => rfl
  | some v =>
    exfalso
    apply h
    unfold signed_stored_value at hv
    split at hv
    · trivial
    · trivial
    · cases hv

theorem unsigned_container_value_none_of_not_constant (n : ctf_node) (h : ¬ is_constant n) :
    unsigned_container_value n = none := by
  cases hv : unsigned_container_value n with
  | none => rfl
  | some v =>
    exfalso
    apply h
    unfold unsigned_container_value at hv
    split at hv
    · trivial
    · cases hv

theorem unsigned_container_value_none_of_signed (n : ctf_node) (h : is_signed_constant n) :
    unsigned_container_value n = none := by
  unfold is_signed_constant at h
  split at h
  · rfl
  · exact h.elim

/-- C18. In an enum whose container is an integer: with an unsigned container,
`ctf_enumerator_list_visit` returns `-EINVAL` and inserts nothing for every
enumerator whose value list holds a signed constant, in any position; with a
signed container it accepts every enumerator with one or two values that are
signed or unsigned constants, in any mix; and with either container it returns
`-EINVAL` and inserts nothing when a value is no constant, such as a string. -/
theorem signed_constant_needs_signed_container (id : Option String) (E : declaration_enum)
    (len : Nat) (bo sg : Int) (al : Nat)
    (hE : E.integer_declaration = declaration.integer len bo sg al) :
    (sg = 0 → ∀ values, (∀ n ∈ values, is_unary n) → (∃ n ∈ values, is_signed_constant n) →
      ctf_enumerator_list_visit (.mk id values) E = .ok (-EINVAL, E)) ∧
    (sg ≠ 0 → ∀ values, (∀ n ∈ values, is_constant n) →
      (values.length = 1 ∨ values.length = 2) →
      ∃ a b, ctf_enumerator_list_visit (.mk id values) E
        = .ok (0, ⟨E.integer_declaration,
            E.table ++ [(enum_range.signed a b, g_quark_from_string id)]⟩)) ∧
    (∀ values, (∀ n ∈ values, is_unary n) → (∃ n ∈ values, ¬ is_constant n) →
      ctf_enumerator_list_visit (.mk id values) E = .ok (-EINVAL, E)) := by
  refine ⟨?_, ?_, ?_⟩
  · intro hsg values hu hs
    subst hsg
    obtain ⟨n, hn, hsn⟩ := hs
    have hne : values ≠ [] := List.ne_nil_of_mem hn
    rw [enumerator_visit_unsigned id values E len bo al hE hu hne,
      enumerator_range_unsigned_none id values
        ⟨n, hn, unsigned_container_value_none_of_signed n hsn⟩]
  · intro hsg values hc hlen
    have hu : ∀ n ∈ values, is_unary n := fun n hn => is_unary_of_constant n (hc n hn)
    match values, hc, hlen, hu with
    | [n1], hc, _, hu =>
      obtain ⟨v, hv⟩ := signed_stored_value_of_constant n1 (hc n1 (by simp))
      rw [enumerator_visit_signed id [n1] E len bo sg al hE hsg hu (by simp)]
      exact ⟨v, v, by simp [enumerator_range, hv]⟩
    | [n1, n2], hc, _, hu =>
      obtain ⟨a, ha⟩ := signed_stored_value_of_constant n1 (hc n1 (by simp))
      obtain ⟨b, hb⟩ := signed_stored_value_of_constant n2 (hc n2 (by simp))
      rw [enumerator_visit_signed id [n1, n2] E len bo sg al hE hsg hu (by simp)]
      exact ⟨a, b, by simp [enumerator_range, ha, hb]⟩
    | [], _, hlen, _ => simp at hlen
    | _ :: _ :: _ :: _, _, hlen, _ => simp at hlen
  · intro values hu hs
    obtain ⟨n, hn, hnc⟩ := hs
    have hne : values ≠ [] := List.ne_nil_of_mem hn
    by_cases hsg : sg = 0
    · subst hsg
      rw [enumerator_visit_unsigned id values E len bo al hE hu hne,
        enumerator_range_unsigned_none id values
          ⟨n, hn, unsigned_container_value_none_of_not_constant n hnc⟩]
    · rw [enumerator_visit_signed id values E len bo sg al hE hsg hu hne,
        enumerator_range_signed_none id values
          ⟨n, hn, signed_stored_value_none_of_not_constant n hnc⟩]

theorem signed_constant_needs_signed_container_witness :
    ctf_enumerator_list_visit
        (.mk (some "A") [unary_node (.UNARY_UNSIGNED_CONSTANT 1),
          unary_node (.UNARY_SIGNED_CONSTANT 3)])
        (enum_declaration_new uint8_declaration)
      = .ok (-EINVAL, enum_declaration_new uint8_declaration) ∧
    (∃ a b, ctf_enumerator_list_visit
        (.mk (some "A") [unary_node (.UNARY_SIGNED_CONSTANT (-1)),
          unary_node (.UNARY_UNSIGNED_CONSTANT 3)])
        (enum_declaration_new (declaration.integer 8 1234 1 8))
      = .ok (0, ⟨(enum_declaration_new (declaration.integer 8 1234 1 8)).integer_declaration,
          (enum_declaration_new (declaration.integer 8 1234 1 8)).table
            ++ [(enum_range.signed a b, g_quark_from_string (some "A"))]⟩)) ∧
    ctf_enumerator_list_visit
        (.mk (some "A") [unary_node (.UNARY_STRING "x")])
        (enum_declaration_new (declaration.integer 8 1234 1 8))
      = .ok (-EINVAL, enum_declaration_new (declaration.integer 8 1234 1 8)) :=
  ⟨(signed_constant_needs_signed_container (some "A") (enum_declaration_new uint8_declaration)
      8 1234 0 8 rfl).1 rfl _ (by simp [unary_node, is_unary])
      ⟨unary_node (.UNARY_SIGNED_CONSTANT 3), by simp, trivial⟩,
    (signed_constant_needs_signed_container (some "A")
      (enum_declaration_new (declaration.integer 8 1234 1 8)) 8 1234 1 8 rfl).2.1
      (by decide) _ (by simp [unary_node, is_constant]) (Or.inr rfl),
    (signed_constant_needs_signed_container (some "A")
      (enum_declaration_new (declaration.integer 8 1234 1 8)) 8 1234 1 8 rfl).2.2 _
      (by simp [unary_node, is_unary])
      ⟨unary_node (.UNARY_STRING "x"), by simp, by simp [unary_node, is_constant]⟩⟩

/-! ## The enum visitor -/

theorem enum_visit_empty_container (name : Option String)
    (enumerator_list : List ctf_enumerator) (scope : declaration_scope) (trace : ctf_trace) :
    ctf_declaration_enum_visit name [] enumerator_list true scope trace
      = .ok (none, scope) := by
  rw [ctf_declaration_enum_visit.eq_def]
  cases name with
  | none => simp [first_or_null]
  | some n => simp [first_or_null]

theorem enum_visit_not_integer (name : Option String) (first : ctf_node)
    (more : List ctf_node) (enumerator_list : List ctf_enumerator)
    (scope scope1 : declaration_scope) (trace : ctf_trace) (D : declaration)
    (dummy_id : Option GQuark)
    (hname : ∀ n, name = some n → lookup_enum_declaration (GQuark.of n) scope = none)
    (hfirst : is_length_type first)
    (hres : ctf_type_declarator_visit (first :: more) none none scope none trace
      = .ok (some D, dummy_id, scope1))
    (hid : D.id ≠ ctf_type_id.CTF_TYPE_INTEGER) :
    ctf_declaration_enum_visit name (first :: more) enumerator_list true scope trace
      = .error Fault.assert_failed := by
  rw [ctf_declaration_enum_visit.eq_def]
  rcases hfirst with ⟨e, he⟩ | ⟨t, i, he⟩ <;> subst he <;> cases name with
  | none => simp [first_or_null, hres, hid]
  | some n => simp [first_or_null, hres, hid, g_quark_from_string, hname n rfl]

/-- A container list that starts with a node other than an integer or a type
specifier fails the `assert(0)` of the switch on its first node. -/
theorem enum_visit_other_first (name : Option String) (first : ctf_node)
    (more : List ctf_node) (enumerator_list : List ctf_enumerator)
    (scope : declaration_scope) (trace : ctf_trace)
    (hname : ∀ n, name = some n → lookup_enum_declaration (GQuark.of n) scope = none)
    (hfirst : ¬ is_length_type first) :
    ctf_declaration_enum_visit name (first :: more) enumerator_list true scope trace
      = .error Fault.assert_failed := by
  rw [ctf_declaration_enum_visit.eq_def]
  cases first with
  | NODE_INTEGER e => exact absurd (Or.inl ⟨e, rfl⟩) hfirst
  | NODE_TYPE_SPECIFIER t i => exact absurd (Or.inr ⟨t, i, rfl⟩) hfirst
  | _ =>
    cases name with
    | none => simp [first_or_null]
    | some n => simp [first_or_null, g_quark_from_string, hname n rfl]

theorem enum_visit_anonymous_of_resolves (first : ctf_node)
    (more : List ctf_node) (enumerator_list : List ctf_enumerator)
    (scope scope1 : declaration_scope) (trace : ctf_trace) (I : declaration)
    (dummy_id : Option GQuark) (E : declaration_enum)
    (hfirst : is_length_type first)
    (hres : ctf_type_declarator_visit (first :: more) none none scope none trace
      = .ok (some I, dummy_id, scope1))
    (hid : I.id = ctf_type_id.CTF_TYPE_INTEGER)
    (hloop : ctf_declaration_enum_visit_loop enumerator_list (enum_declaration_new I)
      = .ok (0, E)) :
    ctf_declaration_enum_visit none (first :: more) enumerator_list true scope trace
      = .ok (some E.p, scope1) := by
  rw [ctf_declaration_enum_visit.eq_def]
  rcases hfirst with ⟨e, he⟩ | ⟨t, i, he⟩ <;> subst he <;>
    simp [first_or_null, hres, hid, hloop]

theorem enum_visit_unresolved (name : Option String) (first : ctf_node)
    (more : List ctf_node) (enumerator_list : List ctf_enumerator)
    (scope scope1 : declaration_scope) (trace : ctf_trace)
    (dummy_id : Option GQuark)
    (hname : ∀ n, name = some n → lookup_enum_declaration (GQuark.of n) scope = none)
    (hfirst : is_length_type first)
    (hres : ctf_type_declarator_visit (first :: more) none none scope none trace
      = .ok (none, dummy_id, scope1)) :
    ctf_declaration_enum_visit name (first :: more) enumerator_list true scope trace
      = .error Fault.null_deref := by
  rw [ctf_declaration_enum_visit.eq_def]
  rcases hfirst with ⟨e, he⟩ | ⟨t, i, he⟩ <;> subst he <;> cases name with
  | none => simp [first_or_null, hres]
  | some n => simp [first_or_null, hres, g_quark_from_string, hname n rfl]

/-- What a returned enum comes from. -/
theorem enum_visit_body_inv (name : Option String) (container_type : List ctf_node)
    (enumerator_list : List ctf_enumerator) (scope scope1 : declaration_scope)
    (trace : ctf_trace) (d : declaration)
    (h : ctf_declaration_enum_visit name container_type enumerator_list true scope trace
      = .ok (some d, scope1)) :
    ∃ first more I dummy_id scope2 E, container_type = first :: more ∧ is_length_type first ∧
      ctf_type_declarator_visit container_type none none scope none trace
        = .ok (some I, dummy_id, scope2) ∧
      I.id = ctf_type_id.CTF_TYPE_INTEGER ∧
      ctf_declaration_enum_visit_loop enumerator_list (enum_declaration_new I) = .ok (0, E) ∧
      d = E.p := by
  rw [ctf_declaration_enum_visit.eq_def] at h
  simp only [Bool.not_true, Bool.false_eq_true, if_false] at h
  split at h
  · cases h
  · split at h
    · cases h
    · rename_i first hfo
      cases container_type with
      | nil => simp [first_or_null] at hfo
      | cons f more =>
        simp only [first_or_null, Option.some.injEq] at hfo
        subst hfo
        split at h
        · rename_i e
          split at h
          · cases h
          · rename_i I dummy_id scope2 hres
            split at h
            · cases h
            · rename_i I
              split at h
              · cases h
              · rename_i hid
                simp only [ne_eq, Decidable.not_not] at hid
                split at h
                · cases h
                · rename_i ret E hloop
                  split at h
                  · cases h
                  · rename_i hret
                    simp only [ne_eq, Decidable.not_not] at hret
                    subst hret
                    refine ⟨_, more, I, dummy_id, scope2, E, rfl, Or.inl ⟨e, rfl⟩, hres, hid,
                      hloop, ?_⟩
                    split at h
                    · split at h
                      · cases h
                      · simp only [Except.ok.injEq, Prod.mk.injEq, Option.some.injEq] at h
                        exact h.1.symm
                    · simp only [Except.ok.injEq, Prod.mk.injEq, Option.some.injEq] at h
                      exact h.1.symm
        · rename_i t i
          split at h
          · cases h
          · rename_i I dummy_id scope2 hres
            split at h
            · cases h
            · rename_i I
              split at h
              · cases h
              · rename_i hid
                simp only [ne_eq, Decidable.not_not] at hid
                split at h
                · cases h
                · rename_i ret E hloop
                  split at h
                  · cases h
                  · rename_i hret
                    simp only [ne_eq, Decidable.not_not] at hret
                    subst hret
                    refine ⟨_, more, I, dummy_id, scope2, E, rfl, Or.inr ⟨t, i, rfl⟩, hres, hid,
                      hloop, ?_⟩
                    split at h
                    · split at h
                      · cases h
                      · simp only [Except.ok.injEq, Prod.mk.injEq, Option.some.injEq] at h
                        exact h.1.symm
                    · simp only [Except.ok.injEq, Prod.mk.injEq, Option.some.injEq] at h
                      exact h.1.symm
        · cases h

theorem signed_loop_some_unary (values : List ctf_node) :
    ∀ (start last : Option Int) (nr_vals : Int) r,
      ctf_enumerator_list_visit_signed_loop values start last nr_vals = .ok (some r) →
      ∀ n ∈ values, is_unary n := by
  induction values with
  | nil => intro _ _ _ _ _ n hn; simp at hn
  | cons iter rest ih =>
    intro start last nr_vals r h n hn
    cases iter with
    | NODE_UNARY_EXPRESSION type k =>
      rcases List.mem_cons.mp hn with hx | hx
      · subst hx; trivial
      · cases hv : signed_stored_value (.NODE_UNARY_EXPRESSION type k) with
        | none =>
          rw [signed_loop_cons_reject (.NODE_UNARY_EXPRESSION type k) _ _ _ _ trivial hv] at h
          cases h
        | some v =>
          rw [signed_loop_cons_value _ _ _ _ _ v hv] at h
          by_cases hgt : nr_vals > 1
          · simp [hgt] at h
          · simp only [hgt, if_false] at h
            exact ih _ _ _ r h n hx
    | _ => simp [ctf_enumerator_list_visit_signed_loop] at h

theorem unsigned_loop_some_unary (values : List ctf_node) :
    ∀ (start last : Option Nat) (nr_vals : Int) r,
      ctf_enumerator_list_visit_unsigned_loop values start last nr_vals = .ok (some r) →
      ∀ n ∈ values, is_unary n := by
  induction values with
  | nil => intro _ _ _ _ _ n hn; simp at hn
  | cons iter rest ih =>
    intro start last nr_vals r h n hn
    cases iter with
    | NODE_UNARY_EXPRESSION type k =>
      rcases List.mem_cons.mp hn with hx | hx
      · subst hx; trivial
      · cases hv : unsigned_container_value (.NODE_UNARY_EXPRESSION type k) with
        | none =>
          rw [unsigned_loop_cons_reject (.NODE_UNARY_EXPRESSION type k) _ _ _ _ trivial hv] at h
          cases h
        | some v =>
          rw [unsigned_loop_cons_value _ _ _ _ _ v hv] at h
          by_cases hgt : nr_vals > 1
          · simp [hgt] at h
          · simp only [hgt, if_false] at h
            exact ih _ _ _ r h n hx
    | _ => simp [ctf_enumerator_list_visit_unsigned_loop] at h

/-- An enumerator that `ctf_enumerator_list_visit` accepts has added its range
to the enum. -/
theorem enumerator_visit_inv (en : ctf_enumerator) (E E1 : declaration_enum)
    (len : Nat) (bo sg : Int) (al : Nat)
    (hE : E.integer_declaration = declaration.integer len bo sg al)
    (h : ctf_enumerator_list_visit en E = .ok (0, E1)) :
    ∃ entry, enumerator_range (decide (sg ≠ 0)) en = some entry ∧
      E1 = ⟨E.integer_declaration, E.table ++ [entry]⟩ := by
  obtain ⟨id, values⟩ := en
  have hshape : (∀ n ∈ values, is_unary n) ∧ values ≠ [] := by
    unfold ctf_enumerator_list_visit at h
    simp only [hE] at h
    split_ifs at h with hsg
    · split at h
      · cases h
      · simp [EINVAL] at h
      · rename_i start last nr_vals hloop
        refine ⟨signed_loop_some_unary values _ _ _ _ hloop, ?_⟩
        rintro rfl
        simp only [ctf_enumerator_list_visit_signed_loop, Except.ok.injEq, Option.some.injEq,
          Prod.mk.injEq] at hloop
        obtain ⟨h1, h2, h3⟩ := hloop
        subst h1 h2 h3
        simp at h
    · split at h
      · cases h
      · simp [EINVAL] at h
      · rename_i start last nr_vals hloop
        refine ⟨unsigned_loop_some_unary values _ _ _ _ hloop, ?_⟩
        rintro rfl
        simp only [ctf_enumerator_list_visit_unsigned_loop, Except.ok.injEq, Option.some.injEq,
          Prod.mk.injEq] at hloop
        obtain ⟨h1, h2, h3⟩ := hloop
        subst h1 h2 h3
        simp at h
  by_cases hsg : sg = 0
  · subst hsg
    rw [enumerator_visit_unsigned id values E len bo al hE hshape.1 hshape.2] at h
    cases hr : enumerator_range false (.mk id values) with
    | none => rw [hr] at h; simp [EINVAL] at h
    | some entry =>
      rw [hr] at h
      simp only [Except.ok.injEq, Prod.mk.injEq, true_and] at h
      exact ⟨entry, by simpa using hr, h.symm⟩
  · rw [enumerator_visit_signed id values E len bo sg al hE hsg hshape.1 hshape.2] at h
    cases hr : enumerator_range true (.mk id values) with
    | none => rw [hr] at h; simp [EINVAL] at h
    | some entry =>
      rw [hr] at h
      simp only [Except.ok.injEq, Prod.mk.injEq, true_and] at h
      exact ⟨entry, by simpa [hsg] using hr, h.symm⟩

/-- The enumerator loop that returns 0 has added the range of every
enumerator, in order. -/
theorem enum_visit_loop_inv (ens : List ctf_enumerator) :
    ∀ (E E1 : declaration_enum) (len : Nat) (bo sg : Int) (al : Nat),
      E.integer_declaration = declaration.integer len bo sg al →
      ctf_declaration_enum_visit_loop ens E = .ok (0, E1) →
      ∃ entries, ens.map (enumerator_range (decide (sg ≠ 0))) = entries.map some ∧
        E1 = ⟨E.integer_declaration, E.table ++ entries⟩ := by
  induction ens with
  | nil =>
    intro E E1 len bo sg al _ h
    simp only [ctf_declaration_enum_visit_loop, Except.ok.injEq, Prod.mk.injEq, true_and] at h
    subst h
    exact ⟨[], rfl, by simp⟩
  | cons en rest ih =>
    intro E E1 len bo sg al hE h
    rw [ctf_declaration_enum_visit_loop] at h
    split at h
    · cases h
    · rename_i ret E2 hen
      split_ifs at h with hret
      · simp only [Except.ok.injEq, Prod.mk.injEq] at h
        exact absurd h.1 hret
      · simp only [ne_eq, Decidable.not_not] at hret
        subst hret
        obtain ⟨entry, hentry, hE2⟩ := enumerator_visit_inv en E E2 len bo sg al hE hen
        have hE2c : E2.integer_declaration = declaration.integer len bo sg al := by
          rw [hE2]; exact hE
        obtain ⟨entries, hmap, hE1⟩ := ih E2 E1 len bo sg al hE2c h
        refine ⟨entry :: entries, ?_, ?_⟩
        · rw [List.map_cons, List.map_cons, hentry, hmap]
        · rw [hE1, hE2]
          simp

/-- A container or length type that is one type identifier resolves to the
alias of that name. -/
theorem type_identifier_resolves (id : String) (scope : declaration_scope)
    (trace : ctf_trace) :
    ctf_type_declarator_visit [.NODE_TYPE_SPECIFIER .TYPESPEC_ID_TYPE (some id)] none none
        scope none trace
      = .ok (lookup_declaration (GQuark.of id) scope, none, scope) := by
  rw [type_declarator_visit_null_node, specifier_visit_type_specifier]
  simp [ctf_declaration_type_specifier_visit, visit_declaration_specifier,
    visit_declaration_specifier_loop, declaration_specifier_text, g_quark_from_string]

theorem lookup_uint8_t :
    lookup_declaration (GQuark.of "uint8_t") root_with_uint8 = some uint8_declaration := by
  rfl

theorem lookup_str_t :
    lookup_declaration (GQuark.of "str_t") root_with_uint8
      = some (declaration.string .CTF_STRING_UTF8) := by
  rfl

theorem lookup_undefined_t :
    lookup_declaration (GQuark.of "undefined_t") root_with_uint8 = none := by
  rfl

/-- C20, as stated, fails: for `enum : str_t { IDLE = 0, RUN = 1 ... 3, ERR = 255 }`,
where `str_t` is an alias of a string declaration, `ctf_declaration_enum_visit`
does not return NULL to its caller: its assertion on the kind of the container
fails. -/
theorem enum_over_string_fails_assertion :
    ctf_declaration_enum_visit none str_t state_enumerators true root_with_uint8 le_trace
      = .error Fault.assert_failed :=
  enum_visit_not_integer none _ [] state_enumerators root_with_uint8 root_with_uint8 le_trace
    (declaration.string .CTF_STRING_UTF8) none (by intro n h; cases h) (Or.inr ⟨_, _, rfl⟩)
    ((type_identifier_resolves "str_t" root_with_uint8 le_trace).trans (by rw [lookup_str_t]))
    (by simp [declaration.id])

/-- The container `undefined_t` is no alias in `root_with_uint8`: the resolver
returns NULL and the assertion on the kind of the container dereferences it. -/
theorem enum_over_undefined_alias_dereferences_null :
    ctf_declaration_enum_visit none undefined_t state_enumerators true root_with_uint8 le_trace
      = .error Fault.null_deref :=
  enum_visit_unresolved none _ [] state_enumerators root_with_uint8 root_with_uint8 le_trace
    none (by intro n h; cases h) (Or.inr ⟨_, _, rfl⟩)
    ((type_identifier_resolves "undefined_t" root_with_uint8 le_trace).trans
      (by rw [lookup_undefined_t]))

/-- C20, amended. `ctf_declaration_enum_visit` with a body returns an enum only
when its container list resolves to a declaration of kind integer, and the
enum is over that integer. When the container list is empty it returns NULL
and leaves the scope as it was. When the container list, for an enum that is
anonymous or not yet declared, resolves to a declaration of another kind, or
starts with a node that is no integer and no type specifier, it does not
return: the assertion on the kind of the container fails. -/
theorem enum_container_is_integer (name : Option String) (container_type : List ctf_node)
    (enumerator_list : List ctf_enumerator) (scope : declaration_scope) (trace : ctf_trace) :
    (∀ d scope1,
      ctf_declaration_enum_visit name container_type enumerator_list true scope trace
        = .ok (some d, scope1) →
      ∃ I dummy_id scope2 table,
        ctf_type_declarator_visit container_type none none scope none trace
          = .ok (some I, dummy_id, scope2) ∧
        I.id = ctf_type_id.CTF_TYPE_INTEGER ∧ d = declaration.enum I table) ∧
    (container_type = [] →
      ctf_declaration_enum_visit name container_type enumerator_list true scope trace
        = .ok (none, scope)) ∧
    ((∀ n, name = some n → lookup_enum_declaration (GQuark.of n) scope = none) →
      ∀ first more D dummy_id scope2, container_type = first :: more →
        is_length_type first →
        ctf_type_declarator_visit container_type none none scope none trace
          = .ok (some D, dummy_id, scope2) →
        D.id ≠ ctf_type_id.CTF_TYPE_INTEGER →
        ctf_declaration_enum_visit name container_type enumerator_list true scope trace
          = .error Fault.assert_failed) ∧
    ((∀ n, name = some n → lookup_enum_declaration (GQuark.of n) scope = none) →
      ∀ first more, container_type = first :: more → ¬ is_length_type first →
        ctf_declaration_enum_visit name container_type enumerator_list true scope trace
          = .error Fault.assert_failed) := by
  refine ⟨?_, ?_, ?_, ?_⟩
  · intro d scope1 h
    obtain ⟨first, more, I, dummy_id, scope2, E, -, -, hres, hid, hloop, hd⟩ :=
      enum_visit_body_inv name container_type enumerator_list scope scope1 trace d h
    cases I with
    | integer len bo sg al =>
      obtain ⟨entries, -, hE⟩ :=
        enum_visit_loop_inv enumerator_list (enum_declaration_new _) E len bo sg al rfl hloop
      subst hE
      exact ⟨_, dummy_id, scope2, _, hres, hid, hd⟩
    | _ => simp [declaration.id] at hid
  · intro hc
    subst hc
    exact enum_visit_empty_container name enumerator_list scope trace
  · intro hname first more D dummy_id scope2 hc hfirst hres hid
    subst hc
    exact enum_visit_not_integer name first more enumerator_list scope scope2 trace D dummy_id
      hname hfirst hres hid
  · intro hname first more hc hfirst
    subst hc
    exact enum_visit_other_first name first more enumerator_list scope trace hname hfirst

theorem enum_container_is_integer_witness :
    (∃ I dummy_id scope2 table,
      ctf_type_declarator_visit uint8_t none none root_with_uint8 none le_trace
        = .ok (some I, dummy_id, scope2) ∧
      I.id = ctf_type_id.CTF_TYPE_INTEGER ∧
      declaration.enum uint8_declaration
          [(enum_range.unsigned 3 1, GQuark.of "RUN")] = declaration.enum I table) ∧
    ctf_declaration_enum_visit (some "state") [] state_enumerators true root_with_uint8
        le_trace = .ok (none, root_with_uint8) ∧
    ctf_declaration_enum_visit (some "state") str_t state_enumerators true root_with_uint8
        le_trace = .error Fault.assert_failed ∧
    ctf_declaration_enum_visit (some "state") [.NODE_STRING []] state_enumerators true
        root_with_uint8 le_trace = .error Fault.assert_failed :=
  ⟨(enum_container_is_integer none uint8_t
        [.mk (some "RUN") [unary_node (.UNARY_UNSIGNED_CONSTANT 3),
          unary_node (.UNARY_UNSIGNED_CONSTANT 1)]] root_with_uint8 le_trace).1 _ _
      (enum_visit_anonymous_of_resolves _ [] _ root_with_uint8 root_with_uint8 le_trace
        uint8_declaration none
        ⟨uint8_declaration, [(enum_range.unsigned 3 1, GQuark.of "RUN")]⟩
        (Or.inr ⟨_, _, rfl⟩)
        ((type_identifier_resolves "uint8_t" root_with_uint8 le_trace).trans
          (by rw [lookup_uint8_t]))
        rfl rfl),
    (enum_container_is_integer (some "state") [] state_enumerators root_with_uint8
      le_trace).2.1 rfl,
    (enum_container_is_integer (some "state") str_t state_enumerators root_with_uint8
      le_trace).2.2.1 (by intro n _; rfl) _ [] (declaration.string .CTF_STRING_UTF8) none
      root_with_uint8 rfl (Or.inr ⟨_, _, rfl⟩)
      ((type_identifier_resolves "str_t" root_with_uint8 le_trace).trans
        (by rw [lookup_str_t]))
      (by simp [declaration.id]),
    (enum_container_is_integer (some "state") [.NODE_STRING []] state_enumerators
      root_with_uint8 le_trace).2.2.2 (by intro n _; rfl) _ [] rfl
      (by simp [is_length_type])⟩

/-! ## C28, C29 and C30: named aggregates and variants -/

theorem variant_type_declarators_visit_of_resolve (trace : ctf_trace)
    (declaration_specifier : List ctf_node) (type_declarators : List type_declarator)
    (field_name : Option GQuark) (scope scope1 : declaration_scope)
    (results : List (GQuark × declaration))
    (h : declarators_resolve trace declaration_specifier type_declarators field_name scope
      results scope1) :
    ∀ (fields : List (GQuark × declaration)) (declaration_scope : declaration_scope),
      ctf_variant_type_declarators_visit ⟨fields, scope⟩ declaration_specifier type_declarators
        declaration_scope trace field_name = .ok (0, ⟨fields ++ results, scope1⟩) := by
  induction h with
  | nil field_name scope =>
    intro fields ds
    rw [ctf_variant_type_declarators_visit]
    simp
  | cons iter rest field_name scope scope1 scope2 n D results hv _ ih =>
    intro fields ds
    rw [ctf_variant_type_declarators_visit]
    simp [hv, untagged_variant_declaration_add_field, g_quark_from_to_string, ih]

theorem variant_visit_loop_of_resolves (trace : ctf_trace) (body : List ctf_node)
    (scope scope1 : declaration_scope) (results : List (GQuark × declaration))
    (h : body_resolves trace body scope results scope1) :
    ∀ fields : List (GQuark × declaration),
      ctf_declaration_variant_visit_loop body ⟨fields, scope⟩ trace
        = .ok (0, ⟨fields ++ results, scope1⟩) := by
  induction h with
  | nil scope =>
    intro fields
    rw [ctf_declaration_variant_visit_loop]
    simp
  | typedef spec decls rest scope scope1 scope2 results hv _ ih =>
    intro fields
    rw [ctf_declaration_variant_visit_loop, ctf_variant_declaration_list_visit]
    simp [hv, ih]
  | typealias target alias_node rest scope scope1 scope2 results hv _ ih =>
    intro fields
    rw [ctf_declaration_variant_visit_loop, ctf_variant_declaration_list_visit]
    simp [hv, ih]
  | field spec decls rest scope scope1 scope2 flds results hd _ ih =>
    intro fields
    rw [ctf_declaration_variant_visit_loop, ctf_variant_declaration_list_visit]
    simp [variant_type_declarators_visit_of_resolve trace spec decls none scope scope1 flds hd,
      ih]

theorem lookup_variant_declaration_none_local (q : GQuark) (scope : declaration_scope)
    (h : lookup_variant_declaration q scope = none) :
    scope.variant_declarations.lookup q = none := by
  cases scope with
  | mk t s v e p =>
    simp only [declaration_scope.variant_declarations]
    cases hs : List.lookup q v with
    | none => rfl
    | some d => cases p <;> simp [lookup_variant_declaration, hs, first_hit] at h

theorem lookup_enum_declaration_none_local (q : GQuark) (scope : declaration_scope)
    (h : lookup_enum_declaration q scope = none) :
    scope.enum_declarations.lookup q = none := by
  cases scope with
  | mk t s v e p =>
    simp only [declaration_scope.enum_declarations]
    cases hs : List.lookup q e with
    | none => rfl
    | some d => cases p <;> simp [lookup_enum_declaration, hs, first_hit] at h

/-- The untagged variant of a named variant with a body that elaborates. -/
theorem variant_visit_untagged_named_of_resolves (n : String) (body : List ctf_node)
    (t s v e : List (GQuark × declaration)) (p : Option declaration_scope)
    (inner : declaration_scope) (trace : ctf_trace)
    (results : List (GQuark × declaration))
    (hname : lookup_variant_declaration (GQuark.of n) (.mk t s v e p) = none)
    (hres : body_resolves trace body (new_declaration_scope (some (.mk t s v e p)))
      results inner) :
    ctf_declaration_variant_visit_untagged (some n) body true (.mk t s v e p) trace
      = .ok (some (some (declaration.untagged_variant results inner),
          .mk t s (v ++ [(GQuark.of n, declaration.untagged_variant results inner)]) e p)) := by
  rw [ctf_declaration_variant_visit_untagged.eq_def]
  have hloop := variant_visit_loop_of_resolves trace body _ inner results hres []
  have hl := lookup_variant_declaration_none_local _ _ hname
  simp only [declaration_scope.variant_declarations] at hl
  simp [untagged_variant_declaration_new, hloop, declaration_untagged_variant.p,
    g_quark_from_string, hname, register_variant_declaration, hl]

/-- The untagged variant of an anonymous variant with a body that elaborates. -/
theorem variant_visit_untagged_anonymous_of_resolves (body : List ctf_node)
    (scope inner : declaration_scope) (trace : ctf_trace)
    (results : List (GQuark × declaration))
    (hres : body_resolves trace body (new_declaration_scope (some scope)) results inner) :
    ctf_declaration_variant_visit_untagged none body true scope trace
      = .ok (some (some (declaration.untagged_variant results inner), scope)) := by
  rw [ctf_declaration_variant_visit_untagged.eq_def]
  have hloop := variant_visit_loop_of_resolves trace body _ inner results hres []
  simp [untagged_variant_declaration_new, hloop, declaration_untagged_variant.p]

theorem variant_visit_untagged_of_resolves (name : Option String) (body : List ctf_node)
    (scope inner : declaration_scope) (trace : ctf_trace)
    (results : List (GQuark × declaration))
    (hname : ∀ n, name = some n → lookup_variant_declaration (GQuark.of n) scope = none)
    (hres : body_resolves trace body (new_declaration_scope (some scope)) results inner) :
    ∃ scope1, ctf_declaration_variant_visit_untagged name body true scope trace
      = .ok (some (some (declaration.untagged_variant results inner), scope1)) := by
  cases name with
  | none =>
    exact ⟨_, variant_visit_untagged_anonymous_of_resolves body scope inner trace results hres⟩
  | some n =>
    cases scope with
    | mk t s v e p =>
      exact ⟨_, variant_visit_untagged_named_of_resolves n body t s v e p inner trace results
        (hname n rfl) hres⟩

/-- A variant without a choice is its untagged variant. -/
theorem variant_visit_without_choice (name : Option String) (body : List ctf_node)
    (has_body : Bool) (scope scope1 : declaration_scope) (trace : ctf_trace)
    (U : Option declaration)
    (h : ctf_declaration_variant_visit_untagged name body has_body scope trace
      = .ok (some (U, scope1))) :
    ctf_declaration_variant_visit name none body has_body scope trace = .ok (U, scope1) := by
  rw [ctf_declaration_variant_visit.eq_def]
  simp [h]

/-- A variant with a choice pairs its untagged variant with the choice. -/
theorem variant_visit_with_choice (name : Option String) (choice : String)
    (body : List ctf_node)
    (has_body : Bool) (scope scope1 : declaration_scope) (trace : ctf_trace)
    (U : declaration)
    (h : ctf_declaration_variant_visit_untagged name body has_body scope trace
      = .ok (some (some U, scope1))) :
    ctf_declaration_variant_visit name (some choice) body has_body scope trace
      = .ok (some (declaration.variant U choice), scope1) := by
  rw [ctf_declaration_variant_visit.eq_def]
  simp [h, variant_declaration_new]

/-- What the visit without a choice returned is the untagged variant. -/
theorem variant_visit_without_choice_inv (name : Option String) (body : List ctf_node)
    (has_body : Bool) (scope scope1 : declaration_scope) (trace : ctf_trace)
    (U : declaration)
    (h : ctf_declaration_variant_visit name none body has_body scope trace
      = .ok (some U, scope1)) :
    ctf_declaration_variant_visit_untagged name body has_body scope trace
      = .ok (some (some U, scope1)) := by
  rw [ctf_declaration_variant_visit.eq_def] at h
  cases hu : ctf_declaration_variant_visit_untagged name body has_body scope trace with
  | error e => simp [hu] at h
  | ok r =>
    cases r with
    | none => simp [hu] at h
    | some r =>
      obtain ⟨u, s⟩ := r
      simp [hu] at h
      obtain ⟨h1, h2⟩ := h
      subst h1
      subst h2
      rfl

/-- A variant without a body is looked up by its name. -/
theorem variant_visit_untagged_bodiless (n : String) (list : List ctf_node)
    (scope : declaration_scope) (trace : ctf_trace) :
    ctf_declaration_variant_visit_untagged (some n) list false scope trace
      = .ok (some (lookup_variant_declaration (GQuark.of n) scope, scope)) := by
  rw [ctf_declaration_variant_visit_untagged.eq_def]
  simp [g_quark_from_string]

theorem string_field_resolves (n : String) (field_name : Option GQuark)
    (scope : declaration_scope) (trace : ctf_trace) :
    ctf_type_declarator_visit [.NODE_STRING []] field_name (some (.TYPEDEC_ID [] none (some n)))
      scope none trace
      = .ok (some (declaration.string .CTF_STRING_UTF8), some (GQuark.of n), scope) := by
  rw [type_declarator_visit_plain_id [.NODE_STRING []] field_name (some n) scope scope trace
    (some (declaration.string .CTF_STRING_UTF8))
    (by rw [ctf_declaration_specifier_visit]
        simp [ctf_declaration_string_visit, ctf_declaration_string_visit_loop,
          string_declaration_new])]
  rfl

theorem payload_body_resolves (scope : declaration_scope) (trace : ctf_trace)
    (h : lookup_declaration (GQuark.of "uint32_t") scope = some uint32_declaration) :
    body_resolves trace payload_body scope
      [(GQuark.of "a", uint32_declaration),
       (GQuark.of "b", declaration.string .CTF_STRING_UTF8)] scope :=
  body_resolves.field uint32_t _ _ scope scope scope [(GQuark.of "a", uint32_declaration)] _
    (declarators_resolve.cons _ _ none scope scope scope _ _ []
      (uint32_field_resolves "a" none scope trace h) (declarators_resolve.nil _ scope))
    (body_resolves.field [.NODE_STRING []] _ _ scope scope scope
      [(GQuark.of "b", declaration.string .CTF_STRING_UTF8)] _
      (declarators_resolve.cons _ _ none scope scope scope _ _ []
        (string_field_resolves "b" none scope trace) (declarators_resolve.nil _ scope))
      (body_resolves.nil scope))

/-- C30. `ctf_declaration_variant_visit` returns the untagged variant itself
when the choice is absent, and with a choice it returns the variant that pairs
exactly that untagged variant with the choice string: whatever the visit
without a choice returns, the visit with the choice `c` returns it paired with
`c`; this holds for a variant found by its name as for one built from its
body. For a body whose items all elaborate, of a variant that is anonymous or
whose name is not yet declared, the untagged variant has the fields of the
body, in AST order. -/
theorem variant_pairs_untagged_with_choice (name : Option String) (body : List ctf_node)
    (scope inner : declaration_scope) (trace : ctf_trace)
    (results : List (GQuark × declaration))
    (hname : ∀ n, name = some n → lookup_variant_declaration (GQuark.of n) scope = none)
    (hres : body_resolves trace body (new_declaration_scope (some scope)) results inner) :
    (∃ scope1,
      ctf_declaration_variant_visit name none body true scope trace
        = .ok (some (declaration.untagged_variant results inner), scope1) ∧
      ∀ choice, ctf_declaration_variant_visit name (some choice) body true scope trace
        = .ok (some (declaration.variant (declaration.untagged_variant results inner) choice),
            scope1)) ∧
    (∀ (name0 : Option String) (list : List ctf_node) (has_body : Bool)
        (scope0 scope1 : declaration_scope) (U : declaration) (choice : String),
      ctf_declaration_variant_visit name0 none list has_body scope0 trace = .ok (some U, scope1) →
      ctf_declaration_variant_visit name0 (some choice) list has_body scope0 trace
        = .ok (some (declaration.variant U choice), scope1)) ∧
    (∀ (n : String) (list : List ctf_node) (scope0 : declaration_scope) (U : declaration),
      lookup_variant_declaration (GQuark.of n) scope0 = some U →
      ctf_declaration_variant_visit (some n) none list false scope0 trace
        = .ok (some U, scope0) ∧
      ∀ choice, ctf_declaration_variant_visit (some n) (some choice) list false scope0 trace
        = .ok (some (declaration.variant U choice), scope0)) := by
  refine ⟨?_, ?_, ?_⟩
  · obtain ⟨scope1, h⟩ :=
      variant_visit_untagged_of_resolves name body scope inner trace results hname hres
    exact ⟨scope1, variant_visit_without_choice _ _ _ _ _ _ _ h,
      fun choice => variant_visit_with_choice _ choice _ _ _ _ _ _ h⟩
  · intro name0 list has_body scope0 scope1 U choice h
    exact variant_visit_with_choice _ choice _ _ _ _ _ _
      (variant_visit_without_choice_inv _ _ _ _ _ _ _ h)
  · intro n list scope0 U hU
    have h := variant_visit_untagged_bodiless n list scope0 trace
    rw [hU] at h
    exact ⟨variant_visit_without_choice _ _ _ _ _ _ _ h,
      fun choice => variant_visit_with_choice _ choice _ _ _ _ _ _ h⟩

theorem variant_pairs_untagged_with_choice_witness :
    ∃ scope1,
      ctf_declaration_variant_visit (some "v") none payload_body true root_with_uint32 le_trace
        = .ok (some (declaration.untagged_variant
            [(GQuark.of "a", uint32_declaration),
             (GQuark.of "b", declaration.string .CTF_STRING_UTF8)]
            (new_declaration_scope (some root_with_uint32))), scope1) ∧
      ∀ choice, ctf_declaration_variant_visit (some "v") (some choice) payload_body true
          root_with_uint32 le_trace
        = .ok (some (declaration.variant (declaration.untagged_variant
            [(GQuark.of "a", uint32_declaration),
             (GQuark.of "b", declaration.string .CTF_STRING_UTF8)]
            (new_declaration_scope (some root_with_uint32))) choice), scope1) :=
  (variant_pairs_untagged_with_choice (some "v") payload_body root_with_uint32
    (new_declaration_scope (some root_with_uint32)) le_trace
    [(GQuark.of "a", uint32_declaration),
     (GQuark.of "b", declaration.string .CTF_STRING_UTF8)]
    (fun _ _ => rfl)
    (payload_body_resolves _ le_trace lookup_uint32_inner)).1

/-- A struct without a body is looked up by its name. -/
theorem struct_visit_bodiless (n : String) (list : List ctf_node)
    (scope : declaration_scope) (trace : ctf_trace) :
    ctf_declaration_struct_visit (some n) list false scope trace
      = .ok (lookup_struct_declaration (GQuark.of n) scope, scope) := by
  rw [ctf_declaration_struct_visit.eq_def]
  simp [g_quark_from_string]

/-- An enum without a body is looked up by its name. -/
theorem enum_visit_bodiless (n : String) (container_type : List ctf_node)
    (enumerator_list : List ctf_enumerator) (scope : declaration_scope) (trace : ctf_trace) :
    ctf_declaration_enum_visit (some n) container_type enumerator_list false scope trace
      = .ok (lookup_enum_declaration (GQuark.of n) scope, scope) := by
  rw [ctf_declaration_enum_visit.eq_def]
  simp [g_quark_from_string]

/-- A variant without a body whose name is not found, with a choice: the NULL
untagged variant is handed to `variant_declaration_new`. -/
theorem variant_visit_bodiless_unknown_with_choice (n choice : String) (list : List ctf_node)
    (scope : declaration_scope) (trace : ctf_trace)
    (h : lookup_variant_declaration (GQuark.of n) scope = none) :
    ctf_declaration_variant_visit (some n) (some choice) list false scope trace
      = .error Fault.null_deref := by
  have hu := variant_visit_untagged_bodiless n list scope trace
  rw [h] at hu
  rw [ctf_declaration_variant_visit.eq_def]
  simp [hu, variant_declaration_new]

/-- C28. Without a body the struct builder, the enum builder and the variant
builder without a choice return what the lookup of the name along the scope
chain gives, NULL when the name is registered nowhere, and leave the scope as
it is; the variant builder with a choice returns the variant that pairs the
untagged variant found with the choice. With a choice and a name that is
registered nowhere, the variant builder does not return failure: the NULL
untagged variant is handed to `variant_declaration_new`, and is dereferenced. -/
theorem bodiless_variant_with_choice_is_not_checked (n : String) (list : List ctf_node)
    (container_type : List ctf_node) (enumerator_list : List ctf_enumerator)
    (scope : declaration_scope) (trace : ctf_trace) :
    ctf_declaration_struct_visit (some n) list false scope trace
      = .ok (lookup_struct_declaration (GQuark.of n) scope, scope) ∧
    ctf_declaration_enum_visit (some n) container_type enumerator_list false scope trace
      = .ok (lookup_enum_declaration (GQuark.of n) scope, scope) ∧
    ctf_declaration_variant_visit (some n) none list false scope trace
      = .ok (lookup_variant_declaration (GQuark.of n) scope, scope) ∧
    (∀ (choice : String) (U : declaration),
      lookup_variant_declaration (GQuark.of n) scope = some U →
      ctf_declaration_variant_visit (some n) (some choice) list false scope trace
        = .ok (some (declaration.variant U choice), scope)) ∧
    (∀ choice : String, lookup_variant_declaration (GQuark.of n) scope = none →
      ctf_declaration_variant_visit (some n) (some choice) list false scope trace
        = .error Fault.null_deref) := by
  refine ⟨struct_visit_bodiless n list scope trace,
    enum_visit_bodiless n container_type enumerator_list scope trace,
    variant_visit_without_choice _ _ _ _ _ _ _ (variant_visit_untagged_bodiless n list scope trace),
    ?_, ?_⟩
  · intro choice U hU
    have h := variant_visit_untagged_bodiless n list scope trace
    rw [hU] at h
    exact variant_visit_with_choice _ choice _ _ _ _ _ _ h
  · intro choice h
    exact variant_visit_bodiless_unknown_with_choice n choice list scope trace h

theorem bodiless_variant_with_choice_is_not_checked_witness :
    ctf_declaration_struct_visit (some "v") [] false empty_root le_trace
      = .ok (none, empty_root) ∧
    ctf_declaration_enum_visit (some "v") [] [] false empty_root le_trace
      = .ok (none, empty_root) ∧
    ctf_declaration_variant_visit (some "v") none [] false empty_root le_trace
      = .ok (none, empty_root) ∧
    ctf_declaration_variant_visit (some "v") (some "tag") [] false empty_root le_trace
      = .error Fault.null_deref :=
  have h := bodiless_variant_with_choice_is_not_checked "v" [] [] [] empty_root le_trace
  ⟨h.1, h.2.1, h.2.2.1, h.2.2.2.2 "tag" rfl⟩

/-- A named struct with a body whose name the lookup finds is not built. -/
theorem struct_visit_already_declared (n : String) (body : List ctf_node)
    (scope : declaration_scope) (trace : ctf_trace) (D : declaration)
    (h : lookup_struct_declaration (GQuark.of n) scope = some D) :
    ctf_declaration_struct_visit (some n) body true scope trace = .ok (none, scope) := by
  rw [ctf_declaration_struct_visit.eq_def]
  simp [g_quark_from_string, h]

/-- A named variant with a body whose name the lookup finds is not built. -/
theorem variant_visit_already_declared (n : String) (choice : Option String)
    (body : List ctf_node)
    (scope : declaration_scope) (trace : ctf_trace) (D : declaration)
    (h : lookup_variant_declaration (GQuark.of n) scope = some D) :
    ctf_declaration_variant_visit (some n) choice body true scope trace = .ok (none, scope) := by
  have hu : ctf_declaration_variant_visit_untagged (some n) body true scope trace = .ok none := by
    rw [ctf_declaration_variant_visit_untagged.eq_def]
    simp [g_quark_from_string, h]
  rw [ctf_declaration_variant_visit.eq_def]
  simp [hu]

/-- A named enum with a body whose name the lookup finds is not built. -/
theorem enum_visit_already_declared (n : String) (container_type : List ctf_node)
    (enumerator_list : List ctf_enumerator)
    (scope : declaration_scope) (trace : ctf_trace) (D : declaration)
    (h : lookup_enum_declaration (GQuark.of n) scope = some D) :
    ctf_declaration_enum_visit (some n) container_type enumerator_list true scope trace
      = .ok (none, scope) := by
  rw [ctf_declaration_enum_visit.eq_def]
  simp [g_quark_from_string, h]

/-- A named enum with a body that elaborates is returned and registered. -/
theorem enum_visit_named_of_resolves (n : String) (first : ctf_node)
    (more : List ctf_node) (enumerator_list : List ctf_enumerator)
    (t s v e : List (GQuark × declaration)) (p : Option declaration_scope)
    (scope1 : declaration_scope) (trace : ctf_trace) (I : declaration)
    (dummy_id : Option GQuark) (E : declaration_enum)
    (hname : lookup_enum_declaration (GQuark.of n) (.mk t s v e p) = none)
    (hfirst : is_length_type first)
    (hres : ctf_type_declarator_visit (first :: more) none none (.mk t s v e p) none trace
      = .ok (some I, dummy_id, scope1))
    (hid : I.id = ctf_type_id.CTF_TYPE_INTEGER)
    (hloop : ctf_declaration_enum_visit_loop enumerator_list (enum_declaration_new I)
      = .ok (0, E)) :
    ctf_declaration_enum_visit (some n) (first :: more) enumerator_list true (.mk t s v e p)
        trace
      = .ok (some E.p, .mk t s v (e ++ [(GQuark.of n, E.p)]) p) := by
  have hscope : scope1 = .mk t s v e p :=
    type_declarator_visit_null_basic_scope (first :: more) first none dummy_id _ scope1 trace
      (some I) rfl hfirst hres
  subst hscope
  have hl := lookup_enum_declaration_none_local _ _ hname
  simp only [declaration_scope.enum_declarations] at hl
  rw [ctf_declaration_enum_visit.eq_def]
  rcases hfirst with ⟨x, he⟩ | ⟨ty, i, he⟩ <;> subst he <;>
    simp [first_or_null, hres, hid, hloop, g_quark_from_string, hname,
      register_enum_declaration, hl]

/-- C29, as stated, fails: in a scope that has registered no struct itself and
whose parent has registered the struct `s`, `struct s { uint32_t x; }`, whose
body elaborates, is not built: the visit returns NULL and registers nothing. -/
theorem struct_name_of_ancestor_is_rejected :
    scope_below_root.struct_declarations = [] ∧
    body_resolves le_trace [uint32_field "x"] (new_declaration_scope (some scope_below_root))
      [(GQuark.of "x", uint32_declaration)] (new_declaration_scope (some scope_below_root)) ∧
    ctf_declaration_struct_visit (some "s") [uint32_field "x"] true scope_below_root le_trace
      = .ok (none, scope_below_root) :=
  ⟨rfl,
    uint32_fields_resolve ["x"] _ le_trace
      (by simp [new_declaration_scope, scope_below_root, root_with_struct_s,
        lookup_declaration, first_hit, List.lookup]),
    struct_visit_already_declared "s" _ scope_below_root le_trace
      (declaration.struct [] (new_declaration_scope none)) rfl⟩

/-- C29. A named struct, variant or enum with a body is rejected, the builder
returning NULL and registering nothing, when the lookup of its name along the
scope chain finds a declaration, in the enclosing scope or in an ancestor of
it. When the lookup finds none and the body elaborates, the builder returns
the new declaration and registers it under the name in the enclosing scope,
whose parent is as before. -/
theorem named_aggregate_is_rejected_when_found_in_chain (n : String)
    (t s v e : List (GQuark × declaration)) (p : Option declaration_scope)
    (trace : ctf_trace) (body : List ctf_node) (inner : declaration_scope)
    (results : List (GQuark × declaration))
    (first : ctf_node) (more : List ctf_node) (enumerator_list : List ctf_enumerator)
    (I : declaration) (dummy_id : Option GQuark) (scope1 : declaration_scope)
    (E : declaration_enum)
    (hres : body_resolves trace body (new_declaration_scope (some (.mk t s v e p)))
      results inner)
    (hfirst : is_length_type first)
    (hcontainer : ctf_type_declarator_visit (first :: more) none none (.mk t s v e p) none trace
      = .ok (some I, dummy_id, scope1))
    (hid : I.id = ctf_type_id.CTF_TYPE_INTEGER)
    (hloop : ctf_declaration_enum_visit_loop enumerator_list (enum_declaration_new I)
      = .ok (0, E)) :
    ((∃ D, lookup_struct_declaration (GQuark.of n) (.mk t s v e p) = some D) →
      ctf_declaration_struct_visit (some n) body true (.mk t s v e p) trace
        = .ok (none, .mk t s v e p)) ∧
    (lookup_struct_declaration (GQuark.of n) (.mk t s v e p) = none →
      ctf_declaration_struct_visit (some n) body true (.mk t s v e p) trace
        = .ok (some (declaration.struct results inner),
            .mk t (s ++ [(GQuark.of n, declaration.struct results inner)]) v e p)) ∧
    ((∃ D, lookup_variant_declaration (GQuark.of n) (.mk t s v e p) = some D) →
      ∀ choice, ctf_declaration_variant_visit (some n) choice body true (.mk t s v e p) trace
        = .ok (none, .mk t s v e p)) ∧
    (lookup_variant_declaration (GQuark.of n) (.mk t s v e p) = none →
      ctf_declaration_variant_visit (some n) none body true (.mk t s v e p) trace
        = .ok (some (declaration.untagged_variant results inner),
            .mk t s (v ++ [(GQuark.of n, declaration.untagged_variant results inner)]) e p)) ∧
    ((∃ D, lookup_enum_declaration (GQuark.of n) (.mk t s v e p) = some D) →
      ctf_declaration_enum_visit (some n) (first :: more) enumerator_list true (.mk t s v e p)
          trace
        = .ok (none, .mk t s v e p)) ∧
    (lookup_enum_declaration (GQuark.of n) (.mk t s v e p) = none →
      ctf_declaration_enum_visit (some n) (first :: more) enumerator_list true (.mk t s v e p)
          trace
        = .ok (some E.p, .mk t s v (e ++ [(GQuark.of n, E.p)]) p)) := by
  refine ⟨?_, ?_, ?_, ?_, ?_, ?_⟩
  · rintro ⟨D, hD⟩
    exact struct_visit_already_declared n body _ trace D hD
  · intro h
    exact struct_visit_named_of_resolves n body t s v e p inner trace results h hres
  · rintro ⟨D, hD⟩ choice
    exact variant_visit_already_declared n choice body _ trace D hD
  · intro h
    exact variant_visit_without_choice _ _ _ _ _ _ _
      (variant_visit_untagged_named_of_resolves n body t s v e p inner trace results h hres)
  · rintro ⟨D, hD⟩
    exact enum_visit_already_declared n _ enumerator_list _ trace D hD
  · intro h
    exact enum_visit_named_of_resolves n first more enumerator_list t s v e p scope1 trace I
      dummy_id E h hfirst hcontainer hid hloop

theorem named_aggregate_is_rejected_when_found_in_chain_witness :
    ctf_declaration_struct_visit (some "s") [uint32_field "x"] true scope_below_root le_trace
      = .ok (none, scope_below_root) ∧
    ctf_declaration_variant_visit (some "s") none [uint32_field "x"] true scope_below_root
        le_trace
      = .ok (some (declaration.untagged_variant [(GQuark.of "x", uint32_declaration)]
            (new_declaration_scope (some scope_below_root))),
          .mk [] [] [(GQuark.of "s", declaration.untagged_variant
            [(GQuark.of "x", uint32_declaration)]
            (new_declaration_scope (some scope_below_root)))] [] (some root_with_struct_s)) ∧
    ctf_declaration_enum_visit (some "s") uint32_t [] true scope_below_root le_trace
      = .ok (some (declaration.enum uint32_declaration []),
          .mk [] [] [] [(GQuark.of "s", declaration.enum uint32_declaration [])]
            (some root_with_struct_s)) :=
  have h := named_aggregate_is_rejected_when_found_in_chain "s" [] [] [] []
    (some root_with_struct_s) le_trace [uint32_field "x"]
    (new_declaration_scope (some scope_below_root)) [(GQuark.of "x", uint32_declaration)]
    (.NODE_TYPE_SPECIFIER .TYPESPEC_ID_TYPE (some "uint32_t")) [] []
    uint32_declaration none scope_below_root (enum_declaration_new uint32_declaration)
    (uint32_fields_resolve ["x"] _ le_trace
      (by simp [new_declaration_scope, scope_below_root, root_with_struct_s,
        lookup_declaration, first_hit, List.lookup]))
    (Or.inr ⟨_, _, rfl⟩)
    (type_identifier_resolves "uint32_t" _ le_trace)
    rfl rfl
  ⟨h.1 ⟨_, rfl⟩, h.2.2.2.1 rfl, h.2.2.2.2.2 rfl⟩

/-! ## The loop of a block visitor -/

theorem visit_each_append {σ : Type} (visit : ctf_node → σ → Except Fault (Int × σ))
    (pre rest : List ctf_node) :
    ∀ state : σ, visit_each visit (pre ++ rest) state
      = match visit_each visit pre state with
        | .error e => .error e
        | .ok (ret, state1) =>
          if ret ≠ 0 then .ok (ret, state1) else visit_each visit rest state1 := by
  induction pre with
  | nil => intro state; simp [visit_each]
  | cons iter pre ih =>
    intro state
    simp only [List.cons_append, visit_each]
    cases h : visit iter state with
    | error e => rfl
    | ok r =>
      obtain ⟨ret, state1⟩ := r
      by_cases hret : ret = 0
      · simp [hret, ih]
      · simp [hret]

/-- The loop stops at the first child the program does not survive. -/
theorem visit_each_faults {σ : Type} (visit : ctf_node → σ → Except Fault (Int × σ))
    (pre post : List ctf_node) (child : ctf_node) (state state1 : σ) (e : Fault)
    (hpre : visit_each visit pre state = .ok (0, state1))
    (hchild : visit child state1 = .error e) :
    visit_each visit (pre ++ child :: post) state = .error e := by
  rw [visit_each_append, hpre]
  simp [visit_each, hchild]

/-- A property that every child with return code 0 passes on holds after a
loop with return code 0. -/
theorem visit_each_invariant {σ : Type} (visit : ctf_node → σ → Except Fault (Int × σ))
    (P : σ → Prop)
    (hstep : ∀ node state state1, visit node state = .ok (0, state1) → P state → P state1)
    (list : List ctf_node) :
    ∀ state state1, visit_each visit list state = .ok (0, state1) → P state → P state1 := by
  induction list with
  | nil =>
    intro state state1 h hP
    simp only [visit_each, Except.ok.injEq, Prod.mk.injEq, true_and] at h
    exact h ▸ hP
  | cons iter rest ih =>
    intro state state1 h hP
    simp only [visit_each] at h
    cases hv : visit iter state with
    | error e => simp [hv] at h
    | ok r =>
      obtain ⟨ret, state2⟩ := r
      simp only [hv] at h
      by_cases hret : ret = 0
      · subst hret
        simp only [ne_eq, not_true_eq_false, if_false] at h
        exact ih state2 state1 h (hstep iter state state2 hv hP)
      · simp [hret] at h

/-- The fields set after a loop with return code 0 are the fields set before
it and the fields its children assign, when each child sets what it assigns. -/
theorem visit_each_mask {σ φ : Type} (visit : ctf_node → σ → Except Fault (Int × σ))
    (mask : σ → List φ) (text : φ → String)
    (hstep : ∀ node state state1, visit node state = .ok (0, state1) →
      ∀ field, field ∈ mask state1 ↔ field ∈ mask state ∨ assigns (text field) node)
    (list : List ctf_node) :
    ∀ state state1, visit_each visit list state = .ok (0, state1) →
      ∀ field, field ∈ mask state1 ↔
        field ∈ mask state ∨ ∃ child ∈ list, assigns (text field) child := by
  induction list with
  | nil =>
    intro state state1 h field
    simp only [visit_each, Except.ok.injEq, Prod.mk.injEq, true_and] at h
    subst h
    simp
  | cons iter rest ih =>
    intro state state1 h field
    simp only [visit_each] at h
    cases hv : visit iter state with
    | error e => simp [hv] at h
    | ok r =>
      obtain ⟨ret, state2⟩ := r
      simp only [hv] at h
      by_cases hret : ret = 0
      · subst hret
        simp only [ne_eq, not_true_eq_false, if_false] at h
        rw [ih state2 state1 h field, hstep iter state state2 hv field]
        simp only [List.mem_cons, exists_eq_or_imp]
        tauto
      · simp [hret] at h

theorem assigns_expression (f : String) (left right : List ctf_node) (l : String)
    (h : concatenate_unary_strings left = .ok l) :
    assigns f (.NODE_CTF_EXPRESSION left right) ↔ l = f := by
  constructor
  · rintro ⟨left1, right1, heq, hl⟩
    simp only [ctf_node.NODE_CTF_EXPRESSION.injEq] at heq
    obtain ⟨rfl, _⟩ := heq
    rw [h] at hl
    exact Except.ok.inj hl
  · rintro rfl
    exact ⟨left, right, rfl, h⟩

theorem assigns_assignment (f name : String) (value : unary_expression_type) :
    assigns f (assignment name value) ↔ name = f := by
  rw [assignment, assigns_expression f _ _ name]
  simp [concatenate_unary_strings, concatenate_unary_strings_loop]

theorem get_unary_unsigned_code (head : List ctf_node) (value value1 : Nat) (ret : Int)
    (h : get_unary_unsigned head value = .ok (ret, value1)) : ret = 0 := by
  rw [get_unary_unsigned] at h
  split at h
  · simp at h
  · simp only [Except.ok.injEq, Prod.mk.injEq] at h
    exact h.1.symm

/-! ## C21 and C22: the fields of a trace -/

/-- A child of a trace block with return code 0 sets the field it assigns, and
no other field. -/
theorem trace_declaration_visit_mask (node : ctf_node) (trace trace1 : struct_ctf_trace)
    (h : ctf_trace_declaration_visit node trace = .ok (0, trace1)) (field : ctf_trace_field) :
    field ∈ trace1.field_mask ↔
      field ∈ trace.field_mask ∨ assigns field.text node := by
  cases node
  case NODE_CTF_EXPRESSION left right =>
    simp only [ctf_trace_declaration_visit] at h
    cases hl : concatenate_unary_strings left with
    | error e => simp [hl] at h
    | ok l =>
      simp only [hl] at h
      rw [assigns_expression _ _ _ l hl]
      split_ifs at h
      all_goals first
        | (simp [EPERM] at h; done)
        | (split at h
           · simp at h
           · split_ifs at h
             all_goals first
               | (simp [EINVAL] at h; done)
               | (simp only [Except.ok.injEq, Prod.mk.injEq, true_and] at h
                  subst h
                  subst_vars
                  cases field <;> simp_all [CTF_TRACE_SET_FIELD, CTF_TRACE_FIELD_IS_SET,
                    ctf_trace_field.text]))
        | (simp only [Except.ok.injEq, Prod.mk.injEq, true_and] at h
           subst h
           cases field <;> simp_all [ctf_trace_field.text])
  case NODE_TYPEDEF spec decls =>
    have hn : ¬ assigns field.text (.NODE_TYPEDEF spec decls) := by
      rintro ⟨_, _, heq, _⟩; cases heq
    simp only [ctf_trace_declaration_visit] at h
    repeat' split at h
    all_goals first
      | (simp at h; done)
      | (simp only [Except.ok.injEq, Prod.mk.injEq, true_and] at h
         subst h
         simp [hn])
      | (simp only [Except.ok.injEq, Prod.mk.injEq] at h
         obtain ⟨h0, _⟩ := h
         exact absurd h0 (by assumption))
  case NODE_TYPEALIAS target alias_node =>
    have hn : ¬ assigns field.text (.NODE_TYPEALIAS target alias_node) := by
      rintro ⟨_, _, heq, _⟩; cases heq
    simp only [ctf_trace_declaration_visit] at h
    repeat' split at h
    all_goals first
      | (simp at h; done)
      | (simp only [Except.ok.injEq, Prod.mk.injEq, true_and] at h
         subst h
         simp [hn])
      | (simp only [Except.ok.injEq, Prod.mk.injEq] at h
         obtain ⟨h0, _⟩ := h
         exact absurd h0 (by assumption))
  all_goals simp [ctf_trace_declaration_visit, EPERM] at h

theorem trace_visit_loop_mask (list : List ctf_node) (trace trace1 : struct_ctf_trace)
    (h : ctf_trace_visit_loop list trace = .ok (0, trace1)) (field : ctf_trace_field) :
    field ∈ trace1.field_mask ↔
      field ∈ trace.field_mask ∨ ∃ child ∈ list, assigns field.text child :=
  visit_each_mask ctf_trace_declaration_visit (fun t => t.field_mask) ctf_trace_field.text
    trace_declaration_visit_mask list trace trace1 h field

/-- The result of `ctf_trace_visit` on a first trace block whose children all
return 0. -/
theorem trace_visit_of_loop (declaration_list : List ctf_node)
    (trace trace1 : struct_ctf_trace)
    (hfirst : trace.declaration_scope = none)
    (hloop : ctf_trace_visit_loop declaration_list (ctf_trace_enter trace) = .ok (0, trace1)) :
    ctf_trace_visit (.NODE_TRACE declaration_list) trace
      = if ctf_trace_field.major ∈ trace1.field_mask ∧ ctf_trace_field.minor ∈ trace1.field_mask
            ∧ ctf_trace_field.uuid ∈ trace1.field_mask
            ∧ ctf_trace_field.word_size ∈ trace1.field_mask
        then .ok (0, trace1) else .ok (-EPERM, trace1) := by
  simp only [ctf_trace_visit, hfirst, hloop, CTF_TRACE_FIELD_IS_SET]
  by_cases h1 : ctf_trace_field.major ∈ trace1.field_mask <;>
    by_cases h2 : ctf_trace_field.minor ∈ trace1.field_mask <;>
    by_cases h3 : ctf_trace_field.uuid ∈ trace1.field_mask <;>
    by_cases h4 : ctf_trace_field.word_size ∈ trace1.field_mask <;>
    simp [h1, h2, h3, h4]

/-- C21. For a trace block visited when no trace block was visited before (the
trace has no scope of a trace block and no field set) and whose children all
return 0, `ctf_trace_visit` returns 0 if and only if each of `major`, `minor`,
`uuid` and `word_size` is assigned by some child; when one of the four is
assigned by no child it returns `-EPERM`. -/
theorem trace_block_needs_its_four_fields (declaration_list : List ctf_node)
    (trace trace1 : struct_ctf_trace)
    (hfirst : trace.declaration_scope = none) (hmask : trace.field_mask = [])
    (hloop : ctf_trace_visit_loop declaration_list (ctf_trace_enter trace) = .ok (0, trace1)) :
    ((∃ trace2, ctf_trace_visit (.NODE_TRACE declaration_list) trace = .ok (0, trace2)) ↔
      ∀ f ∈ ["major", "minor", "uuid", "word_size"],
        ∃ child ∈ declaration_list, assigns f child) ∧
    ((∀ f ∈ ["major", "minor", "uuid", "word_size"],
        ∃ child ∈ declaration_list, assigns f child) →
      ctf_trace_visit (.NODE_TRACE declaration_list) trace = .ok (0, trace1)) ∧
    ((∃ f ∈ ["major", "minor", "uuid", "word_size"],
        ¬ ∃ child ∈ declaration_list, assigns f child) →
      ctf_trace_visit (.NODE_TRACE declaration_list) trace = .ok (-EPERM, trace1)) := by
  have hm : ∀ field : ctf_trace_field, field ∈ trace1.field_mask ↔
      ∃ child ∈ declaration_list, assigns field.text child := by
    intro field
    rw [trace_visit_loop_mask declaration_list _ trace1 hloop field]
    simp [ctf_trace_enter, hmask]
  have hall : (∀ f ∈ ["major", "minor", "uuid", "word_size"],
        ∃ child ∈ declaration_list, assigns f child) ↔
      (ctf_trace_field.major ∈ trace1.field_mask ∧ ctf_trace_field.minor ∈ trace1.field_mask
        ∧ ctf_trace_field.uuid ∈ trace1.field_mask
        ∧ ctf_trace_field.word_size ∈ trace1.field_mask) := by
    simp only [hm, ctf_trace_field.text, List.mem_cons, List.mem_singleton, forall_eq_or_imp,
      forall_eq, List.not_mem_nil, false_imp_iff, implies_true, and_true, or_false]
  have hv := trace_visit_of_loop declaration_list trace trace1 hfirst hloop
  refine ⟨?_, ?_, ?_⟩
  · rw [hall, hv]
    constructor
    · rintro ⟨trace2, h2⟩
      by_contra hnot
      rw [if_neg hnot] at h2
      simp [EPERM] at h2
    · intro h
      exact ⟨trace1, by rw [if_pos h]⟩
  · intro h
    rw [hv, if_pos (hall.mp h)]
  · rintro ⟨f, hf, hnone⟩
    rw [hv, if_neg]
    intro h
    exact hnone ((hall.mpr h) f hf)

theorem trace_block_needs_its_four_fields_witness :
    ctf_trace_visit (.NODE_TRACE s1_trace_children) fresh_trace
      = .ok (0, { ctf_trace_enter fresh_trace with
          major := 1, minor := 8, uuid := s1_uuid, word_size := 64,
          field_mask := [.word_size, .uuid, .minor, .major] }) ∧
    ctf_trace_visit (.NODE_TRACE s4_trace_children) fresh_trace
      = .ok (-EPERM, { ctf_trace_enter fresh_trace with
          major := 1, minor := 8, word_size := 64,
          field_mask := [.word_size, .minor, .major] }) :=
  ⟨(trace_block_needs_its_four_fields s1_trace_children fresh_trace _ rfl rfl rfl).2.1
      (by
        intro f hf
        simp only [List.mem_cons, List.mem_singleton, List.not_mem_nil, or_false] at hf
        rcases hf with rfl | rfl | rfl | rfl
        · exact ⟨_, List.mem_cons_self _ _, (assigns_assignment _ _ _).mpr rfl⟩
        · exact ⟨_, List.mem_cons_of_mem _ (List.mem_cons_self _ _),
            (assigns_assignment _ _ _).mpr rfl⟩
        · exact ⟨_, List.mem_cons_of_mem _ (List.mem_cons_of_mem _ (List.mem_cons_self _ _)),
            (assigns_assignment _ _ _).mpr rfl⟩
        · exact ⟨_, List.mem_cons_of_mem _ (List.mem_cons_of_mem _
            (List.mem_cons_of_mem _ (List.mem_cons_self _ _))),
            (assigns_assignment _ _ _).mpr rfl⟩),
    (trace_block_needs_its_four_fields s4_trace_children fresh_trace _ rfl rfl rfl).2.2
      ⟨"uuid", by simp, by
        rintro ⟨child, hchild, hassigns⟩
        simp only [s4_trace_children, List.mem_cons, List.mem_singleton, List.not_mem_nil,
          or_false] at hchild
        rcases hchild with rfl | rfl | rfl <;>
          exact absurd ((assigns_assignment _ _ _).mp hassigns) (by decide)⟩⟩

/-! ## The children of a stream block and of an event block -/

/-- A child of a stream block with return code 0 sets the field it assigns,
and leaves the array and the hash table of the stream as they are. -/
theorem stream_declaration_visit_mask (node : ctf_node) (stream stream1 : ctf_stream)
    (trace : struct_ctf_trace)
    (h : ctf_stream_declaration_visit node stream trace = .ok (0, stream1))
    (field : ctf_stream_field) :
    field ∈ stream1.field_mask ↔
      field ∈ stream.field_mask ∨ assigns field.text node := by
  cases node
  case NODE_CTF_EXPRESSION left right =>
    simp only [ctf_stream_declaration_visit] at h
    cases hl : concatenate_unary_strings left with
    | error e => simp [hl] at h
    | ok l =>
      simp only [hl] at h
      rw [assigns_expression _ _ _ l hl]
      split_ifs at h
      all_goals first
        | (simp [EPERM] at h; done)
        | (split at h
           all_goals first
             | (simp [EPERM] at h; done)
             | (split_ifs at h
                all_goals first
                  | (simp [EINVAL, EPERM] at h; done)
                  | (simp only [Except.ok.injEq, Prod.mk.injEq, true_and] at h
                     subst h
                     subst_vars
                     cases field <;> simp_all [CTF_STREAM_SET_FIELD, CTF_STREAM_FIELD_IS_SET,
                       ctf_stream_field.text])))
        | (simp only [Except.ok.injEq, Prod.mk.injEq, true_and] at h
           subst h
           cases field <;> simp_all [ctf_stream_field.text])
  case NODE_TYPEDEF spec decls =>
    have hn : ¬ assigns field.text (.NODE_TYPEDEF spec decls) := by
      rintro ⟨_, _, heq, _⟩; cases heq
    simp only [ctf_stream_declaration_visit] at h
    repeat' split at h
    all_goals first
      | (simp at h; done)
      | (simp only [Except.ok.injEq, Prod.mk.injEq, true_and] at h
         subst h
         simp [hn])
      | (simp only [Except.ok.injEq, Prod.mk.injEq] at h
         obtain ⟨h0, _⟩ := h
         exact absurd h0 (by assumption))
  case NODE_TYPEALIAS target alias_node =>
    have hn : ¬ assigns field.text (.NODE_TYPEALIAS target alias_node) := by
      rintro ⟨_, _, heq, _⟩; cases heq
    simp only [ctf_stream_declaration_visit] at h
    repeat' split at h
    all_goals first
      | (simp at h; done)
      | (simp only [Except.ok.injEq, Prod.mk.injEq, true_and] at h
         subst h
         simp [hn])
      | (simp only [Except.ok.injEq, Prod.mk.injEq] at h
         obtain ⟨h0, _⟩ := h
         exact absurd h0 (by assumption))
  all_goals simp [ctf_stream_declaration_visit, EPERM] at h

/-- A child of an event block with return code 0 sets the field it assigns. -/
theorem event_declaration_visit_mask (node : ctf_node) (event event1 : ctf_event)
    (trace : struct_ctf_trace)
    (h : ctf_event_declaration_visit node event trace = .ok (0, event1))
    (field : ctf_event_field) :
    field ∈ event1.field_mask ↔
      field ∈ event.field_mask ∨ assigns field.text node := by
  cases node
  case NODE_CTF_EXPRESSION left right =>
    simp only [ctf_event_declaration_visit] at h
    cases hl : concatenate_unary_strings left with
    | error e => simp [hl] at h
    | ok l =>
      simp only [hl] at h
      rw [assigns_expression _ _ _ l hl]
      split_ifs at h
      all_goals first
        | (simp [EPERM] at h; done)
        | (split at h
           all_goals first
             | (simp [EPERM] at h; done)
             | (simp only [Except.ok.injEq, Prod.mk.injEq, true_and] at h
                subst h
                subst_vars
                cases field <;> simp_all [CTF_EVENT_SET_FIELD, CTF_EVENT_FIELD_IS_SET,
                  ctf_event_field.text]
                done)
             | (split_ifs at h
                all_goals first
                  | (simp [EINVAL, EPERM] at h; done)
                  | (simp only [Except.ok.injEq, Prod.mk.injEq, true_and] at h
                     subst h
                     subst_vars
                     cases field <;> simp_all [CTF_EVENT_SET_FIELD, CTF_EVENT_FIELD_IS_SET,
                       ctf_event_field.text]
                     done)
                  | (split at h
                     all_goals first
                       | (simp [EINVAL, EPERM] at h; done)
                       | (simp only [Except.ok.injEq, Prod.mk.injEq, true_and] at h
                          subst h
                          subst_vars
                          cases field <;> simp_all [CTF_EVENT_SET_FIELD,
                            CTF_EVENT_FIELD_IS_SET, ctf_event_field.text]))))
        | (simp only [Except.ok.injEq, Prod.mk.injEq, true_and] at h
           subst h
           cases field <;> simp_all [ctf_event_field.text])
  case NODE_TYPEDEF spec decls =>
    have hn : ¬ assigns field.text (.NODE_TYPEDEF spec decls) := by
      rintro ⟨_, _, heq, _⟩; cases heq
    simp only [ctf_event_declaration_visit] at h
    repeat' split at h
    all_goals first
      | (simp at h; done)
      | (simp only [Except.ok.injEq, Prod.mk.injEq, true_and] at h
         subst h
         simp [hn])
      | (simp only [Except.ok.injEq, Prod.mk.injEq] at h
         obtain ⟨h0, _⟩ := h
         exact absurd h0 (by assumption))
  case NODE_TYPEALIAS target alias_node =>
    have hn : ¬ assigns field.text (.NODE_TYPEALIAS target alias_node) := by
      rintro ⟨_, _, heq, _⟩; cases heq
    simp only [ctf_event_declaration_visit] at h
    repeat' split at h
    all_goals first
      | (simp at h; done)
      | (simp only [Except.ok.injEq, Prod.mk.injEq, true_and] at h
         subst h
         simp [hn])
      | (simp only [Except.ok.injEq, Prod.mk.injEq] at h
         obtain ⟨h0, _⟩ := h
         exact absurd h0 (by assumption))
  all_goals simp [ctf_event_declaration_visit, EPERM] at h

theorem stream_visit_loop_mask (list : List ctf_node) (stream stream1 : ctf_stream)
    (trace : struct_ctf_trace)
    (h : ctf_stream_visit_loop list stream trace = .ok (0, stream1))
    (field : ctf_stream_field) :
    field ∈ stream1.field_mask ↔
      field ∈ stream.field_mask ∨ ∃ child ∈ list, assigns field.text child :=
  visit_each_mask (fun iter stream => ctf_stream_declaration_visit iter stream trace)
    (fun s => s.field_mask) ctf_stream_field.text
    (fun node s s1 hs => stream_declaration_visit_mask node s s1 trace hs) list stream stream1
    h field

theorem event_visit_loop_mask (list : List ctf_node) (event event1 : ctf_event)
    (trace : struct_ctf_trace)
    (h : ctf_event_visit_loop list event trace = .ok (0, event1))
    (field : ctf_event_field) :
    field ∈ event1.field_mask ↔
      field ∈ event.field_mask ∨ ∃ child ∈ list, assigns field.text child :=
  visit_each_mask (fun iter event => ctf_event_declaration_visit iter event trace)
    (fun s => s.field_mask) ctf_event_field.text
    (fun node s s1 hs => event_declaration_visit_mask node s s1 trace hs) list event event1
    h field

/-- The label `error` of `ctf_stream_visit` returns the code it is given, and
the trace as it was, when the three declaration slots are assigned. -/
theorem stream_visit_error_set (stream : ctf_stream) (ret : Int) (trace : struct_ctf_trace)
    (h : stream_slots_set stream) :
    ctf_stream_visit_error stream ret trace = .ok (ret, trace) := by
  obtain ⟨h1, h2, h3⟩ := h
  obtain ⟨a, ha⟩ := Option.isSome_iff_exists.mp h1
  obtain ⟨b, hb⟩ := Option.isSome_iff_exists.mp h2
  obtain ⟨c, hc⟩ := Option.isSome_iff_exists.mp h3
  simp [ctf_stream_visit_error, declaration_unref, ha, hb, hc]

/-- The label `error` of `ctf_stream_visit` hands a slot that is not assigned
to `declaration_unref`. -/
theorem stream_visit_error_unset (stream : ctf_stream) (ret : Int) (trace : struct_ctf_trace)
    (h : ¬ stream_slots_set stream) :
    ctf_stream_visit_error stream ret trace = .error Fault.null_deref := by
  unfold stream_slots_set at h
  cases h1 : stream.event_header_decl <;> cases h2 : stream.event_context_decl <;>
    cases h3 : stream.packet_context_decl <;>
    simp_all [ctf_stream_visit_error, declaration_unref]

/-- What the label `error` of `ctf_stream_visit` returns, when it returns. -/
theorem stream_visit_error_inv (stream : ctf_stream) (ret r : Int)
    (trace trace1 : struct_ctf_trace)
    (h : ctf_stream_visit_error stream ret trace = .ok (r, trace1)) :
    r = ret ∧ trace1 = trace ∧ stream_slots_set stream := by
  by_cases hs : stream_slots_set stream
  · rw [stream_visit_error_set stream ret trace hs] at h
    simp only [Except.ok.injEq, Prod.mk.injEq] at h
    exact ⟨h.1.symm, h.2.symm, hs⟩
  · rw [stream_visit_error_unset stream ret trace hs] at h
    cases h

/-- The label `error` of `ctf_event_visit` returns the code it is given, and
the trace as it was, when the two declaration slots are assigned. -/
theorem event_visit_error_set (event : ctf_event) (ret : Int) (trace : struct_ctf_trace)
    (h : event_slots_set event) :
    ctf_event_visit_error event ret trace = .ok (ret, trace) := by
  obtain ⟨h1, h2⟩ := h
  obtain ⟨a, ha⟩ := Option.isSome_iff_exists.mp h1
  obtain ⟨b, hb⟩ := Option.isSome_iff_exists.mp h2
  simp [ctf_event_visit_error, declaration_unref, ha, hb]

/-- The label `error` of `ctf_event_visit` hands a slot that is not assigned to
`declaration_unref`. -/
theorem event_visit_error_unset (event : ctf_event) (ret : Int) (trace : struct_ctf_trace)
    (h : ¬ event_slots_set event) :
    ctf_event_visit_error event ret trace = .error Fault.null_deref := by
  unfold event_slots_set at h
  cases h1 : event.fields_decl <;> cases h2 : event.context_decl <;>
    simp_all [ctf_event_visit_error, declaration_unref]

/-- What the label `error` of `ctf_event_visit` returns, when it returns. -/
theorem event_visit_error_inv (event : ctf_event) (ret r : Int)
    (trace trace1 : struct_ctf_trace)
    (h : ctf_event_visit_error event ret trace = .ok (r, trace1)) :
    r = ret ∧ trace1 = trace ∧ event_slots_set event := by
  by_cases hs : event_slots_set event
  · rw [event_visit_error_set event ret trace hs] at h
    simp only [Except.ok.injEq, Prod.mk.injEq] at h
    exact ⟨h.1.symm, h.2.symm, hs⟩
  · rw [event_visit_error_unset event ret trace hs] at h
    cases h

theorem to_int_successor_fits (i : Nat) (h : i + 1 < 2 ^ 31) :
    to_int (((i + 1) % 2 ^ 64 : Nat) : Int) = ((i + 1 : Nat) : Int) := by
  simp only [to_int]
  norm_num at h ⊢
  omega

theorem to_int_successor_truncated (i : Nat) (h : 2 ^ 31 ≤ i + 1) :
    to_int (((i + 1) % 2 ^ 64 : Nat) : Int) < 0 ∨
      (to_int (((i + 1) % 2 ^ 64 : Nat) : Int)).toNat ≤ i := by
  simp only [to_int]
  norm_num at h ⊢
  omega

theorem g_ptr_array_set_size_length {α : Type} (array array1 : List (Option α)) (length : Int)
    (h : g_ptr_array_set_size array length = .ok array1) :
    array1.length = length.toNat := by
  simp only [g_ptr_array_set_size] at h
  split_ifs at h
  simp only [Except.ok.injEq] at h
  subst h
  simp only [List.length_append, List.length_take, List.length_replicate]
  omega

/-- A stream whose id is below the length of the array takes the slot of its
id. -/
theorem stream_insert_in_range (streams : List (Option ctf_stream)) (stream : ctf_stream)
    (h : stream.stream_id < streams.length) :
    ctf_stream_insert streams stream
      = .ok (streams.set stream.stream_id (some stream)) := by
  simp [ctf_stream_insert, g_ptr_array_index_assign, h, Nat.not_le.mpr h]

/-- A stream whose id is not below the length of the array, and whose successor
fits a `gint`, takes the last slot of the array grown to that successor. -/
theorem stream_insert_grows (streams : List (Option ctf_stream)) (stream : ctf_stream)
    (hlen : streams.length ≤ stream.stream_id) (hfit : stream.stream_id + 1 < 2 ^ 31) :
    ctf_stream_insert streams stream
      = .ok ((streams ++ List.replicate (stream.stream_id + 1 - streams.length) none).set
          stream.stream_id (some stream)) := by
  have htake : List.take (stream.stream_id + 1) streams = streams :=
    List.take_of_length_le (by omega)
  simp only [ctf_stream_insert, hlen, if_true, to_int_successor_fits _ hfit,
    g_ptr_array_set_size, g_ptr_array_index_assign]
  have hnn : ¬ ((stream.stream_id : Int) + 1 < 0) := by omega
  simp [htake, hnn]
  omega

/-- A stream whose id is not below the length of the array, and whose successor
does not fit a `gint`, is written outside the array. -/
theorem stream_insert_truncated (streams : List (Option ctf_stream)) (stream : ctf_stream)
    (hlen : streams.length ≤ stream.stream_id) (hbig : 2 ^ 31 ≤ stream.stream_id + 1) :
    ctf_stream_insert streams stream = .error Fault.out_of_bounds := by
  simp only [ctf_stream_insert, hlen, if_true]
  cases hs : g_ptr_array_set_size streams
      (to_int (((stream.stream_id + 1) % 2 ^ 64 : Nat) : Int)) with
  | error e =>
    simp only [g_ptr_array_set_size] at hs
    split_ifs at hs
    simp only [Except.error.injEq] at hs
    subst hs
    rfl
  | ok streams1 =>
    have hl := g_ptr_array_set_size_length _ _ _ hs
    have hneg : ¬ to_int (((stream.stream_id + 1) % 2 ^ 64 : Nat) : Int) < 0 := by
      intro hneg
      rw [g_ptr_array_set_size, if_pos hneg] at hs
      cases hs
    have hle := (to_int_successor_truncated _ hbig).resolve_left hneg
    simp only [g_ptr_array_index_assign]
    rw [if_neg (by omega)]

/-- The result of `ctf_stream_visit` on a block whose children all return 0. -/
theorem stream_visit_of_loop (declaration_list : List ctf_node)
    (parent : Option declaration_scope) (trace : struct_ctf_trace) (stream : ctf_stream)
    (streams : List (Option ctf_stream))
    (hloop : ctf_stream_visit_loop declaration_list (ctf_stream_new parent) trace
      = .ok (0, stream))
    (hstreams : trace.streams = some streams) :
    (ctf_stream_field.stream_id ∉ stream.field_mask →
      ctf_stream_visit (.NODE_STREAM declaration_list) parent trace
        = ctf_stream_visit_error stream (-EPERM) trace) ∧
    (ctf_stream_field.stream_id ∈ stream.field_mask →
      (∀ streams1, ctf_stream_insert streams (ctf_stream_definitions stream) = .ok streams1 →
        ctf_stream_visit (.NODE_STREAM declaration_list) parent trace
          = .ok (0, { trace with streams := some streams1 })) ∧
      (∀ e, ctf_stream_insert streams (ctf_stream_definitions stream) = .error e →
        ctf_stream_visit (.NODE_STREAM declaration_list) parent trace = .error e)) := by
  refine ⟨?_, ?_⟩
  · intro h
    simp [ctf_stream_visit, hloop, CTF_STREAM_FIELD_IS_SET, hstreams, h]
  · intro h
    refine ⟨?_, ?_⟩
    · intro streams1 hi
      simp [ctf_stream_visit, hloop, CTF_STREAM_FIELD_IS_SET, hstreams, h, hi]
    · intro e hi
      simp [ctf_stream_visit, hloop, CTF_STREAM_FIELD_IS_SET, hstreams, h, hi]

theorem stream_new_mask (parent : Option declaration_scope) (list : List ctf_node)
    (trace : struct_ctf_trace) (stream : ctf_stream)
    (hloop : ctf_stream_visit_loop list (ctf_stream_new parent) trace = .ok (0, stream)) :
    ctf_stream_field.stream_id ∈ stream.field_mask ↔
      ∃ child ∈ list, assigns "stream_id" child := by
  rw [stream_visit_loop_mask list _ stream trace hloop]
  simp [ctf_stream_new, ctf_stream_field.text]

/-- C23. A stream block whose children all return 0, visited in a trace that
has a streams array. Without a child that assigns `stream_id`,
`ctf_stream_visit` stores no stream: it goes to its label `error`, which
returns `-EPERM` and leaves the trace as it is when the three declaration
slots are assigned, and hands a NULL slot to `declaration_unref` otherwise, so
that it returns no trace other than the one it was given. With its id
`i` below the length of the array, or with `i + 1` below `2^31`, it returns 0,
and afterwards the array has at least `i + 1` slots, `trace_stream_lookup`
returns the stream for `i`, and every other slot the array had is as before.
With `i` not below the length of the array and `i + 1` not below `2^31`, the
size `i + 1` does not survive the conversion to the `gint` parameter of
`g_ptr_array_set_size`, and the stream is written outside the array. -/
theorem stream_is_stored_when_its_successor_fits (declaration_list : List ctf_node)
    (parent : Option declaration_scope) (trace : struct_ctf_trace) (stream : ctf_stream)
    (streams : List (Option ctf_stream))
    (hloop : ctf_stream_visit_loop declaration_list (ctf_stream_new parent) trace
      = .ok (0, stream))
    (hstreams : trace.streams = some streams) :
    ((¬ ∃ child ∈ declaration_list, assigns "stream_id" child) →
      (stream_slots_set stream →
        ctf_stream_visit (.NODE_STREAM declaration_list) parent trace
          = .ok (-EPERM, trace)) ∧
      (¬ stream_slots_set stream →
        ctf_stream_visit (.NODE_STREAM declaration_list) parent trace
          = .error Fault.null_deref) ∧
      (∀ ret trace1,
        ctf_stream_visit (.NODE_STREAM declaration_list) parent trace = .ok (ret, trace1) →
        ret = -EPERM ∧ trace1 = trace)) ∧
    ((∃ child ∈ declaration_list, assigns "stream_id" child) →
      (stream.stream_id < streams.length ∨ stream.stream_id + 1 < 2 ^ 31) →
      ∃ streams1,
        ctf_stream_visit (.NODE_STREAM declaration_list) parent trace
          = .ok (0, { trace with streams := some streams1 }) ∧
        stream.stream_id + 1 ≤ streams1.length ∧
        trace_stream_lookup { trace with streams := some streams1 } stream.stream_id
          = .ok (some (ctf_stream_definitions stream)) ∧
        ∀ j, j ≠ stream.stream_id → j < streams.length → streams1.get? j = streams.get? j) ∧
    ((∃ child ∈ declaration_list, assigns "stream_id" child) →
      streams.length ≤ stream.stream_id → 2 ^ 31 ≤ stream.stream_id + 1 →
      ctf_stream_visit (.NODE_STREAM declaration_list) parent trace
        = .error Fault.out_of_bounds) := by
  have hv := stream_visit_of_loop declaration_list parent trace stream streams hloop hstreams
  have hm := stream_new_mask parent declaration_list trace stream hloop
  have hid : (ctf_stream_definitions stream).stream_id = stream.stream_id := rfl
  refine ⟨?_, ?_, ?_⟩
  · intro hnone
    have hb := hv.1 (fun h => hnone (hm.mp h))
    refine ⟨fun hs => hb.trans (stream_visit_error_set stream _ trace hs),
      fun hs => hb.trans (stream_visit_error_unset stream _ trace hs), ?_⟩
    intro ret trace1 h
    rw [hb] at h
    obtain ⟨h1, h2, -⟩ := stream_visit_error_inv stream _ ret trace trace1 h
    exact ⟨h1, h2⟩
  · intro hsome hrange
    by_cases hin : stream.stream_id < streams.length
    · refine ⟨streams.set stream.stream_id (some (ctf_stream_definitions stream)), ?_, ?_, ?_,
        ?_⟩
      · exact (hv.2 (hm.mpr hsome)).1 _
          (by rw [stream_insert_in_range streams _ (by rw [hid]; exact hin), hid])
      · simp only [List.length_set]; omega
      · simp [trace_stream_lookup, g_ptr_array_index, hin]
      · intro j hj _
        simp only [List.get?_eq_getElem?]
        rw [List.getElem?_set_ne (fun h => hj h.symm)]
    · have hfit : stream.stream_id + 1 < 2 ^ 31 := hrange.resolve_left hin
      have hle : streams.length ≤ stream.stream_id := by omega
      refine ⟨(streams ++ List.replicate (stream.stream_id + 1 - streams.length) none).set
          stream.stream_id (some (ctf_stream_definitions stream)), ?_, ?_, ?_, ?_⟩
      · exact (hv.2 (hm.mpr hsome)).1 _
          (by rw [stream_insert_grows streams _ (by rw [hid]; exact hle)
            (by rw [hid]; exact hfit), hid])
      · simp only [List.length_set, List.length_append, List.length_replicate]; omega
      · have hlt : stream.stream_id
            < (streams ++ List.replicate (stream.stream_id + 1 - streams.length) none).length := by
          simp only [List.length_append, List.length_replicate]; omega
        simp only [trace_stream_lookup, g_ptr_array_index, List.length_set,
          List.get?_eq_getElem?]
        rw [if_neg (by omega), List.getElem?_set_self hlt]
        rfl
      · intro j hj hjlen
        simp only [List.get?_eq_getElem?]
        rw [List.getElem?_set_ne (fun h => hj h.symm), List.getElem?_append_left hjlen]
  · intro hsome hle hbig
    exact (hv.2 (hm.mpr hsome)).2 _
      (stream_insert_truncated streams _ (by rw [hid]; exact hle) (by rw [hid]; exact hbig))

theorem stream_is_stored_when_its_successor_fits_witness :
    (∃ streams1,
      ctf_stream_visit (.NODE_STREAM [assignment "stream_id" (.UNARY_UNSIGNED_CONSTANT 4)])
          (some root_with_uint32) trace_with_stream_2
        = .ok (0, { trace_with_stream_2 with streams := some streams1 }) ∧
      4 + 1 ≤ streams1.length ∧
      trace_stream_lookup { trace_with_stream_2 with streams := some streams1 } 4
        = .ok (some (ctf_stream_definitions
            { ctf_stream_new (some root_with_uint32) with
              stream_id := 4, field_mask := [.stream_id] })) ∧
      ∀ j, j ≠ 4 → j < 3 → streams1.get? j = [none, none, some stream_2].get? j) ∧
    ctf_stream_visit
        (.NODE_STREAM [assignment "stream_id" (.UNARY_UNSIGNED_CONSTANT 4294967296)])
        (some root_with_uint32) trace_with_stream_2
      = .error Fault.out_of_bounds ∧
    ctf_stream_visit (.NODE_STREAM []) (some root_with_uint32) trace_with_stream_2
      = .error Fault.null_deref :=
  ⟨(stream_is_stored_when_its_successor_fits
      [assignment "stream_id" (.UNARY_UNSIGNED_CONSTANT 4)] (some root_with_uint32)
      trace_with_stream_2
      { ctf_stream_new (some root_with_uint32) with
        stream_id := 4, field_mask := [.stream_id] }
      [none, none, some stream_2] rfl rfl).2.1
      ⟨_, List.mem_cons_self _ _, (assigns_assignment _ _ _).mpr rfl⟩ (Or.inr (by decide)),
    (stream_is_stored_when_its_successor_fits
      [assignment "stream_id" (.UNARY_UNSIGNED_CONSTANT 4294967296)] (some root_with_uint32)
      trace_with_stream_2
      { ctf_stream_new (some root_with_uint32) with
        stream_id := 4294967296, field_mask := [.stream_id] }
      [none, none, some stream_2] rfl rfl).2.2
      ⟨_, List.mem_cons_self _ _, (assigns_assignment _ _ _).mpr rfl⟩
      (by decide) (by decide),
    ((stream_is_stored_when_its_successor_fits [] (some root_with_uint32)
      trace_with_stream_2 (ctf_stream_new (some root_with_uint32))
      [none, none, some stream_2] rfl rfl).1
      (by simp)).2.1 (by simp [stream_slots_set, ctf_stream_new])⟩

/-! ## C24: the declaration slots of a stream and of an event -/

theorem trace_stream_lookup_some (trace : struct_ctf_trace) (i : Nat) (s : ctf_stream) :
    trace_stream_lookup trace i = .ok (some s) ↔
      ∃ streams, trace.streams = some streams ∧ i < streams.length ∧
        g_ptr_array_index streams i = some s := by
  simp only [trace_stream_lookup]
  cases hs : trace.streams with
  | none => simp
  | some streams =>
    by_cases hlen : streams.length ≤ i
    · simp [hlen]
    · simp [hlen]
      all_goals omega

theorem event_declaration_visit_stream (node : ctf_node) (event event1 : ctf_event)
    (trace : struct_ctf_trace)
    (h : ctf_event_declaration_visit node event trace = .ok (0, event1))
    (hP : event_stream_found trace event) : event_stream_found trace event1 := by
  unfold event_stream_found at hP ⊢
  cases node
  case NODE_CTF_EXPRESSION left right =>
    simp only [ctf_event_declaration_visit] at h
    cases hl : concatenate_unary_strings left with
    | error e => simp [hl] at h
    | ok l =>
      simp only [hl] at h
      split_ifs at h
      all_goals first
        | (simp [EPERM] at h; done)
        | (split at h
           all_goals first
             | (simp [EPERM] at h; done)
             | (simp only [Except.ok.injEq, Prod.mk.injEq, true_and] at h
                subst h
                simp_all [CTF_EVENT_SET_FIELD, CTF_EVENT_FIELD_IS_SET]
                done)
             | (split_ifs at h
                all_goals first
                  | (simp [EINVAL, EPERM] at h; done)
                  | (simp only [Except.ok.injEq, Prod.mk.injEq, true_and] at h
                     subst h
                     simp_all [CTF_EVENT_SET_FIELD, CTF_EVENT_FIELD_IS_SET]
                     done)
                  | (split at h
                     all_goals first
                       | (simp [EINVAL, EPERM] at h; done)
                       | (simp only [Except.ok.injEq, Prod.mk.injEq, true_and] at h
                          subst h
                          simp_all [CTF_EVENT_SET_FIELD, CTF_EVENT_FIELD_IS_SET,
                            trace_stream_lookup_some]
                          rename_i hfound
                          obtain ⟨streams, h1, h2, h3⟩ := hfound
                          exact ⟨streams, h1, h2, _, h3⟩))))
        | (simp only [Except.ok.injEq, Prod.mk.injEq, true_and] at h
           subst h
           exact hP)
  case NODE_TYPEDEF spec decls =>
    simp only [ctf_event_declaration_visit] at h
    repeat' split at h
    all_goals first
      | (simp at h; done)
      | (simp only [Except.ok.injEq, Prod.mk.injEq, true_and] at h
         subst h
         exact hP)
      | (simp only [Except.ok.injEq, Prod.mk.injEq] at h
         obtain ⟨h0, _⟩ := h
         exact absurd h0 (by assumption))
  case NODE_TYPEALIAS target alias_node =>
    simp only [ctf_event_declaration_visit] at h
    repeat' split at h
    all_goals first
      | (simp at h; done)
      | (simp only [Except.ok.injEq, Prod.mk.injEq, true_and] at h
         subst h
         exact hP)
      | (simp only [Except.ok.injEq, Prod.mk.injEq] at h
         obtain ⟨h0, _⟩ := h
         exact absurd h0 (by assumption))
  all_goals simp [ctf_event_declaration_visit, EPERM] at h

theorem event_visit_loop_stream (list : List ctf_node) (event event1 : ctf_event)
    (trace : struct_ctf_trace)
    (h : ctf_event_visit_loop list event trace = .ok (0, event1))
    (hP : event_stream_found trace event) : event_stream_found trace event1 :=
  visit_each_invariant (fun iter event => ctf_event_declaration_visit iter event trace)
    (event_stream_found trace)
    (fun node s s1 hs hs0 => event_declaration_visit_stream node s s1 trace hs hs0)
    list event event1 h hP

theorem event_new_mask (parent : Option declaration_scope) (list : List ctf_node)
    (trace : struct_ctf_trace) (event : ctf_event)
    (hloop : ctf_event_visit_loop list (ctf_event_new parent) trace = .ok (0, event))
    (field : ctf_event_field) :
    field ∈ event.field_mask ↔ ∃ child ∈ list, assigns field.text child := by
  rw [event_visit_loop_mask list _ event trace hloop]
  simp [ctf_event_new]

theorem event_new_stream (parent : Option declaration_scope) (list : List ctf_node)
    (trace : struct_ctf_trace) (event : ctf_event)
    (hloop : ctf_event_visit_loop list (ctf_event_new parent) trace = .ok (0, event)) :
    event_stream_found trace event :=
  event_visit_loop_stream list _ event trace hloop (by simp [event_stream_found, ctf_event_new])

/-- A child of a stream block leaves the hash table of the stream as it is. -/
theorem stream_declaration_visit_table (node : ctf_node) (stream stream1 : ctf_stream)
    (trace : struct_ctf_trace)
    (h : ctf_stream_declaration_visit node stream trace = .ok (0, stream1))
    (hP : stream.event_quark_to_id.hash_func = GHashFunc.g_int_hash) :
    stream1.event_quark_to_id.hash_func = GHashFunc.g_int_hash := by
  cases node
  case NODE_CTF_EXPRESSION left right =>
    simp only [ctf_stream_declaration_visit] at h
    cases hl : concatenate_unary_strings left with
    | error e => simp [hl] at h
    | ok l =>
      simp only [hl] at h
      split_ifs at h
      all_goals first
        | (simp [EPERM] at h; done)
        | (split at h
           all_goals first
             | (simp [EPERM] at h; done)
             | (split_ifs at h
                all_goals first
                  | (simp [EINVAL, EPERM] at h; done)
                  | (simp only [Except.ok.injEq, Prod.mk.injEq, true_and] at h
                     subst h
                     exact hP)))
        | (simp only [Except.ok.injEq, Prod.mk.injEq, true_and] at h
           subst h
           exact hP)
  case NODE_TYPEDEF spec decls =>
    simp only [ctf_stream_declaration_visit] at h
    repeat' split at h
    all_goals first
      | (simp at h; done)
      | (simp only [Except.ok.injEq, Prod.mk.injEq, true_and] at h
         subst h
         exact hP)
      | (simp only [Except.ok.injEq, Prod.mk.injEq] at h
         obtain ⟨h0, _⟩ := h
         exact absurd h0 (by assumption))
  case NODE_TYPEALIAS target alias_node =>
    simp only [ctf_stream_declaration_visit] at h
    repeat' split at h
    all_goals first
      | (simp at h; done)
      | (simp only [Except.ok.injEq, Prod.mk.injEq, true_and] at h
         subst h
         exact hP)
      | (simp only [Except.ok.injEq, Prod.mk.injEq] at h
         obtain ⟨h0, _⟩ := h
         exact absurd h0 (by assumption))
  all_goals simp [ctf_stream_declaration_visit, EPERM] at h

theorem stream_visit_loop_table (list : List ctf_node) (parent : Option declaration_scope)
    (stream : ctf_stream) (trace : struct_ctf_trace)
    (h : ctf_stream_visit_loop list (ctf_stream_new parent) trace = .ok (0, stream)) :
    stream.event_quark_to_id.hash_func = GHashFunc.g_int_hash :=
  visit_each_invariant (fun iter stream => ctf_stream_declaration_visit iter stream trace)
    (fun s => s.event_quark_to_id.hash_func = GHashFunc.g_int_hash)
    (fun node s s1 hs hs0 => stream_declaration_visit_table node s s1 trace hs hs0)
    list _ stream h rfl

/-- The streams of the array after a stream is stored are that stream and
streams of the array before. -/
theorem stream_insert_members (streams streams1 : List (Option ctf_stream))
    (stream s : ctf_stream)
    (h : ctf_stream_insert streams stream = .ok streams1) (hs : some s ∈ streams1) :
    s = stream ∨ some s ∈ streams := by
  simp only [ctf_stream_insert] at h
  split at h
  · simp at h
  · rename_i resized hresized
    simp only [g_ptr_array_index_assign] at h
    split_ifs at h
    simp only [Except.ok.injEq] at h
    subst h
    rcases List.mem_or_eq_of_mem_set hs with hmem | heq
    · right
      split_ifs at hresized
      · simp only [g_ptr_array_set_size] at hresized
        split_ifs at hresized
        simp only [Except.ok.injEq] at hresized
        subst hresized
        rcases List.mem_append.mp hmem with h1 | h1
        · exact List.mem_of_mem_take h1
        · simp at h1
      · simp only [Except.ok.injEq] at hresized
        subst hresized
        exact hmem
    · left
      exact (Option.some.inj heq)

/-- A stream block that returns 0 leaves in the trace streams whose hash table
was created with `g_int_hash`. -/
theorem stream_visit_hash_int (node : ctf_node) (parent : Option declaration_scope)
    (trace trace1 : struct_ctf_trace)
    (h : ctf_stream_visit node parent trace = .ok (0, trace1))
    (hP : streams_hash_int trace) : streams_hash_int trace1 := by
  cases node
  case NODE_STREAM declaration_list =>
    simp only [ctf_stream_visit] at h
    cases hloop : ctf_stream_visit_loop declaration_list (ctf_stream_new parent) trace with
    | error e => simp [hloop] at h
    | ok r =>
      obtain ⟨ret, stream⟩ := r
      simp only [hloop] at h
      by_cases hret : ret = 0
      · subst hret
        have htable := stream_visit_loop_table declaration_list parent stream trace hloop
        simp only [ne_eq, not_true_eq_false, if_false] at h
        split_ifs at h
        · exact absurd (stream_visit_error_inv _ _ _ _ _ h).1 (by decide)
        · cases hstreams : trace.streams with
          | none => simp [hstreams] at h
          | some streams =>
            simp only [hstreams] at h
            cases hins : ctf_stream_insert streams (ctf_stream_definitions stream) with
            | error e => simp [hins] at h
            | ok streams1 =>
              simp only [hins, Except.ok.injEq, Prod.mk.injEq, true_and] at h
              subst h
              intro streams2 h2 s hs
              simp only [Option.some.injEq] at h2
              subst h2
              rcases stream_insert_members streams _ _ s hins hs with rfl | hold
              · exact htable
              · exact hP streams hstreams s hold
      · rw [if_pos hret] at h
        exact absurd (stream_visit_error_inv _ _ _ _ _ h).1.symm hret
  all_goals simp [ctf_stream_visit] at h

/-- Storing an event in a stream whose hash table was created with `g_int_hash`
does not return. -/
theorem event_insert_not_ok (stream stream1 : ctf_stream) (event : ctf_event)
    (hhash : stream.event_quark_to_id.hash_func = GHashFunc.g_int_hash) :
    ctf_event_insert stream event ≠ .ok stream1 := by
  intro h
  simp only [ctf_event_insert, g_hash_table_insert, hhash] at h
  repeat' split at h
  all_goals simp at h

/-- Storing an event whose id is below the length of the array of its stream,
or has a successor that fits a `gint`, stops at the hash of the name. -/
theorem event_insert_bad_pointer (stream : ctf_stream) (event : ctf_event)
    (hhash : stream.event_quark_to_id.hash_func = GHashFunc.g_int_hash)
    (hfit : event.id + 1 < 2 ^ 31) :
    ctf_event_insert stream event = .error Fault.bad_pointer := by
  simp only [ctf_event_insert, g_hash_table_insert, hhash, to_int_successor_fits _ hfit,
    g_ptr_array_set_size, g_ptr_array_index_assign]
  have hnn : ¬ (((event.id + 1 : Nat) : Int) < 0) := by omega
  by_cases hlen : stream.events_by_id.length ≤ event.id
  · have hlt : event.id < (List.take (event.id + 1) stream.events_by_id ++
        List.replicate (event.id + 1 - stream.events_by_id.length) none).length := by
      simp only [List.length_append, List.length_take, List.length_replicate]; omega
    simp only [hlen, if_true, if_neg hnn, Int.toNat_ofNat, if_pos hlt]
  · simp only [hlen, if_false, if_pos (Nat.lt_of_not_le hlen)]

theorem g_ptr_array_index_mem {α : Type} (array : List (Option α)) (index : Nat) (a : α)
    (h : g_ptr_array_index array index = some a) : some a ∈ array := by
  simp only [g_ptr_array_index, List.get?_eq_getElem?] at h
  cases hget : array[index]? with
  | none => simp [hget] at h
  | some x =>
    simp only [hget, Option.join] at h
    subst h
    exact List.getElem?_mem hget

/-- C26. In a trace whose streams have the hash table `ctf_stream_visit`
creates, with `g_int_hash`, no event block is visited with return code 0: an
event block that passes the checks of `ctf_event_visit` is stored in the array
of its stream, and then `g_hash_table_insert` is handed the quark of the name
cast to a pointer, which `g_int_hash` reads as a pointer to a `gint`. For an
event block whose children all return 0 and assign `name`, `id` and
`stream_id`, with an id whose successor fits a `gint`, the visit stops there.
Every stream that `ctf_stream_visit` stores has such a hash table. -/
theorem event_name_is_hashed_as_a_pointer (declaration_list : List ctf_node)
    (parent : Option declaration_scope) (trace : struct_ctf_trace)
    (hhash : streams_hash_int trace) :
    (∀ trace1, ctf_event_visit (.NODE_EVENT declaration_list) parent trace ≠ .ok (0, trace1)) ∧
    (∀ event,
      ctf_event_visit_loop declaration_list (ctf_event_new parent) trace = .ok (0, event) →
      (∀ f ∈ ["name", "id", "stream_id"], ∃ child ∈ declaration_list, assigns f child) →
      event.id + 1 < 2 ^ 31 →
      ctf_event_visit (.NODE_EVENT declaration_list) parent trace
        = .error Fault.bad_pointer) ∧
    (∀ (node : ctf_node) (parent1 : Option declaration_scope) (trace1 : struct_ctf_trace),
      ctf_stream_visit node parent1 trace = .ok (0, trace1) → streams_hash_int trace1) := by
  refine ⟨?_, ?_, ?_⟩
  · intro trace1 h
    simp only [ctf_event_visit] at h
    cases hloop : ctf_event_visit_loop declaration_list (ctf_event_new parent) trace with
    | error e => simp [hloop] at h
    | ok r =>
      obtain ⟨ret, event⟩ := r
      simp only [hloop] at h
      by_cases hret : ret = 0
      · subst hret
        simp only [ne_eq, not_true_eq_false, if_false] at h
        split_ifs at h
        any_goals (exact absurd (event_visit_error_inv _ _ _ _ _ h).1 (by decide))
        split at h
        · rename_i index streams hstream hstreams
          split at h
          · simp at h
          · rename_i stream hindex
            have hmem := g_ptr_array_index_mem streams index stream hindex
            have hh := hhash streams hstreams stream hmem
            split at h
            · simp at h
            · rename_i stream1 hins
              exact event_insert_not_ok stream stream1 _ hh hins
        · simp at h
      · rw [if_pos hret] at h
        exact absurd (event_visit_error_inv _ _ _ _ _ h).1.symm hret
  · intro event hloop hall hfit
    have hm := event_new_mask parent declaration_list trace event hloop
    have h1 := (hm ctf_event_field.name).mpr (hall "name" (by simp))
    have h2 := (hm ctf_event_field.id).mpr (hall "id" (by simp))
    have h3 := (hm ctf_event_field.stream_id).mpr (hall "stream_id" (by simp))
    obtain ⟨streams, stream, hstreams, hstream, _, hindex⟩ :=
      event_new_stream parent declaration_list trace event hloop h3
    have hh := hhash streams hstreams stream (g_ptr_array_index_mem streams _ stream hindex)
    have hins := event_insert_bad_pointer stream
      (ctf_event_definitions event stream.definition_scope) hh hfit
    simp [ctf_event_visit, hloop, CTF_EVENT_FIELD_IS_SET, h1, h2, h3, hstream, hstreams,
      hindex, hins]
  · intro node parent1 trace1 h
    exact stream_visit_hash_int node parent1 trace trace1 h hhash

theorem streams_hash_int_with_stream_2 : streams_hash_int trace_with_stream_2 := by
  intro streams h s hs
  simp only [trace_with_stream_2, Option.some.injEq] at h
  subst h
  simp only [List.mem_cons, List.mem_singleton, List.not_mem_nil, or_false] at hs
  rcases hs with hs | hs | hs
  · cases hs
  · cases hs
  · cases hs
    rfl

theorem event_name_is_hashed_as_a_pointer_witness :
    ctf_event_visit (.NODE_EVENT [assignment "name" (.UNARY_STRING "ev"),
        assignment "id" (.UNARY_UNSIGNED_CONSTANT 0),
        assignment "stream_id" (.UNARY_UNSIGNED_CONSTANT 2)]) (some root_with_uint32)
        trace_with_stream_2
      = .error Fault.bad_pointer :=
  (event_name_is_hashed_as_a_pointer
    [assignment "name" (.UNARY_STRING "ev"), assignment "id" (.UNARY_UNSIGNED_CONSTANT 0),
      assignment "stream_id" (.UNARY_UNSIGNED_CONSTANT 2)]
    (some root_with_uint32) trace_with_stream_2 streams_hash_int_with_stream_2).2.1
    event_ev rfl
    (by
      intro f hf
      simp only [List.mem_cons, List.mem_singleton, List.not_mem_nil, or_false] at hf
      rcases hf with rfl | rfl | rfl
      · exact ⟨_, List.mem_cons_self _ _, (assigns_assignment _ _ _).mpr rfl⟩
      · exact ⟨_, List.mem_cons_of_mem _ (List.mem_cons_self _ _),
          (assigns_assignment _ _ _).mpr rfl⟩
      · exact ⟨_, List.mem_cons_of_mem _ (List.mem_cons_of_mem _ (List.mem_cons_self _ _)),
          (assigns_assignment _ _ _).mpr rfl⟩)
    (by decide)

/-! ## C27: the declaration list of the root -/

/-- The typealias of scenario S1 registers `uint32_t` in the empty root scope. -/
theorem s1_typealias_visit (scope : declaration_scope) (trace : ctf_trace)
    (hscope : scope = empty_root) (htrace : trace = le_trace) :
    ctf_typealias_visit scope (.mk integer_32 []) (.mk uint32_t [abstract_declarator])
      trace = .ok (0, root_with_uint32) := by
  subst hscope
  subst htrace
  have hvisit := type_declarator_visit_plain_id integer_32 none none empty_root empty_root
    le_trace (some uint32_declaration) (integer_32_visit empty_root)
  have hid : create_typealias_identifier uint32_t abstract_declarator = GQuark.of "uint32_t" := by
    simp [abstract_declarator, create_typealias_identifier, visit_declaration_specifier,
      visit_declaration_specifier_loop, declaration_specifier_text, type_declarator.pointers,
      append_pointers, uint32_t, g_quark_from_string]
  have hreg : register_declaration (GQuark.of "uint32_t") (some uint32_declaration) empty_root
      = .ok (0, root_with_uint32) := by
    simp [register_declaration, empty_root, new_declaration_scope, root_with_uint32]
  rw [ctf_typealias_visit]
  simp only [first_or_null, abstract_declarator] at hvisit hid ⊢
  rw [hvisit]
  simp only [g_quark_from_string, hid, hreg]
  simp

/-- A typealias of the root that returns 0 leaves its scope as the root scope. -/
theorem root_typealias_visit_ok (trace : struct_ctf_trace)
    (target alias_node : ctf_typealias_part) (scope1 : declaration_scope)
    (h : ctf_typealias_visit trace.root_declaration_scope target alias_node trace.toctf_trace
      = .ok (0, scope1)) :
    ctf_root_declaration_visit (.NODE_TYPEALIAS target alias_node) trace
      = .ok (0, { trace with root_declaration_scope := scope1 }) := by
  simp [ctf_root_declaration_visit, h]

/-- A loop over one child that returns 0. -/
theorem visit_each_single {σ : Type} (visit : ctf_node → σ → Except Fault (Int × σ))
    (iter : ctf_node) (state state1 : σ) (h : visit iter state = .ok (0, state1)) :
    visit_each visit [iter] state = .ok (0, state1) := by
  simp [visit_each, h]

theorem s1_root_typealias_visit :
    visit_each ctf_root_declaration_visit [s1_typealias]
        { fresh_trace with byte_order := LITTLE_ENDIAN }
      = .ok (0, s1_trace_after_typealias) :=
  visit_each_single ctf_root_declaration_visit s1_typealias _ _
    (root_typealias_visit_ok { fresh_trace with byte_order := LITTLE_ENDIAN }
      (.mk integer_32 []) (.mk uint32_t [abstract_declarator]) root_with_uint32
      (s1_typealias_visit _ _ rfl rfl))

/-- C27. A declaration specifier in the declaration list of the root, reached
after children that all return 0, is not elaborated: `ctf_visitor_construct_metadata`
hands the node itself to `ctf_declaration_specifier_visit` in the place of a
list of nodes, and does not return 0, whatever the specifier and whatever
follows it. A root whose declaration list holds only typedefs and typealiases
that return 0, and whose one trace block is visited with return code 0,
returns 0 with the trace the trace block leaves. -/
theorem root_declaration_specifier_is_misread (pre post list traces streams events :
      List ctf_node) (trace trace1 : struct_ctf_trace) (byte_order : Int)
    (hpre : visit_each ctf_root_declaration_visit pre { trace with byte_order := byte_order }
      = .ok (0, trace1)) :
    ctf_visitor_construct_metadata
        (.NODE_ROOT (pre ++ .NODE_DECLARATION_SPECIFIER list :: post) traces streams events)
        trace byte_order
      = .error Fault.bad_pointer ∧
    (∀ (trace_children : List ctf_node) (trace2 : struct_ctf_trace),
      ctf_trace_visit (.NODE_TRACE trace_children) trace1 = .ok (0, trace2) →
      ctf_visitor_construct_metadata (.NODE_ROOT pre [.NODE_TRACE trace_children] [] [])
        trace byte_order = .ok (0, trace2)) := by
  refine ⟨?_, ?_⟩
  · have h := visit_each_faults ctf_root_declaration_visit pre post
      (.NODE_DECLARATION_SPECIFIER list) _ trace1 Fault.bad_pointer hpre rfl
    simp only [ctf_visitor_construct_metadata, h]
  · intro trace_children trace2 htrace
    simp [ctf_visitor_construct_metadata, hpre, visit_each, htrace]

theorem root_declaration_specifier_is_misread_witness :
    ctf_visitor_construct_metadata
        (.NODE_ROOT ([s1_typealias] ++
          .NODE_DECLARATION_SPECIFIER [.NODE_STRUCT (some "hdr") hdr_body true] :: [])
          [.NODE_TRACE s1_trace_children] [] [])
        fresh_trace LITTLE_ENDIAN
      = .error Fault.bad_pointer ∧
    ctf_visitor_construct_metadata
        (.NODE_ROOT [s1_typealias] [.NODE_TRACE s1_trace_children] [] [])
        fresh_trace LITTLE_ENDIAN
      = .ok (0, { ctf_trace_enter s1_trace_after_typealias with
          major := 1, minor := 8, uuid := s1_uuid, word_size := 64,
          field_mask := [.word_size, .uuid, .minor, .major] }) :=
  have h := root_declaration_specifier_is_misread [s1_typealias] []
    [.NODE_STRUCT (some "hdr") hdr_body true] [.NODE_TRACE s1_trace_children] [] []
    fresh_trace s1_trace_after_typealias LITTLE_ENDIAN s1_root_typealias_visit
  ⟨h.1, h.2 s1_trace_children _ rfl⟩

/-! ## C36: the range of an enumerator and its value list -/

/-- An enumerator with an empty value list: the value loop assigns neither
`start` nor `end`, and the call of the insert reads both. -/
theorem enumerator_visit_empty (id : Option String) (E : declaration_enum)
    (len : Nat) (bo sg : Int) (al : Nat)
    (hE : E.integer_declaration = declaration.integer len bo sg al) :
    ctf_enumerator_list_visit (.mk id []) E = .error Fault.uninit_read := by
  unfold ctf_enumerator_list_visit
  simp only [hE]
  split_ifs <;>
    simp [ctf_enumerator_list_visit_signed_loop, ctf_enumerator_list_visit_unsigned_loop]

/-- The ends of the range of an enumerator are the first and the last constant
of its value list. -/
theorem enumerator_range_ends (signed : Bool) (id : Option String) (values : List ctf_node)
    (entry : enum_range × GQuark)
    (h : enumerator_range signed (.mk id values) = some entry) :
    entry.2 = g_quark_from_string id ∧
    first_constant signed values = some entry.1.start ∧
    last_constant signed values = some entry.1.last := by
  match values, h with
  | [], h => simp [enumerator_range] at h
  | [n1], h =>
    cases signed with
    | true =>
      cases h1 : signed_stored_value n1 with
      | none => simp [enumerator_range, h1] at h
      | some v =>
        simp only [enumerator_range, h1, if_true, Option.some.injEq] at h
        subst h
        simp [first_constant, last_constant, h1, enum_range.start, enum_range.last]
    | false =>
      cases h1 : unsigned_container_value n1 with
      | none => simp [enumerator_range, h1] at h
      | some v =>
        simp only [enumerator_range, h1, Bool.false_eq_true, if_false, Option.some.injEq] at h
        subst h
        simp [first_constant, last_constant, h1, enum_range.start, enum_range.last]
  | [n1, n2], h =>
    cases signed with
    | true =>
      cases h1 : signed_stored_value n1 with
      | none => simp [enumerator_range, h1] at h
      | some a =>
        cases h2 : signed_stored_value n2 with
        | none => simp [enumerator_range, h1, h2] at h
        | some b =>
          simp only [enumerator_range, h1, h2, if_true, Option.some.injEq] at h
          subst h
          simp [first_constant, last_constant, h1, h2, enum_range.start, enum_range.last]
    | false =>
      cases h1 : unsigned_container_value n1 with
      | none => simp [enumerator_range, h1] at h
      | some a =>
        cases h2 : unsigned_container_value n2 with
        | none => simp [enumerator_range, h1, h2] at h
        | some b =>
          simp only [enumerator_range, h1, h2, Bool.false_eq_true, if_false,
            Option.some.injEq] at h
          subst h
          simp [first_constant, last_constant, h1, h2, enum_range.start, enum_range.last]
  | _ :: _ :: _ :: _, h => simp [enumerator_range] at h

/-- C36: what the code does. In an enum whose container is an integer, a range
that `ctf_enumerator_list_visit` inserts and returns 0 for has the name of the
enumerator, its start is the first constant of the value list and its end the
last one, as the container stores them. For an enumerator whose value list is
empty the call does not leave the enum without a range: the value loop assigns
neither `start` nor `end`, `nr_vals` is 0, and the insert is called with the
two locals that were never assigned. -/
theorem empty_value_list_reads_unassigned_ends (id : Option String) (E : declaration_enum)
    (len : Nat) (bo sg : Int) (al : Nat)
    (hE : E.integer_declaration = declaration.integer len bo sg al) :
    (∀ values E1, ctf_enumerator_list_visit (.mk id values) E = .ok (0, E1) →
      ∃ r, E1 = ⟨E.integer_declaration, E.table ++ [(r, g_quark_from_string id)]⟩ ∧
        first_constant (decide (sg ≠ 0)) values = some r.start ∧
        last_constant (decide (sg ≠ 0)) values = some r.last) ∧
    ctf_enumerator_list_visit (.mk id []) E = .error Fault.uninit_read := by
  refine ⟨?_, enumerator_visit_empty id E len bo sg al hE⟩
  intro values E1 h
  obtain ⟨entry, hentry, hE1⟩ := enumerator_visit_inv (.mk id values) E E1 len bo sg al hE h
  obtain ⟨hq, hfirst, hlast⟩ := enumerator_range_ends _ id values entry hentry
  obtain ⟨r, q⟩ := entry
  simp only at hq
  subst hq
  exact ⟨r, hE1, hfirst, hlast⟩

theorem empty_value_list_reads_unassigned_ends_witness :
    (∀ values E1,
      ctf_enumerator_list_visit (.mk (some "IDLE") values) (enum_declaration_new uint8_declaration)
        = .ok (0, E1) →
      ∃ r, E1 = ⟨(enum_declaration_new uint8_declaration).integer_declaration,
          (enum_declaration_new uint8_declaration).table
            ++ [(r, g_quark_from_string (some "IDLE"))]⟩ ∧
        first_constant (decide ((0 : Int) ≠ 0)) values = some r.start ∧
        last_constant (decide ((0 : Int) ≠ 0)) values = some r.last) ∧
    ctf_enumerator_list_visit (.mk (some "IDLE") []) (enum_declaration_new uint8_declaration)
      = .error Fault.uninit_read :=
  empty_value_list_reads_unassigned_ends (some "IDLE") (enum_declaration_new uint8_declaration)
    8 1234 0 8 rfl

/-! ## C34: an unsigned constant in a signed container -/

theorem to_int64_of_small (u : Nat) (h : u < 2 ^ 63) : to_int64 (u : Int) = (u : Int) := by
  have h1 : (u : Int) < 2 ^ 63 := by exact_mod_cast h
  unfold to_int64
  omega

theorem to_int64_of_large (u : Nat) (h1 : 2 ^ 63 ≤ u) (h2 : u < 2 ^ 64) :
    to_int64 (u : Int) = (u : Int) - 2 ^ 64 := by
  have h3 : (2 : Int) ^ 63 ≤ (u : Int) := by exact_mod_cast h1
  have h4 : (u : Int) < 2 ^ 64 := by exact_mod_cast h2
  unfold to_int64
  omega

/-- An enumerator of a signed container whose value is one unsigned constant. -/
theorem enumerator_visit_signed_unsigned_value (id : Option String) (E : declaration_enum)
    (len : Nat) (bo sg : Int) (al : Nat)
    (hE : E.integer_declaration = declaration.integer len bo sg al) (hsg : sg ≠ 0) (u : Nat) :
    ctf_enumerator_list_visit (.mk id [unsigned_value u]) E
      = .ok (0, ⟨E.integer_declaration,
          E.table ++ [(enum_range.signed (to_int64 u) (to_int64 u),
            g_quark_from_string id)]⟩) := by
  rw [enumerator_visit_signed id _ E len bo sg al hE hsg
    (by intro n hn; simp only [List.mem_singleton] at hn; subst hn; trivial) (by simp)]
  simp [enumerator_range, signed_stored_value, unsigned_value, unary_node]

/-- An enumerator of a signed container whose values are two unsigned
constants. -/
theorem enumerator_visit_signed_unsigned_values (id : Option String) (E : declaration_enum)
    (len : Nat) (bo sg : Int) (al : Nat)
    (hE : E.integer_declaration = declaration.integer len bo sg al) (hsg : sg ≠ 0)
    (u w : Nat) :
    ctf_enumerator_list_visit (.mk id [unsigned_value u, unsigned_value w]) E
      = .ok (0, ⟨E.integer_declaration,
          E.table ++ [(enum_range.signed (to_int64 u) (to_int64 w),
            g_quark_from_string id)]⟩) := by
  rw [enumerator_visit_signed id _ E len bo sg al hE hsg
    (by
      intro n hn
      simp only [List.mem_cons, List.mem_singleton, List.not_mem_nil, or_false] at hn
      rcases hn with rfl | rfl <;> trivial)
    (by simp)]
  simp [enumerator_range, signed_stored_value, unsigned_value, unary_node]

/-- C34, as stated, fails: in an enum over a signed 64-bit integer the
enumerator `X = 9223372036854775808`, whose value is the unsigned constant
`2^63`, inserts the range `[-2^63, -2^63]`: the endpoint is not `2^63`. -/
theorem unsigned_constant_above_int64_is_stored_negative :
    ctf_enumerator_list_visit (.mk (some "X") [unsigned_value (2 ^ 63)])
        (enum_declaration_new int64_declaration)
      = .ok (0, ⟨int64_declaration,
          [(enum_range.signed (-(2 ^ 63)) (-(2 ^ 63)), GQuark.of "X")]⟩) ∧
    (enum_range.signed (-(2 ^ 63)) (-(2 ^ 63))).start ≠ ((2 ^ 63 : Nat) : Int) :=
  ⟨(enumerator_visit_signed_unsigned_value (some "X") (enum_declaration_new int64_declaration)
      64 1234 1 64 rfl (by decide) (2 ^ 63)).trans
      (by
        rw [to_int64_of_large (2 ^ 63) (le_refl _) (by norm_num)]
        norm_num [enum_declaration_new, g_quark_from_string]),
    by simp [enum_range.start]⟩

/-- C34, amended. With a signed container, an unsigned constant `u` in an
enumerator is converted to `int64_t`: for every `u` in `[0, 2^64)` the
enumerator with the value `u` inserts the range whose two ends are the
converted `u`, and the enumerator with the values `u ... w` the range from the
converted `u` to the converted `w`; the converted `u`, read as an integer,
equals `u` for `u` in `[0, 2^63)` and `u - 2^64` for `u` in `[2^63, 2^64)`. -/
theorem unsigned_constant_is_converted_to_int64 (id : Option String) (E : declaration_enum)
    (len : Nat) (bo sg : Int) (al : Nat)
    (hE : E.integer_declaration = declaration.integer len bo sg al) (hsg : sg ≠ 0)
    (u : Nat) (hu : u < 2 ^ 64) :
    ctf_enumerator_list_visit (.mk id [unsigned_value u]) E
      = .ok (0, ⟨E.integer_declaration,
          E.table ++ [(enum_range.signed (to_int64 u) (to_int64 u),
            g_quark_from_string id)]⟩) ∧
    (∀ w, w < 2 ^ 64 →
      ctf_enumerator_list_visit (.mk id [unsigned_value u, unsigned_value w]) E
        = .ok (0, ⟨E.integer_declaration,
            E.table ++ [(enum_range.signed (to_int64 u) (to_int64 w),
              g_quark_from_string id)]⟩)) ∧
    (u < 2 ^ 63 → to_int64 (u : Int) = (u : Int)) ∧
    (2 ^ 63 ≤ u → to_int64 (u : Int) = (u : Int) - 2 ^ 64) :=
  ⟨enumerator_visit_signed_unsigned_value id E len bo sg al hE hsg u,
    fun w _ => enumerator_visit_signed_unsigned_values id E len bo sg al hE hsg u w,
    to_int64_of_small u,
    fun h => to_int64_of_large u h hu⟩

theorem unsigned_constant_is_converted_to_int64_witness :
    (255 : Nat) < 2 ^ 64 ∧
    ctf_enumerator_list_visit (.mk (some "ERR") [unsigned_value 255])
        (enum_declaration_new int64_declaration)
      = .ok (0, ⟨(enum_declaration_new int64_declaration).integer_declaration,
          (enum_declaration_new int64_declaration).table
            ++ [(enum_range.signed (to_int64 (255 : Nat)) (to_int64 (255 : Nat)),
              g_quark_from_string (some "ERR"))]⟩) ∧
    to_int64 ((255 : Nat) : Int) = ((255 : Nat) : Int) :=
  have h := unsigned_constant_is_converted_to_int64 (some "ERR")
    (enum_declaration_new int64_declaration) 64 1234 1 64 rfl (by decide) 255 (by norm_num)
  ⟨by norm_num, h.1, h.2.2.1 (by norm_num)⟩

/-! ## Nested declarators -/

/-- A declarator whose inner declaration is not obtained (the alias of a
pointer declarator is not found) returns NULL, whatever its type. -/
theorem type_declarator_visit_inner_null (declaration_specifier : List ctf_node)
    (field_name : Option GQuark) (node : type_declarator)
    (scope : declaration_scope) (nested : Option declaration) (trace : ctf_trace)
    (hnode : ∀ pointers bitfield_len, node ≠ .TYPEDEC_UNKNOWN pointers bitfield_len)
    (hinner : ctf_type_declarator_visit_inner declaration_specifier (some node) scope nested
      trace = .ok none) :
    ctf_type_declarator_visit declaration_specifier field_name (some node) scope nested trace
      = .ok (none, field_name, scope) := by
  cases node with
  | TYPEDEC_UNKNOWN pointers bitfield_len => exact absurd rfl (hnode pointers bitfield_len)
  | TYPEDEC_ID pointers bitfield_len id =>
    rw [ctf_type_declarator_visit]
    split_ifs
    · rfl
    · simp [hinner]
  | TYPEDEC_NESTED pointers bitfield_len sub length =>
    rw [ctf_type_declarator_visit]
    split_ifs
    · rfl
    · simp [hinner]

/-- The inner declaration of a pointer declarator whose alias is not found. -/
theorem type_declarator_visit_inner_pointer_unknown (declaration_specifier : List ctf_node)
    (node : type_declarator) (scope : declaration_scope) (trace : ctf_trace)
    (hptr : node.pointers ≠ [])
    (hlookup : lookup_declaration (create_typealias_identifier declaration_specifier node)
      scope = none) :
    ctf_type_declarator_visit_inner declaration_specifier (some node) scope none trace
      = .ok none := by
  rw [ctf_type_declarator_visit_inner]
  simp [hptr, hlookup]

/-- A nested declarator with an empty length list returns NULL. -/
theorem type_declarator_visit_nested_empty (declaration_specifier : List ctf_node)
    (field_name : Option GQuark) (pointers : List ctf_pointer) (sub : Option type_declarator)
    (scope scope1 : declaration_scope) (nested0 nested : Option declaration)
    (trace : ctf_trace)
    (hinner : ctf_type_declarator_visit_inner declaration_specifier
      (some (.TYPEDEC_NESTED pointers none sub [])) scope nested0 trace
      = .ok (some (nested, scope1))) :
    ctf_type_declarator_visit declaration_specifier field_name
      (some (.TYPEDEC_NESTED pointers none sub [])) scope nested0 trace
      = .ok (none, field_name, scope1) := by
  rw [ctf_type_declarator_visit]
  simp [hinner, first_or_null]

/-- A nested declarator whose first length node is a unary expression other
than an unsigned constant returns NULL. -/
theorem type_declarator_visit_nested_other_unary (declaration_specifier : List ctf_node)
    (field_name : Option GQuark) (pointers : List ctf_pointer) (sub : Option type_declarator)
    (first : ctf_node) (more : List ctf_node)
    (scope scope1 : declaration_scope) (nested0 nested : Option declaration)
    (trace : ctf_trace) (hfirst : is_other_unary first)
    (hinner : ctf_type_declarator_visit_inner declaration_specifier
      (some (.TYPEDEC_NESTED pointers none sub (first :: more))) scope nested0 trace
      = .ok (some (nested, scope1))) :
    ctf_type_declarator_visit declaration_specifier field_name
      (some (.TYPEDEC_NESTED pointers none sub (first :: more))) scope nested0 trace
      = .ok (none, field_name, scope1) := by
  rw [ctf_type_declarator_visit]
  cases first with
  | NODE_UNARY_EXPRESSION type k =>
    cases type <;> first
      | (simp [is_other_unary] at hfirst; done)
      | simp [hinner, first_or_null]
  | _ => exact absurd hfirst (by simp [is_other_unary])

/-- A nested declarator whose first length node is an unsigned constant builds
an array of the inner declaration; a NULL inner declaration is handed to
`array_declaration_new` as it is. -/
theorem type_declarator_visit_nested_array_null (declaration_specifier : List ctf_node)
    (field_name : Option GQuark) (pointers : List ctf_pointer) (sub : Option type_declarator)
    (first : ctf_node) (more : List ctf_node)
    (scope scope1 : declaration_scope) (nested0 : Option declaration)
    (trace : ctf_trace) (hfirst : is_array_length first)
    (hinner : ctf_type_declarator_visit_inner declaration_specifier
      (some (.TYPEDEC_NESTED pointers none sub (first :: more))) scope nested0 trace
      = .ok (some (none, scope1))) :
    ctf_type_declarator_visit declaration_specifier field_name
      (some (.TYPEDEC_NESTED pointers none sub (first :: more))) scope nested0 trace
      = .error Fault.null_deref := by
  rw [ctf_type_declarator_visit]
  cases first with
  | NODE_UNARY_EXPRESSION type k =>
    cases type <;> first
      | (simp [is_array_length] at hfirst; done)
      | simp [hinner, first_or_null, array_declaration_new]
  | _ => exact absurd hfirst (by simp [is_array_length])

/-- A nested declarator whose first length node is an integer or a type
specifier, and whose length list resolves to an integer declaration, builds a
sequence of the inner declaration and goes on with its sub-declarator. -/
theorem type_declarator_visit_nested_sequence (declaration_specifier : List ctf_node)
    (field_name dummy_id : Option GQuark) (pointers : List ctf_pointer)
    (sub : Option type_declarator) (first : ctf_node) (more : List ctf_node)
    (scope scope1 scope2 : declaration_scope) (nested0 : Option declaration)
    (trace : ctf_trace) (T I : declaration) (hfirst : is_length_type first)
    (hinner : ctf_type_declarator_visit_inner declaration_specifier
      (some (.TYPEDEC_NESTED pointers none sub (first :: more))) scope nested0 trace
      = .ok (some (some T, scope1)))
    (hI : ctf_type_declarator_visit (first :: more) none none scope1 none trace
      = .ok (some I, dummy_id, scope2))
    (hid : I.id = ctf_type_id.CTF_TYPE_INTEGER) :
    ctf_type_declarator_visit declaration_specifier field_name
      (some (.TYPEDEC_NESTED pointers none sub (first :: more))) scope nested0 trace
      = ctf_type_declarator_visit declaration_specifier field_name sub scope2
          (some (declaration.sequence I T)) trace := by
  rcases hfirst with ⟨e, rfl⟩ | ⟨t, i, rfl⟩
  · rw [ctf_type_declarator_visit]
    simp [hinner, first_or_null, hI, hid, sequence_declaration_new]
  · rw [ctf_type_declarator_visit]
    simp [hinner, first_or_null, hI, hid, sequence_declaration_new]

/-- The same over a NULL inner declaration: it is handed to
`sequence_declaration_new` as it is. -/
theorem type_declarator_visit_nested_sequence_null (declaration_specifier : List ctf_node)
    (field_name dummy_id : Option GQuark) (pointers : List ctf_pointer)
    (sub : Option type_declarator) (first : ctf_node) (more : List ctf_node)
    (scope scope1 scope2 : declaration_scope) (nested0 : Option declaration)
    (trace : ctf_trace) (I : declaration) (hfirst : is_length_type first)
    (hinner : ctf_type_declarator_visit_inner declaration_specifier
      (some (.TYPEDEC_NESTED pointers none sub (first :: more))) scope nested0 trace
      = .ok (some (none, scope1)))
    (hI : ctf_type_declarator_visit (first :: more) none none scope1 none trace
      = .ok (some I, dummy_id, scope2))
    (hid : I.id = ctf_type_id.CTF_TYPE_INTEGER) :
    ctf_type_declarator_visit declaration_specifier field_name
      (some (.TYPEDEC_NESTED pointers none sub (first :: more))) scope nested0 trace
      = .error Fault.null_deref := by
  rcases hfirst with ⟨e, rfl⟩ | ⟨t, i, rfl⟩
  · rw [ctf_type_declarator_visit]
    simp [hinner, first_or_null, hI, hid, sequence_declaration_new]
  · rw [ctf_type_declarator_visit]
    simp [hinner, first_or_null, hI, hid, sequence_declaration_new]

/-- A length list that resolves to a declaration of another kind than integer
fails the assertion on the kind of the length type. -/
theorem type_declarator_visit_nested_not_integer (declaration_specifier : List ctf_node)
    (field_name dummy_id : Option GQuark) (pointers : List ctf_pointer)
    (sub : Option type_declarator) (first : ctf_node) (more : List ctf_node)
    (scope scope1 scope2 : declaration_scope) (nested0 nested : Option declaration)
    (trace : ctf_trace) (D : declaration) (hfirst : is_length_type first)
    (hinner : ctf_type_declarator_visit_inner declaration_specifier
      (some (.TYPEDEC_NESTED pointers none sub (first :: more))) scope nested0 trace
      = .ok (some (nested, scope1)))
    (hD : ctf_type_declarator_visit (first :: more) none none scope1 none trace
      = .ok (some D, dummy_id, scope2))
    (hid : D.id ≠ ctf_type_id.CTF_TYPE_INTEGER) :
    ctf_type_declarator_visit declaration_specifier field_name
      (some (.TYPEDEC_NESTED pointers none sub (first :: more))) scope nested0 trace
      = .error Fault.assert_failed := by
  rcases hfirst with ⟨e, rfl⟩ | ⟨t, i, rfl⟩
  · rw [ctf_type_declarator_visit]
    simp [hinner, first_or_null, hD, hid]
  · rw [ctf_type_declarator_visit]
    simp [hinner, first_or_null, hD, hid]

/-- A length list that does not resolve: the assertion on the kind of the
length type reads the NULL declaration. -/
theorem type_declarator_visit_nested_unresolved (declaration_specifier : List ctf_node)
    (field_name dummy_id : Option GQuark) (pointers : List ctf_pointer)
    (sub : Option type_declarator) (first : ctf_node) (more : List ctf_node)
    (scope scope1 scope2 : declaration_scope) (nested0 nested : Option declaration)
    (trace : ctf_trace) (hfirst : is_length_type first)
    (hinner : ctf_type_declarator_visit_inner declaration_specifier
      (some (.TYPEDEC_NESTED pointers none sub (first :: more))) scope nested0 trace
      = .ok (some (nested, scope1)))
    (hD : ctf_type_declarator_visit (first :: more) none none scope1 none trace
      = .ok (none, dummy_id, scope2)) :
    ctf_type_declarator_visit declaration_specifier field_name
      (some (.TYPEDEC_NESTED pointers none sub (first :: more))) scope nested0 trace
      = .error Fault.null_deref := by
  rcases hfirst with ⟨e, rfl⟩ | ⟨t, i, rfl⟩
  · rw [ctf_type_declarator_visit]
    simp [hinner, first_or_null, hD]
  · rw [ctf_type_declarator_visit]
    simp [hinner, first_or_null, hD]

/-- A first length node that is no unary expression, no integer and no type
specifier fails the `assert(0)` of the switch on its type. -/
theorem type_declarator_visit_nested_other_first (declaration_specifier : List ctf_node)
    (field_name : Option GQuark) (pointers : List ctf_pointer)
    (sub : Option type_declarator) (first : ctf_node) (more : List ctf_node)
    (scope scope1 : declaration_scope) (nested0 nested : Option declaration)
    (trace : ctf_trace) (h1 : ¬ is_unary first) (h2 : ¬ is_length_type first)
    (hinner : ctf_type_declarator_visit_inner declaration_specifier
      (some (.TYPEDEC_NESTED pointers none sub (first :: more))) scope nested0 trace
      = .ok (some (nested, scope1))) :
    ctf_type_declarator_visit declaration_specifier field_name
      (some (.TYPEDEC_NESTED pointers none sub (first :: more))) scope nested0 trace
      = .error Fault.assert_failed := by
  rw [ctf_type_declarator_visit]
  cases first with
  | NODE_UNARY_EXPRESSION type k => exact absurd trivial h1
  | NODE_INTEGER e => exact absurd (Or.inl ⟨e, rfl⟩) h2
  | NODE_TYPE_SPECIFIER t i => exact absurd (Or.inr ⟨t, i, rfl⟩) h2
  | _ => simp [hinner, first_or_null]

/-- What a nested declarator with a length type has gone through when the
resolver returns a declaration. -/
theorem type_declarator_visit_nested_sequence_inv (declaration_specifier : List ctf_node)
    (field_name field_name1 : Option GQuark) (pointers : List ctf_pointer)
    (sub : Option type_declarator) (first : ctf_node) (more : List ctf_node)
    (scope scope3 : declaration_scope) (nested0 : Option declaration)
    (trace : ctf_trace) (d : declaration) (hfirst : is_length_type first)
    (h : ctf_type_declarator_visit declaration_specifier field_name
      (some (.TYPEDEC_NESTED pointers none sub (first :: more))) scope nested0 trace
      = .ok (some d, field_name1, scope3)) :
    ∃ T scope1 I dummy_id scope2,
      ctf_type_declarator_visit_inner declaration_specifier
        (some (.TYPEDEC_NESTED pointers none sub (first :: more))) scope nested0 trace
        = .ok (some (some T, scope1)) ∧
      ctf_type_declarator_visit (first :: more) none none scope1 none trace
        = .ok (some I, dummy_id, scope2) ∧
      I.id = ctf_type_id.CTF_TYPE_INTEGER ∧
      ctf_type_declarator_visit declaration_specifier field_name sub scope2
        (some (declaration.sequence I T)) trace = .ok (some d, field_name1, scope3) := by
  cases hinner : ctf_type_declarator_visit_inner declaration_specifier
      (some (.TYPEDEC_NESTED pointers none sub (first :: more))) scope nested0 trace with
  | error e =>
    rw [ctf_type_declarator_visit] at h
    simp [hinner] at h
  | ok r =>
    cases r with
    | none =>
      rw [type_declarator_visit_inner_null _ _ _ _ _ _ (by intro p b; simp) hinner] at h
      simp at h
    | some r =>
      obtain ⟨nested, scope1⟩ := r
      cases hD : ctf_type_declarator_visit (first :: more) none none scope1 none trace with
      | error e =>
        rw [ctf_type_declarator_visit] at h
        rcases hfirst with ⟨e, rfl⟩ | ⟨t, i, rfl⟩ <;> simp [hinner, first_or_null, hD] at h
      | ok r =>
        obtain ⟨D, dummy_id, scope2⟩ := r
        cases D with
        | none =>
          rw [type_declarator_visit_nested_unresolved _ _ _ _ _ _ _ _ _ _ _ _ _ hfirst hinner
            hD] at h
          cases h
        | some I =>
          by_cases hid : I.id = ctf_type_id.CTF_TYPE_INTEGER
          · cases nested with
            | none =>
              rw [type_declarator_visit_nested_sequence_null _ _ _ _ _ _ _ _ _ _ _ _ _ hfirst
                hinner hD hid] at h
              cases h
            | some T =>
              rw [type_declarator_visit_nested_sequence _ _ _ _ _ _ _ _ _ _ _ _ _ _ hfirst
                hinner hD hid] at h
              exact ⟨T, scope1, I, dummy_id, scope2, rfl, hD, hid, h⟩
          · rw [type_declarator_visit_nested_not_integer _ _ _ _ _ _ _ _ _ _ _ _ _ _ hfirst
              hinner hD hid] at h
            cases h

/-- A specifier list that is one type identifier is looked up under the quark
of that identifier. -/
theorem type_identifier_visit (id : String) (scope : declaration_scope) (trace : ctf_trace) :
    ctf_declaration_specifier_visit [.NODE_TYPE_SPECIFIER .TYPESPEC_ID_TYPE (some id)] scope
        trace
      = .ok (lookup_declaration (GQuark.of id) scope, scope) := by
  rw [specifier_visit_type_specifier]
  simp [ctf_declaration_type_specifier_visit, visit_declaration_specifier,
    visit_declaration_specifier_loop, declaration_specifier_text, g_quark_from_string]

/-- The inner declaration of a declarator without pointers over `uint8_t` in
`root_with_uint8`. -/
theorem uint8_t_inner (node : type_declarator) (hptr : node.pointers = []) :
    ctf_type_declarator_visit_inner uint8_t (some node) root_with_uint8 none le_trace
      = .ok (some (some uint8_declaration, root_with_uint8)) :=
  type_declarator_visit_inner_base uint8_t node root_with_uint8 root_with_uint8 le_trace
    (some uint8_declaration) hptr
    ((type_identifier_visit "uint8_t" root_with_uint8 le_trace).trans (by rw [lookup_uint8_t]))

/-- The sequence `uint8_t x[uint8_t]` in `root_with_uint8`. -/
theorem uint8_sequence_resolves :
    ctf_type_declarator_visit uint8_t none (some (length_declarator "x" uint8_t))
        root_with_uint8 none le_trace
      = .ok (some (declaration.sequence uint8_declaration uint8_declaration),
          some (GQuark.of "x"), root_with_uint8) :=
  (type_declarator_visit_nested_sequence uint8_t none none [] _ _ [] root_with_uint8
    root_with_uint8 root_with_uint8 none le_trace uint8_declaration uint8_declaration
    (Or.inr ⟨_, _, rfl⟩) (uint8_t_inner _ rfl)
    ((type_identifier_resolves "uint8_t" root_with_uint8 le_trace).trans
      (by rw [lookup_uint8_t]))
    rfl).trans
    (type_declarator_visit_id uint8_t none [] (some "x") root_with_uint8 _ le_trace)

/-! ## C35: the length type of a sequence -/

/-- C35, as stated, fails: for `uint8_t x[str_t]`, where `str_t` is an alias
of a string declaration, `ctf_type_declarator_visit` does not return NULL to
its caller: its assertion on the kind of the length type fails. -/
theorem sequence_over_string_length_fails_assertion :
    ctf_type_declarator_visit uint8_t none (some (length_declarator "x" str_t))
        root_with_uint8 none le_trace
      = .error Fault.assert_failed :=
  type_declarator_visit_nested_not_integer uint8_t none none [] _ _ [] root_with_uint8
    root_with_uint8 root_with_uint8 none (some uint8_declaration) le_trace
    (declaration.string .CTF_STRING_UTF8) (Or.inr ⟨_, _, rfl⟩) (uint8_t_inner _ rfl)
    ((type_identifier_resolves "str_t" root_with_uint8 le_trace).trans (by rw [lookup_str_t]))
    (by simp [declaration.id])

/-- The length type `undefined_t` is no alias in `root_with_uint8`: the
resolver returns NULL for it and the assertion on the kind of the length type
dereferences that NULL. -/
theorem sequence_over_undefined_length_dereferences_null :
    ctf_type_declarator_visit uint8_t none (some (length_declarator "x" undefined_t))
        root_with_uint8 none le_trace
      = .error Fault.null_deref :=
  type_declarator_visit_nested_unresolved uint8_t none none [] _ _ [] root_with_uint8
    root_with_uint8 root_with_uint8 none (some uint8_declaration) le_trace
    (Or.inr ⟨_, _, rfl⟩) (uint8_t_inner _ rfl)
    ((type_identifier_resolves "undefined_t" root_with_uint8 le_trace).trans
      (by rw [lookup_undefined_t]))

/-- C35, amended. For a nested declarator whose first length node is an
integer or a type-specifier node, `ctf_type_declarator_visit` returns a
declaration only when the length list resolves to a declaration of kind
integer, and what that node builds and hands to its sub-declarator is the
sequence of that integer over the inner declaration. When the inner
declaration is obtained and the length list is empty, or its first node is a
unary expression other than an unsigned constant, the resolver returns NULL.
When the length list resolves to a declaration of another kind, or its first
node is no unary expression, no integer and no type specifier, the resolver
does not return: the assertion on the kind of the length type, or the
`assert(0)` of the switch, fails. -/
theorem sequence_length_is_integer (declaration_specifier : List ctf_node)
    (field_name : Option GQuark) (pointers : List ctf_pointer)
    (sub : Option type_declarator) (length : List ctf_node)
    (scope : declaration_scope) (nested0 : Option declaration) (trace : ctf_trace) :
    (∀ first more d field_name1 scope3, length = first :: more → is_length_type first →
      ctf_type_declarator_visit declaration_specifier field_name
        (some (.TYPEDEC_NESTED pointers none sub length)) scope nested0 trace
        = .ok (some d, field_name1, scope3) →
      ∃ T scope1 I dummy_id scope2,
        ctf_type_declarator_visit_inner declaration_specifier
          (some (.TYPEDEC_NESTED pointers none sub length)) scope nested0 trace
          = .ok (some (some T, scope1)) ∧
        ctf_type_declarator_visit length none none scope1 none trace
          = .ok (some I, dummy_id, scope2) ∧
        I.id = ctf_type_id.CTF_TYPE_INTEGER ∧
        ctf_type_declarator_visit declaration_specifier field_name sub scope2
          (some (declaration.sequence I T)) trace = .ok (some d, field_name1, scope3)) ∧
    (∀ nested scope1,
      ctf_type_declarator_visit_inner declaration_specifier
        (some (.TYPEDEC_NESTED pointers none sub length)) scope nested0 trace
        = .ok (some (nested, scope1)) →
      (length = [] →
        ctf_type_declarator_visit declaration_specifier field_name
          (some (.TYPEDEC_NESTED pointers none sub length)) scope nested0 trace
          = .ok (none, field_name, scope1)) ∧
      (∀ first more, length = first :: more → is_other_unary first →
        ctf_type_declarator_visit declaration_specifier field_name
          (some (.TYPEDEC_NESTED pointers none sub length)) scope nested0 trace
          = .ok (none, field_name, scope1)) ∧
      (∀ first more D dummy_id scope2, length = first :: more → is_length_type first →
        ctf_type_declarator_visit length none none scope1 none trace
          = .ok (some D, dummy_id, scope2) →
        D.id ≠ ctf_type_id.CTF_TYPE_INTEGER →
        ctf_type_declarator_visit declaration_specifier field_name
          (some (.TYPEDEC_NESTED pointers none sub length)) scope nested0 trace
          = .error Fault.assert_failed) ∧
      (∀ first more, length = first :: more → ¬ is_unary first → ¬ is_length_type first →
        ctf_type_declarator_visit declaration_specifier field_name
          (some (.TYPEDEC_NESTED pointers none sub length)) scope nested0 trace
          = .error Fault.assert_failed)) := by
  refine ⟨?_, ?_⟩
  · intro first more d field_name1 scope3 hl hfirst h
    subst hl
    exact type_declarator_visit_nested_sequence_inv declaration_specifier field_name
      field_name1 pointers sub first more scope scope3 nested0 trace d hfirst h
  · intro nested scope1 hinner
    refine ⟨?_, ?_, ?_, ?_⟩
    · intro hl
      subst hl
      exact type_declarator_visit_nested_empty declaration_specifier field_name pointers sub
        scope scope1 nested0 nested trace hinner
    · intro first more hl hfirst
      subst hl
      exact type_declarator_visit_nested_other_unary declaration_specifier field_name pointers
        sub first more scope scope1 nested0 nested trace hfirst hinner
    · intro first more D dummy_id scope2 hl hfirst hD hid
      subst hl
      exact type_declarator_visit_nested_not_integer declaration_specifier field_name dummy_id
        pointers sub first more scope scope1 scope2 nested0 nested trace D hfirst hinner hD hid
    · intro first more hl h1 h2
      subst hl
      exact type_declarator_visit_nested_other_first declaration_specifier field_name pointers
        sub first more scope scope1 nested0 nested trace h1 h2 hinner

theorem sequence_length_is_integer_witness :
    (∃ T scope1 I dummy_id scope2,
      ctf_type_declarator_visit_inner uint8_t (some (length_declarator "x" uint8_t))
        root_with_uint8 none le_trace = .ok (some (some T, scope1)) ∧
      ctf_type_declarator_visit uint8_t none none scope1 none le_trace
        = .ok (some I, dummy_id, scope2) ∧
      I.id = ctf_type_id.CTF_TYPE_INTEGER ∧
      ctf_type_declarator_visit uint8_t none (some (.TYPEDEC_ID [] none (some "x"))) scope2
        (some (declaration.sequence I T)) le_trace
        = .ok (some (declaration.sequence uint8_declaration uint8_declaration),
            some (GQuark.of "x"), root_with_uint8)) ∧
    ctf_type_declarator_visit uint8_t none (some (length_declarator "x" []))
        root_with_uint8 none le_trace = .ok (none, none, root_with_uint8) ∧
    ctf_type_declarator_visit uint8_t none
        (some (length_declarator "x" [unary_node (.UNARY_STRING "n")]))
        root_with_uint8 none le_trace = .ok (none, none, root_with_uint8) ∧
    ctf_type_declarator_visit uint8_t none (some (length_declarator "x" str_t))
        root_with_uint8 none le_trace = .error Fault.assert_failed ∧
    ctf_type_declarator_visit uint8_t none (some (length_declarator "x" [.NODE_STRING []]))
        root_with_uint8 none le_trace = .error Fault.assert_failed :=
  ⟨(sequence_length_is_integer uint8_t none [] (some (.TYPEDEC_ID [] none (some "x")))
      uint8_t root_with_uint8 none le_trace).1 _ [] _ _ _ rfl (Or.inr ⟨_, _, rfl⟩)
      uint8_sequence_resolves,
    ((sequence_length_is_integer uint8_t none [] (some (.TYPEDEC_ID [] none (some "x")))
      [] root_with_uint8 none le_trace).2 _ _ (uint8_t_inner _ rfl)).1 rfl,
    ((sequence_length_is_integer uint8_t none [] (some (.TYPEDEC_ID [] none (some "x")))
      [unary_node (.UNARY_STRING "n")] root_with_uint8 none le_trace).2 _ _
      (uint8_t_inner _ rfl)).2.1 _ [] rfl trivial,
    ((sequence_length_is_integer uint8_t none [] (some (.TYPEDEC_ID [] none (some "x")))
      str_t root_with_uint8 none le_trace).2 _ _ (uint8_t_inner _ rfl)).2.2.1 _ []
      (declaration.string .CTF_STRING_UTF8) none root_with_uint8 rfl (Or.inr ⟨_, _, rfl⟩)
      ((type_identifier_resolves "str_t" root_with_uint8 le_trace).trans
        (by rw [lookup_str_t]))
      (by simp [declaration.id]),
    ((sequence_length_is_integer uint8_t none [] (some (.TYPEDEC_ID [] none (some "x")))
      [.NODE_STRING []] root_with_uint8 none le_trace).2 _ _ (uint8_t_inner _ rfl)).2.2.2 _ []
      rfl (by simp [is_unary]) (by simp [is_length_type])⟩

/-! ## C31: a base type that cannot be materialised -/

/-- C31: what the code does. When the alias of a pointer declarator is not
found, `ctf_type_declarator_visit` returns NULL for every declarator shape.
When the specifier visitor returns NULL, the resolver returns NULL without a
declarator and for an identifier declarator. For a nested declarator the NULL
inner declaration is not tested: with an unsigned constant as first length it
is handed to `array_declaration_new` as the element, and with a length type
that resolves to an integer to `sequence_declaration_new`; the resolver does
not return NULL to its caller. -/
theorem missing_base_reaches_array_and_sequence (declaration_specifier : List ctf_node)
    (field_name : Option GQuark) (scope : declaration_scope) (trace : ctf_trace) :
    (∀ node, (∀ pointers bitfield_len, node ≠ .TYPEDEC_UNKNOWN pointers bitfield_len) →
      node.pointers ≠ [] →
      lookup_declaration (create_typealias_identifier declaration_specifier node) scope
        = none →
      ctf_type_declarator_visit declaration_specifier field_name (some node) scope none trace
        = .ok (none, field_name, scope)) ∧
    (∀ scope1,
      ctf_declaration_specifier_visit declaration_specifier scope trace = .ok (none, scope1) →
      ctf_type_declarator_visit declaration_specifier field_name none scope none trace
        = .ok (none, field_name, scope1) ∧
      (∀ id, ctf_type_declarator_visit declaration_specifier field_name
          (some (.TYPEDEC_ID [] none id)) scope none trace
        = .ok (none, some (g_quark_from_string id), scope1)) ∧
      (∀ sub first more, is_array_length first →
        ctf_type_declarator_visit declaration_specifier field_name
          (some (.TYPEDEC_NESTED [] none sub (first :: more))) scope none trace
        = .error Fault.null_deref) ∧
      (∀ sub first more I dummy_id scope2, is_length_type first →
        ctf_type_declarator_visit (first :: more) none none scope1 none trace
          = .ok (some I, dummy_id, scope2) →
        I.id = ctf_type_id.CTF_TYPE_INTEGER →
        ctf_type_declarator_visit declaration_specifier field_name
          (some (.TYPEDEC_NESTED [] none sub (first :: more))) scope none trace
        = .error Fault.null_deref)) := by
  refine ⟨?_, ?_⟩
  · intro node hnode hptr hlookup
    exact type_declarator_visit_inner_null declaration_specifier field_name node scope none
      trace hnode
      (type_declarator_visit_inner_pointer_unknown declaration_specifier node scope trace hptr
        hlookup)
  · intro scope1 hT
    refine ⟨?_, ?_, ?_, ?_⟩
    · rw [type_declarator_visit_null_node, hT]
    · intro id
      exact type_declarator_visit_plain_id declaration_specifier field_name id scope scope1
        trace none hT
    · intro sub first more hfirst
      exact type_declarator_visit_nested_array_null declaration_specifier field_name [] sub
        first more scope scope1 none trace hfirst
        (type_declarator_visit_inner_base _ (.TYPEDEC_NESTED [] none sub (first :: more)) _ _ _
          _ rfl hT)
    · intro sub first more I dummy_id scope2 hfirst hI hid
      exact type_declarator_visit_nested_sequence_null declaration_specifier field_name
        dummy_id [] sub first more scope scope1 scope2 none trace I hfirst
        (type_declarator_visit_inner_base _ (.TYPEDEC_NESTED [] none sub (first :: more)) _ _ _
          _ rfl hT)
        hI hid

/-- The specifier `undefined_t` is no alias in `root_with_uint8`. -/
theorem undefined_t_visit :
    ctf_declaration_specifier_visit undefined_t root_with_uint8 le_trace
      = .ok (none, root_with_uint8) :=
  (type_identifier_visit "undefined_t" root_with_uint8 le_trace).trans
    (by rw [lookup_undefined_t])

theorem missing_base_reaches_array_and_sequence_witness :
    ctf_type_declarator_visit undefined_t none
        (some (.TYPEDEC_ID [⟨false⟩] none (some "x"))) empty_root none le_trace
      = .ok (none, none, empty_root) ∧
    ctf_type_declarator_visit undefined_t none (some (.TYPEDEC_ID [] none (some "x")))
        root_with_uint8 none le_trace
      = .ok (none, some (g_quark_from_string (some "x")), root_with_uint8) ∧
    ctf_type_declarator_visit undefined_t none
        (some (length_declarator "x" [unsigned_value 4])) root_with_uint8 none le_trace
      = .error Fault.null_deref ∧
    ctf_type_declarator_visit undefined_t none (some (length_declarator "x" uint8_t))
        root_with_uint8 none le_trace
      = .error Fault.null_deref :=
  ⟨(missing_base_reaches_array_and_sequence undefined_t none empty_root le_trace).1
      (.TYPEDEC_ID [⟨false⟩] none (some "x")) (by intro p b h; cases h)
      (by simp [type_declarator.pointers]) (lookup_declaration_empty_root _),
    ((missing_base_reaches_array_and_sequence undefined_t none root_with_uint8 le_trace).2
      root_with_uint8 undefined_t_visit).2.1 (some "x"),
    ((missing_base_reaches_array_and_sequence undefined_t none root_with_uint8 le_trace).2
      root_with_uint8 undefined_t_visit).2.2.1 _ (unsigned_value 4) [] trivial,
    ((missing_base_reaches_array_and_sequence undefined_t none root_with_uint8 le_trace).2
      root_with_uint8 undefined_t_visit).2.2.2 _ _ [] uint8_declaration none root_with_uint8
      (Or.inr ⟨_, _, rfl⟩)
      ((type_identifier_resolves "uint8_t" root_with_uint8 le_trace).trans
        (by rw [lookup_uint8_t]))
      rfl⟩

/-! ## C37: one named struct specifier with two declarators -/

/-- A specifier list that starts with a struct node is visited by the struct
builder. -/
theorem specifier_visit_struct (name : Option String) (body : List ctf_node)
    (has_body : Bool) (rest : List ctf_node) (scope : declaration_scope) (trace : ctf_trace) :
    ctf_declaration_specifier_visit (.NODE_STRUCT name body has_body :: rest) scope trace
      = ctf_declaration_struct_visit name body has_body scope trace := by
  rw [ctf_declaration_specifier_visit]

/-- A declarator of a struct field for which the resolver returns NULL: the
NULL declaration is handed to `struct_declaration_add_field`. -/
theorem struct_type_declarators_visit_null (struct_declaration : declaration_struct)
    (declaration_specifier : List ctf_node) (iter : type_declarator)
    (rest : List type_declarator) (enclosing scope1 : declaration_scope)
    (trace : ctf_trace) (field_name : Option GQuark) (q : GQuark)
    (h : ctf_type_declarator_visit declaration_specifier field_name (some iter)
      struct_declaration.scope none trace = .ok (none, some q, scope1)) :
    ctf_struct_type_declarators_visit struct_declaration declaration_specifier (iter :: rest)
      enclosing trace field_name = .error Fault.null_deref := by
  rw [ctf_struct_type_declarators_visit]
  simp [h, struct_declaration_add_field]

/-- A declarator of a struct field that resolves: the field is added and the
loop goes on with the scope the resolver left. -/
theorem struct_type_declarators_visit_cons (struct_declaration : declaration_struct)
    (declaration_specifier : List ctf_node) (iter : type_declarator)
    (rest : List type_declarator) (enclosing scope1 : declaration_scope)
    (trace : ctf_trace) (field_name : Option GQuark) (q : GQuark) (D : declaration)
    (h : ctf_type_declarator_visit declaration_specifier field_name (some iter)
      struct_declaration.scope none trace = .ok (some D, some q, scope1)) :
    ctf_struct_type_declarators_visit struct_declaration declaration_specifier (iter :: rest)
      enclosing trace field_name
    = ctf_struct_type_declarators_visit ⟨struct_declaration.fields ++ [(q, D)], scope1⟩
        declaration_specifier rest enclosing trace (some q) := by
  rw [ctf_struct_type_declarators_visit]
  simp [h, struct_declaration_add_field, g_quark_from_to_string]

/-- The lookup of a named struct finds the struct registered last under a name
the scope itself did not hold. -/
theorem lookup_struct_declaration_registered (q : GQuark) (D : declaration)
    (t s v e : List (GQuark × declaration)) (p : Option declaration_scope)
    (h : s.lookup q = none) :
    lookup_struct_declaration q (.mk t (s ++ [(q, D)]) v e p) = some D := by
  cases p <;> simp [lookup_struct_declaration, lookup_append_fresh q D s h, first_hit]

/-- C37: what the code does. For a struct field declaration whose specifier is
a named struct with a body that elaborates and whose name is not yet declared:
with one identifier declarator `a` the enclosing struct gets the field `a`
with that struct as its declaration, and the struct is registered once in the
scope of the enclosing struct. With two identifier declarators `a, b` the
specifier is visited again for `b`: the name is now declared, the struct
builder returns NULL, and that NULL declaration is handed to
`struct_declaration_add_field`; the enclosing struct does not get a field `b`. -/
theorem second_declarator_revisits_named_struct (n : String) (body : List ctf_node)
    (a b : Option String) (rest : List type_declarator)
    (fields : List (GQuark × declaration))
    (t s v e : List (GQuark × declaration)) (p : Option declaration_scope)
    (inner enclosing : declaration_scope) (results : List (GQuark × declaration))
    (trace : ctf_trace)
    (hname : lookup_struct_declaration (GQuark.of n) (.mk t s v e p) = none)
    (hres : body_resolves trace body (new_declaration_scope (some (.mk t s v e p)))
      results inner) :
    ctf_struct_type_declarators_visit ⟨fields, .mk t s v e p⟩
        [.NODE_STRUCT (some n) body true] [.TYPEDEC_ID [] none a] enclosing trace none
      = .ok (0, ⟨fields ++ [(g_quark_from_string a, declaration.struct results inner)],
          .mk t (s ++ [(GQuark.of n, declaration.struct results inner)]) v e p⟩) ∧
    ctf_struct_type_declarators_visit ⟨fields, .mk t s v e p⟩
        [.NODE_STRUCT (some n) body true]
        (.TYPEDEC_ID [] none a :: .TYPEDEC_ID [] none b :: rest) enclosing trace none
      = .error Fault.null_deref := by
  have hfirst : ctf_type_declarator_visit [.NODE_STRUCT (some n) body true] none
      (some (.TYPEDEC_ID [] none a)) (.mk t s v e p) none trace
      = .ok (some (declaration.struct results inner), some (g_quark_from_string a),
          .mk t (s ++ [(GQuark.of n, declaration.struct results inner)]) v e p) :=
    type_declarator_visit_plain_id _ none a _ _ trace _
      ((specifier_visit_struct (some n) body true [] _ trace).trans
        (struct_visit_named_of_resolves n body t s v e p inner trace results hname hres))
  have hl := lookup_struct_declaration_none_local _ _ hname
  simp only [declaration_scope.struct_declarations] at hl
  have hsecond : ctf_type_declarator_visit [.NODE_STRUCT (some n) body true]
      (some (g_quark_from_string a)) (some (.TYPEDEC_ID [] none b))
      (.mk t (s ++ [(GQuark.of n, declaration.struct results inner)]) v e p) none trace
      = .ok (none, some (g_quark_from_string b),
          .mk t (s ++ [(GQuark.of n, declaration.struct results inner)]) v e p) :=
    type_declarator_visit_plain_id _ _ b _ _ trace _
      ((specifier_visit_struct (some n) body true [] _ trace).trans
        (struct_visit_already_declared n body _ trace _
          (lookup_struct_declaration_registered (GQuark.of n) _ t s v e p hl)))
  refine ⟨?_, ?_⟩
  · rw [struct_type_declarators_visit_cons _ _ _ _ _ _ _ _ _ _ hfirst,
      ctf_struct_type_declarators_visit]
  · rw [struct_type_declarators_visit_cons _ _ _ _ _ _ _ _ _ _ hfirst]
    exact struct_type_declarators_visit_null _ _ _ _ _ _ _ _ _ hsecond

/-- The body of `struct foo { uint32_t x; }` elaborates in the inner scope of
a struct declared in `scope_in_root`. -/
theorem foo_body_resolves :
    body_resolves le_trace [uint32_field "x"] (new_declaration_scope (some scope_in_root))
      [(GQuark.of "x", uint32_declaration)] (new_declaration_scope (some scope_in_root)) :=
  uint32_fields_resolve ["x"] _ le_trace
    (by simp [scope_in_root, new_declaration_scope, root_with_uint32, lookup_declaration,
      first_hit, List.lookup])

theorem second_declarator_revisits_named_struct_witness :
    ctf_struct_type_declarators_visit ⟨[], scope_in_root⟩ struct_foo
        [.TYPEDEC_ID [] none (some "a")] scope_in_root le_trace none
      = .ok (0, ⟨[] ++ [(g_quark_from_string (some "a"), foo_declaration)],
          .mk [] ([] ++ [(GQuark.of "foo", foo_declaration)]) [] [] (some root_with_uint32)⟩) ∧
    ctf_struct_type_declarators_visit ⟨[], scope_in_root⟩ struct_foo
        [.TYPEDEC_ID [] none (some "a"), .TYPEDEC_ID [] none (some "b")] scope_in_root
        le_trace none
      = .error Fault.null_deref :=
  second_declarator_revisits_named_struct "foo" [uint32_field "x"] (some "a") (some "b") []
    [] [] [] [] [] (some root_with_uint32) (new_declaration_scope (some scope_in_root))
    scope_in_root [(GQuark.of "x", uint32_declaration)] le_trace
    (by simp [root_with_uint32, lookup_struct_declaration, first_hit])
    foo_body_resolves

/-! ## What a scope holds after a visit -/

@[refl]
theorem declaration_scope.holds_all.refl (scope : declaration_scope) :
    scope.holds_all scope :=
  ⟨rfl, fun _ _ h => h, fun _ _ h => h, fun _ _ h => h, fun _ _ h => h⟩

theorem declaration_scope.holds_all.trans {a b c : declaration_scope}
    (h2 : b.holds_all c) (h1 : a.holds_all b) : a.holds_all c :=
  ⟨h2.1.trans h1.1, fun q d h => h2.2.1 q d (h1.2.1 q d h),
    fun q d h => h2.2.2.1 q d (h1.2.2.1 q d h),
    fun q d h => h2.2.2.2.1 q d (h1.2.2.2.1 q d h),
    fun q d h => h2.2.2.2.2 q d (h1.2.2.2.2 q d h)⟩

/-- An entry of a map is still found after an entry is appended to the map. -/
theorem lookup_append_of_some (l l2 : List (GQuark × declaration)) (q : GQuark)
    (d : declaration) (h : l.lookup q = some d) : (l ++ l2).lookup q = some d := by
  rw [List.lookup_append, h]
  rfl

/-- An entry appended under a name that the map does not have is found under
that name. -/
theorem lookup_append_of_none (l : List (GQuark × declaration)) (q : GQuark)
    (d : declaration) (h : (l.lookup q).isSome = false) :
    (l ++ [(q, d)]).lookup q = some d := by
  rw [List.lookup_append]
  cases hl : l.lookup q with
  | some x => simp [hl] at h
  | none => simp [List.lookup]

theorem register_declaration_holds (q : GQuark) (d : Option declaration)
    (scope scope1 : declaration_scope) (ret : Int)
    (h : register_declaration q d scope = .ok (ret, scope1)) :
    scope.holds_all scope1 := by
  cases scope with
  | mk t s v e p =>
    simp only [register_declaration] at h
    split at h
    · simp only [Except.ok.injEq, Prod.mk.injEq] at h
      obtain ⟨_, rfl⟩ := h
      rfl
    · split at h
      · cases h
      · simp only [Except.ok.injEq, Prod.mk.injEq] at h
        obtain ⟨_, rfl⟩ := h
        exact ⟨rfl, fun q1 d1 h1 => lookup_append_of_some _ _ _ _ h1, fun _ _ h1 => h1,
          fun _ _ h1 => h1, fun _ _ h1 => h1⟩

theorem register_struct_declaration_holds (q : GQuark) (d : declaration)
    (scope scope1 : declaration_scope) (ret : Int)
    (h : register_struct_declaration q d scope = (ret, scope1)) :
    scope.holds_all scope1 := by
  cases scope with
  | mk t s v e p =>
    simp only [register_struct_declaration] at h
    split at h <;> simp only [Prod.mk.injEq] at h <;> obtain ⟨_, rfl⟩ := h
    · rfl
    · exact ⟨rfl, fun _ _ h1 => h1, fun q1 d1 h1 => lookup_append_of_some _ _ _ _ h1,
        fun _ _ h1 => h1, fun _ _ h1 => h1⟩

theorem register_variant_declaration_holds (q : GQuark) (d : declaration)
    (scope scope1 : declaration_scope) (ret : Int)
    (h : register_variant_declaration q d scope = (ret, scope1)) :
    scope.holds_all scope1 := by
  cases scope with
  | mk t s v e p =>
    simp only [register_variant_declaration] at h
    split at h <;> simp only [Prod.mk.injEq] at h <;> obtain ⟨_, rfl⟩ := h
    · rfl
    · exact ⟨rfl, fun _ _ h1 => h1, fun _ _ h1 => h1,
        fun q1 d1 h1 => lookup_append_of_some _ _ _ _ h1, fun _ _ h1 => h1⟩

theorem register_enum_declaration_holds (q : GQuark) (d : declaration)
    (scope scope1 : declaration_scope) (ret : Int)
    (h : register_enum_declaration q d scope = (ret, scope1)) :
    scope.holds_all scope1 := by
  cases scope with
  | mk t s v e p =>
    simp only [register_enum_declaration] at h
    split at h <;> simp only [Prod.mk.injEq] at h <;> obtain ⟨_, rfl⟩ := h
    · rfl
    · exact ⟨rfl, fun _ _ h1 => h1, fun _ _ h1 => h1, fun _ _ h1 => h1,
        fun q1 d1 h1 => lookup_append_of_some _ _ _ _ h1⟩

theorem register_enum_declaration_snd_holds (q : GQuark) (d : declaration)
    (scope : declaration_scope) :
    scope.holds_all (register_enum_declaration q d scope).2 :=
  register_enum_declaration_holds q d scope _ _ rfl

/-- The struct builder leaves every entry of its scope in it. -/
theorem struct_visit_holds (name : Option String) (declaration_list : List ctf_node)
    (has_body : Bool) (scope scope1 : declaration_scope) (trace : ctf_trace)
    (d : Option declaration)
    (h : ctf_declaration_struct_visit name declaration_list has_body scope trace
      = .ok (d, scope1)) :
    scope.holds_all scope1 := by
  rw [ctf_declaration_struct_visit.eq_def] at h
  repeat' split at h
  all_goals simp only [Except.ok.injEq, Prod.mk.injEq, reduceCtorEq] at h
  all_goals obtain ⟨_, rfl⟩ := h
  all_goals first
    | rfl
    | exact register_struct_declaration_holds _ _ _ _ _ (by assumption)

theorem variant_visit_untagged_holds (name : Option String) (declaration_list : List ctf_node)
    (has_body : Bool) (scope scope1 : declaration_scope) (trace : ctf_trace)
    (d : Option declaration)
    (h : ctf_declaration_variant_visit_untagged name declaration_list has_body scope trace
      = .ok (some (d, scope1))) :
    scope.holds_all scope1 := by
  rw [ctf_declaration_variant_visit_untagged.eq_def] at h
  repeat' split at h
  all_goals simp only [Except.ok.injEq, Option.some.injEq, Prod.mk.injEq, reduceCtorEq] at h
  all_goals obtain ⟨_, rfl⟩ := h
  all_goals first
    | rfl
    | exact register_variant_declaration_holds _ _ _ _ _ (by assumption)

/-- The variant builder leaves every entry of its scope in it. -/
theorem variant_visit_holds (name choice : Option String) (declaration_list : List ctf_node)
    (has_body : Bool) (scope scope1 : declaration_scope) (trace : ctf_trace)
    (d : Option declaration)
    (h : ctf_declaration_variant_visit name choice declaration_list has_body scope trace
      = .ok (d, scope1)) :
    scope.holds_all scope1 := by
  rw [ctf_declaration_variant_visit.eq_def] at h
  repeat' split at h
  all_goals simp only [Except.ok.injEq, Prod.mk.injEq, reduceCtorEq] at h
  all_goals obtain ⟨_, rfl⟩ := h
  all_goals first
    | rfl
    | exact variant_visit_untagged_holds _ _ _ _ _ _ _ (by assumption)

/-- The enum builder leaves every entry of its scope in it. -/
theorem enum_visit_holds (name : Option String) (container_type : List ctf_node)
    (enumerator_list : List ctf_enumerator)
    (has_body : Bool) (scope scope1 : declaration_scope) (trace : ctf_trace)
    (d : Option declaration)
    (h : ctf_declaration_enum_visit name container_type enumerator_list has_body scope trace
      = .ok (d, scope1)) :
    scope.holds_all scope1 := by
  rw [ctf_declaration_enum_visit.eq_def] at h
  repeat' split at h
  all_goals simp only [Except.ok.injEq, Prod.mk.injEq, reduceCtorEq] at h
  all_goals try obtain ⟨_, rfl⟩ := h
  all_goals try rfl
  all_goals
    have hs := type_declarator_visit_null_basic_scope _ _ _ _ _ _ _ _ (by assumption)
      (by first | exact Or.inl ⟨_, rfl⟩ | exact Or.inr ⟨_, _, rfl⟩) (by assumption)
    subst hs
    first
      | rfl
      | exact register_enum_declaration_snd_holds _ _ _
      | exact register_enum_declaration_holds _ _ _ _ _ (by assumption)

/-- The specifier visitor leaves every entry of its scope in it. -/
theorem specifier_visit_holds (head : List ctf_node)
    (scope scope1 : declaration_scope) (trace : ctf_trace) (d : Option declaration)
    (h : ctf_declaration_specifier_visit head scope trace = .ok (d, scope1)) :
    scope.holds_all scope1 := by
  rw [ctf_declaration_specifier_visit.eq_def] at h
  repeat' split at h
  all_goals try simp only [Except.ok.injEq, Prod.mk.injEq, reduceCtorEq] at h
  all_goals first
    | exact struct_visit_holds _ _ _ _ _ _ _ h
    | exact variant_visit_holds _ _ _ _ _ _ _ _ h
    | exact enum_visit_holds _ _ _ _ _ _ _ _ h
    | (obtain ⟨_, rfl⟩ := h; rfl)

/-- Lines 285-304 of the resolver leave every entry of the scope in it. -/
theorem type_declarator_visit_inner_holds (declaration_specifier : List ctf_node)
    (node : Option type_declarator) (scope scope1 : declaration_scope)
    (nested0 nested : Option declaration) (trace : ctf_trace)
    (h : ctf_type_declarator_visit_inner declaration_specifier node scope nested0 trace
      = .ok (some (nested, scope1))) :
    scope.holds_all scope1 := by
  rw [ctf_type_declarator_visit_inner.eq_def] at h
  repeat' split at h
  all_goals simp only [Except.ok.injEq, Option.some.injEq, Prod.mk.injEq, reduceCtorEq] at h
  all_goals first
    | (obtain ⟨_, rfl⟩ := h; rfl)
    | (subst h; exact specifier_visit_holds _ _ _ _ _ (by assumption))

/-- What a nested declarator has gone through when the resolver returns. -/
theorem type_declarator_visit_nested_inv (declaration_specifier : List ctf_node)
    (field_name field_name1 : Option GQuark) (pointers : List ctf_pointer)
    (sub : Option type_declarator) (length : List ctf_node)
    (scope scope3 : declaration_scope) (nested0 d : Option declaration) (trace : ctf_trace)
    (h : ctf_type_declarator_visit declaration_specifier field_name
      (some (.TYPEDEC_NESTED pointers none sub length)) scope nested0 trace
      = .ok (d, field_name1, scope3)) :
    (d = none ∧ field_name1 = field_name ∧ scope3 = scope) ∨
    ∃ nested scope1,
      ctf_type_declarator_visit_inner declaration_specifier
        (some (.TYPEDEC_NESTED pointers none sub length)) scope nested0 trace
        = .ok (some (nested, scope1)) ∧
      ((d = none ∧ field_name1 = field_name ∧ scope3 = scope1) ∨
        (∃ c T, nested = some T ∧
          ctf_type_declarator_visit declaration_specifier field_name sub scope1
            (some (declaration.array c T)) trace = .ok (d, field_name1, scope3)) ∨
        (∃ I dummy_id scope2 T, nested = some T ∧
          ctf_type_declarator_visit length none none scope1 none trace
            = .ok (some I, dummy_id, scope2) ∧
          ctf_type_declarator_visit declaration_specifier field_name sub scope2
            (some (declaration.sequence I T)) trace = .ok (d, field_name1, scope3))) := by
  cases hinner : ctf_type_declarator_visit_inner declaration_specifier
      (some (.TYPEDEC_NESTED pointers none sub length)) scope nested0 trace with
  | error e =>
    rw [ctf_type_declarator_visit] at h
    simp [hinner] at h
  | ok r =>
    cases r with
    | none =>
      rw [type_declarator_visit_inner_null _ _ _ _ _ _ (by intro p b; simp) hinner] at h
      simp only [Except.ok.injEq, Prod.mk.injEq] at h
      exact Or.inl ⟨h.1.symm, h.2.1.symm, h.2.2.symm⟩
    | some r =>
      obtain ⟨nested, scope1⟩ := r
      refine Or.inr ⟨nested, scope1, rfl, ?_⟩
      cases length with
      | nil =>
        rw [type_declarator_visit_nested_empty _ _ _ _ _ _ _ _ _ hinner] at h
        simp only [Except.ok.injEq, Prod.mk.injEq] at h
        exact Or.inl ⟨h.1.symm, h.2.1.symm, h.2.2.symm⟩
      | cons first more =>
        by_cases hu : is_unary first
        · by_cases ha : is_array_length first
          · cases nested with
            | none =>
              rw [type_declarator_visit_nested_array_null _ _ _ _ _ _ _ _ _ _ ha hinner] at h
              cases h
            | some T =>
              cases first with
              | NODE_UNARY_EXPRESSION type k =>
                cases type with
                | UNARY_UNSIGNED_CONSTANT c =>
                  rw [ctf_type_declarator_visit] at h
                  simp only [Option.isSome_none, Bool.false_eq_true, if_false, hinner,
                    first_or_null, array_declaration_new] at h
                  exact Or.inr (Or.inl ⟨c, T, rfl, h⟩)
                | _ => simp [is_array_length] at ha
              | _ => simp [is_unary] at hu
          · have ho : is_other_unary first := by
              cases first with
              | NODE_UNARY_EXPRESSION type k =>
                cases type <;> trivial
              | _ => simp [is_unary] at hu
            rw [type_declarator_visit_nested_other_unary _ _ _ _ _ _ _ _ _ _ _ ho hinner] at h
            simp only [Except.ok.injEq, Prod.mk.injEq] at h
            exact Or.inl ⟨h.1.symm, h.2.1.symm, h.2.2.symm⟩
        · by_cases hl : is_length_type first
          · cases hD : ctf_type_declarator_visit (first :: more) none none scope1 none
                trace with
            | error e =>
              rw [ctf_type_declarator_visit] at h
              rcases hl with ⟨e, rfl⟩ | ⟨t, i, rfl⟩ <;>
                simp [hinner, first_or_null, hD] at h
            | ok r =>
              obtain ⟨D, dummy_id, scope2⟩ := r
              cases D with
              | none =>
                rw [type_declarator_visit_nested_unresolved _ _ _ _ _ _ _ _ _ _ _ _ _ hl
                  hinner hD] at h
                cases h
              | some I =>
                by_cases hid : I.id = ctf_type_id.CTF_TYPE_INTEGER
                · cases nested with
                  | none =>
                    rw [type_declarator_visit_nested_sequence_null _ _ _ _ _ _ _ _ _ _ _ _ _
                      hl hinner hD hid] at h
                    cases h
                  | some T =>
                    rw [type_declarator_visit_nested_sequence _ _ _ _ _ _ _ _ _ _ _ _ _ _ hl
                      hinner hD hid] at h
                    exact Or.inr (Or.inr ⟨I, dummy_id, scope2, T, rfl, rfl, h⟩)
                · rw [type_declarator_visit_nested_not_integer _ _ _ _ _ _ _ _ _ _ _ _ _ _ hl
                    hinner hD hid] at h
                  cases h
          · rw [type_declarator_visit_nested_other_first _ _ _ _ _ _ _ _ _ _ _ hu hl
              hinner] at h
            cases h

/-- Without a declarator the resolver leaves every entry of the scope in it. -/
theorem type_declarator_visit_null_holds (declaration_specifier : List ctf_node)
    (field_name field_name1 : Option GQuark) (scope scope1 : declaration_scope)
    (nested0 d : Option declaration) (trace : ctf_trace)
    (h : ctf_type_declarator_visit declaration_specifier field_name none scope nested0 trace
      = .ok (d, field_name1, scope1)) :
    scope.holds_all scope1 := by
  rw [ctf_type_declarator_visit] at h
  split at h
  · cases h
  · simp only [Except.ok.injEq, Prod.mk.injEq] at h
    obtain ⟨_, _, rfl⟩ := h
    rfl
  · simp only [Except.ok.injEq, Prod.mk.injEq] at h
    obtain ⟨_, _, rfl⟩ := h
    exact type_declarator_visit_inner_holds _ _ _ _ _ _ _ (by assumption)

/-- The resolver leaves every entry of the scope in it: what it registers,
it registers in the scope it is given. -/
theorem type_declarator_visit_holds (declaration_specifier : List ctf_node)
    (trace : ctf_trace) (k : Nat) :
    ∀ (node : Option type_declarator), sizeOf node ≤ k →
      ∀ (field_name field_name1 : Option GQuark) (scope scope1 : declaration_scope)
        (nested0 d : Option declaration),
      ctf_type_declarator_visit declaration_specifier field_name node scope nested0 trace
        = .ok (d, field_name1, scope1) →
      scope.holds_all scope1 := by
  induction k with
  | zero =>
    intro node hk
    cases node <;> simp at hk
  | succ k ih =>
    intro node hk field_name field_name1 scope scope1 nested0 d h
    cases node with
    | none => exact type_declarator_visit_null_holds _ _ _ _ _ _ _ _ h
    | some n =>
      cases n with
      | TYPEDEC_UNKNOWN pointers bitfield_len =>
        rw [ctf_type_declarator_visit] at h
        cases h
      | TYPEDEC_ID pointers bitfield_len id =>
        rw [ctf_type_declarator_visit] at h
        split_ifs at h
        · simp only [Except.ok.injEq, Prod.mk.injEq] at h
          obtain ⟨_, _, rfl⟩ := h
          rfl
        · split at h
          · cases h
          · simp only [Except.ok.injEq, Prod.mk.injEq] at h
            obtain ⟨_, _, rfl⟩ := h
            rfl
          · simp only [Except.ok.injEq, Prod.mk.injEq] at h
            obtain ⟨_, _, rfl⟩ := h
            exact type_declarator_visit_inner_holds _ _ _ _ _ _ _ (by assumption)
      | TYPEDEC_NESTED pointers bitfield_len sub length =>
        have hsub : sizeOf sub ≤ k := by
          simp only [Option.some.sizeOf_spec, type_declarator.TYPEDEC_NESTED.sizeOf_spec] at hk
          omega
        cases bitfield_len with
        | some b =>
          rw [ctf_type_declarator_visit] at h
          simp only [Option.isSome_some, if_true, Except.ok.injEq, Prod.mk.injEq] at h
          obtain ⟨_, _, rfl⟩ := h
          rfl
        | none =>
          rcases type_declarator_visit_nested_inv _ _ _ _ _ _ _ _ _ _ _ h with
            ⟨-, -, rfl⟩ | ⟨nested, scopeA, hinner, hrest⟩
          · rfl
          · have hA := type_declarator_visit_inner_holds _ _ _ _ _ _ _ hinner
            rcases hrest with ⟨-, -, rfl⟩ | ⟨c, T, -, hsubv⟩ |
              ⟨I, dummy_id, scopeB, T, -, hD, hsubv⟩
            · exact hA
            · exact (ih sub hsub _ _ _ _ _ _ hsubv).trans hA
            · exact (ih sub hsub _ _ _ _ _ _ hsubv).trans
                ((type_declarator_visit_null_holds _ _ _ _ _ _ _ _ hD).trans hA)

/-- The typedef visitor leaves every entry of the scope in it. -/
theorem typedef_visit_holds (declaration_specifier : List ctf_node) (trace : ctf_trace)
    (type_declarators : List type_declarator) :
    ∀ (scope scope1 : declaration_scope) (identifier : Option GQuark) (ret : Int),
      ctf_typedef_visit scope declaration_specifier type_declarators trace identifier
        = .ok (ret, scope1) →
      scope.holds_all scope1 := by
  induction type_declarators with
  | nil =>
    intro scope scope1 identifier ret h
    rw [ctf_typedef_visit] at h
    simp only [Except.ok.injEq, Prod.mk.injEq] at h
    obtain ⟨_, rfl⟩ := h
    rfl
  | cons iter rest ih =>
    intro scope scope1 identifier ret h
    rw [ctf_typedef_visit] at h
    split at h
    · cases h
    · rename_i type_declaration identifier1 scopeA hv
      have hA := type_declarator_visit_holds declaration_specifier trace _ (some iter)
        (le_refl _) _ _ _ _ _ _ hv
      split at h
      · cases h
      · rename_i q
        split at h
        · cases h
        · rename_i ret1 scopeB hreg
          have hB := register_declaration_holds _ _ _ _ _ hreg
          split_ifs at h
          · split at h
            · cases h
            · split at h
              · cases h
              · simp only [Except.ok.injEq, Prod.mk.injEq] at h
                obtain ⟨_, rfl⟩ := h
                exact hB.trans hA
          · exact (ih _ _ _ _ h).trans (hB.trans hA)

/-- The typealias visitor leaves every entry of the scope in it. -/
theorem typealias_visit_holds (target alias_node : ctf_typealias_part) (trace : ctf_trace)
    (scope scope1 : declaration_scope) (ret : Int)
    (h : ctf_typealias_visit scope target alias_node trace = .ok (ret, scope1)) :
    scope.holds_all scope1 := by
  obtain ⟨ts, td⟩ := target
  obtain ⟨as, ad⟩ := alias_node
  rw [ctf_typealias_visit] at h
  split at h
  · cases h
  · rename_i type_declaration dummy_id scopeA hv
    have hA := type_declarator_visit_holds ts trace _ (first_or_null ad) (le_refl _)
      _ _ _ _ _ _ hv
    split at h
    · cases h
    · split at h
      · cases h
      · split_ifs at h
        · split at h
          · cases h
          · simp only [Except.ok.injEq, Prod.mk.injEq] at h
            obtain ⟨_, rfl⟩ := h
            exact hA
        · split at h
          · cases h
          · split at h
            · cases h
            · rename_i err scopeB hreg
              have hB := register_declaration_holds _ _ _ _ _ hreg
              split_ifs at h
              · split at h
                · cases h
                · simp only [Except.ok.injEq, Prod.mk.injEq] at h
                  obtain ⟨_, rfl⟩ := h
                  exact hB.trans hA
              · simp only [Except.ok.injEq, Prod.mk.injEq] at h
                obtain ⟨_, rfl⟩ := h
                exact hB.trans hA

/-- The declarators of a struct field leave every entry of the scope of the
struct in it. -/
theorem struct_type_declarators_visit_holds (declaration_specifier : List ctf_node)
    (trace : ctf_trace) (type_declarators : List type_declarator) :
    ∀ (S S1 : declaration_struct) (enclosing : declaration_scope)
      (field_name : Option GQuark) (ret : Int),
      ctf_struct_type_declarators_visit S declaration_specifier type_declarators enclosing
        trace field_name = .ok (ret, S1) →
      S.scope.holds_all S1.scope := by
  induction type_declarators with
  | nil =>
    intro S S1 enclosing field_name ret h
    rw [ctf_struct_type_declarators_visit] at h
    simp only [Except.ok.injEq, Prod.mk.injEq] at h
    obtain ⟨_, rfl⟩ := h
    rfl
  | cons iter rest ih =>
    intro S S1 enclosing field_name ret h
    rw [ctf_struct_type_declarators_visit] at h
    split at h
    · cases h
    · rename_i field_declaration field_name1 scopeA hv
      have hA := type_declarator_visit_holds declaration_specifier trace _ (some iter)
        (le_refl _) _ _ _ _ _ _ hv
      split at h
      · cases h
      · split at h
        · cases h
        · rename_i S2 hadd
          have hS2 : S2.scope = scopeA := by
            unfold struct_declaration_add_field at hadd
            split at hadd
            · cases hadd
            · simp only [Except.ok.injEq] at hadd
              subst hadd
              rfl
          have h2 := ih _ _ _ _ _ h
          rw [hS2] at h2
          exact h2.trans hA

/-- An item of a struct body leaves every entry of the scope of the struct
in it. -/
theorem struct_declaration_list_visit_holds (iter : ctf_node) (trace : ctf_trace)
    (S S1 : declaration_struct) (ret : Int)
    (h : ctf_struct_declaration_list_visit iter S trace = .ok (ret, S1)) :
    S.scope.holds_all S1.scope := by
  rw [ctf_struct_declaration_list_visit.eq_def] at h
  split at h
  · split at h
    · cases h
    · rename_i hv
      have hA := typedef_visit_holds _ _ _ _ _ _ _ hv
      split_ifs at h <;>
        (simp only [Except.ok.injEq, Prod.mk.injEq] at h
         obtain ⟨_, rfl⟩ := h
         exact hA)
  · split at h
    · cases h
    · rename_i hv
      have hA := typealias_visit_holds _ _ _ _ _ _ hv
      split_ifs at h <;>
        (simp only [Except.ok.injEq, Prod.mk.injEq] at h
         obtain ⟨_, rfl⟩ := h
         exact hA)
  · split at h
    · cases h
    · rename_i hv
      have hA := struct_type_declarators_visit_holds _ _ _ _ _ _ _ _ hv
      split_ifs at h <;>
        (simp only [Except.ok.injEq, Prod.mk.injEq] at h
         obtain ⟨_, rfl⟩ := h
         exact hA)
  · cases h

/-- The body loop of the struct builder leaves every entry of the scope of the
struct in it. -/
theorem struct_visit_loop_holds (trace : ctf_trace) (declaration_list : List ctf_node) :
    ∀ (S S1 : declaration_struct) (ret : Int),
      ctf_declaration_struct_visit_loop declaration_list S trace = .ok (ret, S1) →
      S.scope.holds_all S1.scope := by
  induction declaration_list with
  | nil =>
    intro S S1 ret h
    rw [ctf_declaration_struct_visit_loop] at h
    simp only [Except.ok.injEq, Prod.mk.injEq] at h
    obtain ⟨_, rfl⟩ := h
    rfl
  | cons iter rest ih =>
    intro S S1 ret h
    rw [ctf_declaration_struct_visit_loop] at h
    split at h
    · cases h
    · rename_i ret1 S2 hv
      have hA := struct_declaration_list_visit_holds _ _ _ _ _ hv
      split_ifs at h
      · simp only [Except.ok.injEq, Prod.mk.injEq] at h
        obtain ⟨_, rfl⟩ := h
        exact hA
      · exact (ih _ _ _ h).trans hA

/-! ## C32: what a struct with a body changes -/

/-- What `ctf_declaration_struct_visit` with a body has gone through when it
returns: the guard on the name has rejected the struct, or the body loop has
returned a code other than 0, and the scope is as it was; or the body loop has
returned 0, and the struct is returned, registered when it has a name. -/
theorem struct_visit_body_inv (name : Option String) (body : List ctf_node)
    (scope scope1 : declaration_scope) (trace : ctf_trace) (r : Option declaration)
    (h : ctf_declaration_struct_visit name body true scope trace = .ok (r, scope1)) :
    (r = none ∧ scope1 = scope ∧
      ∀ S, ctf_declaration_struct_visit_loop body (struct_declaration_new scope) trace
        ≠ .ok (0, S)) ∨
    (r = none ∧ scope1 = scope ∧
      ∃ n, name = some n ∧ (lookup_struct_declaration (GQuark.of n) scope).isSome) ∨
    (∃ S, ctf_declaration_struct_visit_loop body (struct_declaration_new scope) trace
        = .ok (0, S) ∧ r = some S.p ∧
      ((name = none ∧ scope1 = scope) ∨
        ∃ n, name = some n ∧
          register_struct_declaration (GQuark.of n) S.p scope = (0, scope1))) := by
  rw [ctf_declaration_struct_visit.eq_def] at h
  simp only [Bool.not_true, Bool.false_eq_true, if_false] at h
  split_ifs at h with hguard
  · simp only [Except.ok.injEq, Prod.mk.injEq] at h
    obtain ⟨rfl, rfl⟩ := h
    cases name with
    | none => simp at hguard
    | some n => exact Or.inr (Or.inl ⟨rfl, rfl, n, rfl, by simpa [g_quark_from_string] using hguard⟩)
  · split at h
    · cases h
    · rename_i ret S hloop
      by_cases hret : ret = 0
      · subst hret
        simp only [ne_eq, not_true_eq_false, if_false] at h
        refine Or.inr (Or.inr ⟨S, hloop, ?_⟩)
        cases name with
        | none =>
          simp only [Except.ok.injEq, Prod.mk.injEq] at h
          obtain ⟨rfl, rfl⟩ := h
          exact ⟨rfl, Or.inl ⟨rfl, rfl⟩⟩
        | some n =>
          cases hreg : register_struct_declaration (g_quark_from_string (some n)) S.p scope with
          | mk ret2 scope2 =>
            simp only [hreg] at h
            by_cases hret2 : ret2 = 0
            · subst hret2
              simp only [ne_eq, not_true_eq_false, if_false, Except.ok.injEq,
                Prod.mk.injEq] at h
              obtain ⟨rfl, rfl⟩ := h
              exact ⟨rfl, Or.inr ⟨n, rfl, hreg⟩⟩
            · rw [if_pos hret2] at h
              cases h
      · rw [if_pos hret] at h
        simp only [Except.ok.injEq, Prod.mk.injEq] at h
        obtain ⟨rfl, rfl⟩ := h
        refine Or.inl ⟨rfl, rfl, ?_⟩
        intro S2 h2
        rw [hloop] at h2
        simp only [Except.ok.injEq, Prod.mk.injEq] at h2
        exact hret h2.1

/-- A registration of a named struct that returns 0 has appended the struct to
the named struct map and left the rest of the scope as it was. -/
theorem register_struct_declaration_ok (q : GQuark) (d : declaration)
    (scope scope1 : declaration_scope)
    (h : register_struct_declaration q d scope = (0, scope1)) :
    scope1 = .mk scope.typedef_declarations (scope.struct_declarations ++ [(q, d)])
      scope.variant_declarations scope.enum_declarations scope.parent_scope := by
  cases scope with
  | mk t s v e p =>
    simp only [register_struct_declaration] at h
    split_ifs at h
    · simp [EEXIST] at h
    · simp only [Prod.mk.injEq, true_and] at h
      exact h.symm

/-! ## What the items of a struct body register -/

/-- The inner declaration of a declarator without pointers, entered without an
inner declaration, is what the specifier visitor returns. -/
theorem type_declarator_visit_inner_plain (declaration_specifier : List ctf_node)
    (node : type_declarator) (scope scope1 : declaration_scope)
    (nested : Option declaration) (trace : ctf_trace)
    (hptr : node.pointers = [])
    (h : ctf_type_declarator_visit_inner declaration_specifier (some node) scope none trace
      = .ok (some (nested, scope1))) :
    ctf_declaration_specifier_visit declaration_specifier scope trace
      = .ok (nested, scope1) := by
  rw [ctf_type_declarator_visit_inner] at h
  simp only [hptr, ne_eq, not_true_eq_false, if_false] at h
  split at h
  · cases h
  · simp only [Except.ok.injEq, Option.some.injEq] at h
    subst h
    assumption

/-- A declarator for which the resolver returns a declaration leaves its
identifier in `*field_name`. -/
theorem type_declarator_visit_identifier (declaration_specifier : List ctf_node)
    (trace : ctf_trace) (k : Nat) :
    ∀ (node : type_declarator), sizeOf node ≤ k →
      ∀ (field_name field_name1 : Option GQuark) (scope scope1 : declaration_scope)
        (nested0 : Option declaration) (D : declaration) (q : GQuark),
      ctf_type_declarator_visit declaration_specifier field_name (some node) scope nested0
        trace = .ok (some D, field_name1, scope1) →
      node.identifier = some q → field_name1 = some q := by
  induction k with
  | zero =>
    intro node hk
    cases node <;> simp at hk
  | succ k ih =>
    intro node hk field_name field_name1 scope scope1 nested0 D q h hq
    cases node with
    | TYPEDEC_UNKNOWN pointers bitfield_len =>
      rw [ctf_type_declarator_visit] at h
      cases h
    | TYPEDEC_ID pointers bitfield_len id =>
      rw [type_declarator.identifier] at hq
      rw [ctf_type_declarator_visit] at h
      split_ifs at h
      · simp at h
      · split at h
        · cases h
        · simp at h
        · simp only [Except.ok.injEq, Prod.mk.injEq] at h
          rw [← h.2.1]
          exact hq
    | TYPEDEC_NESTED pointers bitfield_len sub length =>
      cases bitfield_len with
      | some b =>
        rw [ctf_type_declarator_visit] at h
        simp at h
      | none =>
        cases sub with
        | none =>
          rw [type_declarator.identifier] at hq
          cases hq
        | some inner =>
          rw [type_declarator.identifier] at hq
          have hsub : sizeOf inner ≤ k := by
            simp only [type_declarator.TYPEDEC_NESTED.sizeOf_spec,
              Option.some.sizeOf_spec] at hk
            omega
          rcases type_declarator_visit_nested_inv _ _ _ _ _ _ _ _ _ _ _ h with
            ⟨hnone, -, -⟩ | ⟨nested, scopeA, hinner, hrest⟩
          · cases hnone
          · rcases hrest with ⟨hnone, -, -⟩ | ⟨c, T, -, hsubv⟩ |
              ⟨I, dummy_id, scopeB, T, -, hD, hsubv⟩
            · cases hnone
            · exact ih inner hsub _ _ _ _ _ _ _ hsubv hq
            · exact ih inner hsub _ _ _ _ _ _ _ hsubv hq

/-- A registration of an alias that returns 0 was handed a declaration, which
the alias map of the scope then has under the name. -/
theorem register_declaration_ok (q : GQuark) (d : Option declaration)
    (scope scope1 : declaration_scope)
    (h : register_declaration q d scope = .ok (0, scope1)) :
    ∃ D, d = some D ∧ scope1.typedef_declarations.lookup q = some D := by
  cases scope with
  | mk t s v e p =>
    simp only [register_declaration] at h
    split_ifs at h with hpresent
    · simp [EEXIST] at h
    · cases d with
      | none => cases h
      | some D =>
        simp only [Except.ok.injEq, Prod.mk.injEq, true_and] at h
        subst h
        exact ⟨D, rfl, lookup_append_of_none t q D (Bool.eq_false_iff.mpr hpresent)⟩

/-- An entry that a scope has is an entry of a scope that holds all of it. -/
theorem holds_all_typedef_isSome (scope scope1 : declaration_scope) (q : GQuark)
    (hh : scope.holds_all scope1) (h : (scope.typedef_declarations.lookup q).isSome) :
    (scope1.typedef_declarations.lookup q).isSome := by
  obtain ⟨d, hd⟩ := Option.isSome_iff_exists.mp h
  rw [hh.2.1 q d hd]
  rfl

/-- A typedef that returns 0 has registered the identifier of every declarator
in the scope it is given. -/
theorem typedef_visit_registers (declaration_specifier : List ctf_node) (trace : ctf_trace)
    (type_declarators : List type_declarator) :
    ∀ (scope scope1 : declaration_scope) (identifier : Option GQuark),
      ctf_typedef_visit scope declaration_specifier type_declarators trace identifier
        = .ok (0, scope1) →
      ∀ iter ∈ type_declarators, ∀ q, iter.identifier = some q →
        (scope1.typedef_declarations.lookup q).isSome := by
  induction type_declarators with
  | nil =>
    intro scope scope1 identifier h iter hiter
    cases hiter
  | cons first rest ih =>
    intro scope scope1 identifier h
    have hholds := typedef_visit_holds declaration_specifier trace (first :: rest) _ _ _ _ h
    rw [ctf_typedef_visit] at h
    split at h
    · cases h
    · rename_i type_declaration identifier1 scopeA hv
      split at h
      · cases h
      · rename_i q1
        split at h
        · cases h
        · rename_i ret1 scopeB hreg
          by_cases hret : ret1 = 0
          · subst hret
            simp only [ne_eq, not_true_eq_false, if_false] at h
            obtain ⟨D, hD, hlookup⟩ := register_declaration_ok _ _ _ _ hreg
            subst hD
            have hrest := typedef_visit_holds declaration_specifier trace rest _ _ _ _ h
            intro iter hiter q hq
            rcases List.mem_cons.mp hiter with rfl | hmem
            · have hid := type_declarator_visit_identifier declaration_specifier trace _ iter
                (le_refl _) _ _ _ _ _ _ _ hv hq
              simp only [Option.some.injEq] at hid
              subst hid
              exact holds_all_typedef_isSome _ _ _ hrest (by rw [hlookup]; rfl)
            · exact ih _ _ _ h iter hmem q hq
          · rw [if_pos hret] at h
            split at h
            · cases h
            · split at h
              · cases h
              · simp only [Except.ok.injEq, Prod.mk.injEq] at h
                exact absurd h.1 hret

/-- A declarator without pointers for which the resolver, entered without an
inner declaration, returns a declaration: the specifier visitor has returned a
declaration, and the scope it left is held by the scope the resolver leaves. -/
theorem type_declarator_visit_plain_specifier (declaration_specifier : List ctf_node)
    (field_name field_name1 : Option GQuark) (node : type_declarator)
    (scope scope3 : declaration_scope) (D : declaration) (trace : ctf_trace)
    (hptr : node.pointers = [])
    (h : ctf_type_declarator_visit declaration_specifier field_name (some node) scope none
      trace = .ok (some D, field_name1, scope3)) :
    ∃ D0 scopeA,
      ctf_declaration_specifier_visit declaration_specifier scope trace
        = .ok (some D0, scopeA) ∧
      scopeA.holds_all scope3 := by
  cases node with
  | TYPEDEC_UNKNOWN pointers bitfield_len =>
    rw [ctf_type_declarator_visit] at h
    cases h
  | TYPEDEC_ID pointers bitfield_len id =>
    rw [ctf_type_declarator_visit] at h
    split_ifs at h
    · simp at h
    · split at h
      · cases h
      · simp at h
      · rename_i nested scopeA hinner
        simp only [Except.ok.injEq, Prod.mk.injEq] at h
        obtain ⟨rfl, -, rfl⟩ := h
        exact ⟨D, scopeA, type_declarator_visit_inner_plain _ _ _ _ _ _ hptr hinner, by rfl⟩
  | TYPEDEC_NESTED pointers bitfield_len sub length =>
    cases bitfield_len with
    | some b =>
      rw [ctf_type_declarator_visit] at h
      simp at h
    | none =>
      rcases type_declarator_visit_nested_inv _ _ _ _ _ _ _ _ _ _ _ h with
        ⟨hnone, -, -⟩ | ⟨nested, scopeA, hinner, hrest⟩
      · cases hnone
      · have hspec := type_declarator_visit_inner_plain _ _ _ _ _ _ hptr hinner
        rcases hrest with ⟨hnone, -, -⟩ | ⟨c, T, hT, hsubv⟩ |
          ⟨I, dummy_id, scopeB, T, hT, hD, hsubv⟩
        · cases hnone
        · subst hT
          exact ⟨T, scopeA, hspec,
            type_declarator_visit_holds _ trace _ sub (le_refl _) _ _ _ _ _ _ hsubv⟩
        · subst hT
          exact ⟨T, scopeA, hspec,
            (type_declarator_visit_holds _ trace _ sub (le_refl _) _ _ _ _ _ _ hsubv).trans
              (type_declarator_visit_null_holds _ _ _ _ _ _ _ _ hD)⟩

/-- A registration of a named struct that returns 0 leaves the struct under
its name in the named struct map of the scope. -/
theorem register_struct_declaration_lookup (q : GQuark) (d : declaration)
    (scope scope1 : declaration_scope)
    (h : register_struct_declaration q d scope = (0, scope1)) :
    scope1.struct_declarations.lookup q = some d := by
  cases scope with
  | mk t s v e p =>
    simp only [register_struct_declaration] at h
    split_ifs at h with hpresent
    · simp [EEXIST] at h
    · simp only [Prod.mk.injEq, true_and] at h
      subst h
      exact lookup_append_of_none s q d (Bool.eq_false_iff.mpr hpresent)

/-- A registration of a named variant that returns 0 leaves the variant under
its name in the named variant map of the scope. -/
theorem register_variant_declaration_lookup (q : GQuark) (d : declaration)
    (scope scope1 : declaration_scope)
    (h : register_variant_declaration q d scope = (0, scope1)) :
    scope1.variant_declarations.lookup q = some d := by
  cases scope with
  | mk t s v e p =>
    simp only [register_variant_declaration] at h
    split_ifs at h with hpresent
    · simp [EEXIST] at h
    · simp only [Prod.mk.injEq, true_and] at h
      subst h
      exact lookup_append_of_none v q d (Bool.eq_false_iff.mpr hpresent)

/-- A registration of a named enum that returns 0 leaves the enum under its
name in the named enum map of the scope. -/
theorem register_enum_declaration_lookup (q : GQuark) (d : declaration)
    (scope scope1 : declaration_scope)
    (h : register_enum_declaration q d scope = (0, scope1)) :
    scope1.enum_declarations.lookup q = some d := by
  cases scope with
  | mk t s v e p =>
    simp only [register_enum_declaration] at h
    split_ifs at h with hpresent
    · simp [EEXIST] at h
    · simp only [Prod.mk.injEq, true_and] at h
      subst h
      exact lookup_append_of_none e q d (Bool.eq_false_iff.mpr hpresent)

/-- A named struct with a body that the struct builder returns is in the named
struct map of the scope the builder leaves. -/
theorem struct_visit_registers (n : String) (body : List ctf_node)
    (scope scope1 : declaration_scope) (trace : ctf_trace) (D : declaration)
    (h : ctf_declaration_struct_visit (some n) body true scope trace = .ok (some D, scope1)) :
    scope1.struct_declarations.lookup (GQuark.of n) = some D := by
  rcases struct_visit_body_inv (some n) body scope scope1 trace (some D) h with
    ⟨hr, -, -⟩ | ⟨hr, -, -⟩ | ⟨S, hloop, hr, hreg⟩
  · cases hr
  · cases hr
  · rcases hreg with ⟨hn, -⟩ | ⟨n1, hn, hreg⟩
    · cases hn
    · simp only [Option.some.injEq] at hn hr
      subst hn
      rw [hr]
      exact register_struct_declaration_lookup _ _ _ _ hreg

/-- A named untagged variant with a body that the variant builder has built is
in the named variant map of the scope the builder leaves. -/
theorem variant_visit_untagged_registers (n : String) (body : List ctf_node)
    (scope scope1 : declaration_scope) (trace : ctf_trace) (u : Option declaration)
    (h : ctf_declaration_variant_visit_untagged (some n) body true scope trace
      = .ok (some (u, scope1))) :
    ∃ U, u = some U ∧ scope1.variant_declarations.lookup (GQuark.of n) = some U := by
  rw [ctf_declaration_variant_visit_untagged.eq_def] at h
  simp only [Bool.not_true, Bool.false_eq_true, if_false] at h
  split_ifs at h with hguard
  · simp at h
  · split at h
    · cases h
    · rename_i ret U hloop
      by_cases hret : ret = 0
      · subst hret
        simp only [ne_eq, not_true_eq_false, if_false] at h
        cases hreg : register_variant_declaration (g_quark_from_string (some n)) U.p scope with
        | mk ret2 scope2 =>
          simp only [hreg] at h
          by_cases hret2 : ret2 = 0
          · subst hret2
            simp only [ne_eq, not_true_eq_false, if_false, Except.ok.injEq,
              Option.some.injEq, Prod.mk.injEq] at h
            obtain ⟨rfl, rfl⟩ := h
            exact ⟨_, rfl, register_variant_declaration_lookup _ _ _ _ hreg⟩
          · rw [if_pos hret2] at h
            cases h
      · rw [if_pos hret] at h
        cases h

/-- A named variant with a body that the variant builder returns has its
untagged variant in the named variant map of the scope the builder leaves. -/
theorem variant_visit_registers (n : String) (choice : Option String) (body : List ctf_node)
    (scope scope1 : declaration_scope) (trace : ctf_trace) (D : declaration)
    (h : ctf_declaration_variant_visit (some n) choice body true scope trace
      = .ok (some D, scope1)) :
    (scope1.variant_declarations.lookup (GQuark.of n)).isSome := by
  rw [ctf_declaration_variant_visit.eq_def] at h
  split at h
  · cases h
  · simp at h
  · rename_i u scopeA hu
    obtain ⟨U, -, hU⟩ := variant_visit_untagged_registers n body scope scopeA trace u hu
    have hA : (scopeA.variant_declarations.lookup (GQuark.of n)).isSome := by
      rw [hU]
      rfl
    split at h
    · simp only [Except.ok.injEq, Prod.mk.injEq] at h
      obtain ⟨-, rfl⟩ := h
      exact hA
    · split at h
      · cases h
      · cases h
      · simp only [Except.ok.injEq, Prod.mk.injEq] at h
        obtain ⟨-, rfl⟩ := h
        exact hA

/-- A named enum with a body that the enum builder returns is in the named
enum map of the scope the builder leaves. -/
theorem enum_visit_registers (n : String) (container_type : List ctf_node)
    (enumerator_list : List ctf_enumerator)
    (scope scope1 : declaration_scope) (trace : ctf_trace) (D : declaration)
    (h : ctf_declaration_enum_visit (some n) container_type enumerator_list true scope trace
      = .ok (some D, scope1)) :
    scope1.enum_declarations.lookup (GQuark.of n) = some D := by
  rw [ctf_declaration_enum_visit.eq_def] at h
  simp only [Bool.not_true, Bool.false_eq_true, if_false] at h
  repeat' split at h
  all_goals simp only [Except.ok.injEq, Prod.mk.injEq, reduceCtorEq, false_and] at h
  all_goals
    obtain ⟨hD, rfl⟩ := h
    simp only [Option.some.injEq] at hD
    subst hD
    rename_i hret
    exact register_enum_declaration_lookup _ _ _ _ (Prod.ext (not_not.mp hret) rfl)

/-- A struct, a variant or an enum with a name and a body for which the
specifier visitor returns a declaration is registered in the scope the visitor
leaves. -/
theorem specifier_visit_registers (declaration_specifier : List ctf_node)
    (scope scope1 : declaration_scope) (trace : ctf_trace) (D : declaration)
    (h : ctf_declaration_specifier_visit declaration_specifier scope trace
      = .ok (some D, scope1)) :
    named_aggregate_registered declaration_specifier scope1 := by
  cases declaration_specifier with
  | nil => simp [named_aggregate_registered]
  | cons first rest =>
    cases first
    case NODE_STRUCT name body has_body =>
      rw [ctf_declaration_specifier_visit] at h
      cases name with
      | none => simp [named_aggregate_registered]
      | some n =>
        cases has_body with
        | false => simp [named_aggregate_registered]
        | true =>
          simp only [named_aggregate_registered]
          rw [struct_visit_registers n body scope scope1 trace D h]
          rfl
    case NODE_VARIANT name choice body has_body =>
      rw [ctf_declaration_specifier_visit] at h
      cases name with
      | none => simp [named_aggregate_registered]
      | some n =>
        cases has_body with
        | false => simp [named_aggregate_registered]
        | true =>
          simp only [named_aggregate_registered]
          exact variant_visit_registers n choice body scope scope1 trace D h
    case NODE_ENUM name container_type enumerator_list has_body =>
      rw [ctf_declaration_specifier_visit] at h
      cases name with
      | none => simp [named_aggregate_registered]
      | some n =>
        cases has_body with
        | false => simp [named_aggregate_registered]
        | true =>
          simp only [named_aggregate_registered]
          rw [enum_visit_registers n container_type enumerator_list scope scope1 trace D h]
          rfl
    all_goals simp [named_aggregate_registered]

/-- A named aggregate that a scope has registered is registered in a scope that
holds all of it. -/
theorem named_aggregate_registered_mono (declaration_specifier : List ctf_node)
    (scope scope1 : declaration_scope) (hh : scope.holds_all scope1)
    (h : named_aggregate_registered declaration_specifier scope) :
    named_aggregate_registered declaration_specifier scope1 := by
  unfold named_aggregate_registered at h ⊢
  split at h
  · obtain ⟨d, hd⟩ := Option.isSome_iff_exists.mp h
    simp only [hh.2.2.1 _ d hd, Option.isSome_some]
  · obtain ⟨d, hd⟩ := Option.isSome_iff_exists.mp h
    simp only [hh.2.2.2.1 _ d hd, Option.isSome_some]
  · obtain ⟨d, hd⟩ := Option.isSome_iff_exists.mp h
    simp only [hh.2.2.2.2 _ d hd, Option.isSome_some]
  · trivial

/-- What an item of a body has registered in a scope is registered in a scope
that holds all of it. -/
theorem body_item_registered_mono (item : ctf_node) (scope scope1 : declaration_scope)
    (hh : scope.holds_all scope1) (h : body_item_registered item scope) :
    body_item_registered item scope1 := by
  cases item
  case NODE_TYPEDEF declaration_specifier type_declarators =>
    simp only [body_item_registered] at h ⊢
    exact ⟨fun iter hiter q hq => holds_all_typedef_isSome _ _ _ hh (h.1 iter hiter q hq),
      fun hv => named_aggregate_registered_mono _ _ _ hh (h.2 hv)⟩
  case NODE_TYPEALIAS target alias_node =>
    simp only [body_item_registered] at h ⊢
    exact ⟨fun node hnode => holds_all_typedef_isSome _ _ _ hh (h.1 node hnode),
      fun hv => named_aggregate_registered_mono _ _ _ hh (h.2 hv)⟩
  case NODE_STRUCT_OR_VARIANT_DECLARATION declaration_specifier type_declarators =>
    simp only [body_item_registered] at h ⊢
    exact fun hv => named_aggregate_registered_mono _ _ _ hh (h hv)
  all_goals simp [body_item_registered]

/-- A typedef that returns 0 and whose first declarator has no pointers has
registered the named aggregate of its specifier list in the scope it is
given. -/
theorem typedef_visit_registers_aggregate (declaration_specifier : List ctf_node)
    (trace : ctf_trace) (type_declarators : List type_declarator)
    (scope scope1 : declaration_scope)
    (h : ctf_typedef_visit scope declaration_specifier type_declarators trace none
      = .ok (0, scope1))
    (hv : visits_specifier type_declarators) :
    named_aggregate_registered declaration_specifier scope1 := by
  obtain ⟨first, rest, rfl, hptr⟩ := hv
  rw [ctf_typedef_visit] at h
  split at h
  · cases h
  · rename_i type_declaration identifier1 scopeA hvisit
    split at h
    · cases h
    · rename_i q1
      split at h
      · cases h
      · rename_i ret1 scopeB hreg
        by_cases hret : ret1 = 0
        · subst hret
          simp only [ne_eq, not_true_eq_false, if_false] at h
          obtain ⟨D, hD, -⟩ := register_declaration_ok _ _ _ _ hreg
          subst hD
          obtain ⟨D0, scope0, hspec, h0⟩ := type_declarator_visit_plain_specifier _ _ _ _ _ _
            _ trace hptr hvisit
          exact named_aggregate_registered_mono _ _ _
            ((typedef_visit_holds declaration_specifier trace rest _ _ _ _ h).trans
              ((register_declaration_holds _ _ _ _ _ hreg).trans h0))
            (specifier_visit_registers _ _ _ _ _ hspec)
        · rw [if_pos hret] at h
          split at h
          · cases h
          · split at h
            · cases h
            · simp only [Except.ok.injEq, Prod.mk.injEq] at h
              exact absurd h.1 hret

/-- A typealias that returns 0 has registered the identifier made of its alias
in the scope it is given and, when the declarator it hands to the resolver has
no pointers, the named aggregate of its target. -/
theorem typealias_visit_registers (target alias_node : ctf_typealias_part)
    (trace : ctf_trace) (scope scope1 : declaration_scope)
    (h : ctf_typealias_visit scope target alias_node trace = .ok (0, scope1)) :
    (∀ node, first_or_null alias_node.type_declarators = some node →
      (scope1.typedef_declarations.lookup
        (create_typealias_identifier alias_node.declaration_specifier node)).isSome) ∧
    (visits_specifier alias_node.type_declarators →
      named_aggregate_registered target.declaration_specifier scope1) := by
  obtain ⟨ts, td⟩ := target
  obtain ⟨as, ad⟩ := alias_node
  simp only [ctf_typealias_part.declaration_specifier, ctf_typealias_part.type_declarators]
  rw [ctf_typealias_visit] at h
  split at h
  · cases h
  · rename_i type_declaration dummy_id scopeA hvisit
    split at h
    · cases h
    · rename_i D
      split at h
      · cases h
      · split_ifs at h
        · split at h
          · cases h
          · simp [EINVAL] at h
        · split at h
          · cases h
          · rename_i node more
            split at h
            · cases h
            · rename_i err scopeB hreg
              by_cases herr : err = 0
              · subst herr
                simp only [ne_eq, not_true_eq_false, if_false, Except.ok.injEq,
                  Prod.mk.injEq, true_and] at h
                subst h
                obtain ⟨D1, -, hlookup⟩ := register_declaration_ok _ _ _ _ hreg
                refine ⟨?_, ?_⟩
                · intro node1 hnode1
                  simp only [first_or_null, Option.some.injEq] at hnode1
                  subst hnode1
                  rw [hlookup]
                  rfl
                · rintro ⟨first, rest, hcons, hptr⟩
                  simp only [List.cons.injEq] at hcons
                  obtain ⟨rfl, rfl⟩ := hcons
                  obtain ⟨D0, scope0, hspec, h0⟩ := type_declarator_visit_plain_specifier _ _
                    _ _ _ _ _ trace hptr hvisit
                  exact named_aggregate_registered_mono _ _ _
                    ((register_declaration_holds _ _ _ _ _ hreg).trans h0)
                    (specifier_visit_registers _ _ _ _ _ hspec)
              · rw [if_pos herr] at h
                split at h
                · cases h
                · simp only [Except.ok.injEq, Prod.mk.injEq] at h
                  exact absurd h.1 herr

/-- The declarators of a field whose first declarator has no pointers have
registered the named aggregate of the specifier list in the scope of the
struct. -/
theorem struct_type_declarators_visit_registers (declaration_specifier : List ctf_node)
    (trace : ctf_trace) (type_declarators : List type_declarator)
    (S S1 : declaration_struct) (enclosing : declaration_scope) (ret : Int)
    (h : ctf_struct_type_declarators_visit S declaration_specifier type_declarators enclosing
      trace none = .ok (ret, S1))
    (hv : visits_specifier type_declarators) :
    named_aggregate_registered declaration_specifier S1.scope := by
  obtain ⟨first, rest, rfl, hptr⟩ := hv
  rw [ctf_struct_type_declarators_visit] at h
  split at h
  · cases h
  · rename_i field_declaration field_name1 scopeA hvisit
    split at h
    · cases h
    · split at h
      · cases h
      · rename_i S2 hadd
        cases field_declaration with
        | none => simp [struct_declaration_add_field] at hadd
        | some D =>
          have hS2 : S2.scope = scopeA := by
            simp only [struct_declaration_add_field, Except.ok.injEq] at hadd
            subst hadd
            rfl
          obtain ⟨D0, scope0, hspec, h0⟩ := type_declarator_visit_plain_specifier _ _ _ _ _ _
            _ trace hptr hvisit
          have hrest := struct_type_declarators_visit_holds _ _ _ _ _ _ _ _ h
          rw [hS2] at hrest
          exact named_aggregate_registered_mono _ _ _ (hrest.trans h0)
            (specifier_visit_registers _ _ _ _ _ hspec)

/-- An item of a struct body that returns 0 has registered what it declares in
the scope of the struct. -/
theorem struct_declaration_list_visit_registers (iter : ctf_node) (trace : ctf_trace)
    (S S1 : declaration_struct)
    (h : ctf_struct_declaration_list_visit iter S trace = .ok (0, S1)) :
    body_item_registered iter S1.scope := by
  rw [ctf_struct_declaration_list_visit.eq_def] at h
  split at h
  · split at h
    · cases h
    · rename_i ret scopeA hv
      split_ifs at h with hret
      · simp only [Except.ok.injEq, Prod.mk.injEq] at h
        exact absurd h.1 hret
      · simp only [Except.ok.injEq, Prod.mk.injEq, true_and] at h
        subst h
        have hret0 : ret = 0 := not_not.mp hret
        subst hret0
        simp only [body_item_registered]
        exact ⟨typedef_visit_registers _ trace _ _ _ _ hv,
          typedef_visit_registers_aggregate _ trace _ _ _ hv⟩
  · split at h
    · cases h
    · rename_i ret scopeA hv
      split_ifs at h with hret
      · simp only [Except.ok.injEq, Prod.mk.injEq] at h
        exact absurd h.1 hret
      · simp only [Except.ok.injEq, Prod.mk.injEq, true_and] at h
        subst h
        have hret0 : ret = 0 := not_not.mp hret
        subst hret0
        simp only [body_item_registered]
        exact typealias_visit_registers _ _ trace _ _ hv
  · split at h
    · cases h
    · rename_i ret S2 hv
      have hreg := fun hp => struct_type_declarators_visit_registers _ trace _ _ _ _ _ hv hp
      split_ifs at h with hret
      · simp only [Except.ok.injEq, Prod.mk.injEq] at h
        exact absurd h.1 hret
      · simp only [Except.ok.injEq, Prod.mk.injEq, true_and] at h
        subst h
        simp only [body_item_registered]
        exact hreg
  · cases h

/-- The body loop of the struct builder, when it returns 0, has registered what
every item of the body declares in the scope of the struct. -/
theorem struct_visit_loop_registers (trace : ctf_trace) (declaration_list : List ctf_node) :
    ∀ (S S1 : declaration_struct),
      ctf_declaration_struct_visit_loop declaration_list S trace = .ok (0, S1) →
      ∀ item ∈ declaration_list, body_item_registered item S1.scope := by
  induction declaration_list with
  | nil =>
    intro S S1 h item hitem
    cases hitem
  | cons iter rest ih =>
    intro S S1 h
    rw [ctf_declaration_struct_visit_loop] at h
    split at h
    · cases h
    · rename_i ret1 S2 hv
      split_ifs at h with hret
      · simp only [Except.ok.injEq, Prod.mk.injEq] at h
        exact absurd h.1 hret
      · have hret0 : ret1 = 0 := not_not.mp hret
        subst hret0
        intro item hitem
        rcases List.mem_cons.mp hitem with rfl | hmem
        · exact body_item_registered_mono _ _ _ (struct_visit_loop_holds trace rest _ _ _ h)
            (struct_declaration_list_visit_registers _ trace _ _ hv)
        · exact ih _ _ h item hmem

/-! ## A declaration that a scope holds -/

theorem lookup_struct_declaration_own (q : GQuark) (D : declaration)
    (scope : declaration_scope) (h : scope.struct_declarations.lookup q = some D) :
    lookup_struct_declaration q scope = some D := by
  cases scope with
  | mk t s v e p =>
    simp only [declaration_scope.struct_declarations] at h
    cases p <;> simp [lookup_struct_declaration, h, first_hit]

theorem lookup_variant_declaration_own (q : GQuark) (D : declaration)
    (scope : declaration_scope) (h : scope.variant_declarations.lookup q = some D) :
    lookup_variant_declaration q scope = some D := by
  cases scope with
  | mk t s v e p =>
    simp only [declaration_scope.variant_declarations] at h
    cases p <;> simp [lookup_variant_declaration, h, first_hit]

theorem lookup_enum_declaration_own (q : GQuark) (D : declaration)
    (scope : declaration_scope) (h : scope.enum_declarations.lookup q = some D) :
    lookup_enum_declaration q scope = some D := by
  cases scope with
  | mk t s v e p =>
    simp only [declaration_scope.enum_declarations] at h
    cases p <;> simp [lookup_enum_declaration, h, first_hit]

/-- A specifier list that `specifier_result_is_held` classifies as held: the
declaration that the specifier visitor returns for it is found by a lookup from
the scope the visitor leaves. -/
theorem specifier_result_held (declaration_specifier : List ctf_node)
    (scope scope1 : declaration_scope) (trace : ctf_trace) (D : declaration)
    (hheld : specifier_result_is_held declaration_specifier = true)
    (h : ctf_declaration_specifier_visit declaration_specifier scope trace
      = .ok (some D, scope1)) :
    is_held_by scope1 D := by
  cases declaration_specifier with
  | nil => simp [specifier_result_is_held] at hheld
  | cons first rest =>
    cases first
    case NODE_STRUCT name body has_body =>
      rw [ctf_declaration_specifier_visit] at h
      cases has_body with
      | false =>
        rw [ctf_declaration_struct_visit.eq_def] at h
        simp only [Bool.not_false, if_true] at h
        split at h
        · cases h
        · simp only [Except.ok.injEq, Prod.mk.injEq] at h
          obtain ⟨hD, rfl⟩ := h
          exact ⟨_, Or.inr (Or.inl hD)⟩
      | true =>
        cases name with
        | none => simp [specifier_result_is_held] at hheld
        | some n =>
          exact ⟨GQuark.of n, Or.inr (Or.inl (lookup_struct_declaration_own _ _ _
            (struct_visit_registers n body scope scope1 trace D h)))⟩
    case NODE_VARIANT name choice body has_body =>
      rw [ctf_declaration_specifier_visit] at h
      cases choice with
      | some c => simp [specifier_result_is_held] at hheld
      | none =>
        rw [ctf_declaration_variant_visit.eq_def] at h
        split at h
        · cases h
        · simp at h
        · rename_i u scopeA hu
          simp only [Except.ok.injEq, Prod.mk.injEq] at h
          obtain ⟨rfl, rfl⟩ := h
          cases has_body with
          | false =>
            rw [ctf_declaration_variant_visit_untagged.eq_def] at hu
            simp only [Bool.not_false, if_true] at hu
            split at hu
            · cases hu
            · simp only [Except.ok.injEq, Option.some.injEq, Prod.mk.injEq] at hu
              obtain ⟨hD, rfl⟩ := hu
              exact ⟨_, Or.inr (Or.inr (Or.inl hD))⟩
          | true =>
            cases name with
            | none => simp [specifier_result_is_held] at hheld
            | some n =>
              obtain ⟨U, hU, hlookup⟩ := variant_visit_untagged_registers n body scope _ trace
                _ hu
              simp only [Option.some.injEq] at hU
              subst hU
              exact ⟨GQuark.of n, Or.inr (Or.inr (Or.inl
                (lookup_variant_declaration_own _ _ _ hlookup)))⟩
    case NODE_ENUM name container_type enumerator_list has_body =>
      rw [ctf_declaration_specifier_visit] at h
      cases has_body with
      | false =>
        rw [ctf_declaration_enum_visit.eq_def] at h
        simp only [Bool.not_false, if_true] at h
        split at h
        · cases h
        · simp only [Except.ok.injEq, Prod.mk.injEq] at h
          obtain ⟨hD, rfl⟩ := h
          exact ⟨_, Or.inr (Or.inr (Or.inr hD))⟩
      | true =>
        cases name with
        | none => simp [specifier_result_is_held] at hheld
        | some n =>
          exact ⟨GQuark.of n, Or.inr (Or.inr (Or.inr (lookup_enum_declaration_own _ _ _
            (enum_visit_registers n container_type enumerator_list scope scope1 trace D h))))⟩
    case NODE_TYPE_SPECIFIER ty id =>
      rw [ctf_declaration_specifier_visit] at h
      simp only [Except.ok.injEq, Prod.mk.injEq] at h
      obtain ⟨hD, rfl⟩ := h
      simp only [ctf_declaration_type_specifier_visit] at hD
      split_ifs at hD
      exact ⟨_, Or.inl hD⟩
    all_goals simp [specifier_result_is_held] at hheld

/-- A declarator that `declarator_result_is_held` classifies as held: the
declaration that the resolver, entered without an inner declaration, returns
for it is found by a lookup from the scope the resolver leaves. -/
theorem declarator_result_held (declaration_specifier : List ctf_node)
    (field_name field_name1 : Option GQuark) (iter : type_declarator)
    (scope scope1 : declaration_scope) (trace : ctf_trace) (D : declaration)
    (hheld : declarator_result_is_held declaration_specifier (some iter) = true)
    (h : ctf_type_declarator_visit declaration_specifier field_name (some iter) scope none
      trace = .ok (some D, field_name1, scope1)) :
    is_held_by scope1 D := by
  cases iter with
  | TYPEDEC_UNKNOWN pointers bitfield_len => simp [declarator_result_is_held] at hheld
  | TYPEDEC_NESTED pointers bitfield_len sub length =>
    simp [declarator_result_is_held] at hheld
  | TYPEDEC_ID pointers bitfield_len id =>
    rw [ctf_type_declarator_visit] at h
    split_ifs at h
    · simp at h
    · split at h
      · cases h
      · simp at h
      · rename_i nested scopeA hinner
        simp only [Except.ok.injEq, Prod.mk.injEq] at h
        obtain ⟨rfl, -, rfl⟩ := h
        by_cases hptr : pointers = []
        · subst hptr
          simp only [declarator_result_is_held, ne_eq, not_true_eq_false, if_false] at hheld
          exact specifier_result_held _ _ _ trace D hheld
            (type_declarator_visit_inner_plain _ (.TYPEDEC_ID [] bitfield_len id) _ _ _ _ rfl
              hinner)
        · rw [ctf_type_declarator_visit_inner] at hinner
          simp only [type_declarator.pointers, ne_eq, hptr, not_false_eq_true, if_true] at hinner
          split at hinner
          · cases hinner
          · rename_i d hlookup
            simp only [Except.ok.injEq, Option.some.injEq, Prod.mk.injEq] at hinner
            obtain ⟨rfl, rfl⟩ := hinner
            exact ⟨_, Or.inl hlookup⟩

/-! ## The destructor call of a failed registration -/

/-- A typedef whose declarator resolves to a declaration under a name that the
scope already has: the registration fails, and line 448 calls the destructor of
the declaration. When the declaration is one that a scope holds, it is
destroyed while held. -/
theorem typedef_visit_frees_held (declaration_specifier : List ctf_node)
    (iter : type_declarator) (rest : List type_declarator)
    (scope scopeA : declaration_scope) (trace : ctf_trace) (identifier : Option GQuark)
    (D : declaration) (q : GQuark)
    (hv : ctf_type_declarator_visit declaration_specifier identifier (some iter) scope none
      trace = .ok (some D, some q, scopeA))
    (hq : (scopeA.typedef_declarations.lookup q).isSome)
    (hheld : declarator_result_is_held declaration_specifier (some iter) = true) :
    ctf_typedef_visit scope declaration_specifier (iter :: rest) trace identifier
      = .error Fault.freed_while_held := by
  cases scopeA with
  | mk t s v e p =>
    simp only [declaration_scope.typedef_declarations] at hq
    rw [ctf_typedef_visit]
    simp [hv, register_declaration, hq, EEXIST, declaration_free, hheld]

/-- A typedef whose declarator resolves to a new declaration under a name that
the scope already has: the registration fails, line 448 destroys the new
declaration, and the typedef returns `-EEXIST` with the scope as the resolver
left it. -/
theorem typedef_visit_frees_new (declaration_specifier : List ctf_node)
    (iter : type_declarator) (rest : List type_declarator)
    (scope scopeA : declaration_scope) (trace : ctf_trace) (identifier : Option GQuark)
    (D : declaration) (q : GQuark)
    (hv : ctf_type_declarator_visit declaration_specifier identifier (some iter) scope none
      trace = .ok (some D, some q, scopeA))
    (hq : (scopeA.typedef_declarations.lookup q).isSome)
    (hheld : declarator_result_is_held declaration_specifier (some iter) = false) :
    ctf_typedef_visit scope declaration_specifier (iter :: rest) trace identifier
      = .ok (-EEXIST, scopeA) := by
  cases scopeA with
  | mk t s v e p =>
    simp only [declaration_scope.typedef_declarations] at hq
    rw [ctf_typedef_visit]
    simp [hv, register_declaration, hq, EEXIST, declaration_free, hheld]

/-- A typealias whose target resolves to a declaration and whose alias
identifier the scope already has: the registration fails, and the label
`error` (line 509) calls the destructor of the declaration. When the
declaration is one that a scope holds, it is destroyed while held. -/
theorem typealias_visit_frees_held (T A : List ctf_node)
    (target_declarators : List type_declarator) (node : type_declarator)
    (more : List type_declarator) (scope scopeA : declaration_scope) (trace : ctf_trace)
    (D : declaration)
    (hv : ctf_type_declarator_visit T none (some node) scope none trace
      = .ok (some D, some GQuark.zero, scopeA))
    (hq : (scopeA.typedef_declarations.lookup (create_typealias_identifier A node)).isSome)
    (hheld : declarator_result_is_held T (some node) = true) :
    ctf_typealias_visit scope (.mk T target_declarators) (.mk A (node :: more)) trace
      = .error Fault.freed_while_held := by
  cases scopeA with
  | mk t s v e p =>
    simp only [declaration_scope.typedef_declarations] at hq
    rw [ctf_typealias_visit]
    simp [first_or_null, hv, register_declaration, hq, EEXIST, declaration_free, hheld]

/-- A typealias whose target resolves to a new declaration and whose alias
identifier the scope already has: the registration fails, the label `error`
destroys the new declaration, and the typealias returns `-EEXIST` with the
scope as the resolver left it. -/
theorem typealias_visit_frees_new (T A : List ctf_node)
    (target_declarators : List type_declarator) (node : type_declarator)
    (more : List type_declarator) (scope scopeA : declaration_scope) (trace : ctf_trace)
    (D : declaration)
    (hv : ctf_type_declarator_visit T none (some node) scope none trace
      = .ok (some D, some GQuark.zero, scopeA))
    (hq : (scopeA.typedef_declarations.lookup (create_typealias_identifier A node)).isSome)
    (hheld : declarator_result_is_held T (some node) = false) :
    ctf_typealias_visit scope (.mk T target_declarators) (.mk A (node :: more)) trace
      = .ok (-EEXIST, scopeA) := by
  cases scopeA with
  | mk t s v e p =>
    simp only [declaration_scope.typedef_declarations] at hq
    rw [ctf_typealias_visit]
    simp [first_or_null, hv, register_declaration, hq, EEXIST, declaration_free, hheld]

/-- The body loop of the struct builder stops at the item that does not
return. -/
theorem struct_visit_loop_stops_error (trace : ctf_trace) (item : ctf_node)
    (post : List ctf_node) (e : Fault) (pre : List ctf_node) :
    ∀ (S S1 : declaration_struct),
      ctf_declaration_struct_visit_loop pre S trace = .ok (0, S1) →
      ctf_struct_declaration_list_visit item S1 trace = .error e →
      ctf_declaration_struct_visit_loop (pre ++ item :: post) S trace = .error e := by
  induction pre with
  | nil =>
    intro S S1 hpre hitem
    rw [ctf_declaration_struct_visit_loop] at hpre
    simp only [Except.ok.injEq, Prod.mk.injEq, true_and] at hpre
    subst hpre
    rw [List.nil_append, ctf_declaration_struct_visit_loop]
    simp [hitem]
  | cons first more ih =>
    intro S S1 hpre hitem
    rw [ctf_declaration_struct_visit_loop] at hpre
    rw [List.cons_append, ctf_declaration_struct_visit_loop]
    cases hfirst : ctf_struct_declaration_list_visit first S trace with
    | error e1 => simp [hfirst] at hpre
    | ok r =>
      obtain ⟨ret, S2⟩ := r
      simp only [hfirst] at hpre ⊢
      split_ifs at hpre with hret
      · simp only [Except.ok.injEq, Prod.mk.injEq] at hpre
        exact absurd hpre.1 hret
      · rw [if_neg hret]
        exact ih _ _ hpre hitem

/-- A struct with a body in which an item does not return does not return. -/
theorem struct_visit_of_loop_error (name : Option String) (body : List ctf_node)
    (scope : declaration_scope) (trace : ctf_trace) (e : Fault)
    (hname : ∀ n, name = some n → lookup_struct_declaration (GQuark.of n) scope = none)
    (hloop : ctf_declaration_struct_visit_loop body (struct_declaration_new scope) trace
      = .error e) :
    ctf_declaration_struct_visit name body true scope trace = .error e := by
  rw [ctf_declaration_struct_visit.eq_def]
  cases name with
  | none => simp [hloop]
  | some n =>
    have hn := hname n rfl
    simp [hloop, g_quark_from_string, hn]

/-- The body loop of the struct builder stops at the item that returns a code
other than 0. -/
theorem struct_visit_loop_stops_code (trace : ctf_trace) (item : ctf_node)
    (post : List ctf_node) (ret : Int) (S2 : declaration_struct) (hret : ret ≠ 0)
    (pre : List ctf_node) :
    ∀ (S S1 : declaration_struct),
      ctf_declaration_struct_visit_loop pre S trace = .ok (0, S1) →
      ctf_struct_declaration_list_visit item S1 trace = .ok (ret, S2) →
      ctf_declaration_struct_visit_loop (pre ++ item :: post) S trace = .ok (ret, S2) := by
  induction pre with
  | nil =>
    intro S S1 hpre hitem
    rw [ctf_declaration_struct_visit_loop] at hpre
    simp only [Except.ok.injEq, Prod.mk.injEq, true_and] at hpre
    subst hpre
    rw [List.nil_append, ctf_declaration_struct_visit_loop]
    simp [hitem, hret]
  | cons first more ih =>
    intro S S1 hpre hitem
    rw [ctf_declaration_struct_visit_loop] at hpre
    rw [List.cons_append, ctf_declaration_struct_visit_loop]
    cases hfirst : ctf_struct_declaration_list_visit first S trace with
    | error e1 => simp [hfirst] at hpre
    | ok r =>
      obtain ⟨ret1, S3⟩ := r
      simp only [hfirst] at hpre ⊢
      split_ifs at hpre with hret1
      · simp only [Except.ok.injEq, Prod.mk.injEq] at hpre
        exact absurd hpre.1 hret1
      · rw [if_neg hret1]
        exact ih _ _ hpre hitem

/-- A struct with a body in which an item returns a code other than 0 is not
built, and the scope is as it was. -/
theorem struct_visit_of_loop_code (name : Option String) (body : List ctf_node)
    (scope : declaration_scope) (trace : ctf_trace) (ret : Int) (S : declaration_struct)
    (hname : ∀ n, name = some n → lookup_struct_declaration (GQuark.of n) scope = none)
    (hloop : ctf_declaration_struct_visit_loop body (struct_declaration_new scope) trace
      = .ok (ret, S))
    (hret : ret ≠ 0) :
    ctf_declaration_struct_visit name body true scope trace = .ok (none, scope) := by
  rw [ctf_declaration_struct_visit.eq_def]
  cases name with
  | none => simp [hloop, hret]
  | some n =>
    have hn := hname n rfl
    simp [hloop, g_quark_from_string, hn, hret]

/-- C32: what the code does. `ctf_declaration_struct_visit` with a body, when
it returns, has changed the enclosing scope only by appending `name -> struct`
to its named struct map, and only when the struct has a name and the body loop
has returned 0; when the visit returns NULL, when the struct is anonymous, and
when an item of the body returns a code other than 0, the enclosing scope is
exactly as it was. The struct that is returned holds the fields and the inner
scope that the body loop has left, whose parent is the enclosing scope, and
every item of the body has registered what it declares in that inner scope: a
typedef the identifier of each declarator, a typealias the identifier made of
its alias, and a typedef, a typealias or a field the struct, variant or enum
with a name and a body of its specifier list, when the resolver hands that list
to the specifier visitor. A typedef or a typealias of the body whose
registration fails because the inner scope has the name already: line 448, or
the label `error` of line 509, calls the destructor of the declaration the
resolver returned. When that declaration is a new object the struct is not
built and the enclosing scope is as it was; when it is one that the resolver
found by a lookup, or that its builder has registered, a scope still holds it,
and it is destroyed while held. -/
theorem struct_body_registers_in_inner_scope (name : Option String) (body : List ctf_node)
    (scope : declaration_scope) (trace : ctf_trace) :
    (∀ (r : Option declaration) (scope1 : declaration_scope),
      ctf_declaration_struct_visit name body true scope trace = .ok (r, scope1) →
      (scope1 = scope ∨
        ∃ n S, name = some n ∧
          ctf_declaration_struct_visit_loop body (struct_declaration_new scope) trace
            = .ok (0, S) ∧
          r = some S.p ∧
          scope1 = .mk scope.typedef_declarations
            (scope.struct_declarations ++ [(GQuark.of n, S.p)])
            scope.variant_declarations scope.enum_declarations scope.parent_scope) ∧
      (r = none → scope1 = scope) ∧
      (name = none → scope1 = scope) ∧
      (∀ ret S, ctf_declaration_struct_visit_loop body (struct_declaration_new scope) trace
          = .ok (ret, S) → ret ≠ 0 → r = none ∧ scope1 = scope) ∧
      (∀ D, r = some D →
        ∃ S, ctf_declaration_struct_visit_loop body (struct_declaration_new scope) trace
            = .ok (0, S) ∧
          D = declaration.struct S.fields S.scope ∧ S.scope.parent_scope = some scope ∧
          ∀ item ∈ body, body_item_registered item S.scope)) ∧
    (∀ (pre post declaration_specifier : List ctf_node) (iter : type_declarator)
        (rest : List type_declarator) (S : declaration_struct) (D : declaration) (q : GQuark)
        (scopeA : declaration_scope),
      body = pre ++ .NODE_TYPEDEF declaration_specifier (iter :: rest) :: post →
      (∀ n, name = some n → lookup_struct_declaration (GQuark.of n) scope = none) →
      ctf_declaration_struct_visit_loop pre (struct_declaration_new scope) trace
        = .ok (0, S) →
      ctf_type_declarator_visit declaration_specifier none (some iter) S.scope none trace
        = .ok (some D, some q, scopeA) →
      (scopeA.typedef_declarations.lookup q).isSome →
      (declarator_result_is_held declaration_specifier (some iter) = false →
        ctf_declaration_struct_visit name body true scope trace = .ok (none, scope)) ∧
      (declarator_result_is_held declaration_specifier (some iter) = true →
        is_held_by scopeA D ∧
        ctf_declaration_struct_visit name body true scope trace
          = .error Fault.freed_while_held)) ∧
    (∀ (pre post T A : List ctf_node) (target_declarators : List type_declarator)
        (node : type_declarator) (more : List type_declarator) (S : declaration_struct)
        (D : declaration) (scopeA : declaration_scope),
      body = pre ++ .NODE_TYPEALIAS (.mk T target_declarators) (.mk A (node :: more)) :: post →
      (∀ n, name = some n → lookup_struct_declaration (GQuark.of n) scope = none) →
      ctf_declaration_struct_visit_loop pre (struct_declaration_new scope) trace
        = .ok (0, S) →
      ctf_type_declarator_visit T none (some node) S.scope none trace
        = .ok (some D, some GQuark.zero, scopeA) →
      (scopeA.typedef_declarations.lookup (create_typealias_identifier A node)).isSome →
      (declarator_result_is_held T (some node) = false →
        ctf_declaration_struct_visit name body true scope trace = .ok (none, scope)) ∧
      (declarator_result_is_held T (some node) = true →
        is_held_by scopeA D ∧
        ctf_declaration_struct_visit name body true scope trace
          = .error Fault.freed_while_held)) := by
  refine ⟨?_, ?_, ?_⟩
  · intro r scope1 h
    rcases struct_visit_body_inv name body scope scope1 trace r h with
      ⟨hr, hs, hloop⟩ | ⟨hr, hs, n, hn, hfound⟩ | ⟨S, hloop, hr, hreg⟩
    · subst hr hs
      refine ⟨Or.inl rfl, fun _ => rfl, fun _ => rfl, fun _ _ _ _ => ⟨rfl, rfl⟩, ?_⟩
      intro D hD
      cases hD
    · subst hr hs
      refine ⟨Or.inl rfl, fun _ => rfl, fun _ => rfl, fun _ _ _ _ => ⟨rfl, rfl⟩, ?_⟩
      intro D hD
      cases hD
    · subst hr
      have hparent : S.scope.parent_scope = some scope :=
        (struct_visit_loop_holds trace body _ _ _ hloop).1
      have hregistered := struct_visit_loop_registers trace body _ _ hloop
      have hlast : ∀ D, some S.p = some D →
          ∃ S2, ctf_declaration_struct_visit_loop body (struct_declaration_new scope) trace
              = .ok (0, S2) ∧
            D = declaration.struct S2.fields S2.scope ∧ S2.scope.parent_scope = some scope ∧
            ∀ item ∈ body, body_item_registered item S2.scope := by
        intro D hD
        simp only [Option.some.injEq] at hD
        subst hD
        exact ⟨S, hloop, rfl, hparent, hregistered⟩
      have hfail : ∀ ret S2,
          ctf_declaration_struct_visit_loop body (struct_declaration_new scope) trace
            = .ok (ret, S2) → ret ≠ 0 → some S.p = none ∧ scope1 = scope := by
        intro ret S2 h2 hret
        rw [hloop] at h2
        simp only [Except.ok.injEq, Prod.mk.injEq] at h2
        exact absurd h2.1.symm hret
      rcases hreg with ⟨hn, hs⟩ | ⟨n, hn, hreg⟩
      · subst hs
        exact ⟨Or.inl rfl, fun _ => rfl, fun _ => rfl, hfail, hlast⟩
      · refine ⟨Or.inr ⟨n, S, hn, hloop, rfl, register_struct_declaration_ok _ _ _ _ hreg⟩,
          fun hnone => (by cases hnone), fun hnone => ?_, hfail, hlast⟩
        rw [hn] at hnone
        cases hnone
  · intro pre post declaration_specifier iter rest S D q scopeA hbody hname hpre hv hq
    subst hbody
    refine ⟨?_, ?_⟩
    · intro hnew
      have htypedef := typedef_visit_frees_new declaration_specifier iter rest S.scope scopeA
        trace none D q hv hq hnew
      have heexist : -EEXIST ≠ 0 := by decide
      have hitem : ctf_struct_declaration_list_visit
          (.NODE_TYPEDEF declaration_specifier (iter :: rest)) S trace
          = .ok (-EEXIST, ⟨S.fields, scopeA⟩) := by
        rw [ctf_struct_declaration_list_visit]
        simp [htypedef, heexist]
      exact struct_visit_of_loop_code name _ scope trace _ _ hname
        (struct_visit_loop_stops_code trace _ post _ _ heexist pre _ _ hpre hitem) heexist
    · intro hheld
      have htypedef := typedef_visit_frees_held declaration_specifier iter rest S.scope scopeA
        trace none D q hv hq hheld
      have hitem : ctf_struct_declaration_list_visit
          (.NODE_TYPEDEF declaration_specifier (iter :: rest)) S trace
          = .error Fault.freed_while_held := by
        rw [ctf_struct_declaration_list_visit]
        simp [htypedef]
      exact ⟨declarator_result_held _ _ _ _ _ _ trace D hheld hv,
        struct_visit_of_loop_error name _ scope trace _ hname
          (struct_visit_loop_stops_error trace _ post _ pre _ _ hpre hitem)⟩
  · intro pre post T A target_declarators node more S D scopeA hbody hname hpre hv hq
    subst hbody
    refine ⟨?_, ?_⟩
    · intro hnew
      have halias := typealias_visit_frees_new T A target_declarators node more S.scope
        scopeA trace D hv hq hnew
      have heexist : -EEXIST ≠ 0 := by decide
      have hitem : ctf_struct_declaration_list_visit
          (.NODE_TYPEALIAS (.mk T target_declarators) (.mk A (node :: more))) S trace
          = .ok (-EEXIST, ⟨S.fields, scopeA⟩) := by
        rw [ctf_struct_declaration_list_visit]
        simp [halias, heexist]
      exact struct_visit_of_loop_code name _ scope trace _ _ hname
        (struct_visit_loop_stops_code trace _ post _ _ heexist pre _ _ hpre hitem) heexist
    · intro hheld
      have halias := typealias_visit_frees_held T A target_declarators node more S.scope
        scopeA trace D hv hq hheld
      have hitem : ctf_struct_declaration_list_visit
          (.NODE_TYPEALIAS (.mk T target_declarators) (.mk A (node :: more))) S trace
          = .error Fault.freed_while_held := by
        rw [ctf_struct_declaration_list_visit]
        simp [halias]
      exact ⟨declarator_result_held _ _ _ _ _ _ trace D hheld hv,
        struct_visit_of_loop_error name _ scope trace _ hname
          (struct_visit_loop_stops_error trace _ post _ pre _ _ hpre hitem)⟩

/-- A typedef with one declarator that resolves registers its name as an alias
of the declaration, in the scope the resolver left. -/
theorem typedef_visit_single (declaration_specifier : List ctf_node) (iter : type_declarator)
    (scope : declaration_scope) (trace : ctf_trace) (D : declaration) (q : GQuark)
    (t s v e : List (GQuark × declaration)) (p : Option declaration_scope)
    (hv : ctf_type_declarator_visit declaration_specifier none (some iter) scope none trace
      = .ok (some D, some q, .mk t s v e p))
    (hq : t.lookup q = none) :
    ctf_typedef_visit scope declaration_specifier [iter] trace none
      = .ok (0, .mk (t ++ [(q, D)]) s v e p) := by
  rw [ctf_typedef_visit]
  simp only [hv, register_declaration, hq, Option.isSome_none, Bool.false_eq_true, if_false,
    ne_eq, not_true_eq_false]
  rw [ctf_typedef_visit]

/-- A typealias whose target resolves registers the identifier made of its
alias as an alias of the declaration, in the scope the resolver left. -/
theorem typealias_visit_single (T A : List ctf_node) (target_declarators : List type_declarator)
    (node : type_declarator) (more : List type_declarator)
    (scope : declaration_scope) (trace : ctf_trace) (D : declaration)
    (t s v e : List (GQuark × declaration)) (p : Option declaration_scope)
    (hv : ctf_type_declarator_visit T none (some node) scope none trace
      = .ok (some D, some GQuark.zero, .mk t s v e p))
    (hq : t.lookup (create_typealias_identifier A node) = none) :
    ctf_typealias_visit scope (.mk T target_declarators) (.mk A (node :: more)) trace
      = .ok (0, .mk (t ++ [(create_typealias_identifier A node, D)]) s v e p) := by
  rw [ctf_typealias_visit]
  simp [first_or_null, hv, register_declaration, hq]

theorem lookup_uint32_aliases :
    lookup_declaration (GQuark.of "uint32_t") mixed_body_aliases = some uint32_declaration :=
  rfl

/-- The body `mixed_body` elaborates in the inner scope of a struct declared in
`root_with_uint32`: the typedef and the typealias register `u32` and `u32b`,
and the field registers `struct foo`, all in that inner scope. -/
theorem mixed_body_resolves :
    body_resolves le_trace mixed_body (new_declaration_scope (some root_with_uint32))
      [(GQuark.of "f", mixed_foo_declaration)] mixed_body_scope :=
  body_resolves.typedef uint32_t _ _ _
    (.mk ([] ++ [(GQuark.of "u32", uint32_declaration)]) [] [] [] (some root_with_uint32))
    mixed_body_scope _
    (typedef_visit_single uint32_t _ _ le_trace uint32_declaration (GQuark.of "u32")
      [] [] [] [] (some root_with_uint32)
      (uint32_field_resolves "u32" none _ le_trace lookup_uint32_inner) rfl)
    (body_resolves.typealias _ _ _ _ mixed_body_aliases mixed_body_scope _
      (typealias_visit_single uint32_t u32b [] (.TYPEDEC_ID [] none none) [] _ le_trace
        uint32_declaration [(GQuark.of "u32", uint32_declaration)] [] [] []
        (some root_with_uint32)
        (type_declarator_visit_plain_id uint32_t none none _ _ le_trace
          (some uint32_declaration)
          ((uint32_t_visit _ le_trace).trans rfl))
        rfl)
      (body_resolves.field struct_foo _ [] mixed_body_aliases mixed_body_scope
        mixed_body_scope [(GQuark.of "f", mixed_foo_declaration)] []
        (declarators_resolve.cons _ [] none mixed_body_aliases mixed_body_scope
          mixed_body_scope (GQuark.of "f") mixed_foo_declaration []
          (type_declarator_visit_plain_id struct_foo none (some "f") mixed_body_aliases
            mixed_body_scope le_trace (some mixed_foo_declaration)
            ((specifier_visit_struct (some "foo") [uint32_field "x"] true [] _ le_trace).trans
              (struct_visit_named_of_resolves "foo" [uint32_field "x"] _ [] [] []
                (some root_with_uint32) (new_declaration_scope (some mixed_body_aliases))
                le_trace [(GQuark.of "x", uint32_declaration)]
                (by simp [root_with_uint32, lookup_struct_declaration, first_hit])
                (uint32_fields_resolve ["x"] _ le_trace rfl))))
          (declarators_resolve.nil _ mixed_body_scope))
        (body_resolves.nil mixed_body_scope)))

theorem struct_body_registers_in_inner_scope_witness :
    ctf_declaration_struct_visit (some "s") mixed_body true root_with_uint32 le_trace
      = .ok (some (declaration.struct [(GQuark.of "f", mixed_foo_declaration)]
            mixed_body_scope),
          .mk [(GQuark.of "uint32_t", uint32_declaration)]
            ([] ++ [(GQuark.of "s", declaration.struct
              [(GQuark.of "f", mixed_foo_declaration)] mixed_body_scope)]) [] [] none) ∧
    (∃ S, ctf_declaration_struct_visit_loop mixed_body
          (struct_declaration_new root_with_uint32) le_trace = .ok (0, S) ∧
      declaration.struct [(GQuark.of "f", mixed_foo_declaration)] mixed_body_scope
        = declaration.struct S.fields S.scope ∧
      S.scope.parent_scope = some root_with_uint32 ∧
      ∀ item ∈ mixed_body, body_item_registered item S.scope) ∧
    is_held_by (declaration_scope.mk [(GQuark.of "a", uint32_declaration)] [] [] []
      (some root_with_uint32)) uint32_declaration ∧
    ctf_declaration_struct_visit (some "s") twice_typedef_body true root_with_uint32 le_trace
      = .error Fault.freed_while_held ∧
    ctf_declaration_struct_visit (some "s") twice_typealias_body true root_with_uint32
        le_trace
      = .error Fault.freed_while_held :=
  have hvisit := struct_visit_named_of_resolves "s" mixed_body
    [(GQuark.of "uint32_t", uint32_declaration)] [] [] [] none mixed_body_scope le_trace
    [(GQuark.of "f", mixed_foo_declaration)]
    (by simp [lookup_struct_declaration, first_hit]) mixed_body_resolves
  have htypedef := ((struct_body_registers_in_inner_scope (some "s") twice_typedef_body
      root_with_uint32 le_trace).2.1
      [.NODE_TYPEDEF uint32_t [.TYPEDEC_ID [] none (some "a")]] [] uint32_t
      (.TYPEDEC_ID [] none (some "a")) []
      ⟨[], .mk ([] ++ [(GQuark.of "a", uint32_declaration)]) [] [] [] (some root_with_uint32)⟩
      uint32_declaration (GQuark.of "a")
      (.mk [(GQuark.of "a", uint32_declaration)] [] [] [] (some root_with_uint32))
      rfl
      (fun n hn => by simp [root_with_uint32, lookup_struct_declaration, first_hit])
      (struct_visit_loop_of_resolves le_trace _ _ _ []
        (body_resolves.typedef uint32_t _ [] _ _ _ []
          (typedef_visit_single uint32_t _ _ le_trace uint32_declaration (GQuark.of "a")
            [] [] [] [] (some root_with_uint32)
            (uint32_field_resolves "a" none _ le_trace lookup_uint32_inner) rfl)
          (body_resolves.nil _)) [])
      (uint32_field_resolves "a" none _ le_trace rfl)
      (by decide)).2 (by decide)
  have htypealias := ((struct_body_registers_in_inner_scope (some "s") twice_typealias_body
      root_with_uint32 le_trace).2.2
      [.NODE_TYPEALIAS (.mk uint32_t []) (.mk u32b [.TYPEDEC_ID [] none none])] []
      uint32_t u32b [] (.TYPEDEC_ID [] none none) []
      ⟨[], .mk ([] ++ [(create_typealias_identifier u32b (.TYPEDEC_ID [] none none),
        uint32_declaration)]) [] [] [] (some root_with_uint32)⟩
      uint32_declaration
      (.mk [(GQuark.of "u32b", uint32_declaration)] [] [] [] (some root_with_uint32))
      rfl
      (fun n hn => by simp [root_with_uint32, lookup_struct_declaration, first_hit])
      (struct_visit_loop_of_resolves le_trace _ _ _ []
        (body_resolves.typealias _ _ [] _ _ _ []
          (typealias_visit_single uint32_t u32b [] (.TYPEDEC_ID [] none none) []
            (new_declaration_scope (some root_with_uint32)) le_trace
            uint32_declaration [] [] [] [] (some root_with_uint32)
            (type_declarator_visit_plain_id uint32_t none none
              (new_declaration_scope (some root_with_uint32))
              (new_declaration_scope (some root_with_uint32)) le_trace
              (some uint32_declaration)
              ((uint32_t_visit (new_declaration_scope (some root_with_uint32)) le_trace).trans
                rfl))
            rfl)
          (body_resolves.nil _)) [])
      (type_declarator_visit_plain_id uint32_t none none
        (.mk ([] ++ [(create_typealias_identifier u32b (.TYPEDEC_ID [] none none),
          uint32_declaration)]) [] [] [] (some root_with_uint32))
        (.mk [(GQuark.of "u32b", uint32_declaration)] [] [] [] (some root_with_uint32)) le_trace
        (some uint32_declaration)
        ((uint32_t_visit (.mk ([] ++ [(create_typealias_identifier u32b
          (.TYPEDEC_ID [] none none), uint32_declaration)]) [] [] []
          (some root_with_uint32)) le_trace).trans rfl))
      (by decide)).2 (by decide)
  ⟨hvisit,
    ((struct_body_registers_in_inner_scope (some "s") mixed_body root_with_uint32 le_trace).1
      _ _ hvisit).2.2.2.2 _ rfl,
    htypedef.1, htypedef.2, htypealias.2⟩

/-! ## C33: the reference count of the container of an enum -/

theorem lookup_erase_entries (q : GQuark) (t : List (GQuark × counted_declaration)) :
    (erase_entries t).lookup q = (t.lookup q).map (fun object => object.p) := by
  induction t with
  | nil => rfl
  | cons entry rest ih =>
    obtain ⟨k, object⟩ := entry
    simp only [erase_entries, List.map_cons, List.lookup] at ih ⊢
    cases q == k
    · exact ih
    · rfl

theorem erase_adjust_entries (q : GQuark) (f : Nat → Nat)
    (t : List (GQuark × counted_declaration)) :
    erase_entries (adjust_entries q f t) = erase_entries t := by
  induction t with
  | nil => rfl
  | cons entry rest ih =>
    obtain ⟨k, object⟩ := entry
    simp only [adjust_entries]
    split_ifs
    · rfl
    · simp only [erase_entries, List.map_cons, List.cons.injEq, true_and] at ih ⊢
      exact ih

theorem lookup_adjust_entries (q : GQuark) (f : Nat → Nat)
    (t : List (GQuark × counted_declaration)) :
    (adjust_entries q f t).lookup q
      = (t.lookup q).map (fun object => ⟨object.p, f object.ref⟩) := by
  induction t with
  | nil => rfl
  | cons entry rest ih =>
    obtain ⟨k, object⟩ := entry
    simp only [adjust_entries]
    by_cases hk : (q == k) = true
    · simp [hk, List.lookup]
    · simp only [hk, Bool.false_eq_true, if_false, List.lookup]
      exact ih

/-- A lookup of another name is not touched by `adjust_entries`. -/
theorem lookup_adjust_entries_other (q name : GQuark) (f : Nat → Nat) (hne : name ≠ q)
    (t : List (GQuark × counted_declaration)) :
    (adjust_entries q f t).lookup name = t.lookup name := by
  induction t with
  | nil => rfl
  | cons entry rest ih =>
    obtain ⟨k, object⟩ := entry
    simp only [adjust_entries]
    by_cases hk : (q == k) = true
    · have hqk : q = k := by simpa using hk
      subst hqk
      have hn : (name == q) = false := by simpa using hne
      simp [List.lookup, hn]
    · simp only [hk, Bool.false_eq_true, if_false, List.lookup]
      cases name == k
      · exact ih
      · rfl

/-- Without the counts, the lookup of an alias in a scope with counts is the
lookup in the scope without them. -/
theorem lookup_declaration_erase (q : GQuark) (k : Nat) :
    ∀ scope : counted_scope, sizeOf scope ≤ k →
      lookup_declaration q scope.erase
        = (lookup_declaration_counted q scope).map (fun object => object.p) := by
  induction k with
  | zero =>
    intro scope hk
    cases scope
    simp at hk
  | succ k ih =>
    intro scope hk
    cases scope with
    | mk t s v e p =>
      cases p with
      | none =>
        simp only [counted_scope.erase, lookup_declaration, lookup_declaration_counted,
          lookup_erase_entries]
        cases t.lookup q <;> rfl
      | some ps =>
        have hps : sizeOf ps ≤ k := by
          simp only [counted_scope.mk.sizeOf_spec, Option.some.sizeOf_spec] at hk
          omega
        simp only [counted_scope.erase, lookup_declaration, lookup_declaration_counted,
          lookup_erase_entries, ih ps hps]
        cases t.lookup q <;> rfl

/-- Without the counts, a scope after `adjust` is the scope before. -/
theorem adjust_erase (q : GQuark) (f : Nat → Nat) (k : Nat) :
    ∀ scope : counted_scope, sizeOf scope ≤ k → (scope.adjust q f).erase = scope.erase := by
  induction k with
  | zero =>
    intro scope hk
    cases scope
    simp at hk
  | succ k ih =>
    intro scope hk
    cases scope with
    | mk t s v e p =>
      cases p with
      | none => simp only [counted_scope.adjust, counted_scope.erase, erase_adjust_entries]
      | some ps =>
        have hps : sizeOf ps ≤ k := by
          simp only [counted_scope.mk.sizeOf_spec, Option.some.sizeOf_spec] at hk
          omega
        simp only [counted_scope.adjust]
        split_ifs
        · simp only [counted_scope.erase, erase_adjust_entries]
        · simp only [counted_scope.erase, ih ps hps]

/-- The object found under a name after `adjust` on that name: the object
found before, with its count gone through `f`. -/
theorem lookup_declaration_adjust (q : GQuark) (f : Nat → Nat) (k : Nat) :
    ∀ scope : counted_scope, sizeOf scope ≤ k →
      lookup_declaration_counted q (scope.adjust q f)
        = (lookup_declaration_counted q scope).map
            (fun object => ⟨object.p, f object.ref⟩) := by
  induction k with
  | zero =>
    intro scope hk
    cases scope
    simp at hk
  | succ k ih =>
    intro scope hk
    cases scope with
    | mk t s v e p =>
      cases p with
      | none =>
        simp only [counted_scope.adjust, lookup_declaration_counted, lookup_adjust_entries]
      | some ps =>
        have hps : sizeOf ps ≤ k := by
          simp only [counted_scope.mk.sizeOf_spec, Option.some.sizeOf_spec] at hk
          omega
        simp only [counted_scope.adjust]
        cases ht : t.lookup q with
        | none =>
          simp only [Option.isSome_none, Bool.false_eq_true, if_false,
            lookup_declaration_counted, ht, ih ps hps]
        | some object =>
          simp only [Option.isSome_some, if_true, lookup_declaration_counted,
            lookup_adjust_entries, ht, Option.map_some']

/-- The object found under another name is not touched by `adjust`. -/
theorem lookup_declaration_adjust_other (q name : GQuark) (f : Nat → Nat) (hne : name ≠ q)
    (k : Nat) :
    ∀ scope : counted_scope, sizeOf scope ≤ k →
      lookup_declaration_counted name (scope.adjust q f)
        = lookup_declaration_counted name scope := by
  induction k with
  | zero =>
    intro scope hk
    cases scope
    simp at hk
  | succ k ih =>
    intro scope hk
    cases scope with
    | mk t s v e p =>
      cases p with
      | none =>
        simp only [counted_scope.adjust, lookup_declaration_counted,
          lookup_adjust_entries_other q name f hne]
      | some ps =>
        have hps : sizeOf ps ≤ k := by
          simp only [counted_scope.mk.sizeOf_spec, Option.some.sizeOf_spec] at hk
          omega
        simp only [counted_scope.adjust]
        split_ifs
        · simp only [lookup_declaration_counted, lookup_adjust_entries_other q name f hne]
        · simp only [lookup_declaration_counted, ih ps hps]

/-- Without the counts, the registration of a named enum in a scope with
counts is the registration in the scope without them. -/
theorem register_enum_declaration_erase (q : GQuark) (d : declaration)
    (scope : counted_scope) :
    ((register_enum_declaration_counted q d scope).1,
        (register_enum_declaration_counted q d scope).2.erase)
      = register_enum_declaration q d scope.erase := by
  cases scope with
  | mk t s v e p =>
    cases p <;>
      (simp only [register_enum_declaration_counted, counted_scope.erase,
        register_enum_declaration]
       split_ifs <;> rfl)

/-- The registration of a named enum leaves the objects of the alias maps as
they are. -/
theorem lookup_declaration_register_enum (q name : GQuark) (d : declaration)
    (scope : counted_scope) :
    lookup_declaration_counted name (register_enum_declaration_counted q d scope).2
      = lookup_declaration_counted name scope := by
  cases scope with
  | mk t s v e p =>
    cases p <;>
      (simp only [register_enum_declaration_counted]
       split_ifs <;> rfl)

/-- A reference taken and released leaves the scope, without the counts, as it
was. -/
theorem declaration_ref_unref_erase (pointer : declaration_pointer) (scope : counted_scope) :
    (declaration_ref_counted pointer scope).2.erase = scope.erase ∧
    (declaration_unref_counted pointer scope).2.erase = scope.erase := by
  cases pointer with
  | fresh object => exact ⟨rfl, rfl⟩
  | entry name =>
    exact ⟨adjust_erase name _ _ scope (le_refl _), adjust_erase name _ _ scope (le_refl _)⟩

/-- What the pointer returned by the resolver points to, without its count, is
what the resolver of the model without counts returns. -/
theorem type_declarator_visit_container_erase (first : ctf_node) (rest : List ctf_node)
    (scope : counted_scope) (trace : ctf_trace)
    (hkind : (∃ e, first = .NODE_INTEGER e) ∨ (∃ t i, first = .NODE_TYPE_SPECIFIER t i)) :
    ctf_type_declarator_visit (first :: rest) none none scope.erase none trace
      = match ctf_type_declarator_visit_container_counted (first :: rest) first scope
            trace with
        | .error e => .error e
        | .ok none => .ok (none, none, scope.erase)
        | .ok (some pointer) =>
          .ok ((pointer.object scope).map (fun object => object.p), none, scope.erase) := by
  rw [type_declarator_visit_null_node]
  rcases hkind with ⟨e, rfl⟩ | ⟨t, i, rfl⟩
  · rw [ctf_declaration_specifier_visit]
    simp only [ctf_type_declarator_visit_container_counted]
    cases hint : ctf_declaration_integer_visit e trace with
    | error err => rfl
    | ok d =>
      cases d with
      | none => rfl
      | some D => rfl
  · rw [specifier_visit_type_specifier]
    simp only [ctf_type_declarator_visit_container_counted,
      ctf_declaration_type_specifier_visit, ctf_declaration_type_specifier_visit_counted]
    split_ifs
    · rfl
    · rw [lookup_declaration_erase _ _ scope (le_refl _)]
      cases hlookup : lookup_declaration_counted _ scope with
      | none => rfl
      | some object =>
        simp only [declaration_pointer.object, hlookup, Option.map_some']
/-- The scope after the reference of line 858 and the release of line 859 is,
without the counts, the scope before. -/
theorem ref_unref_erase (pointer : declaration_pointer) (scope : counted_scope) :
    (declaration_unref_counted (declaration_ref_counted pointer scope).1
      (declaration_ref_counted pointer scope).2).2.erase = scope.erase :=
  ((declaration_ref_unref_erase _ _).2).trans (declaration_ref_unref_erase pointer scope).1

theorem declaration_ref_counted_erase (pointer : declaration_pointer) (scope : counted_scope) :
    (declaration_ref_counted pointer scope).2.erase = scope.erase :=
  (declaration_ref_unref_erase pointer scope).1

theorem declaration_unref_counted_erase (pointer : declaration_pointer)
    (scope : counted_scope) :
    (declaration_unref_counted pointer scope).2.erase = scope.erase :=
  (declaration_ref_unref_erase pointer scope).2

/-- The rest of `ctf_declaration_enum_visit_counted` after the release of line
859 is, without the counts, the rest of `ctf_declaration_enum_visit`. -/
theorem enum_visit_counted_tail_erase (name : Option String)
    (enumerator_list : List ctf_enumerator) (pointer : declaration_pointer)
    (scope1 : counted_scope) (erased : declaration_scope)
    (integer_declaration : declaration) (hscope : scope1.erase = erased) :
    Except.map erase_enum_result
      (match ctf_declaration_enum_visit_loop enumerator_list
          (enum_declaration_new integer_declaration) with
      | .error e => .error e
      | .ok (ret, enum_declaration) =>
        if ret ≠ 0 then
          .ok (none, (declaration_unref_counted pointer scope1).2)
        else
          match name with
          | some _ =>
            if (register_enum_declaration_counted (g_quark_from_string name)
                enum_declaration.p scope1).1 ≠ 0 then .error Fault.assert_failed
            else
              .ok (some (enum_declaration.p, some pointer),
                (register_enum_declaration_counted (g_quark_from_string name)
                  enum_declaration.p scope1).2)
          | none => .ok (some (enum_declaration.p, some pointer), scope1))
    = (match ctf_declaration_enum_visit_loop enumerator_list
          (enum_declaration_new integer_declaration) with
      | .error e => .error e
      | .ok (ret, enum_declaration) =>
        if ret ≠ 0 then .ok (none, erased)
        else
          match name with
          | some _ =>
            match register_enum_declaration (g_quark_from_string name)
                enum_declaration.p erased with
            | (ret, declaration_scope) =>
              if ret ≠ 0 then .error Fault.assert_failed
              else .ok (some enum_declaration.p, declaration_scope)
          | none => .ok (some enum_declaration.p, erased)) := by
  subst hscope
  cases hloop : ctf_declaration_enum_visit_loop enumerator_list
      (enum_declaration_new integer_declaration) with
  | error e => rfl
  | ok r2 =>
    obtain ⟨ret, E⟩ := r2
    simp only
    by_cases hret : ret ≠ 0
    · simp only [if_pos hret, Except.map, erase_enum_result, Option.map_none',
        declaration_unref_counted_erase]
    · simp only [if_neg hret]
      cases name with
      | none => simp only [Except.map, erase_enum_result, Option.map_some']
      | some n =>
        have hreg := register_enum_declaration_erase (g_quark_from_string (some n)) E.p scope1
        simp only [← hreg]
        by_cases hret2 : (register_enum_declaration_counted (g_quark_from_string (some n)) E.p
            scope1).1 ≠ 0
        · simp only [if_pos hret2, Except.map]
        · simp only [if_neg hret2, Except.map, erase_enum_result, Option.map_some']

/-- Without the counts and the pointer, `ctf_declaration_enum_visit_counted` is
`ctf_declaration_enum_visit`. -/
theorem enum_visit_counted_erase (name : Option String) (container_type : List ctf_node)
    (enumerator_list : List ctf_enumerator) (has_body : Bool)
    (scope : counted_scope) (trace : ctf_trace) :
    Except.map erase_enum_result
        (ctf_declaration_enum_visit_counted name container_type enumerator_list has_body
          scope trace)
      = ctf_declaration_enum_visit name container_type enumerator_list has_body
          scope.erase trace := by
  rw [ctf_declaration_enum_visit.eq_def]
  unfold ctf_declaration_enum_visit_counted
  cases has_body with
  | false =>
    cases name with
    | none => rfl
    | some n =>
      simp only [Bool.not_false, if_true, Except.map, erase_enum_result, Option.map_map]
      congr 2
      cases lookup_enum_declaration (g_quark_from_string (some n)) scope.erase <;> rfl
  | true =>
    simp only [Bool.not_true, Bool.false_eq_true, if_false]
    split_ifs with hguard
    · rfl
    · cases container_type with
      | nil => rfl
      | cons first rest =>
        simp only [first_or_null]
        cases first with
        | NODE_INTEGER expressions =>
          simp only [type_declarator_visit_container_erase _ rest scope trace
            (Or.inl ⟨expressions, rfl⟩)]
          cases hres : ctf_type_declarator_visit_container_counted
              (.NODE_INTEGER expressions :: rest) (.NODE_INTEGER expressions) scope trace with
          | error e => rfl
          | ok r =>
            cases r with
            | none => rfl
            | some pointer =>
              simp only
              cases hobj : pointer.object scope with
              | none => rfl
              | some object =>
                simp only [Option.map_some']
                by_cases hid : object.p.id ≠ ctf_type_id.CTF_TYPE_INTEGER
                · simp only [if_pos hid]
                  rfl
                · simp only [if_neg hid]
                  exact enum_visit_counted_tail_erase name enumerator_list _ _ _ object.p
                    (ref_unref_erase pointer scope)
        | NODE_TYPE_SPECIFIER ty id =>
          simp only [type_declarator_visit_container_erase _ rest scope trace
            (Or.inr ⟨ty, id, rfl⟩)]
          cases hres : ctf_type_declarator_visit_container_counted
              (.NODE_TYPE_SPECIFIER ty id :: rest) (.NODE_TYPE_SPECIFIER ty id) scope trace with
          | error e => rfl
          | ok r =>
            cases r with
            | none => rfl
            | some pointer =>
              simp only
              cases hobj : pointer.object scope with
              | none => rfl
              | some object =>
                simp only [Option.map_some']
                by_cases hid : object.p.id ≠ ctf_type_id.CTF_TYPE_INTEGER
                · simp only [if_pos hid]
                  rfl
                · simp only [if_neg hid]
                  exact enum_visit_counted_tail_erase name enumerator_list _ _ _ object.p
                    (ref_unref_erase pointer scope)
        | _ => rfl
/-- The enumerator loop leaves the container of the enum as it is. -/
theorem enum_visit_loop_container (enumerator_list : List ctf_enumerator)
    (integer_declaration : declaration) (E : declaration_enum)
    (hid : integer_declaration.id = ctf_type_id.CTF_TYPE_INTEGER)
    (h : ctf_declaration_enum_visit_loop enumerator_list
      (enum_declaration_new integer_declaration) = .ok (0, E)) :
    E.integer_declaration = integer_declaration := by
  cases integer_declaration with
  | integer len bo sg al =>
    obtain ⟨entries, -, hE⟩ := enum_visit_loop_inv enumerator_list _ E len bo sg al rfl h
    rw [hE]
    rfl
  | _ => simp [declaration.id] at hid

/-- What `ctf_declaration_enum_visit_counted` has gone through when it returns
an enum it has built. -/
theorem enum_visit_counted_inv (name : Option String) (first : ctf_node)
    (rest : List ctf_node) (enumerator_list : List ctf_enumerator)
    (scope scope1 : counted_scope) (trace : ctf_trace) (D : declaration)
    (pointer : Option declaration_pointer)
    (h : ctf_declaration_enum_visit_counted name (first :: rest) enumerator_list true scope
      trace = .ok (some (D, pointer), scope1)) :
    ∃ pointer0 object table,
      ctf_type_declarator_visit_container_counted (first :: rest) first scope trace
        = .ok (some pointer0) ∧
      pointer0.object scope = some object ∧
      D = declaration.enum object.p table ∧
      pointer = some (declaration_unref_counted (declaration_ref_counted pointer0 scope).1
        (declaration_ref_counted pointer0 scope).2).1 ∧
      ∀ q, lookup_declaration_counted q scope1
        = lookup_declaration_counted q
            (declaration_unref_counted (declaration_ref_counted pointer0 scope).1
              (declaration_ref_counted pointer0 scope).2).2 := by
  unfold ctf_declaration_enum_visit_counted at h
  simp only [Bool.not_true, Bool.false_eq_true, if_false, first_or_null] at h
  split_ifs at h with hguard
  · simp at h
  · cases first
    all_goals try simp only at h
    all_goals first
      | (cases h; done)
      | (split at h
         · cases h
         · cases h
         · rename_i pointer0 hres
           split at h
           · cases h
           · rename_i object hobj
             by_cases hid : object.p.id ≠ ctf_type_id.CTF_TYPE_INTEGER
             · simp only [if_pos hid] at h
               cases h
             · simp only [if_neg hid] at h
               split at h
               · cases h
               · rename_i ret E hloop
                 by_cases hret : ret ≠ 0
                 · simp only [if_pos hret] at h
                   simp at h
                 · simp only [if_neg hret] at h
                   have hret0 : ret = 0 := not_not.mp hret
                   subst hret0
                   have hE := enum_visit_loop_container enumerator_list object.p E
                     (not_not.mp hid) hloop
                   have hp : E.p = declaration.enum object.p E.table := by
                     rw [declaration_enum.p, hE]
                   split at h
                   · split_ifs at h
                     simp only [Except.ok.injEq, Prod.mk.injEq, Option.some.injEq] at h
                     obtain ⟨⟨rfl, rfl⟩, rfl⟩ := h
                     exact ⟨pointer0, object, E.table, hres, hobj, hp, rfl,
                       fun q => lookup_declaration_register_enum _ q _ _⟩
                   · simp only [Except.ok.injEq, Prod.mk.injEq, Option.some.injEq] at h
                     obtain ⟨⟨rfl, rfl⟩, rfl⟩ := h
                     exact ⟨pointer0, object, E.table, hres, hobj, hp, rfl, fun q => rfl⟩)

/-- C33: what the code does. `ctf_declaration_enum_visit_counted` is
`ctf_declaration_enum_visit` with the reference counts of the types library:
without the counts the two return the same. When it returns an enum that it
has built on a container given inline as an integer node, the container is a new
object with one reference, that of the enum, and every alias object of the
scope has the count it had. When it returns an enum that it has built on a
container given as a type specifier, the container is the object that the
lookup of the alias has found in the scope chain, and after the visit that
object has the count it had when the visitor was entered, not one more: line
858 takes the reference of the enum and line 859 releases a reference that the
lookup has not taken, so the enum holds the container without a reference of
its own. -/
theorem looked_up_container_count_is_unchanged (name : Option String)
    (container_type : List ctf_node) (enumerator_list : List ctf_enumerator)
    (scope : counted_scope) (trace : ctf_trace) :
    (∀ has_body,
      Except.map erase_enum_result
          (ctf_declaration_enum_visit_counted name container_type enumerator_list has_body
            scope trace)
        = ctf_declaration_enum_visit name container_type enumerator_list has_body
            scope.erase trace) ∧
    (∀ (expressions rest : List ctf_node) (D : declaration)
        (pointer : Option declaration_pointer) (scope1 : counted_scope),
      container_type = .NODE_INTEGER expressions :: rest →
      ctf_declaration_enum_visit_counted name container_type enumerator_list true scope trace
        = .ok (some (D, pointer), scope1) →
      (∃ integer_declaration table,
        D = declaration.enum integer_declaration table ∧
        pointer = some (.fresh ⟨integer_declaration, 1⟩)) ∧
      ∀ q, lookup_declaration_counted q scope1 = lookup_declaration_counted q scope) ∧
    (∀ (ty : typespec) (id : Option String) (rest : List ctf_node) (D : declaration)
        (pointer : Option declaration_pointer) (scope1 : counted_scope),
      container_type = .NODE_TYPE_SPECIFIER ty id :: rest →
      ctf_declaration_enum_visit_counted name container_type enumerator_list true scope trace
        = .ok (some (D, pointer), scope1) →
      ∃ q object table,
        pointer = some (.entry q) ∧
        D = declaration.enum object.p table ∧
        lookup_declaration_counted q scope = some object ∧
        lookup_declaration_counted q scope1 = some object ∧
        ∀ q1, lookup_declaration_counted q1 scope1 = lookup_declaration_counted q1 scope) := by
  refine ⟨fun has_body => enum_visit_counted_erase _ _ _ _ _ _, ?_, ?_⟩
  · intro expressions rest D pointer scope1 hct h
    subst hct
    obtain ⟨pointer0, object, table, hres, hobj, hD, hp, hscope⟩ :=
      enum_visit_counted_inv _ _ _ _ _ _ _ _ _ h
    simp only [ctf_type_declarator_visit_container_counted] at hres
    split at hres
    · cases hres
    · simp at hres
    · rename_i d hint
      simp only [Except.ok.injEq, Option.some.injEq] at hres
      subst hres
      simp only [declaration_pointer.object, Option.some.injEq] at hobj
      subst hobj
      exact ⟨⟨d, table, hD, hp⟩, hscope⟩
  · intro ty id rest D pointer scope1 hct h
    subst hct
    obtain ⟨pointer0, object, table, hres, hobj, hD, hp, hscope⟩ :=
      enum_visit_counted_inv _ _ _ _ _ _ _ _ _ h
    simp only [ctf_type_declarator_visit_container_counted,
      ctf_declaration_type_specifier_visit_counted, Except.ok.injEq] at hres
    split_ifs at hres
    split at hres
    · cases hres
    · rename_i found hfound
      simp only [Option.some.injEq] at hres
      subst hres
      simp only [declaration_pointer.object] at hobj
      simp only [declaration_ref_counted, declaration_unref_counted] at hp hscope
      have hsame : ∀ q1, lookup_declaration_counted q1 scope1
          = lookup_declaration_counted q1 scope := by
        intro q1
        rw [hscope q1]
        by_cases hq : q1 = g_quark_from_string (some (visit_declaration_specifier
            (.NODE_TYPE_SPECIFIER ty id :: rest) "").2)
        · subst hq
          rw [lookup_declaration_adjust _ _ _ _ (le_refl _),
            lookup_declaration_adjust _ _ _ _ (le_refl _), hobj]
          simp
        · rw [lookup_declaration_adjust_other _ _ _ hq _ _ (le_refl _),
            lookup_declaration_adjust_other _ _ _ hq _ _ (le_refl _)]
      exact ⟨_, object, table, hp, hD, hobj, (hsame _).trans hobj, hsame⟩
theorem looked_up_container_count_is_unchanged_witness :
    ctf_declaration_enum_visit_counted (some "state") uint32_t state_enumerators true
        counted_root_with_uint32 le_trace
      = .ok (some (declaration.enum uint32_declaration state_table,
          some (.entry (GQuark.of "uint32_t"))), counted_root_with_state) ∧
    lookup_declaration_counted (GQuark.of "uint32_t") counted_root_with_uint32
      = some ⟨uint32_declaration, 2⟩ ∧
    lookup_declaration_counted (GQuark.of "uint32_t") counted_root_with_state
      = some ⟨uint32_declaration, 2⟩ ∧
    (∃ q object table,
      some (declaration_pointer.entry (GQuark.of "uint32_t")) = some (.entry q) ∧
      declaration.enum uint32_declaration state_table = declaration.enum object.p table ∧
      lookup_declaration_counted q counted_root_with_uint32 = some object ∧
      lookup_declaration_counted q counted_root_with_state = some object ∧
      ∀ q1, lookup_declaration_counted q1 counted_root_with_state
        = lookup_declaration_counted q1 counted_root_with_uint32) ∧
    ctf_declaration_enum_visit_counted none integer_32 state_enumerators true
        counted_root_with_uint32 le_trace
      = .ok (some (declaration.enum uint32_declaration state_table,
          some (.fresh ⟨uint32_declaration, 1⟩)), counted_root_with_uint32) ∧
    ((∃ integer_declaration table,
        declaration.enum uint32_declaration state_table
          = declaration.enum integer_declaration table ∧
        some (declaration_pointer.fresh ⟨uint32_declaration, 1⟩)
          = some (.fresh ⟨integer_declaration, 1⟩)) ∧
      ∀ q, lookup_declaration_counted q counted_root_with_uint32
        = lookup_declaration_counted q counted_root_with_uint32) :=
  ⟨rfl, rfl, rfl,
    (looked_up_container_count_is_unchanged (some "state") uint32_t state_enumerators
      counted_root_with_uint32 le_trace).2.2 .TYPESPEC_ID_TYPE (some "uint32_t") []
      (declaration.enum uint32_declaration state_table)
      (some (.entry (GQuark.of "uint32_t"))) counted_root_with_state rfl rfl,
    rfl,
    (looked_up_container_count_is_unchanged none integer_32 state_enumerators
      counted_root_with_uint32 le_trace).2.1 _ [] 
      (declaration.enum uint32_declaration state_table)
      (some (.fresh ⟨uint32_declaration, 1⟩)) counted_root_with_uint32 rfl rfl⟩
end Ctf
